import Mathlib

/-! Door Locker System: shallow embedding of the Control ECU and of the HMI ECU.

The Control ECU (ATmega16) owns the credential, verifies it, and drives the door
motor and the buzzer.  The C sources embedded here are

* `Control_ECU/Control_ECU.c`  (state functions and the timer callback),
* `Control_ECU/external_eeprom.c` and `external_eeprom.h` (24C16 driver),
* `Control_ECU/i2c.c` (two-wire primitives),
* `Control_ECU/timer1.c` (tick scheduler registers),
* `Control_ECU/uart.c` (polling send and receive),
* `HMI_ECU/HMI_ECU.c` (state functions of the HMI ECU, as steps from one blocking
  call to the next; `HMI_mainMenu` and `HMI_enterPassword` also as functions run
  to completion on `HmiWorld`),
* `Control_ECU/micro_config.h` and `timer1.h` (clock frequency and prescaler
  names, for the duration of a tick).

Conventions:

* Machine integers are `Nat`; a `uint8` increment is written `(x + 1) % 256`, an
  assignment to an 8-bit register ends in `% 256`, `uint16` arithmetic in
  `% 65536`.  Bytes that come from the hardware (the UART data register, the
  two-wire data register) are taken as delivered: they are below 256 on the
  machine, and the statements below hold whatever their values.
* Hardware is explicit state.  I/O registers are fields of `World`.  The bytes
  that successive calls of `UART_receiveByte` return are the queue `rx`; a
  receive on an empty queue is `none`, the program busy-waiting forever.
* Everything the program does on the serial link and on the two-wire bus is
  appended, in chronological order, to `trace`, together with a marker for each
  entry into `EEPROM_writeByte` and `EEPROM_readByte`.
* The two-wire peripheral is a parameter `TwiDevice`: the values of its status
  and data registers as functions of the bus operations performed so far.  All
  statements quantify over it unless a concrete bus is named.
* Busy waits on hardware flags other than the UART receive flag (`UDRE`,
  `TWINT`) are taken to complete; `_delay_ms` changes no state.
* The Timer1 interrupt is modelled by explicit calls of its callback
  `fireBuzzerOrOpenDoor`; a state function runs without being interrupted.
* Bit numbers of I/O registers (`PB0`, `OCIE1A`, ...) are those of avr/io.h for
  the ATmega16.
* The serial EEPROM behind the bus is hardware, not repository code.  Statements
  that need a store assume `ByteStore` (what the cells hold after a bus history)
  and, where every phase is to succeed, `AlwaysAck`; `RepeatedStart` says that a
  start issued while a transfer is still open is not reported as a first start.
  `Chip` is a concrete 24C16 satisfying all three, used for runs on explicit
  inputs, also with a fault injected (`faultyStore`).
* In the composed system `Sys` the two ECUs exchange bytes over two first-in
  first-out queues; a turn of the Control dispatch loop is one step.
-/

namespace DoorLocker

/-! ## Constants -/

/-- Macro `PASSWORD_SIZE` of Control_ECU.h. -/
def PASSWORD_SIZE : Nat := 5

/-- Signal `HMI_ECU_READY`. -/
def HMI_ECU_READY : Nat := 0x10
/-- Signal `CHECK_FOR_SAVED_PASSWORD`. -/
def CHECK_FOR_SAVED_PASSWORD : Nat := 0x11
/-- Signal `NO_SAVED_PASSWORD`. -/
def NO_SAVED_PASSWORD : Nat := 0x12
/-- Signal `SAVED_PASSWORD`, also the value of the presence flag. -/
def SAVED_PASSWORD : Nat := 0x13
/-- Signal `CORRECT_NEW_PASSWORD`. -/
def CORRECT_NEW_PASSWORD : Nat := 0x14
/-- Signal `NON_CORRECT_NEW_PASSWORD`. -/
def NON_CORRECT_NEW_PASSWORD : Nat := 0x15
/-- Signal `CORRECT_PASSWORD`. -/
def CORRECT_PASSWORD : Nat := 0x16
/-- Signal `WRONG_PASSWORD`. -/
def WRONG_PASSWORD : Nat := 0x17
/-- Signal `THIEF`. -/
def THIEF : Nat := 0x18
/-- Signal `SYSTEM_UNLOCKED`. -/
def SYSTEM_UNLOCKED : Nat := 0x19
/-- Signal `DOOR_UNLOCKING`. -/
def DOOR_UNLOCKING : Nat := 0x20
/-- Signal `DOOR_LOCKING`. -/
def DOOR_LOCKING : Nat := 0x21
/-- Signal `DOOR_LOCKED`. -/
def DOOR_LOCKED : Nat := 0x22
/-- Signal `OPEN_DOOR`. -/
def OPEN_DOOR : Nat := 0x23
/-- Signal `CHANGE_PASSWORD`. -/
def CHANGE_PASSWORD : Nat := 0x24

/-- Motor direction line 1, `PB0` (bit number from avr/io.h). -/
def MOTOR_PIN1 : Nat := 0
/-- Motor direction line 2, `PB1`. -/
def MOTOR_PIN2 : Nat := 1
/-- Motor enable line, `PB2`. -/
def MOTOR_EN : Nat := 2
/-- Buzzer line, `PB7`. -/
def BUZZER : Nat := 7

/-- Global `eeprom_addr`: base address of the stored password. -/
def eeprom_addr : Nat := 0x0300
/-- Global `eeprom_flag`: address of the presence flag. -/
def eeprom_flag : Nat := 0x05FF

/-- Status code `TWI_START` of i2c.h. -/
def TWI_START : Nat := 0x08
/-- Status code `TWI_REP_START`. -/
def TWI_REP_START : Nat := 0x10
/-- Status code `TWI_MT_SLA_W_ACK`. -/
def TWI_MT_SLA_W_ACK : Nat := 0x18
/-- Status code `TWI_MT_SLA_R_ACK`. -/
def TWI_MT_SLA_R_ACK : Nat := 0x40
/-- Status code `TWI_MT_DATA_ACK`. -/
def TWI_MT_DATA_ACK : Nat := 0x28
/-- Status code `TWI_MR_DATA_NACK`. -/
def TWI_MR_DATA_NACK : Nat := 0x58

/-- Result `EEPROM_SUCCESS` of external_eeprom.h. -/
def EEPROM_SUCCESS : Nat := 1
/-- Result `EEPROM_ERROR`. -/
def EEPROM_ERROR : Nat := 0

/-- Enumerator `OVF` of `TIMER1_Mode`. -/
def OVF : Nat := 0
/-- Enumerator `CTC` of `TIMER1_Mode`. -/
def CTC : Nat := 1
/-- Enumerator `F_CPU_1024` of `TIMER1_Clk` (sixth enumerator, value 5). -/
def F_CPU_1024 : Nat := 5

/-- Bit numbers of the Timer1 registers (avr/io.h, ATmega16). -/
def COM1A1 : Nat := 7
/-- Bit `COM1A0` of TCCR1A. -/
def COM1A0 : Nat := 6
/-- Bit `COM1B1` of TCCR1A. -/
def COM1B1 : Nat := 5
/-- Bit `COM1B0` of TCCR1A. -/
def COM1B0 : Nat := 4
/-- Bit `FOC1A` of TCCR1A. -/
def FOC1A : Nat := 3
/-- Bit `FOC1B` of TCCR1A. -/
def FOC1B : Nat := 2
/-- Bit `WGM11` of TCCR1A. -/
def WGM11 : Nat := 1
/-- Bit `WGM10` of TCCR1A. -/
def WGM10 : Nat := 0
/-- Bit `WGM13` of TCCR1B. -/
def WGM13 : Nat := 4
/-- Bit `OCIE1A` of TIMSK. -/
def OCIE1A : Nat := 4
/-- Bit `OCIE1B` of TIMSK. -/
def OCIE1B : Nat := 3
/-- Bit `TOIE1` of TIMSK. -/
def TOIE1 : Nat := 2

/-! ## Data model -/

/-- One operation of the two-wire master (i2c.c). -/
inductive BusOp where
  | start
  | stop
  | write (b : Nat)
  | readNack
  deriving DecidableEq, Repr

/-- One externally visible action of the Control ECU, in the order performed. -/
inductive Event where
  /-- Byte returned by a call of `UART_receiveByte`. -/
  | recv (b : Nat)
  /-- Byte passed to a call of `UART_sendByte`. -/
  | send (b : Nat)
  /-- A two-wire primitive was executed. -/
  | twi (op : BusOp)
  /-- Entry into `EEPROM_writeByte(addr, data)`. -/
  | eepromWrite (addr data : Nat)
  /-- Entry into `EEPROM_readByte(addr, _)`. -/
  | eepromRead (addr : Nat)
  deriving DecidableEq, Repr

/-- The two-wire peripheral and whatever is attached to it, as seen by the
driver: the contents of the status register `TWSR` and of the data register
`TWDR` after a given history of bus operations. -/
structure TwiDevice where
  TWSR : List BusOp → Nat
  TWDR : List BusOp → Nat

/-- Configuration record `TIMER1_ConfigType` of timer1.h. -/
structure TIMER1_ConfigType where
  mode : Nat
  clock : Nat
  initialVal : Nat
  compareVal : Nat
  deriving DecidableEq, Repr

/-- Global `Timer1_Config = {CTC, F_CPU_1024, 0, 39063}`. -/
def Timer1_Config : TIMER1_ConfigType := ⟨CTC, F_CPU_1024, 0, 39063⟩

/-- Program variables, I/O registers and environment of the Control ECU. -/
structure World where
  /-- Global `g_eeprom[PASSWORD_SIZE]`. -/
  g_eeprom : List Nat
  /-- Global `g_functionID`. -/
  g_functionID : Nat
  /-- Global `g_state` (failure flag). -/
  g_state : Nat
  /-- Static local `trial` of `Control_receiveAndCheckPassword`. -/
  trial : Nat
  /-- Static local `count` of `fireBuzzerOrOpenDoor`. -/
  count : Nat
  PORTA : Nat
  PORTB : Nat
  TCCR1A : Nat
  TCCR1B : Nat
  TCNT1 : Nat
  OCR1A : Nat
  OCR1B : Nat
  TIMSK : Nat
  /-- Bytes that the next calls of `UART_receiveByte` will return. -/
  rx : List Nat
  /-- Everything done so far on the serial link and the bus, oldest first. -/
  trace : List Event
  deriving DecidableEq, Repr

/-- Power-up state: the initialisers of the C globals and statics, registers
cleared, with the given serial input. -/
def World.init (rx : List Nat) : World :=
  { g_eeprom := [0, 0, 0, 0, 0], g_functionID := 0, g_state := 0, trial := 1, count := 0,
    PORTA := 0, PORTB := 0, TCCR1A := 0, TCCR1B := 0, TCNT1 := 0, OCR1A := 0, OCR1B := 0,
    TIMSK := 0, rx := rx, trace := [] }

/-! ## Projections of the trace -/

/-- The bytes sent on the serial link, oldest first. -/
def sentBytes : List Event → List Nat
  | [] => []
  | Event.send b :: t => b :: sentBytes t
  | _ :: t => sentBytes t

/-- The bus operations performed, oldest first. -/
def busOps : List Event → List BusOp
  | [] => []
  | Event.twi op :: t => op :: busOps t
  | _ :: t => busOps t

/-- The store write transactions issued (address, data), oldest first. -/
def storeWrites : List Event → List (Nat × Nat)
  | [] => []
  | Event.eepromWrite a d :: t => (a, d) :: storeWrites t
  | _ :: t => storeWrites t

/-- The bytes sent between an earlier state `w` and a later state `w2`. -/
def newSent (w w2 : World) : List Nat :=
  (sentBytes w2.trace).drop (sentBytes w.trace).length

/-! ## common_macros.h -/

/-- Macro `SET_BIT(REG,BIT_NUM)` on an 8-bit register. -/
def SET_BIT (reg bitNum : Nat) : Nat := (reg ||| (1 <<< bitNum)) % 256

/-- Macro `CLEAR_BIT(REG,BIT_NUM)` on an 8-bit register: `REG & ~(1<<BIT_NUM)`, the
complement taken in 16-bit `int`. -/
def CLEAR_BIT (reg bitNum : Nat) : Nat := (reg &&& (0xFFFF ^^^ (1 <<< bitNum))) % 256

/-! ## uart.c -/

/-- Function `UART_sendByte`. -/
def UART_sendByte (data : Nat) (w : World) : World :=
  { w with trace := w.trace ++ [Event.send data] }

/-- Function `UART_receiveByte` (polling): blocks while no byte is available. -/
def UART_receiveByte (w : World) : Option (Nat × World) :=
  match w.rx with
  | [] => none
  | b :: rest => some (b, { w with rx := rest, trace := w.trace ++ [Event.recv b] })

/-- Loop `while(UART_receiveByte() != x);` over the pending input. -/
def awaitLoop (x : Nat) : List Nat → World → Option World
  | [], _ => none
  | b :: rest, w =>
    let w1 := { w with rx := rest, trace := w.trace ++ [Event.recv b] }
    if b ≠ x then awaitLoop x rest w1 else some w1

/-- Statement `while(UART_receiveByte() != x);`. -/
def awaitByte (x : Nat) (w : World) : Option World := awaitLoop x w.rx w

/-! ## i2c.c -/

/-- Function `TWI_start`: the busy wait for `TWINT` is taken to complete. -/
def TWI_start (w : World) : World :=
  { w with trace := w.trace ++ [Event.twi BusOp.start] }

/-- Function `TWI_stop`. -/
def TWI_stop (w : World) : World :=
  { w with trace := w.trace ++ [Event.twi BusOp.stop] }

/-- Function `TWI_write`. -/
def TWI_write (data : Nat) (w : World) : World :=
  { w with trace := w.trace ++ [Event.twi (BusOp.write data)] }

/-- Function `TWI_readWithNACK`: returns `TWDR` after the read. -/
def TWI_readWithNACK (dev : TwiDevice) (w : World) : Nat × World :=
  let w1 := { w with trace := w.trace ++ [Event.twi BusOp.readNack] }
  (dev.TWDR (busOps w1.trace), w1)

/-- Function `TWI_getStatus`: `TWSR & 0xF8`. -/
def TWI_getStatus (dev : TwiDevice) (w : World) : Nat :=
  dev.TWSR (busOps w.trace) &&& 0xF8

/-! ## external_eeprom.h / external_eeprom.c -/

/-- Macro `SLAVE_ADDRESS_W(ADD)`. -/
def SLAVE_ADDRESS_W (add : Nat) : Nat := (((add &&& 0x700) >>> 7) ||| 0xA0) % 256

/-- Macro `SLAVE_ADDRESS_R(ADD)`. -/
def SLAVE_ADDRESS_R (add : Nat) : Nat := ((((add &&& 0x700) >>> 7) ||| 0xA0) ||| 0x01) % 256

/-- Function `EEPROM_writeByte(u16addr, u8data)`: the returned code and the new state. -/
def EEPROM_writeByte (dev : TwiDevice) (u16addr u8data : Nat) (w : World) : Nat × World :=
  let w0 := { w with trace := w.trace ++ [Event.eepromWrite u16addr u8data] }
  let w1 := TWI_start w0
  if TWI_getStatus dev w1 ≠ TWI_START then (EEPROM_ERROR, w1) else
  let w2 := TWI_write (SLAVE_ADDRESS_W u16addr) w1
  if TWI_getStatus dev w2 ≠ TWI_MT_SLA_W_ACK then (EEPROM_ERROR, w2) else
  let w3 := TWI_write (u16addr % 256) w2
  if TWI_getStatus dev w3 ≠ TWI_MT_DATA_ACK then (EEPROM_ERROR, w3) else
  let w4 := TWI_write u8data w3
  if TWI_getStatus dev w4 ≠ TWI_MT_DATA_ACK then (EEPROM_ERROR, w4) else
  (EEPROM_SUCCESS, TWI_stop w4)

/-- Function `EEPROM_readByte(u16addr, u8data)`: the returned code, the byte assigned
through the pointer `u8data` (`none` when the assignment was not reached) and the
new state. -/
def EEPROM_readByte (dev : TwiDevice) (u16addr : Nat) (w : World) : Nat × Option Nat × World :=
  let w0 := { w with trace := w.trace ++ [Event.eepromRead u16addr] }
  let w1 := TWI_start w0
  if TWI_getStatus dev w1 ≠ TWI_START then (EEPROM_ERROR, none, w1) else
  let w2 := TWI_write (SLAVE_ADDRESS_W u16addr) w1
  if TWI_getStatus dev w2 ≠ TWI_MT_SLA_W_ACK then (EEPROM_ERROR, none, w2) else
  let w3 := TWI_write (u16addr % 256) w2
  if TWI_getStatus dev w3 ≠ TWI_MT_DATA_ACK then (EEPROM_ERROR, none, w3) else
  let w4 := TWI_start w3
  if TWI_getStatus dev w4 ≠ TWI_REP_START then (EEPROM_ERROR, none, w4) else
  let w5 := TWI_write (SLAVE_ADDRESS_R u16addr) w4
  if TWI_getStatus dev w5 ≠ TWI_MT_SLA_R_ACK then (EEPROM_ERROR, none, w5) else
  let r := TWI_readWithNACK dev w5
  if TWI_getStatus dev r.2 ≠ TWI_MR_DATA_NACK then (EEPROM_ERROR, some r.1, r.2) else
  (EEPROM_SUCCESS, some r.1, TWI_stop r.2)

/-! ## timer1.c -/

/-- Function `TIMER1_init(Config_Ptr)`. -/
def TIMER1_init (cfg : TIMER1_ConfigType) (w : World) : World :=
  let a1 := CLEAR_BIT (CLEAR_BIT w.TCCR1A COM1A1) COM1B1
  let a2 := SET_BIT (SET_BIT a1 FOC1A) FOC1B
  let a3 := CLEAR_BIT (CLEAR_BIT a2 WGM10) WGM11
  let b1 := CLEAR_BIT w.TCCR1B WGM13
  let b2 := ((b1 &&& 0xF7) ||| (cfg.mode <<< 3)) % 256
  let w1 := { w with TCCR1A := a3, TCCR1B := b2, TCNT1 := cfg.initialVal % 65536 }
  let w2 :=
    if cfg.mode = CTC then
      { w1 with TCCR1A := ((w1.TCCR1A &&& 0xBF) ||| (cfg.mode <<< 6)) % 256,
                OCR1A := cfg.compareVal % 65536,
                TIMSK := SET_BIT w1.TIMSK OCIE1A }
    else w1
  let w3 :=
    if cfg.mode = OVF then
      { w2 with TCCR1A := CLEAR_BIT (CLEAR_BIT w2.TCCR1A COM1A0) COM1B0,
                TIMSK := SET_BIT w2.TIMSK TOIE1 }
    else w2
  { w3 with TCCR1B := ((w3.TCCR1B &&& 0xF8) ||| cfg.clock) % 256 }

/-- Function `TIMER1_DeInit`. -/
def TIMER1_DeInit (w : World) : World :=
  { w with TCCR1A := 0, TCCR1B := 0, TCNT1 := 0, OCR1A := 0, OCR1B := 0,
           TIMSK := CLEAR_BIT (CLEAR_BIT (CLEAR_BIT w.TIMSK OCIE1A) OCIE1B) TOIE1 }

/-! ## Control_ECU.c: actuators -/

/-- Function `motorRotateClockwise`. -/
def motorRotateClockwise (w : World) : World :=
  { w with PORTB := CLEAR_BIT (SET_BIT (SET_BIT w.PORTB MOTOR_EN) MOTOR_PIN1) MOTOR_PIN2 }

/-- Function `motorRotateAntiClockwise`. -/
def motorRotateAntiClockwise (w : World) : World :=
  { w with PORTB := SET_BIT (CLEAR_BIT (SET_BIT w.PORTB MOTOR_EN) MOTOR_PIN1) MOTOR_PIN2 }

/-- Function `motorStop`. -/
def motorStop (w : World) : World :=
  { w with PORTB := CLEAR_BIT (CLEAR_BIT (CLEAR_BIT w.PORTB MOTOR_EN) MOTOR_PIN1) MOTOR_PIN2 }

/-- Function `buzzerON`. -/
def buzzerON (w : World) : World :=
  { w with PORTB := SET_BIT w.PORTB BUZZER }

/-- Function `buzzerOFF`. -/
def buzzerOFF (w : World) : World :=
  { w with PORTB := CLEAR_BIT w.PORTB BUZZER }

/-! ## Control_ECU.c: the timer callback -/

/-- Function `fireBuzzerOrOpenDoor`: one call of the Timer1 callback. -/
def fireBuzzerOrOpenDoor (w : World) : World :=
  let w0 := { w with count := (w.count + 1) % 256 }
  let w1 :=
    if w0.count = 3 ∧ w0.g_state = 0 then
      UART_sendByte DOOR_LOCKING (motorRotateAntiClockwise w0)
    else w0
  let w2 :=
    if w1.count = 6 ∧ w1.g_state = 0 then
      { TIMER1_DeInit { UART_sendByte DOOR_LOCKED (motorStop w1) with count := 0 } with
        g_functionID := 3 }
    else w1
  if w2.count = 12 ∧ w2.g_state = 1 then
    TIMER1_DeInit { UART_sendByte SYSTEM_UNLOCKED (buzzerOFF w2) with count := 0 }
  else w2

/-- The state after `n` successive calls of the callback. -/
def ticks : Nat → World → World
  | 0, w => w
  | n + 1, w => fireBuzzerOrOpenDoor (ticks n w)

/-! ## Control_ECU.c: the state functions -/

/-- Loop of `Control_setNewPassword`:
`for(...) g_eeprom[loop_idx]=UART_receiveByte();` over the given indices. -/
def setNewPasswordLoop : List Nat → World → Option World
  | [], w => some w
  | i :: is, w =>
    match UART_receiveByte w with
    | none => none
    | some (b, w1) => setNewPasswordLoop is { w1 with g_eeprom := w1.g_eeprom.set i b }

/-- Function `Control_setNewPassword` (function ID 1). -/
def Control_setNewPassword (w : World) : Option World :=
  match awaitByte HMI_ECU_READY w with
  | none => none
  | some w1 =>
    match setNewPasswordLoop (List.range PASSWORD_SIZE) w1 with
    | none => none
    | some w2 => some { w2 with g_functionID := 2 }

/-- First loop of `Control_checkNewPassword`:
`for(...) if(UART_receiveByte() != g_eeprom[loop_idx]) mismatch++;`
returning the final value of the `uint8` counter `mismatch`. -/
def checkNewPasswordLoop : List Nat → Nat → World → Option (Nat × World)
  | [], mismatch, w => some (mismatch, w)
  | i :: is, mismatch, w =>
    match UART_receiveByte w with
    | none => none
    | some (b, w1) =>
      checkNewPasswordLoop is
        (if b ≠ w1.g_eeprom.getD i 0 then (mismatch + 1) % 256 else mismatch) w1

/-- Second loop of `Control_checkNewPassword`:
`for(...) { EEPROM_writeByte(eeprom_addr+loop_idx, g_eeprom[loop_idx]); _delay_ms(10); }`.
The returned code is discarded, as in the source. -/
def writePasswordLoop (dev : TwiDevice) : List Nat → World → World
  | [], w => w
  | i :: is, w =>
    writePasswordLoop dev is
      (EEPROM_writeByte dev ((eeprom_addr + i) % 65536) (w.g_eeprom.getD i 0) w).2

/-- Function `Control_checkNewPassword` (function ID 2). -/
def Control_checkNewPassword (dev : TwiDevice) (w : World) : Option World :=
  match awaitByte HMI_ECU_READY w with
  | none => none
  | some w1 =>
    match checkNewPasswordLoop (List.range PASSWORD_SIZE) 0 w1 with
    | none => none
    | some (mismatch, w2) =>
      if mismatch = 0 then
        let w3 := UART_sendByte CORRECT_NEW_PASSWORD w2
        let w4 := writePasswordLoop dev (List.range PASSWORD_SIZE) w3
        let w5 := (EEPROM_writeByte dev eeprom_flag SAVED_PASSWORD w4).2
        some { w5 with g_functionID := 3 }
      else
        some { UART_sendByte NON_CORRECT_NEW_PASSWORD w2 with g_functionID := 1 }

/-- First loop of `Control_receiveAndCheckPassword`:
`for(...) chkPassword[loop_idx]=UART_receiveByte();` on the local array. -/
def receivePasswordLoop : List Nat → List Nat → World → Option (List Nat × World)
  | [], chkPassword, w => some (chkPassword, w)
  | i :: is, chkPassword, w =>
    match UART_receiveByte w with
    | none => none
    | some (b, w1) => receivePasswordLoop is (chkPassword.set i b) w1

/-- Second loop of `Control_receiveAndCheckPassword`:
`for(...) EEPROM_readByte(eeprom_addr+loop_idx, &g_eeprom[loop_idx]);`. -/
def reloadPasswordLoop (dev : TwiDevice) : List Nat → World → World
  | [], w => w
  | i :: is, w =>
    let r := EEPROM_readByte dev ((eeprom_addr + i) % 65536) w
    let w1 :=
      match r.2.1 with
      | none => r.2.2
      | some d => { r.2.2 with g_eeprom := r.2.2.g_eeprom.set i d }
    reloadPasswordLoop dev is w1

/-- Third loop of `Control_receiveAndCheckPassword`:
`for(...) { SET_BIT(PORTA,7-loop_idx); if(chkPassword[loop_idx] != g_eeprom[loop_idx]) mismatch++; }`. -/
def comparePasswordLoop (chkPassword : List Nat) : List Nat → Nat → World → Nat × World
  | [], mismatch, w => (mismatch, w)
  | i :: is, mismatch, w =>
    let w1 := { w with PORTA := SET_BIT w.PORTA (7 - i) }
    comparePasswordLoop chkPassword is
      (if chkPassword.getD i 0 ≠ w1.g_eeprom.getD i 0 then (mismatch + 1) % 256 else mismatch) w1

/-- The part of `Control_receiveAndCheckPassword` up to and including
`uint8 key = UART_receiveByte();`: the values of `mismatch` and `key` and the
state reached.  The local array `chkPassword` is overwritten in full before it
is read, so its initial contents are immaterial. -/
def receiveAndCompare (dev : TwiDevice) (w : World) : Option (Nat × Nat × World) :=
  match awaitByte HMI_ECU_READY w with
  | none => none
  | some w1 =>
    match receivePasswordLoop (List.range PASSWORD_SIZE) (List.replicate PASSWORD_SIZE 0) w1 with
    | none => none
    | some (chkPassword, w2) =>
      let w3 := reloadPasswordLoop dev (List.range PASSWORD_SIZE) w2
      let r := comparePasswordLoop chkPassword (List.range PASSWORD_SIZE) 0 w3
      match UART_receiveByte r.2 with
      | none => none
      | some (key, w5) => some (r.1, key, w5)

/-- The part of `Control_receiveAndCheckPassword` from `if(mismatch == 0)` on. -/
def verdict (mismatch key : Nat) (w : World) : World :=
  if mismatch = 0 then
    let w1 := { UART_sendByte CORRECT_PASSWORD w with g_state := 0, trial := 1 }
    let w2 :=
      if key = OPEN_DOOR then
        TIMER1_init Timer1_Config (UART_sendByte DOOR_UNLOCKING (motorRotateClockwise w1))
      else w1
    if key = CHANGE_PASSWORD then { w2 with g_functionID := 1 } else w2
  else
    let w1 := { w with g_state := 1, trial := (w.trial + 1) % 256 }
    let w2 :=
      if w1.trial = 4 then
        TIMER1_init Timer1_Config (buzzerON (UART_sendByte THIEF w1))
      else UART_sendByte WRONG_PASSWORD w1
    { w2 with g_functionID := 3 }

/-- Function `Control_receiveAndCheckPassword` (function ID 3). -/
def Control_receiveAndCheckPassword (dev : TwiDevice) (w : World) : Option World :=
  match receiveAndCompare dev w with
  | none => none
  | some (mismatch, key, w1) => some (verdict mismatch key w1)

/-! ## A scripted bus, for concrete runs -/

/-- The number of status-producing operations (all but `stop`) in a history. -/
def statusCount : List BusOp → Nat
  | [] => 0
  | BusOp.stop :: t => statusCount t
  | _ :: t => statusCount t + 1

/-- The number of reads in a history. -/
def readCount : List BusOp → Nat
  | [] => 0
  | BusOp.readNack :: t => readCount t + 1
  | _ :: t => readCount t

/-- A bus whose `k`-th status-producing operation leaves `sts[k]` in `TWSR` and
whose `k`-th read delivers `ds[k]` (0 beyond the end of the lists). -/
def scriptedBus (sts ds : List Nat) : TwiDevice :=
  { TWSR := fun h => sts.getD (statusCount h - 1) 0,
    TWDR := fun h => ds.getD (readCount h - 1) 0 }

/-- The six status codes of a read transaction in which every phase succeeds. -/
def readOk : List Nat := [0x08, 0x18, 0x28, 0x10, 0x40, 0x58]

/-- The four status codes of a write transaction in which every phase succeeds. -/
def writeOk : List Nat := [0x08, 0x18, 0x28, 0x28]

/-! ## Observations used in the statements -/

/-- The number of positions `i` in `0..4` with `E[i] ≠ S[i]`. -/
def mismatchCount (E S : List Nat) : Nat :=
  ((List.range PASSWORD_SIZE).filter (fun i => decide (E.getD i 0 ≠ S.getD i 0))).length

/-- Motor driven forward: enable and line 1 high, line 2 low. -/
def motorForward (portb : Nat) : Prop :=
  portb.testBit MOTOR_EN = true ∧ portb.testBit MOTOR_PIN1 = true ∧ portb.testBit MOTOR_PIN2 = false

/-- Motor driven in reverse: enable and line 2 high, line 1 low. -/
def motorReverse (portb : Nat) : Prop :=
  portb.testBit MOTOR_EN = true ∧ portb.testBit MOTOR_PIN1 = false ∧ portb.testBit MOTOR_PIN2 = true

/-- Motor stopped: enable and both direction lines low. -/
def motorStopped (portb : Nat) : Prop :=
  portb.testBit MOTOR_EN = false ∧ portb.testBit MOTOR_PIN1 = false ∧ portb.testBit MOTOR_PIN2 = false

/-- Alarm output high. -/
def buzzerOn (portb : Nat) : Prop := portb.testBit BUZZER = true

/-- Timer1 as `TIMER1_init(&Timer1_Config)` leaves it: clock select bits
`CS12:0 = 101` (prescaler 1024), `WGM12` set (CTC), counter 0, compare value
39063 and the compare-A interrupt enabled. -/
def schedulerStarted (w : World) : Prop :=
  w.TCCR1B.testBit 2 = true ∧ w.TCCR1B.testBit 1 = false ∧ w.TCCR1B.testBit 0 = true ∧
  w.TCCR1B.testBit 3 = true ∧ w.TCNT1 = 0 ∧ w.OCR1A = 39063 ∧ w.TIMSK.testBit OCIE1A = true

/-- Timer1 as `TIMER1_DeInit` leaves it: no clock source and the Timer1
interrupts disabled. -/
def schedulerStopped (w : World) : Prop :=
  w.TCCR1A = 0 ∧ w.TCCR1B = 0 ∧ w.TCNT1 = 0 ∧ w.OCR1A = 0 ∧
  w.TIMSK.testBit OCIE1A = false ∧ w.TIMSK.testBit OCIE1B = false ∧ w.TIMSK.testBit TOIE1 = false

/-- The serial input of one round: bytes other than the ready signal, the ready
signal, the five symbols, the command byte. -/
def roundInput (junk E : List Nat) (key : Nat) : List Nat :=
  junk ++ HMI_ECU_READY :: (E ++ [key])

/-- The motor and alarm port and every Timer1 register hold the same values in
both states. -/
def sameOutputs (w w2 : World) : Prop :=
  w2.PORTB = w.PORTB ∧ w2.TCCR1A = w.TCCR1A ∧ w2.TCCR1B = w.TCCR1B ∧ w2.TCNT1 = w.TCNT1 ∧
  w2.OCR1A = w.OCR1A ∧ w2.OCR1B = w.OCR1B ∧ w2.TIMSK = w.TIMSK

/-! ## Concrete buses and states, for runs on explicit inputs -/

/-- A store holding the credential `S` on which every read transaction succeeds:
the six status codes of a read repeat forever and the reads deliver the bytes of
`S` cyclically.  Meant for runs that only read the credential. -/
def readOnlyStore (S : List Nat) : TwiDevice :=
  { TWSR := fun h => readOk.getD ((statusCount h - 1) % 6) 0,
    TWDR := fun h => S.getD ((readCount h - 1) % S.length) 0 }

/-- The Control ECU at power-up, already dispatched to
`Control_receiveAndCheckPassword` (function ID 3), with pending serial input `rx`. -/
def awaitCommand (rx : List Nat) : World :=
  { World.init rx with g_functionID := 3 }

/-- The state after `n` successive runs of `Control_receiveAndCheckPassword`. -/
def rounds (dev : TwiDevice) : Nat → World → Option World
  | 0, w => some w
  | n + 1, w =>
    match rounds dev n w with
    | none => none
    | some w1 => Control_receiveAndCheckPassword dev w1

/-- Serial input of one round entering `1 2 3 4 6` with command `OPEN_DOOR`. -/
def wrongEntry : List Nat := [0x10, 1, 2, 3, 4, 6, 0x23]

/-- Serial input of one round entering `1 2 3 4 5` with command `OPEN_DOOR`. -/
def rightEntry : List Nat := [0x10, 1, 2, 3, 4, 5, 0x23]

/-- A store on which every write transaction succeeds: the four status codes of
a write repeat forever.  Meant for runs that only write. -/
def writeOnlyStore : TwiDevice :=
  { TWSR := fun h => writeOk.getD ((statusCount h - 1) % 4) 0,
    TWDR := fun _ => 0 }

/-- The state reached from power-up by one round with the right entry and
command `OPEN_DOOR`, against stored `1 2 3 4 5`. -/
def afterOpenDoor : World :=
  (Control_receiveAndCheckPassword (readOnlyStore [1, 2, 3, 4, 5])
    (awaitCommand rightEntry)).getD (awaitCommand [])

/-- Six wrong entries pending at power-up. -/
def sixWrongEntries : World :=
  awaitCommand (wrongEntry ++ wrongEntry ++ wrongEntry ++ wrongEntry ++ wrongEntry ++ wrongEntry)

/-- The state reached from `sixWrongEntries` by three rounds, against stored
`1 2 3 4 5`: the third round has replied `THIEF`. -/
def afterThief : World :=
  (rounds (readOnlyStore [1, 2, 3, 4, 5]) 3 sixWrongEntries).getD (awaitCommand [])

/-- The Control ECU dispatched to `Control_setNewPassword` (function ID 1) with
the serial input of setting and confirming the password `1 2 3 4 5`. -/
def settingPassword : World :=
  { World.init [0x10, 1, 2, 3, 4, 5, 0x10, 1, 2, 3, 4, 5] with g_functionID := 1 }

/-- The Control ECU dispatched to `Control_checkNewPassword` (function ID 2) with
staging buffer `1 2 3 4 5` and the serial input of its confirmation. -/
def confirmingPassword : World :=
  { World.init [0x10, 1, 2, 3, 4, 5] with g_functionID := 2, g_eeprom := [1, 2, 3, 4, 5] }

/-! ## Bus transactions, phase by phase -/

/-- The bus operations of the four phases of a write transaction of data `d` at
address `a`, in order; the closing stop is not a phase. -/
def writePhases (a d : Nat) : List BusOp :=
  [BusOp.start, BusOp.write (SLAVE_ADDRESS_W a), BusOp.write (a % 256), BusOp.write d]

/-- The bus operations of the six phases of a read transaction at address `a`,
in order; the closing stop is not a phase. -/
def readPhases (a : Nat) : List BusOp :=
  [BusOp.start, BusOp.write (SLAVE_ADDRESS_W a), BusOp.write (a % 256), BusOp.start,
   BusOp.write (SLAVE_ADDRESS_R a), BusOp.readNack]

/-- The status value that `TWI_getStatus` returns after phase `k` (counted from
1) of a transaction with the given phases, started at bus history `h`. -/
def statusRead (dev : TwiDevice) (h phases : List BusOp) (k : Nat) : Nat :=
  dev.TWSR (h ++ phases.take k) &&& 0xF8

/-! ## Control_ECU.c: the first state function and the dispatch loop -/

/-- Function `Control_checkForSavedPassword` (function ID 0).  The local `chkFlag`
is declared without an initialiser: `chkFlag0` is the value it holds on entry,
which it keeps when `EEPROM_readByte` returns before assigning through its
pointer. -/
def Control_checkForSavedPassword (dev : TwiDevice) (chkFlag0 : Nat) (w : World) : Option World :=
  match awaitByte CHECK_FOR_SAVED_PASSWORD w with
  | none => none
  | some w1 =>
    let r := EEPROM_readByte dev eeprom_flag w1
    let chkFlag := r.2.1.getD chkFlag0
    let w2 :=
      if chkFlag = SAVED_PASSWORD then
        { reloadPasswordLoop dev (List.range PASSWORD_SIZE) (UART_sendByte SAVED_PASSWORD r.2.2) with
          g_functionID := 3 }
      else r.2.2
    if chkFlag = NO_SAVED_PASSWORD then
      some { UART_sendByte NO_SAVED_PASSWORD w2 with g_functionID := 1 }
    else some w2

/-- One turn of the loop `while(1) (*func[g_functionID])();` of `main`, the table
being `func[4]`; `chkFlag0` is as in `Control_checkForSavedPassword`. -/
def dispatch (dev : TwiDevice) (chkFlag0 : Nat) (w : World) : Option World :=
  if w.g_functionID = 0 then Control_checkForSavedPassword dev chkFlag0 w
  else if w.g_functionID = 1 then Control_setNewPassword w
  else if w.g_functionID = 2 then Control_checkNewPassword dev w
  else if w.g_functionID = 3 then Control_receiveAndCheckPassword dev w
  else none

/-- The store read transactions issued (address), oldest first. -/
def storeReads : List Event → List Nat
  | [] => []
  | Event.eepromRead a :: t => a :: storeReads t
  | _ :: t => storeReads t

/-- The byte that `EEPROM_readByte(a, _)` assigns through its pointer, and the bus
history it leaves, when called after the bus history `h`. -/
def readTxn (dev : TwiDevice) (h : List BusOp) (a : Nat) : Option Nat × List BusOp :=
  let r := EEPROM_readByte dev a { World.init [] with trace := h.map Event.twi }
  (r.2.1, busOps r.2.2.trace)

/-- The bytes assigned by successive calls `EEPROM_readByte(a, _)` for the
addresses `as`, starting after the bus history `h`. -/
def readSeq (dev : TwiDevice) : List BusOp → List Nat → List (Option Nat)
  | _, [] => []
  | h, a :: as => (readTxn dev h a).1 :: readSeq dev (readTxn dev h a).2 as

/-- The array `g` after assigning, for each index of `is` in turn, the byte
delivered for it (no assignment where none was delivered). -/
def loadInto (g : List Nat) : List Nat → List (Option Nat) → List Nat
  | i :: is, some d :: os => loadInto (g.set i d) is os
  | _ :: is, none :: os => loadInto g is os
  | _, _ => g

/-- The addresses `eeprom_addr + i` (in `uint16`) of the credential bytes. -/
def credentialAddrs : List Nat :=
  (List.range PASSWORD_SIZE).map (fun i => (eeprom_addr + i) % 65536)

/-! ## The serial EEPROM on the bus -/

/-- Environment model, not repository code: the 24C16 serial EEPROM named in
external_eeprom.h, as a slave on the bus.  Field `mem` holds the 2048 cells;
`stage` is 0 when no transfer is open, 1 after a start condition, 2 after a
device-select byte with the write bit, 3 after the word address, 4 after one data
byte, 5 after a device-select byte with the read bit, 6 otherwise; `status` is
the code an acknowledging slave leaves in `TWSR`, `data` the byte last delivered. -/
structure Chip where
  mem : Nat → Nat
  stage : Nat
  page : Nat
  ptr : Nat
  latch : Nat
  status : Nat
  data : Nat

/-- The chip with cell contents `mem0` and no transfer open. -/
def Chip.fresh (mem0 : Nat → Nat) : Chip :=
  { mem := mem0, stage := 0, page := 0, ptr := 0, latch := 0, status := 0xF8, data := 0 }

/-- The effect of one bus operation on the chip: a start opens a transfer, the
first byte selects the page and the direction, the second sets the cell pointer,
the third is latched and stored into the addressed cell by the stop that
follows it; a read delivers the addressed cell. -/
def Chip.step (c : Chip) : BusOp → Chip
  | BusOp.start =>
    { c with stage := 1, status := if c.stage = 0 then TWI_START else TWI_REP_START }
  | BusOp.write b =>
    if c.stage = 1 then
      if b % 2 = 0 then { c with stage := 2, page := (b / 2) % 8, status := TWI_MT_SLA_W_ACK }
      else { c with stage := 5, status := TWI_MT_SLA_R_ACK }
    else if c.stage = 2 then
      { c with stage := 3, ptr := c.page * 256 + b % 256, status := TWI_MT_DATA_ACK }
    else if c.stage = 3 then { c with stage := 4, latch := b, status := TWI_MT_DATA_ACK }
    else { c with stage := 6, status := TWI_MT_DATA_ACK }
  | BusOp.readNack =>
    if c.stage = 5 then { c with data := c.mem c.ptr, status := TWI_MR_DATA_NACK }
    else { c with data := 0xFF, stage := 6, status := TWI_MR_DATA_NACK }
  | BusOp.stop =>
    if c.stage = 4 then
      { c with mem := fun x => if x = c.ptr then c.latch else c.mem x, stage := 0, status := 0xF8 }
    else { c with stage := 0, status := 0xF8 }

/-- The chip after a history of bus operations. -/
def chipRun (c : Chip) (h : List BusOp) : Chip := h.foldl Chip.step c

/-- The cell contents after the bus history `h`, from initial contents `mem0`. -/
def cells (mem0 : Nat → Nat) (h : List BusOp) : Nat → Nat := (chipRun (Chip.fresh mem0) h).mem

/-- The bus with the chip attached, every phase acknowledged. -/
def idealStore (mem0 : Nat → Nat) : TwiDevice :=
  { TWSR := fun h => (chipRun (Chip.fresh mem0) h).status,
    TWDR := fun h => (chipRun (Chip.fresh mem0) h).data }

/-- No transfer is open after the bus history `h`: it is empty or ends in a stop. -/
def busIdle (h : List BusOp) : Prop := h = [] ∨ h.getLast? = some BusOp.stop

/-- The byte-addressable store behind the bus `dev`, with cell contents
`cellsOf h` after the bus history `h`: a write transaction carried through to its
stop stores its byte in cell `a mod 2048` and changes no other cell, a
transaction broken off earlier and a read transaction change no cell, and the
read of a read transaction delivers the addressed cell. -/
def ByteStore (dev : TwiDevice) (cellsOf : List BusOp → Nat → Nat) : Prop :=
  ∀ h : List BusOp,
    (∀ a d k, k ≤ 4 → cellsOf (h ++ (writePhases a d).take k) = cellsOf h) ∧
    (∀ a d, cellsOf (h ++ (writePhases a d ++ [BusOp.stop])) =
      fun x => if x = a % 2048 then d else cellsOf h x) ∧
    (∀ a k, k ≤ 6 → cellsOf (h ++ (readPhases a).take k) = cellsOf h) ∧
    (∀ a, cellsOf (h ++ (readPhases a ++ [BusOp.stop])) = cellsOf h) ∧
    (∀ a, dev.TWDR (h ++ readPhases a) = cellsOf h (a % 2048))

/-- Every bus phase returns its expected status: after a history with no
transfer open, the phases of a write transaction and of a read transaction leave
their expected codes in the status register. -/
def AlwaysAck (dev : TwiDevice) : Prop :=
  ∀ h : List BusOp, busIdle h →
    (∀ a d k, 1 ≤ k → k ≤ 4 →
      statusRead dev h (writePhases a d) k = writeOk.getD (k - 1) 0) ∧
    (∀ a k, 1 ≤ k → k ≤ 6 → statusRead dev h (readPhases a) k = readOk.getD (k - 1) 0)

/-! ## Reachable states and the shape of their traces -/

/-- The events of a call `EEPROM_writeByte(a, d)` carried through to its stop:
the call marker, the four phases and the stop. -/
def writeDone (a d : Nat) : List Event :=
  Event.eepromWrite a d :: (writePhases a d ++ [BusOp.stop]).map Event.twi

/-- The states of the Control ECU reachable from power-up on the bus `dev`:
serial bytes arrive, the dispatch loop takes a turn (with any value in the
uninitialised local of function 0), the Timer1 callback runs. -/
inductive Reachable (dev : TwiDevice) : World → Prop
  | powerUp (rx : List Nat) : Reachable dev (World.init rx)
  | arrive (w : World) (bs : List Nat) : Reachable dev w → Reachable dev { w with rx := w.rx ++ bs }
  | turn (w w2 : World) (chkFlag0 : Nat) :
      Reachable dev w → dispatch dev chkFlag0 w = some w2 → Reachable dev w2
  | tick (w : World) : Reachable dev w → Reachable dev (fireBuzzerOrOpenDoor w)

/-- The state after `n` turns of the dispatch loop (the uninitialised local of
function 0 holding 0). -/
def turns (dev : TwiDevice) : Nat → World → Option World
  | 0, w => some w
  | n + 1, w =>
    match turns dev n w with
    | none => none
    | some w1 => dispatch dev 0 w1

/-- One unit of a trace: a serial byte received or sent, a read transaction
(broken off after `k` phases, or carried through), a write transaction broken
off after `k` phases, a write carried through at an address outside the flag
cell, or the write of the exists sentinel to the flag carried through. -/
inductive Block : List Event → Prop
  | recv (b : Nat) : Block [Event.recv b]
  | send (b : Nat) : Block [Event.send b]
  | readPart (a k : Nat) : k ≤ 6 →
      Block (Event.eepromRead a :: ((readPhases a).take k).map Event.twi)
  | readDone (a : Nat) :
      Block (Event.eepromRead a :: (readPhases a ++ [BusOp.stop]).map Event.twi)
  | writePart (a d k : Nat) : k ≤ 4 →
      Block (Event.eepromWrite a d :: ((writePhases a d).take k).map Event.twi)
  | writeCred (a d : Nat) : a % 2048 ≠ eeprom_flag % 2048 → Block (writeDone a d)
  | writeFlag : Block (writeDone eeprom_flag SAVED_PASSWORD)

/-- A trace made of units. -/
inductive Txns : List Event → Prop
  | nil : Txns []
  | snoc (t b : List Event) : Txns t → Block b → Txns (t ++ b)

/-- The later state `w2` extends the trace of `w` by units. -/
def Extends (w w2 : World) : Prop := ∃ evs, w2.trace = w.trace ++ evs ∧ Txns evs

/-- A store whose flag cell holds the no-credential sentinel, every other cell
erased. -/
def noCredential : Nat → Nat := fun x => if x = eeprom_flag % 2048 then NO_SAVED_PASSWORD else 0xFF

/-- The blocking calls of HMI_ECU.c: where the HMI ECU waits. -/
inductive HmiPc where
  /-- Function `HMI_welcome`: `while(KEYPAD_getPressedKey() != 13);`. -/
  | welcomeKey
  /-- Function `HMI_welcome`: `if(UART_receiveByte() == NO_SAVED_PASSWORD)`. -/
  | welcomeReply
  /-- Function `HMI_setNewPassword`: `UART_sendByte(KEYPAD_getPressedKey());` with
  `loop_idx = i`. -/
  | setKey (i : Nat)
  /-- Function `HMI_checkNewPassword`: `UART_sendByte(KEYPAD_getPressedKey());` with
  `loop_idx = i`. -/
  | checkKey (i : Nat)
  /-- Function `HMI_checkNewPassword`: `uint8 flag=UART_receiveByte();`. -/
  | checkReply
  /-- Function `HMI_mainMenu`: `if(KEYPAD_getPressedKey() == '+')`. -/
  | menuKey1
  /-- Function `HMI_mainMenu`: `else if(KEYPAD_getPressedKey() == '-')`. -/
  | menuKey2
  /-- Function `HMI_enterPassword`: `UART_sendByte(KEYPAD_getPressedKey());` with
  `loop_idx = i`. -/
  | enterKey (i : Nat)
  /-- Function `HMI_enterPassword`: `uint8 key=UART_receiveByte();`. -/
  | enterReply
  /-- Function `HMI_enterPassword`: `while(UART_receiveByte() != DOOR_UNLOCKING);`. -/
  | enterUnlocking
  /-- Function `HMI_enterPassword`: `while(UART_receiveByte() != DOOR_LOCKING);`. -/
  | enterLocking
  /-- Function `HMI_enterPassword`: `while(UART_receiveByte() != DOOR_LOCKED);`. -/
  | enterLocked
  /-- Function `HMI_enterPassword`: `while(UART_receiveByte() != SYSTEM_UNLOCKED);`. -/
  | enterSystem
  /-- Function `HMI_enterOldPassword`: `UART_sendByte(KEYPAD_getPressedKey());` with
  `loop_idx = i`. -/
  | oldKey (i : Nat)
  /-- Function `HMI_enterOldPassword`: `uint8 key=UART_receiveByte();`. -/
  | oldReply
  /-- Function `HMI_enterOldPassword`: `while(UART_receiveByte() != SYSTEM_UNLOCKED);`. -/
  | oldSystem
  /-- Call through `func[g_functionID]` with an index outside the table. -/
  | fault
  deriving DecidableEq, Repr

/-- The HMI ECU: its global `g_functionID` and the call it is blocked in. -/
structure Hmi where
  g_functionID : Nat
  pc : HmiPc
  deriving DecidableEq, Repr

/-- The loop `while(1) (*func[g_functionID])();` of the HMI `main` entering
function `id`, up to its first blocking call: the bytes sent and the state
reached.  `HMI_setNewPassword`, `HMI_checkNewPassword`, `HMI_enterPassword` and
`HMI_enterOldPassword` send `HMI_ECU_READY` before their first keypad read. -/
def hmiEnter (id : Nat) : List Nat × Hmi :=
  if id = 0 then ([], { g_functionID := 0, pc := HmiPc.welcomeKey })
  else if id = 1 then ([HMI_ECU_READY], { g_functionID := 1, pc := HmiPc.setKey 0 })
  else if id = 2 then ([HMI_ECU_READY], { g_functionID := 2, pc := HmiPc.checkKey 0 })
  else if id = 3 then ([], { g_functionID := 3, pc := HmiPc.menuKey1 })
  else if id = 4 then ([HMI_ECU_READY], { g_functionID := 4, pc := HmiPc.enterKey 0 })
  else if id = 5 then ([HMI_ECU_READY], { g_functionID := 5, pc := HmiPc.oldKey 0 })
  else ([], { g_functionID := id, pc := HmiPc.fault })

/-- The HMI ECU, blocked in `KEYPAD_getPressedKey`, gets the key `k`: the bytes
it sends and its state at the next blocking call (`none` when it is not blocked
in a keypad read).  `'+'` is 43 and `'-'` is 45. -/
def hmiKey (h : Hmi) (k : Nat) : Option (List Nat × Hmi) :=
  match h.pc with
  | HmiPc.welcomeKey =>
    if k ≠ 13 then some ([], h)
    else some ([CHECK_FOR_SAVED_PASSWORD], { h with pc := HmiPc.welcomeReply })
  | HmiPc.setKey i =>
    if i + 1 < PASSWORD_SIZE then some ([k], { h with pc := HmiPc.setKey (i + 1) })
    else some (k :: (hmiEnter 2).1, (hmiEnter 2).2)
  | HmiPc.checkKey i =>
    if i + 1 < PASSWORD_SIZE then some ([k], { h with pc := HmiPc.checkKey (i + 1) })
    else some ([k], { h with pc := HmiPc.checkReply })
  | HmiPc.menuKey1 =>
    if k = 43 then some (OPEN_DOOR :: (hmiEnter 4).1, (hmiEnter 4).2)
    else some ([], { h with pc := HmiPc.menuKey2 })
  | HmiPc.menuKey2 =>
    if k = 45 then some (CHANGE_PASSWORD :: (hmiEnter 5).1, (hmiEnter 5).2)
    else some (hmiEnter h.g_functionID)
  | HmiPc.enterKey i =>
    if i + 1 < PASSWORD_SIZE then some ([k], { h with pc := HmiPc.enterKey (i + 1) })
    else some ([k, OPEN_DOOR], { h with pc := HmiPc.enterReply })
  | HmiPc.oldKey i =>
    if i + 1 < PASSWORD_SIZE then some ([k], { h with pc := HmiPc.oldKey (i + 1) })
    else some ([k, CHANGE_PASSWORD], { h with pc := HmiPc.oldReply })
  | _ => none

/-- The HMI ECU, blocked in `UART_receiveByte`, gets the byte `b`: the bytes it
sends and its state at the next blocking call (`none` when it is not blocked in
a receive). -/
def hmiByte (h : Hmi) (b : Nat) : Option (List Nat × Hmi) :=
  match h.pc with
  | HmiPc.welcomeReply =>
    if b = NO_SAVED_PASSWORD then some (hmiEnter 1) else some (hmiEnter 3)
  | HmiPc.checkReply =>
    if b = CORRECT_NEW_PASSWORD then some (hmiEnter 3) else some (hmiEnter 1)
  | HmiPc.enterReply =>
    if b = CORRECT_PASSWORD then some ([], { h with pc := HmiPc.enterUnlocking })
    else if b = WRONG_PASSWORD then some (hmiEnter 4)
    else some ([], { h with pc := HmiPc.enterSystem })
  | HmiPc.enterUnlocking =>
    if b ≠ DOOR_UNLOCKING then some ([], h) else some ([], { h with pc := HmiPc.enterLocking })
  | HmiPc.enterLocking =>
    if b ≠ DOOR_LOCKING then some ([], h) else some ([], { h with pc := HmiPc.enterLocked })
  | HmiPc.enterLocked =>
    if b ≠ DOOR_LOCKED then some ([], h) else some (hmiEnter 3)
  | HmiPc.enterSystem =>
    if b ≠ SYSTEM_UNLOCKED then some ([], h) else some (hmiEnter 3)
  | HmiPc.oldReply =>
    if b = CORRECT_PASSWORD then some (hmiEnter 1)
    else if b = WRONG_PASSWORD then some (hmiEnter 5)
    else some ([], { h with pc := HmiPc.oldSystem })
  | HmiPc.oldSystem =>
    if b ≠ SYSTEM_UNLOCKED then some ([], h) else some (hmiEnter 3)
  | _ => none

/-! ## The two ECUs joined by the serial link -/

/-- Timer1 raises its compare-match interrupt: the interrupt is enabled in
`TIMSK` and a clock source is selected in `TCCR1B` (bits `CS12:0`). -/
def timerRunning (w : World) : Prop :=
  w.TIMSK.testBit OCIE1A = true ∧
  (w.TCCR1B.testBit 2 = true ∨ w.TCCR1B.testBit 1 = true ∨ w.TCCR1B.testBit 0 = true)

/-- The composed system: the HMI ECU, the bytes sent by the Control ECU that the
HMI ECU has not yet received, and the Control ECU, whose `rx` holds the bytes
sent by the HMI ECU that no completed turn of its dispatch loop has consumed. -/
structure Sys where
  hmi : Hmi
  toHmi : List Nat
  ctl : World

/-- The states of the composed system reachable from power-up of both ECUs,
each direction of the serial link being a reliable first-in first-out channel:
a key is pressed while the HMI ECU waits for one, the HMI ECU receives the
oldest byte in flight, the Control ECU completes a turn of its dispatch loop,
the Timer1 callback runs while Timer1 is running.  A state function of the
Control ECU sends nothing, and writes no variable that the callback uses, before
its last receive; its turn is therefore taken as one step, once all the bytes
it receives have been sent. -/
inductive SysReachable (dev : TwiDevice) : Sys → Prop
  | powerUp : SysReachable dev { hmi := (hmiEnter 0).2, toHmi := [], ctl := World.init [] }
  | key (s : Sys) (k : Nat) (out : List Nat) (h2 : Hmi) :
      SysReachable dev s → hmiKey s.hmi k = some (out, h2) →
      SysReachable dev { hmi := h2, toHmi := s.toHmi, ctl := { s.ctl with rx := s.ctl.rx ++ out } }
  | deliver (s : Sys) (b : Nat) (rest out : List Nat) (h2 : Hmi) :
      SysReachable dev s → s.toHmi = b :: rest → hmiByte s.hmi b = some (out, h2) →
      SysReachable dev { hmi := h2, toHmi := rest, ctl := { s.ctl with rx := s.ctl.rx ++ out } }
  | turn (s : Sys) (chkFlag0 : Nat) (w2 : World) :
      SysReachable dev s → dispatch dev chkFlag0 s.ctl = some w2 →
      SysReachable dev { hmi := s.hmi, toHmi := s.toHmi ++ newSent s.ctl w2, ctl := w2 }
  | tick (s : Sys) :
      SysReachable dev s → timerRunning s.ctl →
      SysReachable dev { hmi := s.hmi, toHmi := s.toHmi ++ newSent s.ctl (fireBuzzerOrOpenDoor s.ctl),
                         ctl := fireBuzzerOrOpenDoor s.ctl }

/-- A quiescent point: every byte sent has been consumed and each ECU is blocked,
the HMI ECU in a keypad read or a receive with nothing in flight, the Control
ECU in a receive of its current state function, which the bytes sent to it do
not let complete. -/
def quiescent (dev : TwiDevice) (s : Sys) : Prop :=
  s.toHmi = [] ∧ s.hmi.pc ≠ HmiPc.fault ∧ ∀ chkFlag0, dispatch dev chkFlag0 s.ctl = none

/-- The pairs (HMI function ID, Control function ID) of lock-step. -/
def lockStepPairs : List (Nat × Nat) := [(0, 0), (1, 1), (2, 2), (3, 3), (4, 3), (5, 3)]

/-- The later state `w2` has the callback counter, the failure flag, the Timer1
interrupt mask and clock selection, and the length of `g_eeprom` of `w`. -/
def Frame (w w2 : World) : Prop :=
  w2.count = w.count ∧ w2.g_state = w.g_state ∧ w2.TIMSK = w.TIMSK ∧ w2.TCCR1B = w.TCCR1B ∧
  w2.g_eeprom.length = w.g_eeprom.length

/-! ## The configurations of the composed system -/

/-- Timer1 is stopped and no timeline is in progress: the callback counter is 0
and the compare-match interrupt is disabled. -/
def Calm (w : World) : Prop :=
  w.count = 0 ∧ w.TIMSK.testBit OCIE1A = false ∧ w.g_eeprom.length = 5

/-- The bytes the Control ECU sends for a granted door request, in order. -/
def doorScript : List Nat := [CORRECT_PASSWORD, DOOR_UNLOCKING, DOOR_LOCKING, DOOR_LOCKED]

/-- The bytes the Control ECU sends for a lockout, in order. -/
def lockScript : List Nat := [THIEF, SYSTEM_UNLOCKED]

/-- The Control ECU during and after the door timeline, having sent the first
`sent` bytes of `doorScript`. -/
def DoorCtl (w : World) (sent : Nat) : Prop :=
  w.g_functionID = 3 ∧ w.rx = [] ∧ w.g_state = 0 ∧ w.g_eeprom.length = 5 ∧
  ((timerRunning w ∧ w.count < 3 ∧ sent = 2) ∨
   (timerRunning w ∧ 3 ≤ w.count ∧ w.count < 6 ∧ sent = 3) ∨
   (Calm w ∧ sent = 4))

/-- The Control ECU during and after the lockout, having sent the first `sent`
bytes of `lockScript`. -/
def LockCtl (w : World) (sent : Nat) : Prop :=
  w.g_functionID = 3 ∧ w.rx = [] ∧ w.g_state = 1 ∧ w.g_eeprom.length = 5 ∧
  ((timerRunning w ∧ w.count < 12 ∧ sent = 1) ∨ (Calm w ∧ sent = 2))

/-- The keypad read of the entry function `id` (4: `HMI_enterPassword`,
otherwise `HMI_enterOldPassword`) with `loop_idx = i`. -/
def keyPc (id i : Nat) : HmiPc := if id = 4 then HmiPc.enterKey i else HmiPc.oldKey i

/-- The verdict receive of the entry function `id`. -/
def replyPc (id : Nat) : HmiPc := if id = 4 then HmiPc.enterReply else HmiPc.oldReply

/-- The wait for `SYSTEM_UNLOCKED` of the entry function `id`. -/
def systemPc (id : Nat) : HmiPc := if id = 4 then HmiPc.enterSystem else HmiPc.oldSystem

/-- The command byte the entry function `id` sends after the five symbols. -/
def commandOf (id : Nat) : Nat := if id = 4 then OPEN_DOOR else CHANGE_PASSWORD

/-- The receive of `HMI_enterPassword` at which `n` bytes of `doorScript` have
been consumed. -/
def doorPc (n : Nat) : HmiPc :=
  if n = 0 then HmiPc.enterReply else if n = 1 then HmiPc.enterUnlocking
  else if n = 2 then HmiPc.enterLocking else HmiPc.enterLocked

/-- The configurations of the composed system (HMI ECU, bytes in flight to it,
Control ECU) that occur in lock-step operation. -/
inductive Cfg : Hmi → List Nat → World → Prop
  | welcome (w : World) :
      w.g_functionID = 0 → w.rx = [] → busOps w.trace = [] → Calm w →
      Cfg { g_functionID := 0, pc := HmiPc.welcomeKey } [] w
  | asked (w : World) :
      w.g_functionID = 0 → w.rx = [CHECK_FOR_SAVED_PASSWORD] → busOps w.trace = [] → Calm w →
      Cfg { g_functionID := 0, pc := HmiPc.welcomeReply } [] w
  | answeredNo (w : World) :
      w.g_functionID = 1 → w.rx = [] → Calm w →
      Cfg { g_functionID := 0, pc := HmiPc.welcomeReply } [NO_SAVED_PASSWORD] w
  | answeredYes (w : World) :
      w.g_functionID = 3 → w.rx = [] → Calm w →
      Cfg { g_functionID := 0, pc := HmiPc.welcomeReply } [SAVED_PASSWORD] w
  | setting (w : World) (i : Nat) (ks : List Nat) :
      i < 5 → ks.length = i → w.g_functionID = 1 → w.rx = HMI_ECU_READY :: ks → Calm w →
      Cfg { g_functionID := 1, pc := HmiPc.setKey i } [] w
  | confirming1 (w : World) (i : Nat) (ks ks2 : List Nat) :
      i < 5 → ks.length = 5 → ks2.length = i → w.g_functionID = 1 →
      w.rx = HMI_ECU_READY :: (ks ++ HMI_ECU_READY :: ks2) → Calm w →
      Cfg { g_functionID := 2, pc := HmiPc.checkKey i } [] w
  | confirming2 (w : World) (i : Nat) (ks2 : List Nat) :
      i < 5 → ks2.length = i → w.g_functionID = 2 → w.rx = HMI_ECU_READY :: ks2 → Calm w →
      Cfg { g_functionID := 2, pc := HmiPc.checkKey i } [] w
  | confirmed1 (w : World) (ks ks2 : List Nat) :
      ks.length = 5 → ks2.length = 5 → w.g_functionID = 1 →
      w.rx = HMI_ECU_READY :: (ks ++ HMI_ECU_READY :: ks2) → Calm w →
      Cfg { g_functionID := 2, pc := HmiPc.checkReply } [] w
  | confirmed2 (w : World) (ks2 : List Nat) :
      ks2.length = 5 → w.g_functionID = 2 → w.rx = HMI_ECU_READY :: ks2 → Calm w →
      Cfg { g_functionID := 2, pc := HmiPc.checkReply } [] w
  | accepted (w : World) :
      w.g_functionID = 3 → w.rx = [] → Calm w →
      Cfg { g_functionID := 2, pc := HmiPc.checkReply } [CORRECT_NEW_PASSWORD] w
  | rejected (w : World) :
      w.g_functionID = 1 → w.rx = [] → Calm w →
      Cfg { g_functionID := 2, pc := HmiPc.checkReply } [NON_CORRECT_NEW_PASSWORD] w
  | menu (w : World) (pc : HmiPc) :
      pc = HmiPc.menuKey1 ∨ pc = HmiPc.menuKey2 → w.g_functionID = 3 → w.rx = [] → Calm w →
      Cfg { g_functionID := 3, pc := pc } [] w
  | entering (w : World) (id i : Nat) (junk ks : List Nat) :
      id = 4 ∨ id = 5 → i < 5 → ks.length = i → HMI_ECU_READY ∉ junk → w.g_functionID = 3 →
      w.rx = junk ++ HMI_ECU_READY :: ks → Calm w →
      Cfg { g_functionID := id, pc := keyPc id i } [] w
  | entered (w : World) (id : Nat) (junk ks : List Nat) :
      id = 4 ∨ id = 5 → ks.length = 5 → HMI_ECU_READY ∉ junk → w.g_functionID = 3 →
      w.rx = junk ++ HMI_ECU_READY :: (ks ++ [commandOf id]) → Calm w →
      Cfg { g_functionID := id, pc := replyPc id } [] w
  | wrong (w : World) (id : Nat) :
      id = 4 ∨ id = 5 → w.g_functionID = 3 → w.rx = [] → Calm w →
      Cfg { g_functionID := id, pc := replyPc id } [WRONG_PASSWORD] w
  | changing (w : World) :
      w.g_functionID = 1 → w.rx = [] → Calm w →
      Cfg { g_functionID := 5, pc := HmiPc.oldReply } [CORRECT_PASSWORD] w
  | door (w : World) (n sent : Nat) :
      n ≤ 3 → n ≤ sent → DoorCtl w sent →
      Cfg { g_functionID := 4, pc := doorPc n } ((doorScript.take sent).drop n) w
  | lockout (w : World) (id n sent : Nat) :
      id = 4 ∨ id = 5 → n ≤ 1 → n ≤ sent → LockCtl w sent →
      Cfg { g_functionID := id, pc := if n = 0 then replyPc id else systemPc id }
        ((lockScript.take sent).drop n) w

/-- The composed system on the chip with no credential stored, after the confirm
key has been pressed and the reply `NO_SAVED_PASSWORD` received: the HMI ECU
waits for the first symbol in `HMI_setNewPassword`, the Control ECU for it in
`Control_setNewPassword`. -/
def welcomed : Sys :=
  { hmi := { g_functionID := 1, pc := HmiPc.setKey 0 },
    toHmi := [],
    ctl := { (dispatch (idealStore noCredential) 0
              (World.init [CHECK_FOR_SAVED_PASSWORD])).getD (World.init []) with
             rx := [HMI_ECU_READY] } }

/-! ## Timing constants -/

/-- Macro `F_CPU` of micro_config.h: the clock frequency in Hz. -/
def F_CPU : Nat := 8000000

/-- The division factor named by an enumerator of `TIMER1_Clk` (timer1.h):
`F_CPU_1`, `F_CPU_8`, `F_CPU_64`, `F_CPU_256`, `F_CPU_1024`; 0 for the other
enumerators, which select no division of the system clock. -/
def prescalerOf (clock : Nat) : Nat :=
  if clock = 1 then 1
  else if clock = 2 then 8
  else if clock = 3 then 64
  else if clock = 4 then 256
  else if clock = F_CPU_1024 then 1024
  else 0

/-- The duration of `n` timer counts under the configuration `cfg`, in
nanoseconds. -/
def countsNanos (cfg : TIMER1_ConfigType) (n : Nat) : Nat :=
  n * prescalerOf cfg.clock * 1000000000 / F_CPU

/-- The duration of `k` scheduler ticks under the configuration `cfg`, taking one
tick as `compareVal` timer counts, in nanoseconds. -/
def ticksNanos (cfg : TIMER1_ConfigType) (k : Nat) : Nat :=
  countsNanos cfg (k * cfg.compareVal)

/-! ## Further projections of the trace -/

/-- The bytes received on the serial link, oldest first. -/
def receivedBytes : List Event → List Nat
  | [] => []
  | Event.recv b :: t => b :: receivedBytes t
  | _ :: t => receivedBytes t

/-- The reload loop and the compare loop of `Control_receiveAndCheckPassword` on
the entry `E`, run after the bytes `pre` have been received and with no serial
input pending: the value of `mismatch` and the state reached. -/
def reloadAndCompare (dev : TwiDevice) (w : World) (pre E : List Nat) : Nat × World :=
  comparePasswordLoop E (List.range PASSWORD_SIZE) 0
    (reloadPasswordLoop dev (List.range PASSWORD_SIZE)
      { w with rx := [], trace := w.trace ++ pre.map Event.recv })

/-! ## Runs of failed verifications -/

/-- The state `w1` is reached from `w` by a run in which serial bytes arrive,
the Timer1 callback runs, and `Control_receiveAndCheckPassword` completes `n`
rounds, each on an entry that differs from the credential it reloaded. -/
inductive FailedRounds (dev : TwiDevice) : World → Nat → World → Prop
  | start (w : World) : FailedRounds dev w 0 w
  | arrive (w w1 : World) (n : Nat) (bs : List Nat) :
      FailedRounds dev w n w1 → FailedRounds dev w n { w1 with rx := w1.rx ++ bs }
  | tick (w w1 : World) (n : Nat) :
      FailedRounds dev w n w1 → FailedRounds dev w n (fireBuzzerOrOpenDoor w1)
  | round (w w1 w2 : World) (n : Nat) (junk E rest : List Nat) (key : Nat) :
      FailedRounds dev w n w1 → HMI_ECU_READY ∉ junk → E.length = 5 →
      w1.rx = roundInput junk E key ++ rest →
      Control_receiveAndCheckPassword dev w1 = some w2 → E ≠ w2.g_eeprom →
      FailedRounds dev w (n + 1) w2

/-- Between the states `w` and `w2` no call of `EEPROM_writeByte` was issued and
the cells of the store, as given by `cellsOf` on the bus history, are the
same. -/
def storeUntouched (cellsOf : List BusOp → Nat → Nat) (w w2 : World) : Prop :=
  storeWrites w2.trace = storeWrites w.trace ∧
  cellsOf (busOps w2.trace) = cellsOf (busOps w.trace)

/-! ## HMI_ECU.c: the state functions run to completion

The state functions of the HMI ECU as functions on a state that holds what the
scans of the keypad will find and the bytes the serial link will deliver; a
call blocked for ever returns `none`.  Writes to the display and delays are
left out.  `KEYPAD_getPressedKey` scans the levels of the key matrix and does
not wait for a release: a key that stays down across two calls is found by
both, and stands twice in `keys`. -/

/-- Program variable and environment of the HMI ECU. -/
structure HmiWorld where
  /-- Global `g_functionID` of HMI_ECU.c. -/
  g_functionID : Nat
  /-- The keys that the next calls of `KEYPAD_getPressedKey` will find down, one
  entry for each call. -/
  keys : List Nat
  /-- Bytes that the next calls of `UART_receiveByte` will return. -/
  rx : List Nat
  /-- Bytes sent on the serial link, oldest first. -/
  tx : List Nat
  deriving DecidableEq, Repr

/-- Function `KEYPAD_getPressedKey` (keypad.c): scans the key matrix until it finds
a key down and returns it. -/
def KEYPAD_getPressedKey (h : HmiWorld) : Option (Nat × HmiWorld) :=
  match h.keys with
  | [] => none
  | k :: rest => some (k, { h with keys := rest })

/-- Function `UART_sendByte` as called by the HMI ECU. -/
def hmiSendByte (data : Nat) (h : HmiWorld) : HmiWorld :=
  { h with tx := h.tx ++ [data] }

/-- Function `UART_receiveByte` as called by the HMI ECU. -/
def hmiReceiveByte (h : HmiWorld) : Option (Nat × HmiWorld) :=
  match h.rx with
  | [] => none
  | b :: rest => some (b, { h with rx := rest })

/-- Loop `while(UART_receiveByte() != x);` of the HMI ECU over the pending
input. -/
def hmiAwaitLoop (x : Nat) : List Nat → HmiWorld → Option HmiWorld
  | [], _ => none
  | b :: rest, h => if b ≠ x then hmiAwaitLoop x rest { h with rx := rest }
                    else some { h with rx := rest }

/-- Statement `while(UART_receiveByte() != x);` of the HMI ECU. -/
def hmiAwaitByte (x : Nat) (h : HmiWorld) : Option HmiWorld := hmiAwaitLoop x h.rx h

/-- Loop of `HMI_enterPassword`:
`for(...) { UART_sendByte(KEYPAD_getPressedKey()); ... }`. -/
def enterPasswordLoop : List Nat → HmiWorld → Option HmiWorld
  | [], h => some h
  | _ :: is, h =>
    match KEYPAD_getPressedKey h with
    | none => none
    | some (k, h1) => enterPasswordLoop is (hmiSendByte k h1)

/-- Function `HMI_enterPassword` (function ID 4). -/
def HMI_enterPassword (h : HmiWorld) : Option HmiWorld :=
  match enterPasswordLoop (List.range PASSWORD_SIZE) (hmiSendByte HMI_ECU_READY h) with
  | none => none
  | some h1 =>
    match hmiReceiveByte (hmiSendByte OPEN_DOOR h1) with
    | none => none
    | some (key, h2) =>
      if key = CORRECT_PASSWORD then
        match hmiAwaitByte DOOR_UNLOCKING h2 with
        | none => none
        | some h3 =>
          match hmiAwaitByte DOOR_LOCKING h3 with
          | none => none
          | some h4 =>
            match hmiAwaitByte DOOR_LOCKED h4 with
            | none => none
            | some h5 => some { h5 with g_functionID := 3 }
      else if key = WRONG_PASSWORD then some { h2 with g_functionID := 4 }
      else
        match hmiAwaitByte SYSTEM_UNLOCKED h2 with
        | none => none
        | some h3 => some { h3 with g_functionID := 3 }

/-! ## Steps of the composed system, for runs on explicit inputs -/

/-- The composed system after the key `k` is pressed (unchanged when the HMI ECU
is not waiting for a key). -/
def pressKey (s : Sys) (k : Nat) : Sys :=
  match hmiKey s.hmi k with
  | some (out, h2) =>
    { hmi := h2, toHmi := s.toHmi, ctl := { s.ctl with rx := s.ctl.rx ++ out } }
  | none => s

/-- The composed system after the HMI ECU has received the oldest byte in flight
(unchanged when there is none or the HMI ECU is not waiting for one). -/
def deliverByte (s : Sys) : Sys :=
  match s.toHmi with
  | [] => s
  | b :: rest =>
    match hmiByte s.hmi b with
    | some (out, h2) => { hmi := h2, toHmi := rest, ctl := { s.ctl with rx := s.ctl.rx ++ out } }
    | none => s

/-- The composed system after the Control ECU has completed a turn of its
dispatch loop (unchanged when the turn does not complete). -/
def takeTurn (dev : TwiDevice) (s : Sys) : Sys :=
  match dispatch dev 0 s.ctl with
  | some w2 => { hmi := s.hmi, toHmi := s.toHmi ++ newSent s.ctl w2, ctl := w2 }
  | none => s

/-- A store holding the exists sentinel in its flag cell and the credential
`1 2 3 4 5` in the five credential cells, every other cell erased. -/
def savedCredential : Nat → Nat := fun x =>
  if x = eeprom_flag % 2048 then SAVED_PASSWORD
  else if eeprom_addr % 2048 ≤ x ∧ x < eeprom_addr % 2048 + 5 then x - eeprom_addr % 2048 + 1
  else 0xFF

/-- The composed system on the chip holding `savedCredential`, after the confirm
key, the turn of function 0, the receipt of its reply, the key `'+'` and the
symbols `1 2 3 4 5`: the HMI ECU waits for the verdict and the whole entry is
pending at the Control ECU. -/
def doorRequested : Sys :=
  [1, 2, 3, 4, 5].foldl pressKey
    (pressKey (deliverByte (takeTurn (idealStore savedCredential)
      (pressKey { hmi := (hmiEnter 0).2, toHmi := [], ctl := World.init [] } 13))) 43)

/-! ## The start status and the writes of a persisted credential -/

/-- The events `evs`, appended to any trace, add no completed write of the exists
sentinel to the flag. -/
def NoFlagWrite (evs : List Event) : Prop :=
  ∀ t : List Event, writeDone eeprom_flag SAVED_PASSWORD <:+: t ++ evs ↔
    writeDone eeprom_flag SAVED_PASSWORD <:+: t

/-- The trace of `w2` extends that of `w` by events that add no completed write
of the exists sentinel to the flag. -/
def KeepsFlag (w w2 : World) : Prop :=
  ∃ evs, w2.trace = w.trace ++ evs ∧ NoFlagWrite evs

set_option maxRecDepth 100000

/-! ## Lemmas: trace projections -/

theorem sentBytes_append (a b : List Event) : sentBytes (a ++ b) = sentBytes a ++ sentBytes b := by
  induction a with
  | nil => rfl
  | cons e t ih => cases e <;> simp [sentBytes, ih]

theorem storeWrites_append (a b : List Event) :
    storeWrites (a ++ b) = storeWrites a ++ storeWrites b := by
  induction a with
  | nil => rfl
  | cons e t ih => cases e <;> simp [storeWrites, ih]

theorem busOps_append (a b : List Event) : busOps (a ++ b) = busOps a ++ busOps b := by
  induction a with
  | nil => rfl
  | cons e t ih => cases e <;> simp [busOps, ih]

theorem sentBytes_map_recv (l : List Nat) : sentBytes (l.map Event.recv) = [] := by
  induction l with
  | nil => rfl
  | cons b t ih => simpa [sentBytes] using ih

theorem storeWrites_map_recv (l : List Nat) : storeWrites (l.map Event.recv) = [] := by
  induction l with
  | nil => rfl
  | cons b t ih => simpa [storeWrites] using ih

theorem newSent_of_trace (w w2 : World) (evs : List Event) (h : w2.trace = w.trace ++ evs) :
    newSent w w2 = sentBytes evs := by
  simp [newSent, h, sentBytes_append]

theorem length_eq_five {l : List Nat} (h : l.length = 5) : ∃ a b c d e, l = [a, b, c, d, e] := by
  rcases l with _ | ⟨a, _ | ⟨b, _ | ⟨c, _ | ⟨d, _ | ⟨e, _ | ⟨f, t⟩⟩⟩⟩⟩⟩ <;> simp at h
  exact ⟨a, b, c, d, e, rfl⟩

/-! ## Lemmas: bit macros -/

theorem testBit_SET_BIT (r n i : Nat) (hi : i < 8) :
    (SET_BIT r n).testBit i = (r.testBit i || decide (n = i)) := by
  have h : (256 : Nat) = 2 ^ 8 := rfl
  unfold SET_BIT
  rw [h, Nat.testBit_mod_two_pow, Nat.testBit_or, Nat.one_shiftLeft, Nat.testBit_two_pow]
  simp [hi]

theorem testBit_CLEAR_BIT (r n i : Nat) (hi : i < 8) :
    (CLEAR_BIT r n).testBit i = (r.testBit i && !decide (n = i)) := by
  have h : (256 : Nat) = 2 ^ 8 := rfl
  have h2 : (0xFFFF : Nat) = 2 ^ 16 - 1 := rfl
  have h3 : i < 16 := by omega
  unfold CLEAR_BIT
  rw [h, h2, Nat.testBit_mod_two_pow, Nat.testBit_and, Nat.testBit_xor, Nat.one_shiftLeft,
    Nat.testBit_two_pow, Nat.testBit_two_pow_sub_one]
  simp [hi, h3]

/-! ## Lemmas: serial input -/

theorem awaitLoop_spec (x : Nat) (junk rest : List Nat) (hx : x ∉ junk) (w : World) :
    awaitLoop x (junk ++ x :: rest) w =
      some { w with rx := rest, trace := w.trace ++ (junk ++ [x]).map Event.recv } := by
  induction junk generalizing w with
  | nil => simp [awaitLoop]
  | cons b t ih =>
    have hb : b ≠ x := fun h => hx (by simp [h])
    have ht : x ∉ t := fun h => hx (by simp [h])
    simp [awaitLoop, hb, ih ht]

theorem awaitByte_spec (x : Nat) (junk rest : List Nat) (hx : x ∉ junk) (w : World)
    (hrx : w.rx = junk ++ x :: rest) :
    awaitByte x w =
      some { w with rx := rest, trace := w.trace ++ (junk ++ [x]).map Event.recv } := by
  unfold awaitByte
  rw [hrx]
  exact awaitLoop_spec x junk rest hx w

/-! ## Lemmas: the store driver only extends the trace -/

theorem EEPROM_readByte_frame (dev : TwiDevice) (a : Nat) (w : World) :
    ∃ evs, (EEPROM_readByte dev a w).2.2 = { w with trace := w.trace ++ evs } ∧
      sentBytes evs = [] ∧ storeWrites evs = [] := by
  unfold EEPROM_readByte
  simp only [TWI_start, TWI_write, TWI_stop, TWI_readWithNACK, List.append_assoc]
  split_ifs <;> exact ⟨_, rfl, rfl, rfl⟩

theorem EEPROM_writeByte_frame (dev : TwiDevice) (a d : Nat) (w : World) :
    ∃ evs, (EEPROM_writeByte dev a d w).2 =
        { w with trace := w.trace ++ Event.eepromWrite a d :: evs } ∧
      sentBytes evs = [] ∧ storeWrites evs = [] := by
  unfold EEPROM_writeByte
  simp only [TWI_start, TWI_write, TWI_stop, List.append_assoc, List.singleton_append]
  split_ifs <;> exact ⟨_, rfl, rfl, rfl⟩

theorem reloadPasswordLoop_frame (dev : TwiDevice) (is : List Nat) (w : World) :
    ∃ evs S, reloadPasswordLoop dev is w = { w with trace := w.trace ++ evs, g_eeprom := S } ∧
      S.length = w.g_eeprom.length ∧ sentBytes evs = [] ∧ storeWrites evs = [] := by
  induction is generalizing w with
  | nil => exact ⟨[], w.g_eeprom, by simp [reloadPasswordLoop], rfl, rfl, rfl⟩
  | cons i t ih =>
    obtain ⟨e1, h1, hs1, hw1⟩ := EEPROM_readByte_frame dev ((eeprom_addr + i) % 65536) w
    unfold reloadPasswordLoop
    simp only
    rw [h1]
    cases (EEPROM_readByte dev ((eeprom_addr + i) % 65536) w).2.1 with
    | none =>
      obtain ⟨e2, S, h2, hl2, hs2, hw2⟩ := ih { w with trace := w.trace ++ e1 }
      refine ⟨e1 ++ e2, S, ?_, hl2, ?_, ?_⟩
      · simp only [h2, List.append_assoc]
      · simp [sentBytes_append, hs1, hs2]
      · simp [storeWrites_append, hw1, hw2]
    | some d =>
      obtain ⟨e2, S, h2, hl2, hs2, hw2⟩ :=
        ih { w with trace := w.trace ++ e1, g_eeprom := w.g_eeprom.set i d }
      refine ⟨e1 ++ e2, S, ?_, ?_, ?_, ?_⟩
      · simp only [h2, List.append_assoc]
      · simpa using hl2
      · simp [sentBytes_append, hs1, hs2]
      · simp [storeWrites_append, hw1, hw2]

theorem writePasswordLoop_frame (dev : TwiDevice) (is : List Nat) (w : World) :
    ∃ evs, writePasswordLoop dev is w = { w with trace := w.trace ++ evs } ∧
      sentBytes evs = [] ∧
      storeWrites evs = is.map (fun i => ((eeprom_addr + i) % 65536, w.g_eeprom.getD i 0)) := by
  induction is generalizing w with
  | nil => exact ⟨[], by simp [writePasswordLoop], rfl, rfl⟩
  | cons i t ih =>
    obtain ⟨e1, h1, hs1, hw1⟩ :=
      EEPROM_writeByte_frame dev ((eeprom_addr + i) % 65536) (w.g_eeprom.getD i 0) w
    unfold writePasswordLoop
    rw [h1]
    obtain ⟨e2, h2, hs2, hw2⟩ := ih
      { w with trace := w.trace ++ Event.eepromWrite ((eeprom_addr + i) % 65536) (w.g_eeprom.getD i 0) :: e1 }
    refine ⟨Event.eepromWrite ((eeprom_addr + i) % 65536) (w.g_eeprom.getD i 0) :: e1 ++ e2,
      ?_, ?_, ?_⟩
    · simp only [h2, List.append_assoc, List.cons_append]
    · rw [sentBytes_append, hs2]
      simp only [sentBytes, hs1, List.append_nil]
    · rw [storeWrites_append, hw2]
      simp only [storeWrites, hw1, List.map_cons, List.singleton_append]

/-! ## Lemmas: the loops of the state functions -/

theorem receivePasswordLoop_spec (a b c d e : Nat) (rest chk : List Nat) (w : World)
    (hchk : chk.length = 5) (hrx : w.rx = [a, b, c, d, e] ++ rest) :
    receivePasswordLoop (List.range PASSWORD_SIZE) chk w =
      some ([a, b, c, d, e],
        { w with rx := rest, trace := w.trace ++ [a, b, c, d, e].map Event.recv }) := by
  obtain ⟨p, q, r, s, t, rfl⟩ := length_eq_five hchk
  have hr : List.range PASSWORD_SIZE = [0, 1, 2, 3, 4] := rfl
  simp [hr, receivePasswordLoop, UART_receiveByte, hrx]

theorem setNewPasswordLoop_spec (a b c d e : Nat) (rest : List Nat) (w : World)
    (hlen : w.g_eeprom.length = 5) (hrx : w.rx = [a, b, c, d, e] ++ rest) :
    setNewPasswordLoop (List.range PASSWORD_SIZE) w =
      some { w with rx := rest, trace := w.trace ++ [a, b, c, d, e].map Event.recv,
                    g_eeprom := [a, b, c, d, e] } := by
  obtain ⟨p, q, r, s, t, hg⟩ := length_eq_five hlen
  have hr : List.range PASSWORD_SIZE = [0, 1, 2, 3, 4] := rfl
  simp [hr, setNewPasswordLoop, UART_receiveByte, hrx, hg]

theorem comparePasswordLoop_fst (chk is : List Nat) (m : Nat) (w : World)
    (h : m + is.length < 256) :
    (comparePasswordLoop chk is m w).1 =
      m + (is.filter (fun i => decide (chk.getD i 0 ≠ w.g_eeprom.getD i 0))).length := by
  induction is generalizing m w with
  | nil => simp [comparePasswordLoop]
  | cons i t ih =>
    simp only [List.length_cons] at h
    rw [comparePasswordLoop]
    simp only
    rw [ih _ _ (by split_ifs <;> omega)]
    simp only [List.filter_cons, decide_eq_true_eq]
    split_ifs
    · simp only [List.length_cons]
      omega
    · rfl

theorem comparePasswordLoop_snd (chk is : List Nat) (m : Nat) (w : World) :
    ∃ pa, (comparePasswordLoop chk is m w).2 = { w with PORTA := pa } := by
  induction is generalizing m w with
  | nil => exact ⟨w.PORTA, rfl⟩
  | cons i t ih =>
    unfold comparePasswordLoop
    simp only
    obtain ⟨pa, h⟩ := ih (if chk.getD i 0 ≠ w.g_eeprom.getD i 0 then (m + 1) % 256 else m)
      { w with PORTA := SET_BIT w.PORTA (7 - i) }
    exact ⟨pa, by rw [h]⟩

theorem checkNewPasswordLoop_spec (a b c d e : Nat) (rest : List Nat) (w : World)
    (hrx : w.rx = [a, b, c, d, e] ++ rest) :
    checkNewPasswordLoop (List.range PASSWORD_SIZE) 0 w =
      some (mismatchCount [a, b, c, d, e] w.g_eeprom,
        { w with rx := rest, trace := w.trace ++ [a, b, c, d, e].map Event.recv }) := by
  have hr : List.range PASSWORD_SIZE = [0, 1, 2, 3, 4] := rfl
  simp only [hr, mismatchCount, checkNewPasswordLoop, UART_receiveByte, hrx, List.cons_append,
    List.nil_append, List.filter_cons, List.filter_nil, List.append_assoc, List.map_cons,
    List.map_nil, decide_eq_true_eq]
  refine congrArg some (Prod.ext ?_ rfl)
  simp only [List.getD_cons_zero, List.getD_cons_succ]
  split_ifs <;> rfl

theorem mismatchCount_eq_zero_iff (E S : List Nat) (hE : E.length = 5) (hS : S.length = 5) :
    mismatchCount E S = 0 ↔ E = S := by
  obtain ⟨a, b, c, d, e, rfl⟩ := length_eq_five hE
  obtain ⟨p, q, r, s, t, rfl⟩ := length_eq_five hS
  have hr : List.range PASSWORD_SIZE = [0, 1, 2, 3, 4] := rfl
  simp [mismatchCount, hr, List.filter_eq_nil_iff]

theorem mismatchCount_le (E S : List Nat) : mismatchCount E S ≤ 5 := by
  unfold mismatchCount
  exact le_trans (List.length_filter_le _ _) (by simp [PASSWORD_SIZE])

theorem receiveAndCompare_spec (dev : TwiDevice) (w : World) (junk E rest : List Nat) (key : Nat)
    (hj : HMI_ECU_READY ∉ junk) (hE : E.length = 5) (hlen : w.g_eeprom.length = 5)
    (hrx : w.rx = roundInput junk E key ++ rest) :
    ∃ bus S pa,
      receiveAndCompare dev w = some (mismatchCount E S, key,
        { w with rx := rest,
                 trace := w.trace ++ ((junk ++ HMI_ECU_READY :: E).map Event.recv ++
                   (bus ++ [Event.recv key])),
                 g_eeprom := S, PORTA := pa }) ∧
      S.length = 5 ∧ sentBytes bus = [] ∧ storeWrites bus = [] := by
  obtain ⟨a, b, c, d, e, rfl⟩ := length_eq_five hE
  have hrx1 : w.rx = junk ++ HMI_ECU_READY :: ([a, b, c, d, e] ++ key :: rest) := by
    simp [hrx, roundInput]
  have h1 := awaitByte_spec HMI_ECU_READY junk ([a, b, c, d, e] ++ key :: rest) hj w hrx1
  have h2 := receivePasswordLoop_spec a b c d e (key :: rest) (List.replicate PASSWORD_SIZE 0)
    { w with rx := [a, b, c, d, e] ++ key :: rest,
             trace := w.trace ++ (junk ++ [HMI_ECU_READY]).map Event.recv } (by simp [PASSWORD_SIZE]) rfl
  obtain ⟨bus, S, h3, hS, hs3, hw3⟩ := reloadPasswordLoop_frame dev (List.range PASSWORD_SIZE)
    { w with rx := key :: rest,
             trace := w.trace ++ (junk ++ [HMI_ECU_READY]).map Event.recv ++ [a, b, c, d, e].map Event.recv }
  obtain ⟨pa, h4⟩ := comparePasswordLoop_snd [a, b, c, d, e] (List.range PASSWORD_SIZE) 0
    { w with rx := key :: rest,
             trace := w.trace ++ (junk ++ [HMI_ECU_READY]).map Event.recv ++ [a, b, c, d, e].map Event.recv ++ bus,
             g_eeprom := S }
  have h5 := comparePasswordLoop_fst [a, b, c, d, e] (List.range PASSWORD_SIZE) 0
    { w with rx := key :: rest,
             trace := w.trace ++ (junk ++ [HMI_ECU_READY]).map Event.recv ++ [a, b, c, d, e].map Event.recv ++ bus,
             g_eeprom := S } (by simp [PASSWORD_SIZE])
  refine ⟨bus, S, pa, ?_, by simpa [hlen] using hS, hs3, hw3⟩
  unfold receiveAndCompare
  rw [h1]
  simp only
  rw [h2]
  simp only
  rw [h3]
  simp only
  rw [h4, h5]
  simp [UART_receiveByte, mismatchCount]

theorem Control_receiveAndCheckPassword_spec (dev : TwiDevice) (w : World)
    (junk E rest : List Nat) (key : Nat)
    (hj : HMI_ECU_READY ∉ junk) (hE : E.length = 5) (hlen : w.g_eeprom.length = 5)
    (hrx : w.rx = roundInput junk E key ++ rest) :
    ∃ bus S pa,
      Control_receiveAndCheckPassword dev w = some (verdict (mismatchCount E S) key
        { w with rx := rest,
                 trace := w.trace ++ ((junk ++ HMI_ECU_READY :: E).map Event.recv ++
                   (bus ++ [Event.recv key])),
                 g_eeprom := S, PORTA := pa }) ∧
      S.length = 5 ∧ sentBytes bus = [] ∧ storeWrites bus = [] := by
  obtain ⟨bus, S, pa, h, hS, hs, hw⟩ := receiveAndCompare_spec dev w junk E rest key hj hE hlen hrx
  exact ⟨bus, S, pa, by simp [Control_receiveAndCheckPassword, h], hS, hs, hw⟩

theorem testBit_mod_256 (x i : Nat) (hi : i < 8) : (x % 256).testBit i = x.testBit i := by
  have h : (256 : Nat) = 2 ^ 8 := rfl
  rw [h, Nat.testBit_mod_two_pow]
  simp [hi]

theorem TIMER1_init_started (w : World) : schedulerStarted (TIMER1_init Timer1_Config w) := by
  have e1 : (TIMER1_init Timer1_Config w).TCCR1B =
      (((((CLEAR_BIT w.TCCR1B WGM13) &&& 0xF7) ||| (1 <<< 3)) % 256 &&& 0xF8) ||| 5) % 256 := rfl
  have e2 : (TIMER1_init Timer1_Config w).TIMSK = SET_BIT w.TIMSK OCIE1A := rfl
  have e3 : (TIMER1_init Timer1_Config w).TCNT1 = 0 := rfl
  have e4 : (TIMER1_init Timer1_Config w).OCR1A = 39063 := rfl
  have t2 : Nat.testBit 5 2 = true := by decide
  have t1 : Nat.testBit 5 1 = false := by decide
  have t0 : Nat.testBit 5 0 = true := by decide
  have t3 : Nat.testBit 5 3 = false := by decide
  have f2 : Nat.testBit 0xF8 2 = false := by decide
  have f1 : Nat.testBit 0xF8 1 = false := by decide
  have f0 : Nat.testBit 0xF8 0 = false := by decide
  have f3 : Nat.testBit 0xF8 3 = true := by decide
  have g3 : Nat.testBit (1 <<< 3) 3 = true := by decide
  unfold schedulerStarted
  rw [e1, e2, e3, e4]
  refine ⟨?_, ?_, ?_, ?_, rfl, rfl, ?_⟩
  · rw [testBit_mod_256 _ _ (by decide), Nat.testBit_or, Nat.testBit_and, f2, t2]; simp
  · rw [testBit_mod_256 _ _ (by decide), Nat.testBit_or, Nat.testBit_and, f1, t1]; simp
  · rw [testBit_mod_256 _ _ (by decide), Nat.testBit_or, Nat.testBit_and, f0, t0]; simp
  · rw [testBit_mod_256 _ _ (by decide), Nat.testBit_or, Nat.testBit_and, f3, t3,
      testBit_mod_256 _ _ (by decide), Nat.testBit_or, g3]; simp
  · rw [testBit_SET_BIT _ _ _ (by decide)]; simp

theorem testBit_SET_BIT_self (r n : Nat) (hn : n < 8) : (SET_BIT r n).testBit n = true := by
  rw [testBit_SET_BIT r n n hn]; simp

theorem testBit_SET_BIT_ne (r n i : Nat) (hi : i < 8) (h : n ≠ i) :
    (SET_BIT r n).testBit i = r.testBit i := by
  rw [testBit_SET_BIT r n i hi]; simp [h]

theorem testBit_CLEAR_BIT_self (r n : Nat) (hn : n < 8) : (CLEAR_BIT r n).testBit n = false := by
  rw [testBit_CLEAR_BIT r n n hn]; simp

theorem testBit_CLEAR_BIT_ne (r n i : Nat) (hi : i < 8) (h : n ≠ i) :
    (CLEAR_BIT r n).testBit i = r.testBit i := by
  rw [testBit_CLEAR_BIT r n i hi]; simp [h]

theorem motorForward_clockwise (w : World) : motorForward (motorRotateClockwise w).PORTB := by
  refine ⟨?_, ?_, ?_⟩
  · show (CLEAR_BIT (SET_BIT (SET_BIT w.PORTB 2) 0) 1).testBit 2 = true
    rw [testBit_CLEAR_BIT_ne _ _ _ (by decide) (by decide),
      testBit_SET_BIT_ne _ _ _ (by decide) (by decide), testBit_SET_BIT_self _ _ (by decide)]
  · show (CLEAR_BIT (SET_BIT (SET_BIT w.PORTB 2) 0) 1).testBit 0 = true
    rw [testBit_CLEAR_BIT_ne _ _ _ (by decide) (by decide), testBit_SET_BIT_self _ _ (by decide)]
  · show (CLEAR_BIT (SET_BIT (SET_BIT w.PORTB 2) 0) 1).testBit 1 = false
    rw [testBit_CLEAR_BIT_self _ _ (by decide)]

theorem motorReverse_antiClockwise (w : World) :
    motorReverse (motorRotateAntiClockwise w).PORTB := by
  refine ⟨?_, ?_, ?_⟩
  · show (SET_BIT (CLEAR_BIT (SET_BIT w.PORTB 2) 0) 1).testBit 2 = true
    rw [testBit_SET_BIT_ne _ _ _ (by decide) (by decide),
      testBit_CLEAR_BIT_ne _ _ _ (by decide) (by decide), testBit_SET_BIT_self _ _ (by decide)]
  · show (SET_BIT (CLEAR_BIT (SET_BIT w.PORTB 2) 0) 1).testBit 0 = false
    rw [testBit_SET_BIT_ne _ _ _ (by decide) (by decide), testBit_CLEAR_BIT_self _ _ (by decide)]
  · show (SET_BIT (CLEAR_BIT (SET_BIT w.PORTB 2) 0) 1).testBit 1 = true
    rw [testBit_SET_BIT_self _ _ (by decide)]

theorem motorStopped_stop (w : World) : motorStopped (motorStop w).PORTB := by
  refine ⟨?_, ?_, ?_⟩
  · show (CLEAR_BIT (CLEAR_BIT (CLEAR_BIT w.PORTB 2) 0) 1).testBit 2 = false
    rw [testBit_CLEAR_BIT_ne _ _ _ (by decide) (by decide),
      testBit_CLEAR_BIT_ne _ _ _ (by decide) (by decide), testBit_CLEAR_BIT_self _ _ (by decide)]
  · show (CLEAR_BIT (CLEAR_BIT (CLEAR_BIT w.PORTB 2) 0) 1).testBit 0 = false
    rw [testBit_CLEAR_BIT_ne _ _ _ (by decide) (by decide), testBit_CLEAR_BIT_self _ _ (by decide)]
  · show (CLEAR_BIT (CLEAR_BIT (CLEAR_BIT w.PORTB 2) 0) 1).testBit 1 = false
    rw [testBit_CLEAR_BIT_self _ _ (by decide)]

theorem buzzer_motorRotateAntiClockwise (w : World) :
    (motorRotateAntiClockwise w).PORTB.testBit BUZZER = w.PORTB.testBit BUZZER := by
  show (SET_BIT (CLEAR_BIT (SET_BIT w.PORTB 2) 0) 1).testBit 7 = w.PORTB.testBit 7
  rw [testBit_SET_BIT_ne _ _ _ (by decide) (by decide),
    testBit_CLEAR_BIT_ne _ _ _ (by decide) (by decide),
    testBit_SET_BIT_ne _ _ _ (by decide) (by decide)]

theorem buzzer_motorStop (w : World) :
    (motorStop w).PORTB.testBit BUZZER = w.PORTB.testBit BUZZER := by
  show (CLEAR_BIT (CLEAR_BIT (CLEAR_BIT w.PORTB 2) 0) 1).testBit 7 = w.PORTB.testBit 7
  rw [testBit_CLEAR_BIT_ne _ _ _ (by decide) (by decide),
    testBit_CLEAR_BIT_ne _ _ _ (by decide) (by decide),
    testBit_CLEAR_BIT_ne _ _ _ (by decide) (by decide)]

theorem buzzer_motorRotateClockwise (w : World) :
    (motorRotateClockwise w).PORTB.testBit BUZZER = w.PORTB.testBit BUZZER := by
  show (CLEAR_BIT (SET_BIT (SET_BIT w.PORTB 2) 0) 1).testBit 7 = w.PORTB.testBit 7
  rw [testBit_CLEAR_BIT_ne _ _ _ (by decide) (by decide),
    testBit_SET_BIT_ne _ _ _ (by decide) (by decide),
    testBit_SET_BIT_ne _ _ _ (by decide) (by decide)]

theorem buzzerOn_buzzerON (w : World) : buzzerOn (buzzerON w).PORTB :=
  testBit_SET_BIT_self w.PORTB 7 (by decide)

theorem not_buzzerOn_buzzerOFF (w : World) : ¬ buzzerOn (buzzerOFF w).PORTB := by
  have h : (buzzerOFF w).PORTB.testBit BUZZER = false := testBit_CLEAR_BIT_self w.PORTB 7 (by decide)
  simp [buzzerOn, h]

theorem motorBits_buzzerOFF (w : World) (i : Nat) (hi : i < 7) :
    (buzzerOFF w).PORTB.testBit i = w.PORTB.testBit i :=
  testBit_CLEAR_BIT_ne w.PORTB 7 i (by omega) (by omega)

theorem motorBits_buzzerON (w : World) (i : Nat) (hi : i < 7) :
    (buzzerON w).PORTB.testBit i = w.PORTB.testBit i :=
  testBit_SET_BIT_ne w.PORTB 7 i (by omega) (by omega)

theorem TIMER1_DeInit_stopped (w : World) : schedulerStopped (TIMER1_DeInit w) := by
  refine ⟨rfl, rfl, rfl, rfl, ?_, ?_, ?_⟩
  · show (CLEAR_BIT (CLEAR_BIT (CLEAR_BIT w.TIMSK 4) 3) 2).testBit 4 = false
    rw [testBit_CLEAR_BIT_ne _ _ _ (by decide) (by decide),
      testBit_CLEAR_BIT_ne _ _ _ (by decide) (by decide), testBit_CLEAR_BIT_self _ _ (by decide)]
  · show (CLEAR_BIT (CLEAR_BIT (CLEAR_BIT w.TIMSK 4) 3) 2).testBit 3 = false
    rw [testBit_CLEAR_BIT_ne _ _ _ (by decide) (by decide), testBit_CLEAR_BIT_self _ _ (by decide)]
  · show (CLEAR_BIT (CLEAR_BIT (CLEAR_BIT w.TIMSK 4) 3) 2).testBit 2 = false
    rw [testBit_CLEAR_BIT_self _ _ (by decide)]

/-! ## Lemmas: the verdict -/

theorem verdict_wrong (m key : Nat) (w : World) (hm : m ≠ 0) (h4 : (w.trial + 1) % 256 ≠ 4) :
    verdict m key w =
      { w with g_state := 1, trial := (w.trial + 1) % 256, g_functionID := 3,
               trace := w.trace ++ [Event.send WRONG_PASSWORD] } := by
  simp [verdict, hm, h4, UART_sendByte]

theorem verdict_thief (m key : Nat) (w : World) (hm : m ≠ 0) (h4 : (w.trial + 1) % 256 = 4) :
    verdict m key w =
      { TIMER1_init Timer1_Config (buzzerON (UART_sendByte THIEF
          { w with g_state := 1, trial := (w.trial + 1) % 256 })) with g_functionID := 3 } := by
  simp [verdict, hm, h4]

theorem verdict_open (w : World) :
    verdict 0 OPEN_DOOR w =
      TIMER1_init Timer1_Config (UART_sendByte DOOR_UNLOCKING (motorRotateClockwise
        { UART_sendByte CORRECT_PASSWORD w with g_state := 0, trial := 1 })) := by
  simp [verdict, OPEN_DOOR, CHANGE_PASSWORD]

theorem verdict_change (w : World) :
    verdict 0 CHANGE_PASSWORD w =
      { w with g_state := 0, trial := 1, g_functionID := 1,
               trace := w.trace ++ [Event.send CORRECT_PASSWORD] } := by
  simp [verdict, OPEN_DOOR, CHANGE_PASSWORD, UART_sendByte]

theorem verdict_other (key : Nat) (w : World) (ho : key ≠ OPEN_DOOR)
    (hc : key ≠ CHANGE_PASSWORD) :
    verdict 0 key w =
      { w with g_state := 0, trial := 1, trace := w.trace ++ [Event.send CORRECT_PASSWORD] } := by
  simp [verdict, ho, hc, UART_sendByte]

theorem verdict_trace (m key : Nat) (w : World) :
    (verdict m key w).trace = w.trace ++
      (if m = 0 then
        (if key = OPEN_DOOR then [Event.send CORRECT_PASSWORD, Event.send DOOR_UNLOCKING]
         else [Event.send CORRECT_PASSWORD])
       else if (w.trial + 1) % 256 = 4 then [Event.send THIEF]
       else [Event.send WRONG_PASSWORD]) := by
  by_cases hm : m = 0
  · subst hm
    by_cases ho : key = OPEN_DOOR
    · subst ho
      rw [verdict_open, if_pos rfl, if_pos rfl]
      show (w.trace ++ [Event.send CORRECT_PASSWORD]) ++ [Event.send DOOR_UNLOCKING] = _
      rw [List.append_assoc]; rfl
    · by_cases hc : key = CHANGE_PASSWORD
      · subst hc
        rw [verdict_change, if_pos rfl, if_neg ho]
      · rw [verdict_other key w ho hc, if_pos rfl, if_neg ho]
  · by_cases h4 : (w.trial + 1) % 256 = 4
    · rw [verdict_thief m key w hm h4, if_neg hm, if_pos h4]; rfl
    · rw [verdict_wrong m key w hm h4, if_neg hm, if_neg h4]

theorem verdict_g_eeprom (m key : Nat) (w : World) : (verdict m key w).g_eeprom = w.g_eeprom := by
  by_cases hm : m = 0
  · subst hm
    by_cases ho : key = OPEN_DOOR
    · subst ho; rw [verdict_open]; rfl
    · by_cases hc : key = CHANGE_PASSWORD
      · subst hc; rw [verdict_change]
      · rw [verdict_other key w ho hc]
  · by_cases h4 : (w.trial + 1) % 256 = 4
    · rw [verdict_thief m key w hm h4]; rfl
    · rw [verdict_wrong m key w hm h4]

theorem verdict_rx (m key : Nat) (w : World) : (verdict m key w).rx = w.rx := by
  by_cases hm : m = 0
  · subst hm
    by_cases ho : key = OPEN_DOOR
    · subst ho; rw [verdict_open]; rfl
    · by_cases hc : key = CHANGE_PASSWORD
      · subst hc; rw [verdict_change]
      · rw [verdict_other key w ho hc]
  · by_cases h4 : (w.trial + 1) % 256 = 4
    · rw [verdict_thief m key w hm h4]; rfl
    · rw [verdict_wrong m key w hm h4]

theorem newSent_verdict (w w1 : World) (pre : List Event) (m key : Nat)
    (h : w1.trace = w.trace ++ pre) (hp : sentBytes pre = []) :
    newSent w (verdict m key w1) =
      (if m = 0 then (if key = OPEN_DOOR then [CORRECT_PASSWORD, DOOR_UNLOCKING]
                      else [CORRECT_PASSWORD])
       else if (w1.trial + 1) % 256 = 4 then [THIEF] else [WRONG_PASSWORD]) := by
  rw [newSent_of_trace w _ _ (by rw [verdict_trace, h, List.append_assoc]), sentBytes_append, hp]
  split_ifs <;> rfl

/-! ## Lemmas: one round of `Control_receiveAndCheckPassword` -/

theorem verdict_count (m key : Nat) (w : World) : (verdict m key w).count = w.count := by
  by_cases hm : m = 0
  · subst hm
    by_cases ho : key = OPEN_DOOR
    · subst ho; rw [verdict_open]; rfl
    · by_cases hc : key = CHANGE_PASSWORD
      · subst hc; rw [verdict_change]
      · rw [verdict_other key w ho hc]
  · by_cases h4 : (w.trial + 1) % 256 = 4
    · rw [verdict_thief m key w hm h4]; rfl
    · rw [verdict_wrong m key w hm h4]

theorem round_frame (dev : TwiDevice) (w : World) (junk E rest : List Nat) (key : Nat)
    (hj : HMI_ECU_READY ∉ junk) (hE : E.length = 5) (hlen : w.g_eeprom.length = 5)
    (hrx : w.rx = roundInput junk E key ++ rest) :
    ∃ W, Control_receiveAndCheckPassword dev w =
        some (verdict (mismatchCount E W.g_eeprom) key W) ∧
      W.g_eeprom.length = 5 ∧ W.rx = rest ∧ W.trial = w.trial ∧ W.count = w.count ∧
      W.g_functionID = w.g_functionID ∧ W.g_state = w.g_state ∧ sameOutputs w W ∧
      ∃ evs, W.trace = w.trace ++ evs ∧ sentBytes evs = [] ∧ storeWrites evs = [] := by
  obtain ⟨bus, S, pa, h, hS, hs, hw⟩ :=
    Control_receiveAndCheckPassword_spec dev w junk E rest key hj hE hlen hrx
  refine ⟨{ w with rx := rest, trace := w.trace ++ ((junk ++ HMI_ECU_READY :: E).map Event.recv ++ (bus ++ [Event.recv key])), g_eeprom := S, PORTA := pa },
    h, hS, rfl, rfl, rfl, rfl, rfl, ⟨rfl, rfl, rfl, rfl, rfl, rfl, rfl⟩, _, rfl, ?_, ?_⟩
  · rw [sentBytes_append, sentBytes_append, sentBytes_map_recv, hs]; rfl
  · rw [storeWrites_append, storeWrites_append, storeWrites_map_recv, hw]; rfl

theorem round_summary (dev : TwiDevice) (w : World) (junk E rest : List Nat) (key : Nat)
    (hj : HMI_ECU_READY ∉ junk) (hE : E.length = 5) (hlen : w.g_eeprom.length = 5)
    (hrx : w.rx = roundInput junk E key ++ rest) :
    ∃ w2, Control_receiveAndCheckPassword dev w = some w2 ∧
      w2.g_eeprom.length = 5 ∧ w2.rx = rest ∧ w2.count = w.count ∧
      (E ≠ w2.g_eeprom →
        w2.trial = (w.trial + 1) % 256 ∧ w2.g_state = 1 ∧ w2.g_functionID = 3 ∧
        ((w.trial + 1) % 256 ≠ 4 → newSent w w2 = [WRONG_PASSWORD] ∧ sameOutputs w w2) ∧
        ((w.trial + 1) % 256 = 4 → newSent w w2 = [THIEF] ∧ buzzerOn w2.PORTB ∧
          schedulerStarted w2 ∧
          ∀ i, i < 7 → w2.PORTB.testBit i = w.PORTB.testBit i)) ∧
      (E = w2.g_eeprom →
        w2.trial = 1 ∧ w2.g_state = 0 ∧
        (key = OPEN_DOOR → newSent w w2 = [CORRECT_PASSWORD, DOOR_UNLOCKING] ∧
          motorForward w2.PORTB ∧ schedulerStarted w2 ∧ w2.g_functionID = w.g_functionID ∧
          w2.PORTB.testBit BUZZER = w.PORTB.testBit BUZZER) ∧
        (key = CHANGE_PASSWORD → newSent w w2 = [CORRECT_PASSWORD] ∧ w2.g_functionID = 1 ∧
          sameOutputs w w2) ∧
        (key ≠ OPEN_DOOR → key ≠ CHANGE_PASSWORD → newSent w w2 = [CORRECT_PASSWORD] ∧
          w2.g_functionID = w.g_functionID ∧ sameOutputs w w2)) := by
  obtain ⟨W, h, hS, hWr, hWtr, hWc, hWf, _, hWo, evs, hWt, hsent, _⟩ :=
    round_frame dev w junk E rest key hj hE hlen hrx
  have hiff := mismatchCount_eq_zero_iff E W.g_eeprom hE hS
  have hWb : W.PORTB = w.PORTB := hWo.1
  have hnew := newSent_verdict w W _ (mismatchCount E W.g_eeprom) key hWt hsent
  refine ⟨_, h, by rw [verdict_g_eeprom, hS], by rw [verdict_rx, hWr], ?_, ?_, ?_⟩
  · rw [verdict_count, hWc]
  · rw [verdict_g_eeprom]
    intro hne
    have hm : mismatchCount E W.g_eeprom ≠ 0 := fun h0 => hne (hiff.mp h0)
    rw [if_neg hm] at hnew
    by_cases h4 : (w.trial + 1) % 256 = 4
    · have h4' : (W.trial + 1) % 256 = 4 := by rw [hWtr]; exact h4
      rw [if_pos h4'] at hnew
      rw [verdict_thief _ _ _ hm h4'] at hnew ⊢
      refine ⟨by rw [← hWtr]; rfl, rfl, rfl, fun hc => absurd h4 hc, fun _ => ⟨hnew, ?_, ?_, ?_⟩⟩
      · exact buzzerOn_buzzerON _
      · exact TIMER1_init_started _
      · intro i hi
        rw [← hWb]
        exact motorBits_buzzerON _ i hi
    · have h4' : (W.trial + 1) % 256 ≠ 4 := by rw [hWtr]; exact h4
      rw [if_neg h4'] at hnew
      rw [verdict_wrong _ _ _ hm h4'] at hnew ⊢
      exact ⟨by rw [← hWtr], rfl, rfl, fun _ => ⟨hnew, hWo⟩, fun hc => absurd hc h4⟩
  · rw [verdict_g_eeprom]
    intro heq
    have hm : mismatchCount E W.g_eeprom = 0 := hiff.mpr heq
    rw [hm] at hnew ⊢
    rw [if_pos rfl] at hnew
    by_cases ho : key = OPEN_DOOR
    · subst ho
      rw [if_pos rfl] at hnew
      rw [verdict_open] at hnew ⊢
      refine ⟨rfl, rfl, fun _ => ⟨hnew, motorForward_clockwise _, TIMER1_init_started _, hWf, ?_⟩,
        fun hc => absurd hc (by decide), fun hc => absurd rfl hc⟩
      rw [← hWb]
      exact buzzer_motorRotateClockwise _
    · rw [if_neg ho] at hnew
      by_cases hc : key = CHANGE_PASSWORD
      · subst hc
        rw [verdict_change] at hnew ⊢
        exact ⟨rfl, rfl, fun h => absurd h ho, fun _ => ⟨hnew, rfl, hWo⟩, fun _ h => absurd rfl h⟩
      · rw [verdict_other key W ho hc] at hnew ⊢
        exact ⟨rfl, rfl, fun h => absurd h ho, fun h => absurd h hc, fun _ _ => ⟨hnew, hWf, hWo⟩⟩

/-! ## Lemmas: the timer callback -/

theorem fire_quiet (w : World)
    (h3 : ¬ ((w.count + 1) % 256 = 3 ∧ w.g_state = 0))
    (h6 : ¬ ((w.count + 1) % 256 = 6 ∧ w.g_state = 0))
    (h12 : ¬ ((w.count + 1) % 256 = 12 ∧ w.g_state = 1)) :
    fireBuzzerOrOpenDoor w = { w with count := (w.count + 1) % 256 } := by
  simp only [fireBuzzerOrOpenDoor, if_neg h3, if_neg h6, if_neg h12]

theorem fire_lock (w : World) (hc : w.count = 2) (hs : w.g_state = 0) :
    fireBuzzerOrOpenDoor w =
      { motorRotateAntiClockwise w with
        count := 3, trace := w.trace ++ [Event.send DOOR_LOCKING] } := by
  simp [fireBuzzerOrOpenDoor, hc, hs, UART_sendByte, motorRotateAntiClockwise]

theorem fire_locked (w : World) (hc : w.count = 5) (hs : w.g_state = 0) :
    fireBuzzerOrOpenDoor w =
      { TIMER1_DeInit (motorStop w) with
        count := 0, g_functionID := 3, trace := w.trace ++ [Event.send DOOR_LOCKED] } := by
  simp [fireBuzzerOrOpenDoor, hc, hs, UART_sendByte, motorStop, TIMER1_DeInit]

theorem fire_unlock (w : World) (hc : w.count = 11) (hs : w.g_state = 1) :
    fireBuzzerOrOpenDoor w =
      { TIMER1_DeInit (buzzerOFF w) with
        count := 0, trace := w.trace ++ [Event.send SYSTEM_UNLOCKED] } := by
  simp [fireBuzzerOrOpenDoor, hc, hs, UART_sendByte, buzzerOFF, TIMER1_DeInit]

theorem fire_trial (w : World) : (fireBuzzerOrOpenDoor w).trial = w.trial := by
  unfold fireBuzzerOrOpenDoor
  simp only
  split_ifs <;> rfl

theorem ticks_trial (n : Nat) (w : World) : (ticks n w).trial = w.trial := by
  induction n with
  | zero => rfl
  | succ k ih => rw [ticks, fire_trial, ih]

theorem ticks_lockout_quiet (w : World) (hs : w.g_state = 1) (hc : w.count = 0) (n : Nat)
    (hn : n ≤ 11) : ticks n w = { w with count := n } := by
  induction n with
  | zero => cases w; simp_all [ticks]
  | succ k ih =>
    rw [ticks, ih (by omega)]
    have e : (k + 1) % 256 = k + 1 := Nat.mod_eq_of_lt (by omega)
    rw [fire_quiet _ (by simp [hs]) (by simp [hs]) (by simp only [e]; omega)]
    simp only [e]

/-! ## Lemmas: setting and confirming a new password -/

theorem Control_setNewPassword_spec (w : World) (junk A rest : List Nat)
    (hj : HMI_ECU_READY ∉ junk) (hA : A.length = 5) (hlen : w.g_eeprom.length = 5)
    (hrx : w.rx = junk ++ HMI_ECU_READY :: (A ++ rest)) :
    ∃ w1, Control_setNewPassword w = some w1 ∧ w1.g_eeprom = A ∧ w1.g_functionID = 2 ∧
      w1.rx = rest ∧ w1.trace = w.trace ++ (junk ++ HMI_ECU_READY :: A).map Event.recv := by
  obtain ⟨a, b, c, d, e, rfl⟩ := length_eq_five hA
  have h1 := awaitByte_spec HMI_ECU_READY junk ([a, b, c, d, e] ++ rest) hj w hrx
  have h2 := setNewPasswordLoop_spec a b c d e rest
    { w with rx := [a, b, c, d, e] ++ rest, trace := w.trace ++ (junk ++ [HMI_ECU_READY]).map Event.recv }
    hlen rfl
  refine ⟨_, by rw [Control_setNewPassword, h1]; simp only; rw [h2], rfl, rfl, rfl, ?_⟩
  simp

theorem Control_checkNewPassword_spec (dev : TwiDevice) (w : World) (junk B rest : List Nat)
    (hj : HMI_ECU_READY ∉ junk) (hB : B.length = 5)
    (hrx : w.rx = junk ++ HMI_ECU_READY :: (B ++ rest)) :
    ∃ w2, Control_checkNewPassword dev w = some w2 ∧ w2.rx = rest ∧ w2.g_eeprom = w.g_eeprom ∧
      (mismatchCount B w.g_eeprom = 0 →
        w2.g_functionID = 3 ∧
        ∃ tail, w2.trace = w.trace ++ ((junk ++ HMI_ECU_READY :: B).map Event.recv ++
            Event.send CORRECT_NEW_PASSWORD :: tail) ∧
          sentBytes tail = [] ∧
          storeWrites tail =
            (List.range PASSWORD_SIZE).map
              (fun i => ((eeprom_addr + i) % 65536, w.g_eeprom.getD i 0)) ++
            [(eeprom_flag, SAVED_PASSWORD)]) ∧
      (mismatchCount B w.g_eeprom ≠ 0 →
        w2.g_functionID = 1 ∧
        w2.trace = w.trace ++ ((junk ++ HMI_ECU_READY :: B).map Event.recv ++
          [Event.send NON_CORRECT_NEW_PASSWORD])) := by
  obtain ⟨a, b, c, d, e, rfl⟩ := length_eq_five hB
  have h1 := awaitByte_spec HMI_ECU_READY junk ([a, b, c, d, e] ++ rest) hj w hrx
  have h2 := checkNewPasswordLoop_spec a b c d e rest
    { w with rx := [a, b, c, d, e] ++ rest, trace := w.trace ++ (junk ++ [HMI_ECU_READY]).map Event.recv }
    rfl
  by_cases hm : mismatchCount [a, b, c, d, e] w.g_eeprom = 0
  · obtain ⟨e1, hw1, hs1, hst1⟩ := writePasswordLoop_frame dev (List.range PASSWORD_SIZE)
      (UART_sendByte CORRECT_NEW_PASSWORD { w with rx := rest, trace := w.trace ++ (junk ++ [HMI_ECU_READY]).map Event.recv ++ [a, b, c, d, e].map Event.recv })
    obtain ⟨e2, hw2, hs2, hst2⟩ := EEPROM_writeByte_frame dev eeprom_flag SAVED_PASSWORD
      (writePasswordLoop dev (List.range PASSWORD_SIZE) (UART_sendByte CORRECT_NEW_PASSWORD { w with rx := rest, trace := w.trace ++ (junk ++ [HMI_ECU_READY]).map Event.recv ++ [a, b, c, d, e].map Event.recv }))
    refine ⟨_, by rw [Control_checkNewPassword, h1]; simp only; rw [h2]; simp only; rw [if_pos hm],
      ?_, ?_, fun _ => ⟨rfl, e1 ++ Event.eepromWrite eeprom_flag SAVED_PASSWORD :: e2, ?_, ?_, ?_⟩,
      fun h => absurd hm h⟩
    · show (EEPROM_writeByte dev eeprom_flag SAVED_PASSWORD _).2.rx = rest
      rw [hw2, hw1]; rfl
    · show (EEPROM_writeByte dev eeprom_flag SAVED_PASSWORD _).2.g_eeprom = w.g_eeprom
      rw [hw2, hw1]; rfl
    · show (EEPROM_writeByte dev eeprom_flag SAVED_PASSWORD _).2.trace = _
      rw [hw2, hw1]
      simp [UART_sendByte]
    · rw [sentBytes_append, hs1]
      simp only [sentBytes, hs2, List.append_nil]
    · rw [storeWrites_append, hst1]
      simp only [storeWrites, hst2]
      rfl
  · refine ⟨_, by rw [Control_checkNewPassword, h1]; simp only; rw [h2]; simp only; rw [if_neg hm],
      ?_, ?_, fun h => absurd h hm, fun _ => ⟨?_, ?_⟩⟩
    · rfl
    · rfl
    · rfl
    · simp [UART_sendByte]

theorem mismatchCount_eq_zero_iff_forall (E S : List Nat) :
    mismatchCount E S = 0 ↔ ∀ i, i < 5 → E.getD i 0 = S.getD i 0 := by
  simp [mismatchCount, List.filter_eq_nil_iff, PASSWORD_SIZE]

/-! ## Lemmas: concrete runs -/

theorem threeWrongEntries_reload (w1 w2 w3 : World)
    (h1 : Control_receiveAndCheckPassword (readOnlyStore [1, 2, 3, 4, 5])
      (awaitCommand (wrongEntry ++ (wrongEntry ++ wrongEntry))) = some w1)
    (h2 : Control_receiveAndCheckPassword (readOnlyStore [1, 2, 3, 4, 5]) w1 = some w2)
    (h3 : Control_receiveAndCheckPassword (readOnlyStore [1, 2, 3, 4, 5]) w2 = some w3) :
    w1.g_eeprom = [1, 2, 3, 4, 5] ∧ w2.g_eeprom = [1, 2, 3, 4, 5] ∧
    w3.g_eeprom = [1, 2, 3, 4, 5] := by
  have e1 : Control_receiveAndCheckPassword (readOnlyStore [1, 2, 3, 4, 5])
      (awaitCommand (wrongEntry ++ (wrongEntry ++ wrongEntry))) =
      rounds (readOnlyStore [1, 2, 3, 4, 5]) 1
        (awaitCommand (wrongEntry ++ (wrongEntry ++ wrongEntry))) := rfl
  have r1 : rounds (readOnlyStore [1, 2, 3, 4, 5]) 1
      (awaitCommand (wrongEntry ++ (wrongEntry ++ wrongEntry))) = some w1 := by rw [← e1, h1]
  have r2 : rounds (readOnlyStore [1, 2, 3, 4, 5]) 2
      (awaitCommand (wrongEntry ++ (wrongEntry ++ wrongEntry))) = some w2 := by
    rw [rounds, r1]; exact h2
  have r3 : rounds (readOnlyStore [1, 2, 3, 4, 5]) 3
      (awaitCommand (wrongEntry ++ (wrongEntry ++ wrongEntry))) = some w3 := by
    rw [rounds, r2]; exact h3
  have g1 : (rounds (readOnlyStore [1, 2, 3, 4, 5]) 1
      (awaitCommand (wrongEntry ++ (wrongEntry ++ wrongEntry)))).map World.g_eeprom =
      some [1, 2, 3, 4, 5] := rfl
  have g2 : (rounds (readOnlyStore [1, 2, 3, 4, 5]) 2
      (awaitCommand (wrongEntry ++ (wrongEntry ++ wrongEntry)))).map World.g_eeprom =
      some [1, 2, 3, 4, 5] := rfl
  have g3 : (rounds (readOnlyStore [1, 2, 3, 4, 5]) 3
      (awaitCommand (wrongEntry ++ (wrongEntry ++ wrongEntry)))).map World.g_eeprom =
      some [1, 2, 3, 4, 5] := rfl
  rw [r1] at g1
  rw [r2] at g2
  rw [r3] at g3
  exact ⟨Option.some.inj g1, Option.some.inj g2, Option.some.inj g3⟩

/-! # Claims -/

/-- Claim C1. In one round of `Control_receiveAndCheckPassword` with entered
credential `E`, the mismatch count computed by the source equals the number of
positions `i` in `0..4` at which `E` differs from the credential `S` that the
round reloads into `g_eeprom`, and `CORRECT_PASSWORD` is sent if and only if that
count is 0, which holds if and only if `E = S` position by position.  With
`S = [1,2,3,4,5]` and `E = [1,2,3,4,6]` the count is exactly 1 and the entry is
rejected, and every reordering of `S` other than `S` itself is rejected. -/
theorem C1_mismatch_count_is_positional (dev : TwiDevice) (w : World)
    (junk E rest : List Nat) (key : Nat)
    (hj : HMI_ECU_READY ∉ junk) (hE : E.length = 5) (hlen : w.g_eeprom.length = 5)
    (hrx : w.rx = roundInput junk E key ++ rest) :
    ∃ m w1 w2,
      receiveAndCompare dev w = some (m, key, w1) ∧
      Control_receiveAndCheckPassword dev w = some w2 ∧
      w2.g_eeprom = w1.g_eeprom ∧
      m = mismatchCount E w2.g_eeprom ∧
      (CORRECT_PASSWORD ∈ newSent w w2 ↔ m = 0) ∧
      (m = 0 ↔ E = w2.g_eeprom) ∧
      (w2.g_eeprom = [1, 2, 3, 4, 5] → E = [1, 2, 3, 4, 6] →
        m = 1 ∧ CORRECT_PASSWORD ∉ newSent w w2) ∧
      (E.Perm w2.g_eeprom → E ≠ w2.g_eeprom → CORRECT_PASSWORD ∉ newSent w w2) := by
  obtain ⟨bus, S, pa, h, hS, hs, _⟩ := receiveAndCompare_spec dev w junk E rest key hj hE hlen hrx
  have hiff := mismatchCount_eq_zero_iff E S hE hS
  have hsent : sentBytes ((junk ++ HMI_ECU_READY :: E).map Event.recv ++
      (bus ++ [Event.recv key])) = [] := by
    rw [sentBytes_append, sentBytes_append, sentBytes_map_recv, hs]; rfl
  have hnew := newSent_verdict w _ _ (mismatchCount E S) key
    (rfl : ({ w with rx := rest,
                     trace := w.trace ++ ((junk ++ HMI_ECU_READY :: E).map Event.recv ++
                       (bus ++ [Event.recv key])),
                     g_eeprom := S, PORTA := pa } : World).trace = _) hsent
  have hmem : CORRECT_PASSWORD ∈ newSent w (verdict (mismatchCount E S) key
      { w with rx := rest,
               trace := w.trace ++ ((junk ++ HMI_ECU_READY :: E).map Event.recv ++
                 (bus ++ [Event.recv key])),
               g_eeprom := S, PORTA := pa }) ↔ mismatchCount E S = 0 := by
    rw [hnew]
    split_ifs <;> simp_all [CORRECT_PASSWORD, THIEF, WRONG_PASSWORD]
  refine ⟨mismatchCount E S, _, _, h, by simp [Control_receiveAndCheckPassword, h], ?_, ?_,
    hmem, ?_, ?_, ?_⟩
  · rw [verdict_g_eeprom]
  · rw [verdict_g_eeprom]
  · rw [verdict_g_eeprom]; exact hiff
  · rw [verdict_g_eeprom]
    intro h1 h2
    have h3 : mismatchCount E S = 1 := by
      have hS' : S = [1, 2, 3, 4, 5] := h1
      rw [hS', h2]; rfl
    exact ⟨h3, fun hc => by rw [hmem.mp hc] at h3; exact absurd h3 (by decide)⟩
  · rw [verdict_g_eeprom]
    intro _ hne hc
    exact hne (hiff.mp (hmem.mp hc))

/-- Witness of C1: stored `1 2 3 4 5`, entered `1 2 3 4 6`; the count is 1 and
`CORRECT_PASSWORD` is not sent. -/
theorem C1_mismatch_count_is_positional_witness :
    HMI_ECU_READY ∉ ([] : List Nat) ∧ [1, 2, 3, 4, 6].length = 5 ∧
    (awaitCommand wrongEntry).g_eeprom.length = 5 ∧
    (awaitCommand wrongEntry).rx = roundInput [] [1, 2, 3, 4, 6] OPEN_DOOR ++ [] ∧
    ∃ w1 w2,
      receiveAndCompare (readOnlyStore [1, 2, 3, 4, 5]) (awaitCommand wrongEntry) =
        some (1, OPEN_DOOR, w1) ∧
      Control_receiveAndCheckPassword (readOnlyStore [1, 2, 3, 4, 5]) (awaitCommand wrongEntry) =
        some w2 ∧
      w2.g_eeprom = [1, 2, 3, 4, 5] ∧ mismatchCount [1, 2, 3, 4, 6] w2.g_eeprom = 1 ∧
      CORRECT_PASSWORD ∉ newSent (awaitCommand wrongEntry) w2 := by
  obtain ⟨m, w1, w2, hrc, hc, _, hm, _, _, hinst, _⟩ :=
    C1_mismatch_count_is_positional (readOnlyStore [1, 2, 3, 4, 5]) (awaitCommand wrongEntry)
      [] [1, 2, 3, 4, 6] [] OPEN_DOOR (by decide) rfl rfl rfl
  have hg : w2.g_eeprom = [1, 2, 3, 4, 5] := by
    have e : (Control_receiveAndCheckPassword (readOnlyStore [1, 2, 3, 4, 5])
        (awaitCommand wrongEntry)).map World.g_eeprom = some [1, 2, 3, 4, 5] := rfl
    rw [hc] at e
    exact Option.some.inj e
  obtain ⟨hm1, hno⟩ := hinst hg rfl
  subst hm1
  exact ⟨by decide, rfl, rfl, rfl, w1, w2, hrc, hc, hg, hm.symm, hno⟩

/-- Claim C2. Starting from a fresh trial counter (`trial = 1`), three consecutive
rounds of `Control_receiveAndCheckPassword` all run to completion, and if all
three verifications fail then the first and the second each reply
`WRONG_PASSWORD` and the third replies `THIEF`, switches the alarm output on and
starts the scheduler: three trials in total. -/
theorem C2_third_failure_replies_thief (dev : TwiDevice) (w0 : World)
    (j1 E1 j2 E2 j3 E3 rest : List Nat) (k1 k2 k3 : Nat)
    (hj1 : HMI_ECU_READY ∉ j1) (hj2 : HMI_ECU_READY ∉ j2) (hj3 : HMI_ECU_READY ∉ j3)
    (hE1 : E1.length = 5) (hE2 : E2.length = 5) (hE3 : E3.length = 5)
    (hlen : w0.g_eeprom.length = 5) (htrial : w0.trial = 1)
    (hrx : w0.rx = roundInput j1 E1 k1 ++ (roundInput j2 E2 k2 ++ (roundInput j3 E3 k3 ++ rest))) :
    ∃ w1 w2 w3,
      Control_receiveAndCheckPassword dev w0 = some w1 ∧
      Control_receiveAndCheckPassword dev w1 = some w2 ∧
      Control_receiveAndCheckPassword dev w2 = some w3 ∧
      (E1 ≠ w1.g_eeprom → E2 ≠ w2.g_eeprom → E3 ≠ w3.g_eeprom →
        newSent w0 w1 = [WRONG_PASSWORD] ∧ newSent w1 w2 = [WRONG_PASSWORD] ∧
        newSent w2 w3 = [THIEF] ∧ buzzerOn w3.PORTB ∧ schedulerStarted w3) := by
  obtain ⟨w1, h1, hl1, hr1, _, hf1, _⟩ := round_summary dev w0 j1 E1 _ k1 hj1 hE1 hlen hrx
  obtain ⟨w2, h2, hl2, hr2, _, hf2, _⟩ := round_summary dev w1 j2 E2 _ k2 hj2 hE2 hl1 hr1
  obtain ⟨w3, h3, _, _, _, hf3, _⟩ := round_summary dev w2 j3 E3 _ k3 hj3 hE3 hl2 hr2
  refine ⟨w1, w2, w3, h1, h2, h3, fun n1 n2 n3 => ?_⟩
  obtain ⟨t1, _, _, a1, _⟩ := hf1 n1
  obtain ⟨t2, _, _, a2, _⟩ := hf2 n2
  obtain ⟨_, _, _, _, a3⟩ := hf3 n3
  rw [htrial] at t1 a1
  rw [t1] at t2 a2
  rw [t2] at a3
  obtain ⟨s3, b3, c3, _⟩ := a3 (by decide)
  exact ⟨(a1 (by decide)).1, (a2 (by decide)).1, s3, b3, c3⟩

/-- Witness of C2: three rounds entering `1 2 3 4 6` against stored `1 2 3 4 5`
all fail; the replies are `WRONG_PASSWORD`, `WRONG_PASSWORD`, `THIEF`. -/
theorem C2_third_failure_replies_thief_witness :
    HMI_ECU_READY ∉ ([] : List Nat) ∧ [1, 2, 3, 4, 6].length = 5 ∧
    (awaitCommand (wrongEntry ++ (wrongEntry ++ wrongEntry))).g_eeprom.length = 5 ∧
    (awaitCommand (wrongEntry ++ (wrongEntry ++ wrongEntry))).trial = 1 ∧
    (awaitCommand (wrongEntry ++ (wrongEntry ++ wrongEntry))).rx =
      roundInput [] [1, 2, 3, 4, 6] OPEN_DOOR ++ (roundInput [] [1, 2, 3, 4, 6] OPEN_DOOR ++
        (roundInput [] [1, 2, 3, 4, 6] OPEN_DOOR ++ [])) ∧
    ∃ w1 w2 w3,
      Control_receiveAndCheckPassword (readOnlyStore [1, 2, 3, 4, 5])
        (awaitCommand (wrongEntry ++ (wrongEntry ++ wrongEntry))) = some w1 ∧
      Control_receiveAndCheckPassword (readOnlyStore [1, 2, 3, 4, 5]) w1 = some w2 ∧
      Control_receiveAndCheckPassword (readOnlyStore [1, 2, 3, 4, 5]) w2 = some w3 ∧
      [1, 2, 3, 4, 6] ≠ w1.g_eeprom ∧ [1, 2, 3, 4, 6] ≠ w2.g_eeprom ∧
      [1, 2, 3, 4, 6] ≠ w3.g_eeprom ∧
      newSent (awaitCommand (wrongEntry ++ (wrongEntry ++ wrongEntry))) w1 = [WRONG_PASSWORD] ∧
      newSent w1 w2 = [WRONG_PASSWORD] ∧
      newSent w2 w3 = [THIEF] ∧ buzzerOn w3.PORTB ∧ schedulerStarted w3 := by
  obtain ⟨w1, w2, w3, h1, h2, h3, himp⟩ :=
    C2_third_failure_replies_thief (readOnlyStore [1, 2, 3, 4, 5])
      (awaitCommand (wrongEntry ++ (wrongEntry ++ wrongEntry)))
      [] [1, 2, 3, 4, 6] [] [1, 2, 3, 4, 6] [] [1, 2, 3, 4, 6] [] OPEN_DOOR OPEN_DOOR OPEN_DOOR
      (by decide) (by decide) (by decide) rfl rfl rfl rfl rfl rfl
  obtain ⟨g1, g2, g3⟩ := threeWrongEntries_reload w1 w2 w3 h1 h2 h3
  have n1 : [1, 2, 3, 4, 6] ≠ w1.g_eeprom := by rw [g1]; decide
  have n2 : [1, 2, 3, 4, 6] ≠ w2.g_eeprom := by rw [g2]; decide
  have n3 : [1, 2, 3, 4, 6] ≠ w3.g_eeprom := by rw [g3]; decide
  exact ⟨by decide, rfl, rfl, rfl, rfl, w1, w2, w3, h1, h2, h3, n1, n2, n3, himp n1 n2 n3⟩

/-- Counterexample to C3 as stated: with `1 2 3 4 5` stored and four consecutive
rounds entering `1 2 3 4 6` from a fresh trial counter, every round fails, the
third failure already replies `THIEF` and switches the alarm on, and the fourth
failure replies `WRONG_PASSWORD`, not `THIEF`. -/
theorem C3_counterexample :
    ∃ w2 w3 w4,
      rounds (readOnlyStore [1, 2, 3, 4, 5]) 2
        (awaitCommand (wrongEntry ++ wrongEntry ++ wrongEntry ++ wrongEntry)) = some w2 ∧
      Control_receiveAndCheckPassword (readOnlyStore [1, 2, 3, 4, 5]) w2 = some w3 ∧
      Control_receiveAndCheckPassword (readOnlyStore [1, 2, 3, 4, 5]) w3 = some w4 ∧
      w2.g_eeprom = [1, 2, 3, 4, 5] ∧ w3.g_eeprom = [1, 2, 3, 4, 5] ∧
      w4.g_eeprom = [1, 2, 3, 4, 5] ∧
      sentBytes w2.trace = [WRONG_PASSWORD, WRONG_PASSWORD] ∧
      newSent w2 w3 = [THIEF] ∧ w3.PORTB.testBit BUZZER = true ∧
      newSent w3 w4 = [WRONG_PASSWORD] :=
  ⟨_, _, _, rfl, rfl, rfl, rfl, rfl, rfl, rfl, rfl, rfl, rfl⟩

/-- Claim C3, amended. For every sequence of 3 consecutive failed verifications
starting from a fresh trial counter, the first two failures do not trigger
lockout (no `THIEF`, motor, alarm and timer registers untouched, the counter going
to 2 and then 3) and the third consecutive failure is the one that replies
`THIEF` and activates the alarm, the counter reaching 4. -/
theorem C3_third_failure_triggers_lockout (dev : TwiDevice) (w0 : World)
    (j1 E1 j2 E2 j3 E3 rest : List Nat) (k1 k2 k3 : Nat)
    (hj1 : HMI_ECU_READY ∉ j1) (hj2 : HMI_ECU_READY ∉ j2) (hj3 : HMI_ECU_READY ∉ j3)
    (hE1 : E1.length = 5) (hE2 : E2.length = 5) (hE3 : E3.length = 5)
    (hlen : w0.g_eeprom.length = 5) (htrial : w0.trial = 1)
    (hrx : w0.rx = roundInput j1 E1 k1 ++ (roundInput j2 E2 k2 ++ (roundInput j3 E3 k3 ++ rest))) :
    ∃ w1 w2 w3,
      Control_receiveAndCheckPassword dev w0 = some w1 ∧
      Control_receiveAndCheckPassword dev w1 = some w2 ∧
      Control_receiveAndCheckPassword dev w2 = some w3 ∧
      (E1 ≠ w1.g_eeprom → E2 ≠ w2.g_eeprom → E3 ≠ w3.g_eeprom →
        (THIEF ∉ newSent w0 w1 ∧ sameOutputs w0 w1 ∧ w1.trial = 2) ∧
        (THIEF ∉ newSent w1 w2 ∧ sameOutputs w1 w2 ∧ w2.trial = 3) ∧
        (newSent w2 w3 = [THIEF] ∧ buzzerOn w3.PORTB ∧ w3.trial = 4)) := by
  obtain ⟨w1, h1, hl1, hr1, _, hf1, _⟩ := round_summary dev w0 j1 E1 _ k1 hj1 hE1 hlen hrx
  obtain ⟨w2, h2, hl2, hr2, _, hf2, _⟩ := round_summary dev w1 j2 E2 _ k2 hj2 hE2 hl1 hr1
  obtain ⟨w3, h3, _, _, _, hf3, _⟩ := round_summary dev w2 j3 E3 _ k3 hj3 hE3 hl2 hr2
  refine ⟨w1, w2, w3, h1, h2, h3, fun n1 n2 n3 => ?_⟩
  obtain ⟨t1, _, _, a1, _⟩ := hf1 n1
  obtain ⟨t2, _, _, a2, _⟩ := hf2 n2
  obtain ⟨t3, _, _, _, a3⟩ := hf3 n3
  rw [htrial] at t1 a1
  rw [t1] at t2 a2
  rw [t2] at a3 t3
  obtain ⟨s1, o1⟩ := a1 (by decide)
  obtain ⟨s2, o2⟩ := a2 (by decide)
  obtain ⟨s3, b3, _, _⟩ := a3 (by decide)
  refine ⟨⟨?_, o1, t1⟩, ⟨?_, o2, t2⟩, s3, b3, t3⟩
  · rw [s1]; decide
  · rw [s2]; decide

/-- Witness of C3 (amended): three rounds entering `1 2 3 4 6` against stored
`1 2 3 4 5` all fail; only the third replies `THIEF` and switches the alarm on. -/
theorem C3_third_failure_triggers_lockout_witness :
    HMI_ECU_READY ∉ ([] : List Nat) ∧ [1, 2, 3, 4, 6].length = 5 ∧
    (awaitCommand (wrongEntry ++ (wrongEntry ++ wrongEntry))).g_eeprom.length = 5 ∧
    (awaitCommand (wrongEntry ++ (wrongEntry ++ wrongEntry))).trial = 1 ∧
    (awaitCommand (wrongEntry ++ (wrongEntry ++ wrongEntry))).rx =
      roundInput [] [1, 2, 3, 4, 6] OPEN_DOOR ++ (roundInput [] [1, 2, 3, 4, 6] OPEN_DOOR ++
        (roundInput [] [1, 2, 3, 4, 6] OPEN_DOOR ++ [])) ∧
    ∃ w1 w2 w3,
      Control_receiveAndCheckPassword (readOnlyStore [1, 2, 3, 4, 5])
        (awaitCommand (wrongEntry ++ (wrongEntry ++ wrongEntry))) = some w1 ∧
      Control_receiveAndCheckPassword (readOnlyStore [1, 2, 3, 4, 5]) w1 = some w2 ∧
      Control_receiveAndCheckPassword (readOnlyStore [1, 2, 3, 4, 5]) w2 = some w3 ∧
      [1, 2, 3, 4, 6] ≠ w1.g_eeprom ∧ [1, 2, 3, 4, 6] ≠ w2.g_eeprom ∧
      [1, 2, 3, 4, 6] ≠ w3.g_eeprom ∧
      (THIEF ∉ newSent (awaitCommand (wrongEntry ++ (wrongEntry ++ wrongEntry))) w1 ∧
        sameOutputs (awaitCommand (wrongEntry ++ (wrongEntry ++ wrongEntry))) w1 ∧
        w1.trial = 2) ∧
      (THIEF ∉ newSent w1 w2 ∧ sameOutputs w1 w2 ∧ w2.trial = 3) ∧
      (newSent w2 w3 = [THIEF] ∧ buzzerOn w3.PORTB ∧ w3.trial = 4) := by
  obtain ⟨w1, w2, w3, h1, h2, h3, himp⟩ :=
    C3_third_failure_triggers_lockout (readOnlyStore [1, 2, 3, 4, 5])
      (awaitCommand (wrongEntry ++ (wrongEntry ++ wrongEntry)))
      [] [1, 2, 3, 4, 6] [] [1, 2, 3, 4, 6] [] [1, 2, 3, 4, 6] [] OPEN_DOOR OPEN_DOOR OPEN_DOOR
      (by decide) (by decide) (by decide) rfl rfl rfl rfl rfl rfl
  obtain ⟨g1, g2, g3⟩ := threeWrongEntries_reload w1 w2 w3 h1 h2 h3
  have n1 : [1, 2, 3, 4, 6] ≠ w1.g_eeprom := by rw [g1]; decide
  have n2 : [1, 2, 3, 4, 6] ≠ w2.g_eeprom := by rw [g2]; decide
  have n3 : [1, 2, 3, 4, 6] ≠ w3.g_eeprom := by rw [g3]; decide
  exact ⟨by decide, rfl, rfl, rfl, rfl, w1, w2, w3, h1, h2, h3, n1, n2, n3, himp n1 n2 n3⟩

/-- Counterexample to C4 as stated: after two failed rounds the trial counter is
3, which is below 4, and the next round, entering `1 2 3 4 6` against stored
`1 2 3 4 5`, replies `THIEF` and not `WRONG_PASSWORD`. -/
theorem C4_counterexample :
    ∃ w2 w3,
      rounds (readOnlyStore [1, 2, 3, 4, 5]) 2
        (awaitCommand (wrongEntry ++ wrongEntry ++ wrongEntry)) = some w2 ∧
      w2.trial = 3 ∧ w2.trial < 4 ∧
      Control_receiveAndCheckPassword (readOnlyStore [1, 2, 3, 4, 5]) w2 = some w3 ∧
      w3.g_eeprom = [1, 2, 3, 4, 5] ∧ [1, 2, 3, 4, 6] ≠ w3.g_eeprom ∧
      newSent w2 w3 = [THIEF] ∧ newSent w2 w3 ≠ [WRONG_PASSWORD] :=
  ⟨_, _, rfl, rfl, by decide, rfl, rfl, by decide, rfl, by decide⟩

/-- Claim C4, amended. For all 5-symbol credentials `A ≠ B` and every
trial-counter value below 3 at the start of the round: with `A` the credential
the round reloads and `B` entered, the round counts exactly one failure (the
trial counter grows by exactly 1 and the failure flag is set), replies exactly
`WRONG_PASSWORD`, and sets the next function to `Control_receiveAndCheckPassword`
(ID 3). -/
theorem C4_wrong_entry_below_three (dev : TwiDevice) (w : World)
    (junk B rest : List Nat) (key : Nat)
    (hj : HMI_ECU_READY ∉ junk) (hB : B.length = 5) (hlen : w.g_eeprom.length = 5)
    (hrx : w.rx = roundInput junk B key ++ rest) (ht : w.trial < 3) :
    ∃ w2, Control_receiveAndCheckPassword dev w = some w2 ∧
      (B ≠ w2.g_eeprom →
        w2.trial = w.trial + 1 ∧ w2.g_state = 1 ∧ newSent w w2 = [WRONG_PASSWORD] ∧
        w2.g_functionID = 3) := by
  obtain ⟨w2, h, _, _, _, hf, _⟩ := round_summary dev w junk B rest key hj hB hlen hrx
  refine ⟨w2, h, fun hne => ?_⟩
  obtain ⟨t, s, f, a, _⟩ := hf hne
  have e : (w.trial + 1) % 256 = w.trial + 1 := Nat.mod_eq_of_lt (by omega)
  rw [e] at t a
  exact ⟨t, s, (a (by omega)).1, f⟩

/-- Witness of C4 (amended): the first failure from the power-up state, entering
`1 2 3 4 6` against stored `1 2 3 4 5`. -/
theorem C4_wrong_entry_below_three_witness :
    HMI_ECU_READY ∉ ([] : List Nat) ∧ [1, 2, 3, 4, 6].length = 5 ∧
    (awaitCommand wrongEntry).g_eeprom.length = 5 ∧
    (awaitCommand wrongEntry).rx = roundInput [] [1, 2, 3, 4, 6] OPEN_DOOR ++ [] ∧
    (awaitCommand wrongEntry).trial < 3 ∧
    ∃ w2, Control_receiveAndCheckPassword (readOnlyStore [1, 2, 3, 4, 5])
        (awaitCommand wrongEntry) = some w2 ∧
      [1, 2, 3, 4, 6] ≠ w2.g_eeprom ∧
      w2.trial = (awaitCommand wrongEntry).trial + 1 ∧ w2.g_state = 1 ∧
      newSent (awaitCommand wrongEntry) w2 = [WRONG_PASSWORD] ∧ w2.g_functionID = 3 := by
  obtain ⟨w2, hc, himp⟩ :=
    C4_wrong_entry_below_three (readOnlyStore [1, 2, 3, 4, 5]) (awaitCommand wrongEntry)
      [] [1, 2, 3, 4, 6] [] OPEN_DOOR (by decide) rfl rfl rfl (by decide)
  have hg : w2.g_eeprom = [1, 2, 3, 4, 5] := by
    have e : (Control_receiveAndCheckPassword (readOnlyStore [1, 2, 3, 4, 5])
        (awaitCommand wrongEntry)).map World.g_eeprom = some [1, 2, 3, 4, 5] := rfl
    rw [hc] at e
    exact Option.some.inj e
  have hne : [1, 2, 3, 4, 6] ≠ w2.g_eeprom := by rw [hg]; decide
  exact ⟨by decide, rfl, rfl, rfl, by decide, w2, hc, hne, himp hne⟩

/-- Claim C5. Whenever the entered credential equals the one the round reloads,
`Control_receiveAndCheckPassword` replies `CORRECT_PASSWORD` first, resets the
trial counter to 1 and clears the failure flag, whatever the trial counter was
before.  With command `OPEN_DOOR` it also drives the motor forward, sends
`DOOR_UNLOCKING` right after `CORRECT_PASSWORD`, starts the scheduler and leaves
the function ID as it was (3 when dispatched as function 3); with command
`CHANGE_PASSWORD` it sets the function ID to 1, sends nothing further and leaves
the motor and alarm port and the Timer1 registers untouched. -/
theorem C5_correct_entry (dev : TwiDevice) (w : World)
    (junk E rest : List Nat) (key : Nat)
    (hj : HMI_ECU_READY ∉ junk) (hE : E.length = 5) (hlen : w.g_eeprom.length = 5)
    (hrx : w.rx = roundInput junk E key ++ rest) :
    ∃ w2, Control_receiveAndCheckPassword dev w = some w2 ∧
      (E = w2.g_eeprom →
        (newSent w w2).head? = some CORRECT_PASSWORD ∧ w2.trial = 1 ∧ w2.g_state = 0 ∧
        (key = OPEN_DOOR →
          motorForward w2.PORTB ∧ newSent w w2 = [CORRECT_PASSWORD, DOOR_UNLOCKING] ∧
          schedulerStarted w2 ∧ w2.g_functionID = w.g_functionID ∧
          (w.g_functionID = 3 → w2.g_functionID = 3)) ∧
        (key = CHANGE_PASSWORD →
          w2.g_functionID = 1 ∧ newSent w w2 = [CORRECT_PASSWORD] ∧ sameOutputs w w2)) := by
  obtain ⟨w2, h, _, _, _, _, hs⟩ := round_summary dev w junk E rest key hj hE hlen hrx
  refine ⟨w2, h, fun heq => ?_⟩
  obtain ⟨t, s, ho, hc, hn⟩ := hs heq
  refine ⟨?_, t, s, fun hk => ?_, fun hk => ?_⟩
  · by_cases hk : key = OPEN_DOOR
    · rw [(ho hk).1]; rfl
    · by_cases hk2 : key = CHANGE_PASSWORD
      · rw [(hc hk2).1]; rfl
      · rw [(hn hk hk2).1]; rfl
  · obtain ⟨s1, m1, t1, f1, _⟩ := ho hk
    exact ⟨m1, s1, t1, f1, fun h3 => by rw [f1, h3]⟩
  · obtain ⟨s1, f1, o1⟩ := hc hk
    exact ⟨f1, s1, o1⟩

/-- Witness of C5: the right entry `1 2 3 4 5` with command `OPEN_DOOR` from
power-up, against stored `1 2 3 4 5`. -/
theorem C5_correct_entry_witness :
    HMI_ECU_READY ∉ ([] : List Nat) ∧ [1, 2, 3, 4, 5].length = 5 ∧
    (awaitCommand rightEntry).g_eeprom.length = 5 ∧
    (awaitCommand rightEntry).rx = roundInput [] [1, 2, 3, 4, 5] OPEN_DOOR ++ [] ∧
    ∃ w2, Control_receiveAndCheckPassword (readOnlyStore [1, 2, 3, 4, 5])
        (awaitCommand rightEntry) = some w2 ∧
      [1, 2, 3, 4, 5] = w2.g_eeprom ∧
      (newSent (awaitCommand rightEntry) w2).head? = some CORRECT_PASSWORD ∧
      w2.trial = 1 ∧ w2.g_state = 0 ∧ motorForward w2.PORTB ∧
      newSent (awaitCommand rightEntry) w2 = [CORRECT_PASSWORD, DOOR_UNLOCKING] ∧
      schedulerStarted w2 ∧ w2.g_functionID = 3 := by
  obtain ⟨w2, hc, himp⟩ :=
    C5_correct_entry (readOnlyStore [1, 2, 3, 4, 5]) (awaitCommand rightEntry)
      [] [1, 2, 3, 4, 5] [] OPEN_DOOR (by decide) rfl rfl rfl
  have hg : w2.g_eeprom = [1, 2, 3, 4, 5] := by
    have e : (Control_receiveAndCheckPassword (readOnlyStore [1, 2, 3, 4, 5])
        (awaitCommand rightEntry)).map World.g_eeprom = some [1, 2, 3, 4, 5] := rfl
    rw [hc] at e
    exact Option.some.inj e
  obtain ⟨h1, h2, h3, ho, _⟩ := himp hg.symm
  obtain ⟨m, s, t, _, f⟩ := ho rfl
  exact ⟨by decide, rfl, rfl, rfl, w2, hc, hg.symm, h1, h2, h3, m, s, t, f rfl⟩

/-- Claim C6. From a state right after a successful `OPEN_DOOR` verification
(failure flag clear, tick count 0, motor forward, `DOOR_UNLOCKING` the last byte
sent), the callback `fireBuzzerOrOpenDoor` only advances the tick count on ticks
1 and 2, on tick 3 reverses the motor and sends `DOOR_LOCKING`, only advances the
tick count on ticks 4 and 5, and on tick 6 stops the motor, sends `DOOR_LOCKED`,
resets the tick count to 0, de-initialises Timer1 and sets the function ID to 3.
The bytes sent are `DOOR_UNLOCKING, DOOR_LOCKING, DOOR_LOCKED`, the motor goes
forward, reverse, stopped, and the alarm output bit never changes. -/
theorem C6_door_timeline (w : World) (s : List Nat)
    (hstate : w.g_state = 0) (hcount : w.count = 0) (hmotor : motorForward w.PORTB)
    (hsent : sentBytes w.trace = s ++ [DOOR_UNLOCKING]) :
    ticks 1 w = { w with count := 1 } ∧
    ticks 2 w = { w with count := 2 } ∧
    ticks 3 w = { motorRotateAntiClockwise w with
                  count := 3, trace := w.trace ++ [Event.send DOOR_LOCKING] } ∧
    ticks 4 w = { motorRotateAntiClockwise w with
                  count := 4, trace := w.trace ++ [Event.send DOOR_LOCKING] } ∧
    ticks 5 w = { motorRotateAntiClockwise w with
                  count := 5, trace := w.trace ++ [Event.send DOOR_LOCKING] } ∧
    ticks 6 w = { TIMER1_DeInit (motorStop (motorRotateAntiClockwise w)) with
                  count := 0, g_functionID := 3,
                  trace := w.trace ++ [Event.send DOOR_LOCKING, Event.send DOOR_LOCKED] } ∧
    (motorForward (ticks 1 w).PORTB ∧ motorForward (ticks 2 w).PORTB) ∧
    (motorReverse (ticks 3 w).PORTB ∧ motorReverse (ticks 4 w).PORTB ∧
      motorReverse (ticks 5 w).PORTB) ∧
    motorStopped (ticks 6 w).PORTB ∧
    (ticks 6 w).count = 0 ∧ schedulerStopped (ticks 6 w) ∧ (ticks 6 w).g_functionID = 3 ∧
    sentBytes (ticks 6 w).trace = s ++ [DOOR_UNLOCKING, DOOR_LOCKING, DOOR_LOCKED] ∧
    (∀ n, n ≤ 6 → (ticks n w).PORTB.testBit BUZZER = w.PORTB.testBit BUZZER) := by
  have e1 : ticks 1 w = { w with count := 1 } := by
    show fireBuzzerOrOpenDoor w = _
    rw [fire_quiet w (by simp [hcount]) (by simp [hcount]) (by simp [hcount]), hcount]
  have e2 : ticks 2 w = { w with count := 2 } := by
    show fireBuzzerOrOpenDoor (ticks 1 w) = _
    rw [e1, fire_quiet _ (by simp) (by simp) (by simp)]
    rfl
  have e3 : ticks 3 w = { motorRotateAntiClockwise w with
      count := 3, trace := w.trace ++ [Event.send DOOR_LOCKING] } := by
    show fireBuzzerOrOpenDoor (ticks 2 w) = _
    rw [e2, fire_lock { w with count := 2 } rfl hstate]; rfl
  have e4 : ticks 4 w = { motorRotateAntiClockwise w with
      count := 4, trace := w.trace ++ [Event.send DOOR_LOCKING] } := by
    show fireBuzzerOrOpenDoor (ticks 3 w) = _
    rw [e3, fire_quiet _ (by simp) (by simp) (by simp)]
    rfl
  have e5 : ticks 5 w = { motorRotateAntiClockwise w with
      count := 5, trace := w.trace ++ [Event.send DOOR_LOCKING] } := by
    show fireBuzzerOrOpenDoor (ticks 4 w) = _
    rw [e4, fire_quiet _ (by simp) (by simp) (by simp)]
    rfl
  have e6 : ticks 6 w = { TIMER1_DeInit (motorStop (motorRotateAntiClockwise w)) with
      count := 0, g_functionID := 3,
      trace := w.trace ++ [Event.send DOOR_LOCKING, Event.send DOOR_LOCKED] } := by
    show fireBuzzerOrOpenDoor (ticks 5 w) = _
    rw [e5, fire_locked { motorRotateAntiClockwise w with count := 5, trace := w.trace ++ [Event.send DOOR_LOCKING] } rfl hstate]
    simp [TIMER1_DeInit, motorStop, motorRotateAntiClockwise]
  have hb3 := buzzer_motorRotateAntiClockwise w
  have hb6 : (motorStop (motorRotateAntiClockwise w)).PORTB.testBit BUZZER =
      w.PORTB.testBit BUZZER := by rw [buzzer_motorStop, hb3]
  refine ⟨e1, e2, e3, e4, e5, e6, ⟨?_, ?_⟩, ⟨?_, ?_, ?_⟩, ?_, ?_, ?_, ?_, ?_, ?_⟩
  · rw [e1]; exact hmotor
  · rw [e2]; exact hmotor
  · rw [e3]; exact motorReverse_antiClockwise w
  · rw [e4]; exact motorReverse_antiClockwise w
  · rw [e5]; exact motorReverse_antiClockwise w
  · rw [e6]; exact motorStopped_stop (motorRotateAntiClockwise w)
  · rw [e6]
  · rw [e6]; exact TIMER1_DeInit_stopped (motorStop (motorRotateAntiClockwise w))
  · rw [e6]
  · rw [e6]
    show sentBytes (w.trace ++ [Event.send DOOR_LOCKING, Event.send DOOR_LOCKED]) = _
    rw [sentBytes_append, hsent, List.append_assoc]; rfl
  · intro n hn
    interval_cases n
    · rfl
    · rw [e1]
    · rw [e2]
    · rw [e3]; exact hb3
    · rw [e4]; exact hb3
    · rw [e5]; exact hb3
    · rw [e6]; exact hb6

/-- Witness of C6: the six ticks following a successful `OPEN_DOOR` round from
power-up; in all, `CORRECT_PASSWORD, DOOR_UNLOCKING, DOOR_LOCKING, DOOR_LOCKED`
are sent. -/
theorem C6_door_timeline_witness :
    afterOpenDoor.g_state = 0 ∧ afterOpenDoor.count = 0 ∧ motorForward afterOpenDoor.PORTB ∧
    sentBytes afterOpenDoor.trace = [CORRECT_PASSWORD] ++ [DOOR_UNLOCKING] ∧
    (motorReverse (ticks 3 afterOpenDoor).PORTB ∧ motorReverse (ticks 4 afterOpenDoor).PORTB ∧
      motorReverse (ticks 5 afterOpenDoor).PORTB) ∧
    motorStopped (ticks 6 afterOpenDoor).PORTB ∧
    (ticks 6 afterOpenDoor).count = 0 ∧ schedulerStopped (ticks 6 afterOpenDoor) ∧
    (ticks 6 afterOpenDoor).g_functionID = 3 ∧
    sentBytes (ticks 6 afterOpenDoor).trace =
      [CORRECT_PASSWORD] ++ [DOOR_UNLOCKING, DOOR_LOCKING, DOOR_LOCKED] :=
  have hm : motorForward afterOpenDoor.PORTB := by
    refine ⟨?_, ?_, ?_⟩ <;> decide
  have h := C6_door_timeline afterOpenDoor [CORRECT_PASSWORD] rfl rfl hm rfl
  ⟨rfl, rfl, hm, rfl, h.2.2.2.2.2.2.2.1, h.2.2.2.2.2.2.2.2.1, h.2.2.2.2.2.2.2.2.2.1,
    h.2.2.2.2.2.2.2.2.2.2.1, h.2.2.2.2.2.2.2.2.2.2.2.1, h.2.2.2.2.2.2.2.2.2.2.2.2.1⟩

/-- Claim C7. From a state right after `THIEF` (failure flag set, tick count 0,
alarm on), each of the ticks 1..11 of `fireBuzzerOrOpenDoor` only advances the
tick count: nothing is sent and the outputs and timer registers keep their
values, also on ticks 3 and 6.  The 12th tick switches the alarm off, sends
`SYSTEM_UNLOCKED` (the only byte sent in the 12 ticks), resets the tick count to
0 and de-initialises Timer1, leaving the motor lines and the function ID as they
were. -/
theorem C7_lockout_timeline (w : World)
    (hstate : w.g_state = 1) (hcount : w.count = 0) (hbuzz : buzzerOn w.PORTB) :
    (∀ n, 1 ≤ n → n ≤ 11 → ticks n w = { w with count := n } ∧ buzzerOn (ticks n w).PORTB) ∧
    ticks 12 w = { TIMER1_DeInit (buzzerOFF w) with
                   count := 0, trace := w.trace ++ [Event.send SYSTEM_UNLOCKED] } ∧
    ¬ buzzerOn (ticks 12 w).PORTB ∧
    (∀ i, i < 7 → (ticks 12 w).PORTB.testBit i = w.PORTB.testBit i) ∧
    newSent w (ticks 12 w) = [SYSTEM_UNLOCKED] ∧
    (ticks 12 w).count = 0 ∧ schedulerStopped (ticks 12 w) ∧
    (ticks 12 w).g_functionID = w.g_functionID := by
  have e11 := ticks_lockout_quiet w hstate hcount 11 (le_refl _)
  have e12 : ticks 12 w = { TIMER1_DeInit (buzzerOFF w) with
      count := 0, trace := w.trace ++ [Event.send SYSTEM_UNLOCKED] } := by
    show fireBuzzerOrOpenDoor (ticks 11 w) = _
    rw [e11, fire_unlock { w with count := 11 } rfl hstate]
    rfl
  refine ⟨fun n _ hn => ?_, e12, ?_, ?_, ?_, ?_, ?_, ?_⟩
  · rw [ticks_lockout_quiet w hstate hcount n hn]
    exact ⟨rfl, hbuzz⟩
  · rw [e12]; exact not_buzzerOn_buzzerOFF w
  · intro i hi
    rw [e12]; exact motorBits_buzzerOFF w i hi
  · exact newSent_of_trace w _ [Event.send SYSTEM_UNLOCKED] (by rw [e12]) 
  · rw [e12]
  · rw [e12]; exact TIMER1_DeInit_stopped (buzzerOFF w)
  · rw [e12]; rfl

/-- Witness of C7: the twelve ticks following the `THIEF` reply of the third
failed round from power-up. -/
theorem C7_lockout_timeline_witness :
    afterThief.g_state = 1 ∧ afterThief.count = 0 ∧ buzzerOn afterThief.PORTB ∧
    (∀ n, 1 ≤ n → n ≤ 11 →
      ticks n afterThief = { afterThief with count := n } ∧ buzzerOn (ticks n afterThief).PORTB) ∧
    ¬ buzzerOn (ticks 12 afterThief).PORTB ∧
    newSent afterThief (ticks 12 afterThief) = [SYSTEM_UNLOCKED] ∧
    (ticks 12 afterThief).count = 0 ∧ schedulerStopped (ticks 12 afterThief) ∧
    (ticks 12 afterThief).g_functionID = afterThief.g_functionID :=
  have hb : buzzerOn afterThief.PORTB := by unfold buzzerOn; decide
  have h := C7_lockout_timeline afterThief rfl rfl hb
  ⟨rfl, rfl, hb, h.1, h.2.2.1, h.2.2.2.2.1, h.2.2.2.2.2.1, h.2.2.2.2.2.2.1, h.2.2.2.2.2.2.2⟩

/-- Claim C8, evaluated on the code. The callback never writes the trial
counter.  On the run of three failed rounds from power-up (third reply `THIEF`)
followed by the twelve lockout ticks (`SYSTEM_UNLOCKED` sent, alarm off), the
trial counter is 4, not 1, and the next three failed rounds reply
`WRONG_PASSWORD` three times and leave the alarm off, whereas the three failed
rounds after power-up ended in `THIEF`. -/
theorem C8_trial_counter_after_lockout :
    (∀ (n : Nat) (w : World), (ticks n w).trial = w.trial) ∧
    rounds (readOnlyStore [1, 2, 3, 4, 5]) 3 sixWrongEntries = some afterThief ∧
    sentBytes afterThief.trace = [WRONG_PASSWORD, WRONG_PASSWORD, THIEF] ∧
    newSent afterThief (ticks 12 afterThief) = [SYSTEM_UNLOCKED] ∧
    (ticks 12 afterThief).PORTB.testBit BUZZER = false ∧
    (ticks 12 afterThief).trial = 4 ∧ (ticks 12 afterThief).trial ≠ 1 ∧
    ∃ w6, rounds (readOnlyStore [1, 2, 3, 4, 5]) 3 (ticks 12 afterThief) = some w6 ∧
      w6.g_eeprom = [1, 2, 3, 4, 5] ∧
      newSent (ticks 12 afterThief) w6 = [WRONG_PASSWORD, WRONG_PASSWORD, WRONG_PASSWORD] ∧
      w6.PORTB.testBit BUZZER = false ∧ w6.trial = 7 :=
  ⟨ticks_trial, rfl, rfl, rfl, rfl, rfl, by decide, _, rfl, rfl, rfl, rfl, rfl⟩

/-- Claim C9. After `Control_setNewPassword` has received the staging buffer `A`,
`Control_checkNewPassword` on a 5-byte re-entry `B` runs to completion and sends
exactly one reply: `CORRECT_NEW_PASSWORD`, with next function ID 3, if and only
if `B[i] = A[i]` for all `i` in `0..4`, and otherwise
`NON_CORRECT_NEW_PASSWORD`, with next function ID 1. -/
theorem C9_confirmation_reply (dev : TwiDevice) (w : World) (j1 A j2 B rest : List Nat)
    (hj1 : HMI_ECU_READY ∉ j1) (hj2 : HMI_ECU_READY ∉ j2)
    (hA : A.length = 5) (hB : B.length = 5) (hlen : w.g_eeprom.length = 5)
    (hrx : w.rx = j1 ++ HMI_ECU_READY :: (A ++ (j2 ++ HMI_ECU_READY :: (B ++ rest)))) :
    ∃ w1 w2,
      Control_setNewPassword w = some w1 ∧ w1.g_eeprom = A ∧ w1.g_functionID = 2 ∧
      Control_checkNewPassword dev w1 = some w2 ∧
      ((newSent w1 w2 = [CORRECT_NEW_PASSWORD] ∧ w2.g_functionID = 3) ↔
        ∀ i, i < 5 → B.getD i 0 = A.getD i 0) ∧
      ((∀ i, i < 5 → B.getD i 0 = A.getD i 0) ∨
        (newSent w1 w2 = [NON_CORRECT_NEW_PASSWORD] ∧ w2.g_functionID = 1)) := by
  obtain ⟨w1, h1, hg1, hf1, hr1, _⟩ := Control_setNewPassword_spec w j1 A _ hj1 hA hlen hrx
  obtain ⟨w2, h2, _, _, hok, hbad⟩ := Control_checkNewPassword_spec dev w1 j2 B rest hj2 hB hr1
  have hall := mismatchCount_eq_zero_iff_forall B A
  rw [hg1] at hok hbad
  refine ⟨w1, w2, h1, hg1, hf1, h2, ?_, ?_⟩
  · constructor
    · rintro ⟨hs, hf⟩
      by_contra hne
      have hm : mismatchCount B A ≠ 0 := fun h0 => hne (hall.mp h0)
      rw [(hbad hm).1] at hf
      exact absurd hf (by decide)
    · intro hyes
      obtain ⟨hf, tail, ht, hs, _⟩ := hok (hall.mpr hyes)
      refine ⟨?_, hf⟩
      rw [newSent_of_trace w1 w2 _ ht, sentBytes_append, sentBytes_map_recv]
      simp only [sentBytes, hs, List.nil_append]
  · by_cases hm : mismatchCount B A = 0
    · exact Or.inl (hall.mp hm)
    · refine Or.inr ⟨?_, (hbad hm).1⟩
      rw [newSent_of_trace w1 w2 _ (hbad hm).2, sentBytes_append, sentBytes_map_recv]
      rfl

/-- Witness of C9: the password `1 2 3 4 5` is set and then confirmed with the
same five bytes. -/
theorem C9_confirmation_reply_witness :
    HMI_ECU_READY ∉ ([] : List Nat) ∧ [1, 2, 3, 4, 5].length = 5 ∧
    settingPassword.g_eeprom.length = 5 ∧
    settingPassword.rx =
      [] ++ HMI_ECU_READY :: ([1, 2, 3, 4, 5] ++ ([] ++ HMI_ECU_READY :: ([1, 2, 3, 4, 5] ++ []))) ∧
    ∃ w1 w2,
      Control_setNewPassword settingPassword = some w1 ∧ w1.g_eeprom = [1, 2, 3, 4, 5] ∧
      w1.g_functionID = 2 ∧
      Control_checkNewPassword writeOnlyStore w1 = some w2 ∧
      newSent w1 w2 = [CORRECT_NEW_PASSWORD] ∧ w2.g_functionID = 3 := by
  obtain ⟨w1, w2, h1, hg, hf, h2, hiff, _⟩ :=
    C9_confirmation_reply writeOnlyStore settingPassword [] [1, 2, 3, 4, 5] [] [1, 2, 3, 4, 5] []
      (by decide) (by decide) rfl rfl rfl rfl
  exact ⟨by decide, rfl, rfl, rfl, w1, w2, h1, hg, hf, h2, hiff.mpr (fun _ _ => rfl)⟩

/-- Claim C10. On a confirmation with zero mismatches of the staging buffer `A`,
`Control_checkNewPassword` sends `CORRECT_NEW_PASSWORD` and only afterwards issues
store write transactions, exactly these six, each once and in this order:
`(0x0300, A[0])`, `(0x0301, A[1])`, `(0x0302, A[2])`, `(0x0303, A[3])`,
`(0x0304, A[4])`, then the flag `(0x05FF, 0x13)`; nothing else is sent. -/
theorem C10_persist_order (dev : TwiDevice) (w : World) (junk A rest : List Nat)
    (hj : HMI_ECU_READY ∉ junk) (hA : A.length = 5) (hg : w.g_eeprom = A)
    (hrx : w.rx = junk ++ HMI_ECU_READY :: (A ++ rest)) :
    ∃ w2 tail,
      Control_checkNewPassword dev w = some w2 ∧
      w2.trace = w.trace ++ ((junk ++ HMI_ECU_READY :: A).map Event.recv ++
        Event.send CORRECT_NEW_PASSWORD :: tail) ∧
      sentBytes tail = [] ∧
      storeWrites tail =
        [(0x0300, A.getD 0 0), (0x0301, A.getD 1 0), (0x0302, A.getD 2 0),
         (0x0303, A.getD 3 0), (0x0304, A.getD 4 0), (0x05FF, 0x13)] ∧
      storeWrites w2.trace = storeWrites w.trace ++
        [(0x0300, A.getD 0 0), (0x0301, A.getD 1 0), (0x0302, A.getD 2 0),
         (0x0303, A.getD 3 0), (0x0304, A.getD 4 0), (0x05FF, 0x13)] := by
  obtain ⟨w2, h2, _, _, hok, _⟩ := Control_checkNewPassword_spec dev w junk A rest hj hA hrx
  have hm : mismatchCount A w.g_eeprom = 0 := by
    rw [hg]; exact (mismatchCount_eq_zero_iff_forall A A).mpr (fun _ _ => rfl)
  obtain ⟨_, tail, ht, hs, hst⟩ := hok hm
  rw [hg] at hst
  have hst2 : storeWrites tail =
      [(0x0300, A.getD 0 0), (0x0301, A.getD 1 0), (0x0302, A.getD 2 0),
       (0x0303, A.getD 3 0), (0x0304, A.getD 4 0), (0x05FF, 0x13)] := by rw [hst]; rfl
  refine ⟨w2, tail, h2, ht, hs, hst2, ?_⟩
  rw [ht, storeWrites_append, storeWrites_append, storeWrites_map_recv]
  simp only [storeWrites, hst2, List.nil_append]

/-- Witness of C10: confirming the staging buffer `1 2 3 4 5`. -/
theorem C10_persist_order_witness :
    HMI_ECU_READY ∉ ([] : List Nat) ∧ [1, 2, 3, 4, 5].length = 5 ∧
    confirmingPassword.g_eeprom = [1, 2, 3, 4, 5] ∧
    confirmingPassword.rx = [] ++ HMI_ECU_READY :: ([1, 2, 3, 4, 5] ++ []) ∧
    ∃ w2 tail,
      Control_checkNewPassword writeOnlyStore confirmingPassword = some w2 ∧
      w2.trace = confirmingPassword.trace ++
        (([] ++ HMI_ECU_READY :: [1, 2, 3, 4, 5]).map Event.recv ++
          Event.send CORRECT_NEW_PASSWORD :: tail) ∧
      sentBytes tail = [] ∧
      storeWrites tail =
        [(0x0300, 1), (0x0301, 2), (0x0302, 3), (0x0303, 4), (0x0304, 5), (0x05FF, 0x13)] ∧
      storeWrites w2.trace = storeWrites confirmingPassword.trace ++
        [(0x0300, 1), (0x0301, 2), (0x0302, 3), (0x0303, 4), (0x0304, 5), (0x05FF, 0x13)] :=
  ⟨by decide, rfl, rfl, rfl,
    C10_persist_order writeOnlyStore confirmingPassword [] [1, 2, 3, 4, 5] []
      (by decide) rfl rfl rfl⟩


theorem busOps_map_recv (l : List Nat) : busOps (l.map Event.recv) = [] := by
  induction l with
  | nil => rfl
  | cons b t ih => simpa [busOps] using ih

theorem EEPROM_writeByte_cases (dev : TwiDevice) (a d : Nat) (w : World) :
    (∃ k, 1 ≤ k ∧ k ≤ 4 ∧
      (∀ j, 1 ≤ j → j < k →
        statusRead dev (busOps w.trace) (writePhases a d) j = writeOk.getD (j - 1) 0) ∧
      statusRead dev (busOps w.trace) (writePhases a d) k ≠ writeOk.getD (k - 1) 0 ∧
      (EEPROM_writeByte dev a d w).1 = EEPROM_ERROR ∧
      (EEPROM_writeByte dev a d w).2.trace =
        w.trace ++ Event.eepromWrite a d :: ((writePhases a d).take k).map Event.twi) ∨
    ((∀ j, 1 ≤ j → j ≤ 4 →
        statusRead dev (busOps w.trace) (writePhases a d) j = writeOk.getD (j - 1) 0) ∧
      (EEPROM_writeByte dev a d w).1 = EEPROM_SUCCESS ∧
      (EEPROM_writeByte dev a d w).2.trace =
        w.trace ++ Event.eepromWrite a d ::
          ((writePhases a d ++ [BusOp.stop]).map Event.twi)) := by
  have s1 : TWI_getStatus dev (TWI_start { w with trace := w.trace ++ [Event.eepromWrite a d] }) =
      statusRead dev (busOps w.trace) (writePhases a d) 1 := by
    simp [TWI_getStatus, TWI_start, statusRead, writePhases, busOps_append, busOps]
  have s2 : TWI_getStatus dev (TWI_write (SLAVE_ADDRESS_W a)
      (TWI_start { w with trace := w.trace ++ [Event.eepromWrite a d] })) =
      statusRead dev (busOps w.trace) (writePhases a d) 2 := by
    simp [TWI_getStatus, TWI_start, TWI_write, statusRead, writePhases, busOps_append, busOps]
  have s3 : TWI_getStatus dev (TWI_write (a % 256) (TWI_write (SLAVE_ADDRESS_W a)
      (TWI_start { w with trace := w.trace ++ [Event.eepromWrite a d] }))) =
      statusRead dev (busOps w.trace) (writePhases a d) 3 := by
    simp [TWI_getStatus, TWI_start, TWI_write, statusRead, writePhases, busOps_append, busOps]
  have s4 : TWI_getStatus dev (TWI_write d (TWI_write (a % 256) (TWI_write (SLAVE_ADDRESS_W a)
      (TWI_start { w with trace := w.trace ++ [Event.eepromWrite a d] })))) =
      statusRead dev (busOps w.trace) (writePhases a d) 4 := by
    simp [TWI_getStatus, TWI_start, TWI_write, statusRead, writePhases, busOps_append, busOps]
  unfold EEPROM_writeByte
  simp only [s1, s2, s3, s4]
  by_cases h1 : statusRead dev (busOps w.trace) (writePhases a d) 1 = TWI_START
  · by_cases h2 : statusRead dev (busOps w.trace) (writePhases a d) 2 = TWI_MT_SLA_W_ACK
    · by_cases h3 : statusRead dev (busOps w.trace) (writePhases a d) 3 = TWI_MT_DATA_ACK
      · by_cases h4 : statusRead dev (busOps w.trace) (writePhases a d) 4 = TWI_MT_DATA_ACK
        · right
          refine ⟨?_, ?_, ?_⟩
          · intro j hj1 hj4
            interval_cases j
            · exact h1
            · exact h2
            · exact h3
            · exact h4
          · simp [h1, h2, h3, h4]
          · simp only [h1, h2, h3, h4, ne_eq, not_true_eq_false, not_false_eq_true, if_true, if_false]
            simp [TWI_start, TWI_write, TWI_stop, writePhases]
        · left
          refine ⟨4, by omega, by omega, ?_, h4, ?_, ?_⟩
          · intro j hj1 hj4
            interval_cases j
            · exact h1
            · exact h2
            · exact h3
          · simp [h1, h2, h3, h4]
          · simp only [h1, h2, h3, h4, ne_eq, not_true_eq_false, not_false_eq_true, if_true, if_false]
            simp [TWI_start, TWI_write, writePhases]
      · left
        refine ⟨3, by omega, by omega, ?_, h3, ?_, ?_⟩
        · intro j hj1 hj4
          interval_cases j
          · exact h1
          · exact h2
        · simp [h1, h2, h3]
        · simp only [h1, h2, h3, ne_eq, not_true_eq_false, not_false_eq_true, if_true, if_false]
          simp [TWI_start, TWI_write, writePhases]
    · left
      refine ⟨2, by omega, by omega, ?_, h2, ?_, ?_⟩
      · intro j hj1 hj4
        interval_cases j
        exact h1
      · simp [h1, h2]
      · simp only [h1, h2, ne_eq, not_true_eq_false, not_false_eq_true, if_true, if_false]
        simp [TWI_start, TWI_write, writePhases]
  · left
    refine ⟨1, by omega, by omega, ?_, h1, ?_, ?_⟩
    · intro j hj1 hj4
      omega
    · simp [h1]
    · simp only [h1, ne_eq, not_true_eq_false, not_false_eq_true, if_true, if_false]
      simp [TWI_start, writePhases]

theorem EEPROM_readByte_cases (dev : TwiDevice) (a : Nat) (w : World) :
    (∃ k, 1 ≤ k ∧ k ≤ 6 ∧
      (∀ j, 1 ≤ j → j < k →
        statusRead dev (busOps w.trace) (readPhases a) j = readOk.getD (j - 1) 0) ∧
      statusRead dev (busOps w.trace) (readPhases a) k ≠ readOk.getD (k - 1) 0 ∧
      (EEPROM_readByte dev a w).1 = EEPROM_ERROR ∧
      (EEPROM_readByte dev a w).2.1 =
        (if k = 6 then some (dev.TWDR (busOps w.trace ++ readPhases a)) else none) ∧
      (EEPROM_readByte dev a w).2.2.trace =
        w.trace ++ Event.eepromRead a :: ((readPhases a).take k).map Event.twi) ∨
    ((∀ j, 1 ≤ j → j ≤ 6 →
        statusRead dev (busOps w.trace) (readPhases a) j = readOk.getD (j - 1) 0) ∧
      (EEPROM_readByte dev a w).1 = EEPROM_SUCCESS ∧
      (EEPROM_readByte dev a w).2.1 = some (dev.TWDR (busOps w.trace ++ readPhases a)) ∧
      (EEPROM_readByte dev a w).2.2.trace =
        w.trace ++ Event.eepromRead a ::
          ((readPhases a ++ [BusOp.stop]).map Event.twi)) := by
  have s1 : TWI_getStatus dev (TWI_start { w with trace := w.trace ++ [Event.eepromRead a] }) =
      statusRead dev (busOps w.trace) (readPhases a) 1 := by
    simp [TWI_getStatus, TWI_start, TWI_write, TWI_readWithNACK, statusRead, readPhases, busOps_append, busOps]
  have s2 : TWI_getStatus dev (TWI_write (SLAVE_ADDRESS_W a) (TWI_start { w with trace := w.trace ++ [Event.eepromRead a] })) =
      statusRead dev (busOps w.trace) (readPhases a) 2 := by
    simp [TWI_getStatus, TWI_start, TWI_write, TWI_readWithNACK, statusRead, readPhases, busOps_append, busOps]
  have s3 : TWI_getStatus dev (TWI_write (a % 256) (TWI_write (SLAVE_ADDRESS_W a) (TWI_start { w with trace := w.trace ++ [Event.eepromRead a] }))) =
      statusRead dev (busOps w.trace) (readPhases a) 3 := by
    simp [TWI_getStatus, TWI_start, TWI_write, TWI_readWithNACK, statusRead, readPhases, busOps_append, busOps]
  have s4 : TWI_getStatus dev (TWI_start (TWI_write (a % 256) (TWI_write (SLAVE_ADDRESS_W a) (TWI_start { w with trace := w.trace ++ [Event.eepromRead a] })))) =
      statusRead dev (busOps w.trace) (readPhases a) 4 := by
    simp [TWI_getStatus, TWI_start, TWI_write, TWI_readWithNACK, statusRead, readPhases, busOps_append, busOps]
  have s5 : TWI_getStatus dev (TWI_write (SLAVE_ADDRESS_R a) (TWI_start (TWI_write (a % 256) (TWI_write (SLAVE_ADDRESS_W a) (TWI_start { w with trace := w.trace ++ [Event.eepromRead a] }))))) =
      statusRead dev (busOps w.trace) (readPhases a) 5 := by
    simp [TWI_getStatus, TWI_start, TWI_write, TWI_readWithNACK, statusRead, readPhases, busOps_append, busOps]
  have s6 : TWI_getStatus dev (TWI_readWithNACK dev (TWI_write (SLAVE_ADDRESS_R a) (TWI_start (TWI_write (a % 256) (TWI_write (SLAVE_ADDRESS_W a) (TWI_start { w with trace := w.trace ++ [Event.eepromRead a] })))))).2 =
      statusRead dev (busOps w.trace) (readPhases a) 6 := by
    simp [TWI_getStatus, TWI_start, TWI_write, TWI_readWithNACK, statusRead, readPhases, busOps_append, busOps]
  have sd : (TWI_readWithNACK dev (TWI_write (SLAVE_ADDRESS_R a) (TWI_start (TWI_write (a % 256) (TWI_write (SLAVE_ADDRESS_W a) (TWI_start { w with trace := w.trace ++ [Event.eepromRead a] })))))).1 =
      dev.TWDR (busOps w.trace ++ readPhases a) := by
    simp [TWI_start, TWI_write, TWI_readWithNACK, readPhases, busOps_append, busOps]
  unfold EEPROM_readByte
  simp only [s1, s2, s3, s4, s5, s6, sd]
  by_cases h1 : statusRead dev (busOps w.trace) (readPhases a) 1 = TWI_START
  · by_cases h2 : statusRead dev (busOps w.trace) (readPhases a) 2 = TWI_MT_SLA_W_ACK
    · by_cases h3 : statusRead dev (busOps w.trace) (readPhases a) 3 = TWI_MT_DATA_ACK
      · by_cases h4 : statusRead dev (busOps w.trace) (readPhases a) 4 = TWI_REP_START
        · by_cases h5 : statusRead dev (busOps w.trace) (readPhases a) 5 = TWI_MT_SLA_R_ACK
          · by_cases h6 : statusRead dev (busOps w.trace) (readPhases a) 6 = TWI_MR_DATA_NACK
            · right
              refine ⟨?_, ?_, ?_, ?_⟩
              · intro j hj1 hj2
                interval_cases j
                · exact h1
                · exact h2
                · exact h3
                · exact h4
                · exact h5
                · exact h6
              · simp only [h1, h2, h3, h4, h5, h6, ne_eq, not_true_eq_false, not_false_eq_true, if_true, if_false]
              · simp only [h1, h2, h3, h4, h5, h6, ne_eq, not_true_eq_false, not_false_eq_true, if_true, if_false]
              · simp only [h1, h2, h3, h4, h5, h6, ne_eq, not_true_eq_false, not_false_eq_true, if_true, if_false]
                simp [TWI_start, TWI_write, TWI_stop, TWI_readWithNACK, readPhases]
            · left
              refine ⟨6, by omega, by omega, ?_, h6, ?_, ?_, ?_⟩
              · intro j hj1 hj2
                interval_cases j
                · exact h1
                · exact h2
                · exact h3
                · exact h4
                · exact h5
              · simp only [h1, h2, h3, h4, h5, h6, ne_eq, not_true_eq_false, not_false_eq_true, if_true, if_false]
              · simp only [h1, h2, h3, h4, h5, h6, ne_eq, not_true_eq_false, not_false_eq_true, if_true, if_false]
                try simp
              · simp only [h1, h2, h3, h4, h5, h6, ne_eq, not_true_eq_false, not_false_eq_true, if_true, if_false]
                simp [TWI_start, TWI_write, TWI_readWithNACK, readPhases]
          · left
            refine ⟨5, by omega, by omega, ?_, h5, ?_, ?_, ?_⟩
            · intro j hj1 hj2
              interval_cases j
              · exact h1
              · exact h2
              · exact h3
              · exact h4
            · simp only [h1, h2, h3, h4, h5, ne_eq, not_true_eq_false, not_false_eq_true, if_true, if_false]
            · simp only [h1, h2, h3, h4, h5, ne_eq, not_true_eq_false, not_false_eq_true, if_true, if_false]
              try simp
            · simp only [h1, h2, h3, h4, h5, ne_eq, not_true_eq_false, not_false_eq_true, if_true, if_false]
              simp [TWI_start, TWI_write, TWI_readWithNACK, readPhases]
        · left
          refine ⟨4, by omega, by omega, ?_, h4, ?_, ?_, ?_⟩
          · intro j hj1 hj2
            interval_cases j
            · exact h1
            · exact h2
            · exact h3
          · simp only [h1, h2, h3, h4, ne_eq, not_true_eq_false, not_false_eq_true, if_true, if_false]
          · simp only [h1, h2, h3, h4, ne_eq, not_true_eq_false, not_false_eq_true, if_true, if_false]
            try simp
          · simp only [h1, h2, h3, h4, ne_eq, not_true_eq_false, not_false_eq_true, if_true, if_false]
            simp [TWI_start, TWI_write, TWI_readWithNACK, readPhases]
      · left
        refine ⟨3, by omega, by omega, ?_, h3, ?_, ?_, ?_⟩
        · intro j hj1 hj2
          interval_cases j
          · exact h1
          · exact h2
        · simp only [h1, h2, h3, ne_eq, not_true_eq_false, not_false_eq_true, if_true, if_false]
        · simp only [h1, h2, h3, ne_eq, not_true_eq_false, not_false_eq_true, if_true, if_false]
          try simp
        · simp only [h1, h2, h3, ne_eq, not_true_eq_false, not_false_eq_true, if_true, if_false]
          simp [TWI_start, TWI_write, TWI_readWithNACK, readPhases]
    · left
      refine ⟨2, by omega, by omega, ?_, h2, ?_, ?_, ?_⟩
      · intro j hj1 hj2
        interval_cases j
        · exact h1
      · simp only [h1, h2, ne_eq, not_true_eq_false, not_false_eq_true, if_true, if_false]
      · simp only [h1, h2, ne_eq, not_true_eq_false, not_false_eq_true, if_true, if_false]
        try simp
      · simp only [h1, h2, ne_eq, not_true_eq_false, not_false_eq_true, if_true, if_false]
        simp [TWI_start, TWI_write, TWI_readWithNACK, readPhases]
  · left
    refine ⟨1, by omega, by omega, ?_, h1, ?_, ?_, ?_⟩
    · intro j hj1 hj2
      omega
    · simp only [h1, ne_eq, not_true_eq_false, not_false_eq_true, if_true, if_false]
    · simp only [h1, ne_eq, not_true_eq_false, not_false_eq_true, if_true, if_false]
      try simp
    · simp only [h1, ne_eq, not_true_eq_false, not_false_eq_true, if_true, if_false]
      simp [TWI_start, TWI_write, TWI_readWithNACK, readPhases]

theorem and_0x700_shift (a : Nat) : (a &&& 0x700) >>> 7 = ((a >>> 8) &&& 7) <<< 1 := by
  have h700 : (0x700 : Nat) = (2 ^ 3 - 1) <<< 8 := by decide
  have h7 : (7 : Nat) = 2 ^ 3 - 1 := by decide
  apply Nat.eq_of_testBit_eq
  intro i
  rw [Nat.testBit_shiftRight, Nat.testBit_and, h700, Nat.testBit_shiftLeft,
    Nat.testBit_two_pow_sub_one, Nat.testBit_shiftLeft, Nat.testBit_and, Nat.testBit_shiftRight,
    h7, Nat.testBit_two_pow_sub_one]
  rcases i with _ | i
  · simp
  · have e1 : 2 ^ 3 - 1 + (i + 1) = 8 + i := by omega
    have e2 : i + 1 - 1 = i := by omega
    have e3 : 8 + i - 8 = i := by omega
    rw [e1, e2, e3]
    simp

theorem pageBits_lt (a : Nat) : (a >>> 8) &&& 7 < 8 := by
  have h7 : (7 : Nat) = 2 ^ 3 - 1 := by decide
  rw [h7, Nat.and_pow_two_sub_one_eq_mod]
  exact Nat.mod_lt _ (by decide)

theorem pageBits_eq (a : Nat) : (a >>> 8) &&& 7 = (a / 256) % 8 := by
  have h7 : (7 : Nat) = 2 ^ 3 - 1 := by decide
  rw [h7, Nat.and_pow_two_sub_one_eq_mod, Nat.shiftRight_eq_div_pow]

theorem SLAVE_ADDRESS_W_eq (a : Nat) :
    SLAVE_ADDRESS_W a = 0xA0 + 2 * ((a / 256) % 8) := by
  unfold SLAVE_ADDRESS_W
  rw [and_0x700_shift, pageBits_eq]
  have h : (a / 256) % 8 < 8 := Nat.mod_lt _ (by decide)
  generalize (a / 256) % 8 = x at h
  interval_cases x <;> decide

theorem SLAVE_ADDRESS_R_eq (a : Nat) :
    SLAVE_ADDRESS_R a = 0xA0 + 2 * ((a / 256) % 8) + 1 := by
  unfold SLAVE_ADDRESS_R
  rw [and_0x700_shift, pageBits_eq]
  have h : (a / 256) % 8 < 8 := Nat.mod_lt _ (by decide)
  generalize (a / 256) % 8 = x at h
  interval_cases x <;> decide


theorem busOps_map_twi (ops : List BusOp) : busOps (ops.map Event.twi) = ops := by
  induction ops with
  | nil => rfl
  | cons o t ih => simp [busOps, ih]

theorem SLAVE_ADDRESS_W_or (a : Nat) :
    SLAVE_ADDRESS_W a = 0xA0 ||| (((a >>> 8) &&& 7) <<< 1) := by
  unfold SLAVE_ADDRESS_W
  rw [and_0x700_shift]
  have h := pageBits_lt a
  generalize (a >>> 8) &&& 7 = x at h
  interval_cases x <;> decide

theorem SLAVE_ADDRESS_R_or (a : Nat) : SLAVE_ADDRESS_R a = SLAVE_ADDRESS_W a ||| 0x01 := by
  unfold SLAVE_ADDRESS_R SLAVE_ADDRESS_W
  rw [and_0x700_shift]
  have h := pageBits_lt a
  generalize (a >>> 8) &&& 7 = x at h
  interval_cases x <;> decide

theorem testBit_SLAVE_ADDRESS_W (a i : Nat) :
    (SLAVE_ADDRESS_W a).testBit i =
      (Nat.testBit 0xA0 i || (decide (i ≥ 1) && (a.testBit (8 + (i - 1)) && Nat.testBit 7 (i - 1)))) := by
  rw [SLAVE_ADDRESS_W_or, Nat.testBit_or, Nat.testBit_shiftLeft, Nat.testBit_and,
    Nat.testBit_shiftRight]


theorem busOps_eepromWrite (t : List Event) (a d : Nat) (ops : List BusOp) :
    busOps (t ++ Event.eepromWrite a d :: ops.map Event.twi) = busOps t ++ ops := by
  rw [busOps_append]
  show busOps t ++ busOps (ops.map Event.twi) = _
  rw [busOps_map_twi]

theorem busOps_eepromRead (t : List Event) (a : Nat) (ops : List BusOp) :
    busOps (t ++ Event.eepromRead a :: ops.map Event.twi) = busOps t ++ ops := by
  rw [busOps_append]
  show busOps t ++ busOps (ops.map Event.twi) = _
  rw [busOps_map_twi]

theorem EEPROM_readByte_readTxn (dev : TwiDevice) (a : Nat) (w : World) :
    (EEPROM_readByte dev a w).2.1 = (readTxn dev (busOps w.trace) a).1 ∧
    busOps (EEPROM_readByte dev a w).2.2.trace = (readTxn dev (busOps w.trace) a).2 := by
  have hb : busOps ({ World.init [] with trace := (busOps w.trace).map Event.twi } : World).trace
      = busOps w.trace := busOps_map_twi _
  rcases EEPROM_readByte_cases dev a w with ⟨k, h1, h6, hpre, hk, _, ho, ht⟩ | ⟨hall, _, ho, ht⟩ <;>
  rcases EEPROM_readByte_cases dev a
      { World.init [] with trace := (busOps w.trace).map Event.twi } with
    ⟨k2, g1, g6, gpre, gk, _, go, gt⟩ | ⟨gall, _, go, gt⟩
  · rw [hb] at gpre gk go
    have e : k2 = k := by
      rcases Nat.lt_trichotomy k2 k with h | h | h
      · exact absurd (hpre k2 g1 h) gk
      · exact h
      · exact absurd (gpre k h1 h) hk
    subst e
    simp only [readTxn]
    rw [ho, go, ht, gt, busOps_eepromRead, busOps_eepromRead, busOps_map_twi]
    exact ⟨rfl, rfl⟩
  · rw [hb] at gall
    exact absurd (gall k h1 h6) hk
  · rw [hb] at gk
    exact absurd (hall k2 g1 g6) gk
  · rw [hb] at go
    simp only [readTxn]
    rw [ho, go, ht, gt, busOps_eepromRead, busOps_eepromRead, busOps_map_twi]
    exact ⟨rfl, rfl⟩

theorem storeReads_append (a b : List Event) :
    storeReads (a ++ b) = storeReads a ++ storeReads b := by
  induction a with
  | nil => rfl
  | cons e t ih => cases e <;> simp [storeReads, ih]

theorem storeReads_map_twi (l : List BusOp) : storeReads (l.map Event.twi) = [] := by
  induction l with
  | nil => rfl
  | cons b t ih => simpa [storeReads] using ih

theorem sentBytes_map_twi (l : List BusOp) : sentBytes (l.map Event.twi) = [] := by
  induction l with
  | nil => rfl
  | cons b t ih => simpa [sentBytes] using ih

theorem storeWrites_map_twi (l : List BusOp) : storeWrites (l.map Event.twi) = [] := by
  induction l with
  | nil => rfl
  | cons b t ih => simpa [storeWrites] using ih

/-- What one call of `EEPROM_readByte` changes: it appends its marker and bus
operations to the trace and nothing else. -/
theorem EEPROM_readByte_events (dev : TwiDevice) (a : Nat) (w : World) :
    ∃ ops : List BusOp, (EEPROM_readByte dev a w).2.2 =
        { w with trace := w.trace ++ Event.eepromRead a :: ops.map Event.twi } := by
  unfold EEPROM_readByte
  simp only [TWI_start, TWI_write, TWI_stop, TWI_readWithNACK, List.append_assoc,
    List.singleton_append]
  split_ifs
  · exact ⟨[BusOp.start], rfl⟩
  · exact ⟨[BusOp.start, BusOp.write _], rfl⟩
  · exact ⟨[BusOp.start, BusOp.write _, BusOp.write _], rfl⟩
  · exact ⟨[BusOp.start, BusOp.write _, BusOp.write _, BusOp.start], rfl⟩
  · exact ⟨[BusOp.start, BusOp.write _, BusOp.write _, BusOp.start, BusOp.write _], rfl⟩
  · exact ⟨[BusOp.start, BusOp.write _, BusOp.write _, BusOp.start, BusOp.write _,
      BusOp.readNack], rfl⟩
  · exact ⟨[BusOp.start, BusOp.write _, BusOp.write _, BusOp.start, BusOp.write _,
      BusOp.readNack, BusOp.stop], rfl⟩

/-- The reload loop, in terms of the bytes its reads deliver. -/
theorem reloadPasswordLoop_loads (dev : TwiDevice) (is : List Nat) (w : World) :
    ∃ evs, reloadPasswordLoop dev is w =
        { w with trace := w.trace ++ evs,
                 g_eeprom := loadInto w.g_eeprom is
                   (readSeq dev (busOps w.trace) (is.map (fun i => (eeprom_addr + i) % 65536))) } ∧
      sentBytes evs = [] ∧ storeWrites evs = [] ∧
      storeReads evs = is.map (fun i => (eeprom_addr + i) % 65536) := by
  induction is generalizing w with
  | nil => exact ⟨[], by simp [reloadPasswordLoop, loadInto], rfl, rfl, rfl⟩
  | cons i t ih =>
    obtain ⟨ops, h1⟩ := EEPROM_readByte_events dev ((eeprom_addr + i) % 65536) w
    obtain ⟨ho, hb⟩ := EEPROM_readByte_readTxn dev ((eeprom_addr + i) % 65536) w
    rw [h1] at hb
    have hb2 : busOps (w.trace ++ Event.eepromRead ((eeprom_addr + i) % 65536) ::
        ops.map Event.twi) = (readTxn dev (busOps w.trace) ((eeprom_addr + i) % 65536)).2 := hb
    unfold reloadPasswordLoop
    simp only [List.map_cons, readSeq]
    rw [h1, ho]
    cases hc : (readTxn dev (busOps w.trace) ((eeprom_addr + i) % 65536)).1 with
    | none =>
      obtain ⟨e2, h2, hs2, hw2, hr2⟩ := ih
        { w with trace := w.trace ++ Event.eepromRead ((eeprom_addr + i) % 65536) :: ops.map Event.twi }
      refine ⟨Event.eepromRead ((eeprom_addr + i) % 65536) :: ops.map Event.twi ++ e2, ?_, ?_, ?_, ?_⟩
      · simp only [h2, hb2, loadInto, List.append_assoc, List.cons_append]
      · rw [sentBytes_append, hs2]; simp only [sentBytes, sentBytes_map_twi, List.append_nil]
      · rw [storeWrites_append, hw2]; simp only [storeWrites, storeWrites_map_twi, List.append_nil]
      · rw [storeReads_append, hr2]; simp only [storeReads, storeReads_map_twi, List.cons_append, List.nil_append]
    | some d =>
      obtain ⟨e2, h2, hs2, hw2, hr2⟩ := ih
        { w with trace := w.trace ++ Event.eepromRead ((eeprom_addr + i) % 65536) :: ops.map Event.twi, g_eeprom := w.g_eeprom.set i d }
      refine ⟨Event.eepromRead ((eeprom_addr + i) % 65536) :: ops.map Event.twi ++ e2, ?_, ?_, ?_, ?_⟩
      · simp only [h2, hb2, loadInto, List.append_assoc, List.cons_append]
      · rw [sentBytes_append, hs2]; simp only [sentBytes, sentBytes_map_twi, List.append_nil]
      · rw [storeWrites_append, hw2]; simp only [storeWrites, storeWrites_map_twi, List.append_nil]
      · rw [storeReads_append, hr2]; simp only [storeReads, storeReads_map_twi, List.cons_append, List.nil_append]
/-- The three outcomes of `Control_checkForSavedPassword` once the request has
arrived, by the value `f` of `chkFlag` after the flag read. -/
theorem Control_checkForSavedPassword_spec (dev : TwiDevice) (chkFlag0 : Nat) (w : World)
    (junk rest : List Nat) (hj : CHECK_FOR_SAVED_PASSWORD ∉ junk)
    (hrx : w.rx = junk ++ CHECK_FOR_SAVED_PASSWORD :: rest) :
    ∃ ops : List BusOp,
      busOps (w.trace ++ ((junk ++ [CHECK_FOR_SAVED_PASSWORD]).map Event.recv ++
          Event.eepromRead eeprom_flag :: ops.map Event.twi)) =
        (readTxn dev (busOps w.trace) eeprom_flag).2 ∧
      Control_checkForSavedPassword dev chkFlag0 w =
        (if (readTxn dev (busOps w.trace) eeprom_flag).1.getD chkFlag0 = SAVED_PASSWORD then
          some { reloadPasswordLoop dev (List.range PASSWORD_SIZE)
                  (UART_sendByte SAVED_PASSWORD
                    { w with rx := rest,
                             trace := w.trace ++ ((junk ++ [CHECK_FOR_SAVED_PASSWORD]).map Event.recv ++
                               Event.eepromRead eeprom_flag :: ops.map Event.twi) }) with
                 g_functionID := 3 }
        else if (readTxn dev (busOps w.trace) eeprom_flag).1.getD chkFlag0 = NO_SAVED_PASSWORD then
          some { UART_sendByte NO_SAVED_PASSWORD
                  { w with rx := rest,
                           trace := w.trace ++ ((junk ++ [CHECK_FOR_SAVED_PASSWORD]).map Event.recv ++
                             Event.eepromRead eeprom_flag :: ops.map Event.twi) } with
                 g_functionID := 1 }
        else
          some { w with rx := rest,
                        trace := w.trace ++ ((junk ++ [CHECK_FOR_SAVED_PASSWORD]).map Event.recv ++
                          Event.eepromRead eeprom_flag :: ops.map Event.twi) }) := by
  have h1 := awaitByte_spec CHECK_FOR_SAVED_PASSWORD junk rest hj w hrx
  obtain ⟨ops, h2⟩ := EEPROM_readByte_events dev eeprom_flag
    { w with rx := rest, trace := w.trace ++ (junk ++ [CHECK_FOR_SAVED_PASSWORD]).map Event.recv }
  obtain ⟨ho, hb⟩ := EEPROM_readByte_readTxn dev eeprom_flag
    { w with rx := rest, trace := w.trace ++ (junk ++ [CHECK_FOR_SAVED_PASSWORD]).map Event.recv }
  have hbus : busOps (w.trace ++ (junk ++ [CHECK_FOR_SAVED_PASSWORD]).map Event.recv)
      = busOps w.trace := by
    rw [busOps_append, busOps_map_recv, List.append_nil]
  rw [h2] at hb
  simp only [hbus] at ho hb
  refine ⟨ops, ?_, ?_⟩
  · rw [← hb, List.append_assoc]
  · unfold Control_checkForSavedPassword
    rw [h1]
    simp only
    rw [h2, ho]
    by_cases hs : (readTxn dev (busOps w.trace) eeprom_flag).1.getD chkFlag0 = SAVED_PASSWORD
    · have hn : (readTxn dev (busOps w.trace) eeprom_flag).1.getD chkFlag0 ≠ NO_SAVED_PASSWORD := by
        rw [hs]; decide
      simp only [hs, if_true]
      rw [if_neg (by decide)]
      simp only [List.append_assoc]
    · simp only [hs, if_false, List.append_assoc]

theorem loadInto_five (g0 g1 g2 g3 g4 : Nat) (o0 o1 o2 o3 o4 : Option Nat) :
    loadInto [g0, g1, g2, g3, g4] (List.range PASSWORD_SIZE) [o0, o1, o2, o3, o4] =
      [o0.getD g0, o1.getD g1, o2.getD g2, o3.getD g3, o4.getD g4] := by
  cases o0 <;> cases o1 <;> cases o2 <;> cases o3 <;> cases o4 <;> rfl

theorem readSeq_length (dev : TwiDevice) (h : List BusOp) (as : List Nat) :
    (readSeq dev h as).length = as.length := by
  induction as generalizing h with
  | nil => rfl
  | cons a t ih => simp [readSeq, ih]


/-! ## Lemmas: the EEPROM chip -/

theorem chipRun_append (c : Chip) (h1 h2 : List BusOp) :
    chipRun c (h1 ++ h2) = chipRun (chipRun c h1) h2 := by
  simp [chipRun, List.foldl_append]

theorem SLAVE_ADDRESS_W_even (a : Nat) : SLAVE_ADDRESS_W a % 2 = 0 := by
  rw [SLAVE_ADDRESS_W_eq]; omega

theorem SLAVE_ADDRESS_R_odd (a : Nat) : SLAVE_ADDRESS_R a % 2 = 1 := by
  rw [SLAVE_ADDRESS_R_eq]; omega

theorem SLAVE_ADDRESS_W_page (a : Nat) :
    (SLAVE_ADDRESS_W a / 2) % 8 * 256 + a % 256 = a % 2048 := by
  rw [SLAVE_ADDRESS_W_eq]; omega

theorem chipRun_write (c : Chip) (a d : Nat) :
    chipRun c (writePhases a d ++ [BusOp.stop]) =
      { c with mem := fun x => if x = a % 2048 then d else c.mem x, stage := 0,
               page := (SLAVE_ADDRESS_W a / 2) % 8, ptr := a % 2048, latch := d,
               status := 0xF8 } := by
  simp [chipRun, writePhases, Chip.step, SLAVE_ADDRESS_W_even, SLAVE_ADDRESS_W_page]

theorem chipRun_write_take (c : Chip) (a d k : Nat) (hk : k ≤ 4) :
    (chipRun c ((writePhases a d).take k)).mem = c.mem := by
  interval_cases k <;>
    simp [chipRun, writePhases, Chip.step, SLAVE_ADDRESS_W_even]

theorem chipRun_read_take (c : Chip) (a k : Nat) (hk : k ≤ 6) :
    (chipRun c ((readPhases a).take k)).mem = c.mem := by
  interval_cases k <;>
    simp [chipRun, readPhases, Chip.step, SLAVE_ADDRESS_W_even, SLAVE_ADDRESS_R_odd]

theorem chipRun_read (c : Chip) (a : Nat) :
    (chipRun c (readPhases a)).data = c.mem (a % 2048) ∧
    (chipRun c (readPhases a ++ [BusOp.stop])).mem = c.mem ∧
    (chipRun c (readPhases a ++ [BusOp.stop])).stage = 0 := by
  simp [chipRun, readPhases, Chip.step, SLAVE_ADDRESS_W_even, SLAVE_ADDRESS_R_odd,
    SLAVE_ADDRESS_W_page]

/-- The chip behind any status register is a byte store. -/
theorem ByteStore_chip (T : List BusOp → Nat) (mem0 : Nat → Nat) :
    ByteStore { TWSR := T, TWDR := fun h => (chipRun (Chip.fresh mem0) h).data } (cells mem0) := by
  intro h
  refine ⟨fun a d k hk => ?_, fun a d => ?_, fun a k hk => ?_, fun a => ?_, fun a => ?_⟩
  · simp only [cells]; rw [chipRun_append]; exact chipRun_write_take _ a d k hk
  · simp only [cells]; rw [chipRun_append, chipRun_write]
  · simp only [cells]; rw [chipRun_append]; exact chipRun_read_take _ a k hk
  · simp only [cells]; rw [chipRun_append]; exact (chipRun_read _ a).2.1
  · show (chipRun (Chip.fresh mem0) (h ++ readPhases a)).data = _
    rw [chipRun_append]; exact (chipRun_read _ a).1

theorem chipRun_idle (c : Chip) (hc : c.stage = 0) (h : List BusOp) (hi : busIdle h) :
    (chipRun c h).stage = 0 := by
  rcases hi with rfl | hl
  · exact hc
  · obtain ⟨pre, rfl⟩ : ∃ pre, h = pre ++ [BusOp.stop] := by
      rcases List.eq_nil_or_concat h with rfl | ⟨pre, x, rfl⟩
      · simp at hl
      · simp at hl; exact ⟨pre, by simp [hl]⟩
    rw [chipRun_append]
    simp only [chipRun, List.foldl, Chip.step]
    split_ifs <;> rfl

theorem chip_status_write (c : Chip) (hc : c.stage = 0) (a d k : Nat) (h1 : 1 ≤ k) (h4 : k ≤ 4) :
    (chipRun c ((writePhases a d).take k)).status &&& 0xF8 = writeOk.getD (k - 1) 0 := by
  interval_cases k <;>
    (simp [chipRun, writePhases, Chip.step, SLAVE_ADDRESS_W_even, hc, writeOk, TWI_START,
      TWI_MT_SLA_W_ACK, TWI_MT_DATA_ACK]; try decide)

theorem chip_status_read (c : Chip) (hc : c.stage = 0) (a k : Nat) (h1 : 1 ≤ k) (h6 : k ≤ 6) :
    (chipRun c ((readPhases a).take k)).status &&& 0xF8 = readOk.getD (k - 1) 0 := by
  interval_cases k <;>
    (simp [chipRun, readPhases, Chip.step, SLAVE_ADDRESS_W_even, SLAVE_ADDRESS_R_odd, hc, readOk,
      TWI_START, TWI_REP_START, TWI_MT_SLA_W_ACK, TWI_MT_SLA_R_ACK, TWI_MT_DATA_ACK,
      TWI_MR_DATA_NACK]; try decide)

/-- The chip answering every phase is always acknowledging. -/
theorem AlwaysAck_idealStore (mem0 : Nat → Nat) : AlwaysAck (idealStore mem0) := by
  intro h hi
  have hs := chipRun_idle (Chip.fresh mem0) rfl h hi
  refine ⟨fun a d k h1 h4 => ?_, fun a k h1 h6 => ?_⟩
  · show (chipRun (Chip.fresh mem0) (h ++ (writePhases a d).take k)).status &&& 0xF8 = _
    rw [chipRun_append]; exact chip_status_write _ hs a d k h1 h4
  · show (chipRun (Chip.fresh mem0) (h ++ (readPhases a).take k)).status &&& 0xF8 = _
    rw [chipRun_append]; exact chip_status_read _ hs a k h1 h6

theorem ByteStore_idealStore (mem0 : Nat → Nat) : ByteStore (idealStore mem0) (cells mem0) :=
  ByteStore_chip _ mem0

theorem busIdle_append_stop (h : List BusOp) : busIdle (h ++ [BusOp.stop]) := by
  right; simp

theorem busIdle_append_txn (h ops : List BusOp) : busIdle (h ++ (ops ++ [BusOp.stop])) := by
  rw [← List.append_assoc]; exact busIdle_append_stop _

theorem EEPROM_writeByte_events (dev : TwiDevice) (a d : Nat) (w : World) :
    ∃ ops : List BusOp, (EEPROM_writeByte dev a d w).2 =
        { w with trace := w.trace ++ Event.eepromWrite a d :: ops.map Event.twi } := by
  unfold EEPROM_writeByte
  simp only [TWI_start, TWI_write, TWI_stop, List.append_assoc, List.singleton_append]
  split_ifs
  · exact ⟨[BusOp.start], rfl⟩
  · exact ⟨[BusOp.start, BusOp.write _], rfl⟩
  · exact ⟨[BusOp.start, BusOp.write _, BusOp.write _], rfl⟩
  · exact ⟨[BusOp.start, BusOp.write _, BusOp.write _, BusOp.write _], rfl⟩
  · exact ⟨[BusOp.start, BusOp.write _, BusOp.write _, BusOp.write _, BusOp.stop], rfl⟩

/-- On an acknowledging bus with no transfer open, a write runs to its stop. -/
theorem EEPROM_writeByte_acked (dev : TwiDevice) (hA : AlwaysAck dev) (a d : Nat) (w : World)
    (hi : busIdle (busOps w.trace)) :
    (EEPROM_writeByte dev a d w).1 = EEPROM_SUCCESS ∧
    (EEPROM_writeByte dev a d w).2 =
      { w with trace := w.trace ++ Event.eepromWrite a d ::
          (writePhases a d ++ [BusOp.stop]).map Event.twi } := by
  obtain ⟨ops, he⟩ := EEPROM_writeByte_events dev a d w
  rcases EEPROM_writeByte_cases dev a d w with ⟨k, h1, h4, _, hk, _, _⟩ | ⟨_, hr, ht⟩
  · exact absurd ((hA _ hi).1 a d k h1 h4) hk
  · refine ⟨hr, ?_⟩
    rw [he] at ht ⊢
    have e : ops.map Event.twi = (writePhases a d ++ [BusOp.stop]).map Event.twi := by
      have := List.append_cancel_left ht
      exact (List.cons.inj this).2
    rw [e]

/-- On an acknowledging bus with no transfer open, a read runs to its stop and
assigns the byte delivered. -/
theorem EEPROM_readByte_acked (dev : TwiDevice) (hA : AlwaysAck dev) (a : Nat) (w : World)
    (hi : busIdle (busOps w.trace)) :
    (EEPROM_readByte dev a w).1 = EEPROM_SUCCESS ∧
    (EEPROM_readByte dev a w).2.1 = some (dev.TWDR (busOps w.trace ++ readPhases a)) ∧
    (EEPROM_readByte dev a w).2.2 =
      { w with trace := w.trace ++ Event.eepromRead a ::
          (readPhases a ++ [BusOp.stop]).map Event.twi } := by
  obtain ⟨ops, he⟩ := EEPROM_readByte_events dev a w
  rcases EEPROM_readByte_cases dev a w with ⟨k, h1, h6, _, hk, _, _⟩ | ⟨_, hr, ho, ht⟩
  · exact absurd ((hA _ hi).2 a k h1 h6) hk
  · refine ⟨hr, ho, ?_⟩
    rw [he] at ht ⊢
    have e : ops.map Event.twi = (readPhases a ++ [BusOp.stop]).map Event.twi := by
      have := List.append_cancel_left ht
      exact (List.cons.inj this).2
    rw [e]

theorem readTxn_acked (dev : TwiDevice) (cellsOf : List BusOp → Nat → Nat)
    (hB : ByteStore dev cellsOf) (hA : AlwaysAck dev) (h : List BusOp) (hi : busIdle h) (a : Nat) :
    readTxn dev h a = (some (cellsOf h (a % 2048)), h ++ (readPhases a ++ [BusOp.stop])) := by
  have hb : busOps ({ World.init [] with trace := h.map Event.twi } : World).trace = h :=
    busOps_map_twi _
  obtain ⟨_, ho, ht⟩ := EEPROM_readByte_acked dev hA a
    { World.init [] with trace := h.map Event.twi } (by rw [hb]; exact hi)
  rw [hb] at ho
  unfold readTxn
  simp only
  rw [ho, ht, (hB h).2.2.2.2 a]
  simp only [busOps_eepromRead, busOps_map_twi]

theorem readSeq_acked (dev : TwiDevice) (cellsOf : List BusOp → Nat → Nat)
    (hB : ByteStore dev cellsOf) (hA : AlwaysAck dev) (as : List Nat) (h : List BusOp)
    (hi : busIdle h) :
    readSeq dev h as = as.map (fun a => some (cellsOf h (a % 2048))) := by
  induction as generalizing h with
  | nil => rfl
  | cons a t ih =>
    simp only [readSeq, List.map_cons]
    rw [readTxn_acked dev cellsOf hB hA h hi a]
    simp only
    rw [ih _ (busIdle_append_txn _ _), (hB h).2.2.2.1 a]

/-- The persisting loop on an acknowledging byte store. -/
theorem writePasswordLoop_acked (dev : TwiDevice) (cellsOf : List BusOp → Nat → Nat)
    (hB : ByteStore dev cellsOf) (hA : AlwaysAck dev) (is : List Nat) (w : World)
    (hi : busIdle (busOps w.trace)) :
    busIdle (busOps (writePasswordLoop dev is w).trace) ∧
    cellsOf (busOps (writePasswordLoop dev is w).trace) =
      is.foldl (fun m i => fun x =>
        if x = (eeprom_addr + i) % 65536 % 2048 then w.g_eeprom.getD i 0 else m x)
        (cellsOf (busOps w.trace)) := by
  induction is generalizing w with
  | nil => exact ⟨hi, rfl⟩
  | cons i t ih =>
    obtain ⟨_, h1⟩ := EEPROM_writeByte_acked dev hA ((eeprom_addr + i) % 65536)
      (w.g_eeprom.getD i 0) w hi
    unfold writePasswordLoop
    rw [h1]
    have hb : busOps (w.trace ++ Event.eepromWrite ((eeprom_addr + i) % 65536)
        (w.g_eeprom.getD i 0) :: (writePhases ((eeprom_addr + i) % 65536)
          (w.g_eeprom.getD i 0) ++ [BusOp.stop]).map Event.twi) =
        busOps w.trace ++ (writePhases ((eeprom_addr + i) % 65536) (w.g_eeprom.getD i 0) ++
          [BusOp.stop]) := busOps_eepromWrite _ _ _ _
    obtain ⟨i2, c2⟩ := ih
      { w with trace := w.trace ++ Event.eepromWrite ((eeprom_addr + i) % 65536) (w.g_eeprom.getD i 0) :: (writePhases ((eeprom_addr + i) % 65536) (w.g_eeprom.getD i 0) ++ [BusOp.stop]).map Event.twi }
      (by rw [hb]; exact busIdle_append_txn _ _)
    refine ⟨i2, ?_⟩
    rw [c2, hb, (hB _).2.1]
    rfl
/-- One round of `Control_receiveAndCheckPassword`: the credential it compares
against is `g_eeprom` reloaded with the bytes that the five reads deliver. -/
theorem receiveAndCompare_loads (dev : TwiDevice) (w : World) (junk E rest : List Nat) (key : Nat)
    (hj : HMI_ECU_READY ∉ junk) (hE : E.length = 5)
    (hrx : w.rx = roundInput junk E key ++ rest) :
    ∃ w4, Control_receiveAndCheckPassword dev w = some w4 ∧
      w4.g_eeprom = loadInto w.g_eeprom (List.range PASSWORD_SIZE)
        (readSeq dev (busOps w.trace) credentialAddrs) := by
  obtain ⟨a, b, c, d, e, rfl⟩ := length_eq_five hE
  have hrx1 : w.rx = junk ++ HMI_ECU_READY :: ([a, b, c, d, e] ++ key :: rest) := by
    simp [hrx, roundInput]
  have h1 := awaitByte_spec HMI_ECU_READY junk ([a, b, c, d, e] ++ key :: rest) hj w hrx1
  have h2 := receivePasswordLoop_spec a b c d e (key :: rest) (List.replicate PASSWORD_SIZE 0)
    { w with rx := [a, b, c, d, e] ++ key :: rest,
             trace := w.trace ++ (junk ++ [HMI_ECU_READY]).map Event.recv } (by simp [PASSWORD_SIZE]) rfl
  obtain ⟨bus, h3, _, _, _⟩ := reloadPasswordLoop_loads dev (List.range PASSWORD_SIZE)
    { w with rx := key :: rest,
             trace := w.trace ++ (junk ++ [HMI_ECU_READY]).map Event.recv ++ [a, b, c, d, e].map Event.recv }
  have hbus : busOps (w.trace ++ (junk ++ [HMI_ECU_READY]).map Event.recv ++
      [a, b, c, d, e].map Event.recv) = busOps w.trace := by
    rw [busOps_append, busOps_append, busOps_map_recv, busOps_map_recv]; simp
  simp only [hbus] at h3
  obtain ⟨pa, h4⟩ := comparePasswordLoop_snd [a, b, c, d, e] (List.range PASSWORD_SIZE) 0
    { w with rx := key :: rest,
             trace := w.trace ++ (junk ++ [HMI_ECU_READY]).map Event.recv ++ [a, b, c, d, e].map Event.recv ++ bus,
             g_eeprom := loadInto w.g_eeprom (List.range PASSWORD_SIZE) (readSeq dev (busOps w.trace) (List.map (fun i => (eeprom_addr + i) % 65536) (List.range PASSWORD_SIZE))) }
  have hmap : (Control_receiveAndCheckPassword dev w).map World.g_eeprom =
      some (loadInto w.g_eeprom (List.range PASSWORD_SIZE)
        (readSeq dev (busOps w.trace) credentialAddrs)) := by
    unfold Control_receiveAndCheckPassword receiveAndCompare
    rw [h1]
    simp only
    rw [h2]
    simp only
    rw [h3, h4]
    simp only [UART_receiveByte, Option.map, verdict_g_eeprom]
    rfl
  obtain ⟨w4, hw4, hg4⟩ := Option.map_eq_some'.mp hmap
  exact ⟨w4, hw4, hg4⟩
/-- The saved branch of `Control_checkForSavedPassword`, state by state. -/
theorem Control_checkForSavedPassword_saved (dev : TwiDevice) (chkFlag0 : Nat) (w : World)
    (junk rest : List Nat) (hj : CHECK_FOR_SAVED_PASSWORD ∉ junk)
    (hrx : w.rx = junk ++ CHECK_FOR_SAVED_PASSWORD :: rest)
    (hf : (readTxn dev (busOps w.trace) eeprom_flag).1.getD chkFlag0 = SAVED_PASSWORD) :
    ∃ evs, Control_checkForSavedPassword dev chkFlag0 w =
        some { w with rx := rest,
                      trace := w.trace ++ ((junk ++ [CHECK_FOR_SAVED_PASSWORD]).map Event.recv ++ evs),
                      g_eeprom := loadInto w.g_eeprom (List.range PASSWORD_SIZE)
                        (readSeq dev (readTxn dev (busOps w.trace) eeprom_flag).2 credentialAddrs),
                      g_functionID := 3 } ∧
      sentBytes evs = [SAVED_PASSWORD] ∧ storeWrites evs = [] ∧
      storeReads evs = eeprom_flag :: credentialAddrs := by
  obtain ⟨ops, hb, h⟩ := Control_checkForSavedPassword_spec dev chkFlag0 w junk rest hj hrx
  rw [hf, if_pos rfl] at h
  obtain ⟨e2, h2, hs2, hw2, hr2⟩ := reloadPasswordLoop_loads dev (List.range PASSWORD_SIZE)
    (UART_sendByte SAVED_PASSWORD
      { w with rx := rest,
               trace := w.trace ++ ((junk ++ [CHECK_FOR_SAVED_PASSWORD]).map Event.recv ++
                 Event.eepromRead eeprom_flag :: ops.map Event.twi) })
  rw [h2] at h
  have hbus : busOps (UART_sendByte SAVED_PASSWORD
      { w with rx := rest,
               trace := w.trace ++ ((junk ++ [CHECK_FOR_SAVED_PASSWORD]).map Event.recv ++
                 Event.eepromRead eeprom_flag :: ops.map Event.twi) }).trace =
      (readTxn dev (busOps w.trace) eeprom_flag).2 := by
    show busOps (_ ++ [Event.send SAVED_PASSWORD]) = _
    rw [busOps_append, hb]; exact List.append_nil _
  rw [hbus] at h
  refine ⟨Event.eepromRead eeprom_flag :: ops.map Event.twi ++ Event.send SAVED_PASSWORD :: e2,
    ?_, ?_, ?_, ?_⟩
  · rw [h]
    simp [UART_sendByte, credentialAddrs]
  · rw [sentBytes_append]
    simp only [sentBytes, sentBytes_map_twi, hs2, List.nil_append]
  · rw [storeWrites_append]
    simp only [storeWrites, storeWrites_map_twi, hw2, List.nil_append]
  · rw [storeReads_append]
    simp only [storeReads, storeReads_map_twi, hr2, List.nil_append]
    rfl

/-- A matching confirmation in `Control_checkNewPassword`, state by state. -/
theorem Control_checkNewPassword_match (dev : TwiDevice) (w : World) (junk B rest : List Nat)
    (hj : HMI_ECU_READY ∉ junk) (hB : B.length = 5)
    (hrx : w.rx = junk ++ HMI_ECU_READY :: (B ++ rest))
    (hm : mismatchCount B w.g_eeprom = 0) :
    Control_checkNewPassword dev w =
      some { (EEPROM_writeByte dev eeprom_flag SAVED_PASSWORD
              (writePasswordLoop dev (List.range PASSWORD_SIZE)
                (UART_sendByte CORRECT_NEW_PASSWORD
                  { w with rx := rest,
                           trace := w.trace ++ (junk ++ [HMI_ECU_READY]).map Event.recv ++
                             B.map Event.recv }))).2 with
             g_functionID := 3 } := by
  obtain ⟨a, b, c, d, e, rfl⟩ := length_eq_five hB
  have h1 := awaitByte_spec HMI_ECU_READY junk ([a, b, c, d, e] ++ rest) hj w hrx
  have h2 := checkNewPasswordLoop_spec a b c d e rest
    { w with rx := [a, b, c, d, e] ++ rest, trace := w.trace ++ (junk ++ [HMI_ECU_READY]).map Event.recv }
    rfl
  rw [Control_checkNewPassword, h1]
  simp only
  rw [h2]
  simp only
  rw [if_pos hm]

theorem mismatchCount_self (A : List Nat) : mismatchCount A A = 0 := by
  simp [mismatchCount]

theorem writePasswordLoop_g_eeprom (dev : TwiDevice) (is : List Nat) (w : World) :
    (writePasswordLoop dev is w).g_eeprom = w.g_eeprom ∧
    (writePasswordLoop dev is w).rx = w.rx := by
  obtain ⟨evs, h, _, _⟩ := writePasswordLoop_frame dev is w
  rw [h]; exact ⟨rfl, rfl⟩
theorem loadInto_all (g A : List Nat) (hg : g.length = 5) (hA : A.length = 5) :
    loadInto g (List.range PASSWORD_SIZE) (A.map some) = A := by
  obtain ⟨g0, g1, g2, g3, g4, rfl⟩ := length_eq_five hg
  obtain ⟨a0, a1, a2, a3, a4, rfl⟩ := length_eq_five hA
  exact loadInto_five _ _ _ _ _ _ _ _ _ _

/-- The store after a matching confirmation on an acknowledging byte store: no
transfer is left open, the flag cell holds the exists sentinel and the five
credential cells hold the staging buffer. -/
theorem Control_checkNewPassword_stores (dev : TwiDevice) (cellsOf : List BusOp → Nat → Nat)
    (hB : ByteStore dev cellsOf) (hA : AlwaysAck dev)
    (w : World) (junk A rest : List Nat)
    (hj : HMI_ECU_READY ∉ junk) (hA5 : A.length = 5) (hg : w.g_eeprom = A)
    (hrx : w.rx = junk ++ HMI_ECU_READY :: (A ++ rest)) (hi : busIdle (busOps w.trace)) :
    ∃ w2, Control_checkNewPassword dev w = some w2 ∧ w2.g_functionID = 3 ∧ w2.rx = rest ∧
      busIdle (busOps w2.trace) ∧
      cellsOf (busOps w2.trace) (eeprom_flag % 2048) = SAVED_PASSWORD ∧
      credentialAddrs.map (fun a => some (cellsOf (busOps w2.trace) (a % 2048))) = A.map some := by
  have hm : mismatchCount A w.g_eeprom = 0 := by rw [hg]; exact mismatchCount_self A
  have hrun := Control_checkNewPassword_match dev w junk A rest hj hA5 hrx hm
  have hb0 : busOps (UART_sendByte CORRECT_NEW_PASSWORD
      { w with rx := rest,
               trace := w.trace ++ (junk ++ [HMI_ECU_READY]).map Event.recv ++
                 A.map Event.recv }).trace = busOps w.trace := by
    show busOps (_ ++ [Event.send CORRECT_NEW_PASSWORD]) = _
    rw [busOps_append, busOps_append, busOps_append, busOps_map_recv, busOps_map_recv]
    simp [busOps]
  obtain ⟨hi1, hc1⟩ := writePasswordLoop_acked dev cellsOf hB hA (List.range PASSWORD_SIZE)
    (UART_sendByte CORRECT_NEW_PASSWORD
      { w with rx := rest,
               trace := w.trace ++ (junk ++ [HMI_ECU_READY]).map Event.recv ++
                 A.map Event.recv }) (by rw [hb0]; exact hi)
  obtain ⟨_, hw2⟩ := EEPROM_writeByte_acked dev hA eeprom_flag SAVED_PASSWORD _ hi1
  rw [hw2] at hrun
  have hrx1 := (writePasswordLoop_g_eeprom dev (List.range PASSWORD_SIZE)
    (UART_sendByte CORRECT_NEW_PASSWORD
      { w with rx := rest,
               trace := w.trace ++ (junk ++ [HMI_ECU_READY]).map Event.recv ++
                 A.map Event.recv })).2
  refine ⟨_, hrun, rfl, hrx1, ?_, ?_, ?_⟩
  · show busIdle (busOps (_ ++ _))
    rw [busOps_eepromWrite]; exact busIdle_append_txn _ _
  · show cellsOf (busOps (_ ++ _)) _ = _
    rw [busOps_eepromWrite, (hB _).2.1]
    simp
  · show List.map (fun a => some (cellsOf (busOps (_ ++ _)) (a % 2048))) _ = _
    rw [busOps_eepromWrite, (hB _).2.1, hc1, hb0]
    obtain ⟨a0, a1, a2, a3, a4, rfl⟩ := length_eq_five hA5
    have hg0 : (UART_sendByte CORRECT_NEW_PASSWORD
      { w with rx := rest,
               trace := w.trace ++ (junk ++ [HMI_ECU_READY]).map Event.recv ++
                 [a0, a1, a2, a3, a4].map Event.recv }).g_eeprom = [a0, a1, a2, a3, a4] := hg
    rw [hg0]
    simp [credentialAddrs, PASSWORD_SIZE, List.range_succ, eeprom_addr, eeprom_flag]

theorem Txns.append {t1 t2 : List Event} (h1 : Txns t1) (h2 : Txns t2) : Txns (t1 ++ t2) := by
  induction h2 with
  | nil => simpa using h1
  | snoc t b _ hb ih => rw [← List.append_assoc]; exact Txns.snoc _ _ ih hb

theorem Txns.single {b : List Event} (hb : Block b) : Txns b := by
  simpa using Txns.snoc [] b Txns.nil hb

theorem Txns.map_recv (l : List Nat) : Txns (l.map Event.recv) := by
  induction l with
  | nil => exact Txns.nil
  | cons b t ih => exact Txns.append (Txns.single (Block.recv b)) ih

theorem Extends_refl (w : World) : Extends w w := ⟨[], by simp, Txns.nil⟩

theorem Extends_trans {w1 w2 w3 : World} (h1 : Extends w1 w2) (h2 : Extends w2 w3) :
    Extends w1 w3 := by
  obtain ⟨e1, t1, x1⟩ := h1
  obtain ⟨e2, t2, x2⟩ := h2
  exact ⟨e1 ++ e2, by rw [t2, t1, List.append_assoc], Txns.append x1 x2⟩

theorem Extends.of_trace {w w2 : World} (h : w2.trace = w.trace) : Extends w w2 :=
  ⟨[], by simp [h], Txns.nil⟩

theorem Extends_UART_sendByte (b : Nat) (w : World) : Extends w (UART_sendByte b w) :=
  ⟨[Event.send b], rfl, Txns.single (Block.send b)⟩

theorem Extends_UART_receiveByte (w w1 : World) (b : Nat)
    (h : UART_receiveByte w = some (b, w1)) : Extends w w1 := by
  unfold UART_receiveByte at h
  cases hrx : w.rx with
  | nil => rw [hrx] at h; simp at h
  | cons x rest =>
    rw [hrx] at h
    simp only [Option.some.injEq, Prod.mk.injEq] at h
    obtain ⟨_, rfl⟩ := h
    exact ⟨[Event.recv x], rfl, Txns.single (Block.recv x)⟩

theorem Extends_awaitLoop (x : Nat) (l : List Nat) (w w1 : World)
    (h : awaitLoop x l w = some w1) : Extends w w1 := by
  induction l generalizing w with
  | nil => simp [awaitLoop] at h
  | cons b t ih =>
    unfold awaitLoop at h
    simp only at h
    split_ifs at h with hb
    · exact Extends_trans ⟨[Event.recv b], rfl, Txns.single (Block.recv b)⟩ (ih _ h)
    · simp only [Option.some.injEq] at h
      subst h
      exact ⟨[Event.recv b], rfl, Txns.single (Block.recv b)⟩

theorem Extends_awaitByte (x : Nat) (w w1 : World) (h : awaitByte x w = some w1) :
    Extends w w1 := Extends_awaitLoop x _ w w1 h

theorem Extends_EEPROM_readByte (dev : TwiDevice) (a : Nat) (w : World) :
    Extends w (EEPROM_readByte dev a w).2.2 := by
  rcases EEPROM_readByte_cases dev a w with ⟨k, _, h6, _, _, _, _, ht⟩ | ⟨_, _, _, ht⟩
  · exact ⟨_, ht, Txns.single (Block.readPart a k h6)⟩
  · exact ⟨_, ht, Txns.single (Block.readDone a)⟩

theorem Extends_EEPROM_writeByte (dev : TwiDevice) (a d : Nat) (w : World)
    (had : a % 2048 ≠ eeprom_flag % 2048 ∨ (a = eeprom_flag ∧ d = SAVED_PASSWORD)) :
    Extends w (EEPROM_writeByte dev a d w).2 := by
  rcases EEPROM_writeByte_cases dev a d w with ⟨k, _, h4, _, _, _, ht⟩ | ⟨_, _, ht⟩
  · exact ⟨_, ht, Txns.single (Block.writePart a d k h4)⟩
  · rcases had with h | ⟨rfl, rfl⟩
    · exact ⟨_, ht, Txns.single (Block.writeCred a d h)⟩
    · exact ⟨_, ht, Txns.single Block.writeFlag⟩
theorem Extends_setNewPasswordLoop (is : List Nat) (w w1 : World)
    (h : setNewPasswordLoop is w = some w1) : Extends w w1 := by
  induction is generalizing w with
  | nil => simp only [setNewPasswordLoop, Option.some.injEq] at h; subst h; exact Extends_refl _
  | cons i t ih =>
    unfold setNewPasswordLoop at h
    cases hr : UART_receiveByte w with
    | none => rw [hr] at h; simp at h
    | some p =>
      obtain ⟨b, w0⟩ := p
      rw [hr] at h
      have h2 : Extends w0 { w0 with g_eeprom := w0.g_eeprom.set i b } := Extends.of_trace rfl
      exact Extends_trans (Extends_UART_receiveByte w w0 b hr)
        (Extends_trans h2 (ih { w0 with g_eeprom := w0.g_eeprom.set i b } h))

theorem Extends_checkNewPasswordLoop (is : List Nat) (m m1 : Nat) (w w1 : World)
    (h : checkNewPasswordLoop is m w = some (m1, w1)) : Extends w w1 := by
  induction is generalizing w m with
  | nil =>
    simp only [checkNewPasswordLoop, Option.some.injEq, Prod.mk.injEq] at h
    obtain ⟨_, rfl⟩ := h; exact Extends_refl _
  | cons i t ih =>
    unfold checkNewPasswordLoop at h
    cases hr : UART_receiveByte w with
    | none => rw [hr] at h; simp at h
    | some p =>
      obtain ⟨b, w0⟩ := p
      rw [hr] at h
      exact Extends_trans (Extends_UART_receiveByte w w0 b hr) (ih _ _ h)

theorem Extends_receivePasswordLoop (is chk chk1 : List Nat) (w w1 : World)
    (h : receivePasswordLoop is chk w = some (chk1, w1)) : Extends w w1 := by
  induction is generalizing w chk with
  | nil =>
    simp only [receivePasswordLoop, Option.some.injEq, Prod.mk.injEq] at h
    obtain ⟨_, rfl⟩ := h; exact Extends_refl _
  | cons i t ih =>
    unfold receivePasswordLoop at h
    cases hr : UART_receiveByte w with
    | none => rw [hr] at h; simp at h
    | some p =>
      obtain ⟨b, w0⟩ := p
      rw [hr] at h
      exact Extends_trans (Extends_UART_receiveByte w w0 b hr) (ih _ _ h)

theorem Extends_reloadPasswordLoop (dev : TwiDevice) (is : List Nat) (w : World) :
    Extends w (reloadPasswordLoop dev is w) := by
  induction is generalizing w with
  | nil => exact Extends_refl _
  | cons i t ih =>
    unfold reloadPasswordLoop
    simp only
    cases (EEPROM_readByte dev ((eeprom_addr + i) % 65536) w).2.1 with
    | none => exact Extends_trans (Extends_EEPROM_readByte dev _ w) (ih _)
    | some d =>
      have h2 : Extends (EEPROM_readByte dev ((eeprom_addr + i) % 65536) w).2.2
          { (EEPROM_readByte dev ((eeprom_addr + i) % 65536) w).2.2 with
            g_eeprom := (EEPROM_readByte dev ((eeprom_addr + i) % 65536) w).2.2.g_eeprom.set i d } :=
        Extends.of_trace rfl
      exact Extends_trans (Extends_EEPROM_readByte dev _ w) (Extends_trans h2 (ih _))

theorem Extends_writePasswordLoop (dev : TwiDevice) (is : List Nat) (his : ∀ i ∈ is, i < 5)
    (w : World) : Extends w (writePasswordLoop dev is w) := by
  induction is generalizing w with
  | nil => exact Extends_refl _
  | cons i t ih =>
    unfold writePasswordLoop
    have hi : i < 5 := his i (by simp)
    have had : (eeprom_addr + i) % 65536 % 2048 ≠ eeprom_flag % 2048 := by
      simp only [eeprom_addr, eeprom_flag]; omega
    exact Extends_trans (Extends_EEPROM_writeByte dev _ _ w (Or.inl had))
      (ih (fun j hj => his j (by simp [hj])) _)

theorem Extends_comparePasswordLoop (chk is : List Nat) (m : Nat) (w : World) :
    Extends w (comparePasswordLoop chk is m w).2 := by
  obtain ⟨pa, h⟩ := comparePasswordLoop_snd chk is m w
  rw [h]; exact Extends.of_trace rfl

theorem Extends_verdict (m key : Nat) (w : World) : Extends w (verdict m key w) := by
  refine ⟨_, verdict_trace m key w, ?_⟩
  split_ifs
  · exact Txns.append (Txns.single (Block.send _)) (Txns.single (Block.send _))
  · exact Txns.single (Block.send _)
  · exact Txns.single (Block.send _)
  · exact Txns.single (Block.send _)

theorem Extends_fireBuzzerOrOpenDoor (w : World) : Extends w (fireBuzzerOrOpenDoor w) := by
  unfold fireBuzzerOrOpenDoor
  simp only
  split_ifs
  · exact ⟨[Event.send DOOR_LOCKING, Event.send DOOR_LOCKED, Event.send SYSTEM_UNLOCKED],
      by simp [UART_sendByte, TIMER1_DeInit, motorStop, motorRotateAntiClockwise, buzzerOFF],
      Txns.append (Txns.single (Block.send _))
        (Txns.append (Txns.single (Block.send _)) (Txns.single (Block.send _)))⟩
  · exact ⟨[Event.send DOOR_LOCKING, Event.send DOOR_LOCKED],
      by simp [UART_sendByte, TIMER1_DeInit, motorStop, motorRotateAntiClockwise, buzzerOFF],
      Txns.append (Txns.single (Block.send _)) (Txns.single (Block.send _))⟩
  · exact ⟨[Event.send DOOR_LOCKING, Event.send SYSTEM_UNLOCKED],
      by simp [UART_sendByte, TIMER1_DeInit, motorStop, motorRotateAntiClockwise, buzzerOFF],
      Txns.append (Txns.single (Block.send _)) (Txns.single (Block.send _))⟩
  · exact ⟨[Event.send DOOR_LOCKING],
      by simp [UART_sendByte, TIMER1_DeInit, motorStop, motorRotateAntiClockwise, buzzerOFF],
      Txns.single (Block.send _)⟩
  · exact ⟨[Event.send DOOR_LOCKED, Event.send SYSTEM_UNLOCKED],
      by simp [UART_sendByte, TIMER1_DeInit, motorStop, motorRotateAntiClockwise, buzzerOFF],
      Txns.append (Txns.single (Block.send _)) (Txns.single (Block.send _))⟩
  · exact ⟨[Event.send DOOR_LOCKED],
      by simp [UART_sendByte, TIMER1_DeInit, motorStop, motorRotateAntiClockwise, buzzerOFF],
      Txns.single (Block.send _)⟩
  · exact ⟨[Event.send SYSTEM_UNLOCKED],
      by simp [UART_sendByte, TIMER1_DeInit, motorStop, motorRotateAntiClockwise, buzzerOFF],
      Txns.single (Block.send _)⟩
  · exact Extends.of_trace rfl
theorem range_lt_five : ∀ i ∈ List.range PASSWORD_SIZE, i < 5 := by
  intro i hi
  simpa [PASSWORD_SIZE] using hi

theorem Extends_Control_setNewPassword (w w2 : World)
    (h : Control_setNewPassword w = some w2) : Extends w w2 := by
  unfold Control_setNewPassword at h
  cases h1 : awaitByte HMI_ECU_READY w with
  | none => rw [h1] at h; simp at h
  | some w1 =>
    rw [h1] at h
    simp only at h
    cases h2 : setNewPasswordLoop (List.range PASSWORD_SIZE) w1 with
    | none => rw [h2] at h; simp at h
    | some w3 =>
      rw [h2] at h
      simp only [Option.some.injEq] at h
      subst h
      exact Extends_trans (Extends_awaitByte _ _ _ h1)
        (Extends_trans (Extends_setNewPasswordLoop _ _ _ h2) (Extends.of_trace rfl))

theorem Extends_Control_checkNewPassword (dev : TwiDevice) (w w2 : World)
    (h : Control_checkNewPassword dev w = some w2) : Extends w w2 := by
  unfold Control_checkNewPassword at h
  cases h1 : awaitByte HMI_ECU_READY w with
  | none => rw [h1] at h; simp at h
  | some w1 =>
    rw [h1] at h
    simp only at h
    cases h2 : checkNewPasswordLoop (List.range PASSWORD_SIZE) 0 w1 with
    | none => rw [h2] at h; simp at h
    | some p =>
      obtain ⟨m, w3⟩ := p
      rw [h2] at h
      simp only at h
      split_ifs at h with hm
      · simp only [Option.some.injEq] at h
        subst h
        have e5 : Extends (EEPROM_writeByte dev eeprom_flag SAVED_PASSWORD
            (writePasswordLoop dev (List.range PASSWORD_SIZE)
              (UART_sendByte CORRECT_NEW_PASSWORD w3))).2
            { (EEPROM_writeByte dev eeprom_flag SAVED_PASSWORD
                (writePasswordLoop dev (List.range PASSWORD_SIZE)
                  (UART_sendByte CORRECT_NEW_PASSWORD w3))).2 with g_functionID := 3 } :=
          Extends.of_trace rfl
        exact Extends_trans (Extends_awaitByte _ _ _ h1)
          (Extends_trans (Extends_checkNewPasswordLoop _ _ _ _ _ h2)
            (Extends_trans (Extends_UART_sendByte _ _)
              (Extends_trans (Extends_writePasswordLoop dev _ range_lt_five _)
                (Extends_trans (Extends_EEPROM_writeByte dev _ _ _ (Or.inr ⟨rfl, rfl⟩)) e5))))
      · simp only [Option.some.injEq] at h
        subst h
        have e5 : Extends (UART_sendByte NON_CORRECT_NEW_PASSWORD w3)
            { UART_sendByte NON_CORRECT_NEW_PASSWORD w3 with g_functionID := 1 } :=
          Extends.of_trace rfl
        exact Extends_trans (Extends_awaitByte _ _ _ h1)
          (Extends_trans (Extends_checkNewPasswordLoop _ _ _ _ _ h2)
            (Extends_trans (Extends_UART_sendByte _ _) e5))

theorem Extends_Control_receiveAndCheckPassword (dev : TwiDevice) (w w2 : World)
    (h : Control_receiveAndCheckPassword dev w = some w2) : Extends w w2 := by
  unfold Control_receiveAndCheckPassword at h
  cases hr : receiveAndCompare dev w with
  | none => rw [hr] at h; simp at h
  | some p =>
    obtain ⟨m, key, w5⟩ := p
    rw [hr] at h
    simp only [Option.some.injEq] at h
    subst h
    refine Extends_trans ?_ (Extends_verdict m key w5)
    unfold receiveAndCompare at hr
    cases h1 : awaitByte HMI_ECU_READY w with
    | none => rw [h1] at hr; simp at hr
    | some w1 =>
      rw [h1] at hr
      simp only at hr
      cases h2 : receivePasswordLoop (List.range PASSWORD_SIZE)
          (List.replicate PASSWORD_SIZE 0) w1 with
      | none => rw [h2] at hr; simp at hr
      | some q =>
        obtain ⟨chk, w3⟩ := q
        rw [h2] at hr
        simp only at hr
        cases h3 : UART_receiveByte (comparePasswordLoop chk (List.range PASSWORD_SIZE) 0
            (reloadPasswordLoop dev (List.range PASSWORD_SIZE) w3)).2 with
        | none => rw [h3] at hr; simp at hr
        | some r =>
          obtain ⟨k2, w6⟩ := r
          rw [h3] at hr
          simp only [Option.some.injEq, Prod.mk.injEq] at hr
          obtain ⟨_, _, rfl⟩ := hr
          exact Extends_trans (Extends_awaitByte _ _ _ h1)
            (Extends_trans (Extends_receivePasswordLoop _ _ _ _ _ h2)
              (Extends_trans (Extends_reloadPasswordLoop dev _ _)
                (Extends_trans (Extends_comparePasswordLoop _ _ _ _)
                  (Extends_UART_receiveByte _ _ _ h3))))

theorem Extends_Control_checkForSavedPassword (dev : TwiDevice) (chkFlag0 : Nat) (w w2 : World)
    (h : Control_checkForSavedPassword dev chkFlag0 w = some w2) : Extends w w2 := by
  unfold Control_checkForSavedPassword at h
  cases h1 : awaitByte CHECK_FOR_SAVED_PASSWORD w with
  | none => rw [h1] at h; simp at h
  | some w1 =>
    rw [h1] at h
    simp only at h
    have e0 := Extends_trans (Extends_awaitByte _ _ _ h1)
      (Extends_EEPROM_readByte dev eeprom_flag w1)
    have e1 : Extends (EEPROM_readByte dev eeprom_flag w1).2.2
        { reloadPasswordLoop dev (List.range PASSWORD_SIZE)
            (UART_sendByte SAVED_PASSWORD (EEPROM_readByte dev eeprom_flag w1).2.2) with
          g_functionID := 3 } :=
      Extends_trans (Extends_UART_sendByte _ _)
        (Extends_trans (Extends_reloadPasswordLoop dev _ _) (Extends.of_trace rfl))
    split_ifs at h with hs hn hn
    · simp only [Option.some.injEq] at h
      subst h
      exact Extends_trans e0 (Extends_trans e1
        (Extends_trans (Extends_UART_sendByte NO_SAVED_PASSWORD _) (Extends.of_trace rfl)))
    · simp only [Option.some.injEq] at h
      subst h
      exact Extends_trans e0
        (Extends_trans (Extends_UART_sendByte NO_SAVED_PASSWORD _) (Extends.of_trace rfl))
    · simp only [Option.some.injEq] at h
      subst h
      exact Extends_trans e0 e1
    · simp only [Option.some.injEq] at h
      subst h
      exact e0

theorem Reachable.turns {dev : TwiDevice} {w : World} (h : Reachable dev w) (n : Nat) :
    Reachable dev ((turns dev n w).getD w) := by
  induction n with
  | zero => exact h
  | succ n ih =>
    unfold DoorLocker.turns
    cases ht : DoorLocker.turns dev n w with
    | none => exact h
    | some w1 =>
      rw [ht] at ih
      simp only
      cases hd : dispatch dev 0 w1 with
      | none => exact h
      | some w2 => exact Reachable.turn w1 w2 0 ih hd


theorem Frame_refl (w : World) : Frame w w := ⟨rfl, rfl, rfl, rfl, rfl⟩

theorem Frame_trans {w1 w2 w3 : World} (h1 : Frame w1 w2) (h2 : Frame w2 w3) : Frame w1 w3 :=
  ⟨h2.1.trans h1.1, h2.2.1.trans h1.2.1, h2.2.2.1.trans h1.2.2.1, h2.2.2.2.1.trans h1.2.2.2.1,
    h2.2.2.2.2.trans h1.2.2.2.2⟩

theorem Frame_UART_receiveByte (w w1 : World) (b : Nat)
    (h : UART_receiveByte w = some (b, w1)) : Frame w w1 := by
  unfold UART_receiveByte at h
  cases hrx : w.rx with
  | nil => rw [hrx] at h; simp at h
  | cons x rest =>
    rw [hrx] at h
    simp only [Option.some.injEq, Prod.mk.injEq] at h
    obtain ⟨_, rfl⟩ := h
    exact ⟨rfl, rfl, rfl, rfl, rfl⟩

theorem Frame_awaitLoop (x : Nat) (l : List Nat) (w w1 : World)
    (h : awaitLoop x l w = some w1) : Frame w w1 := by
  induction l generalizing w with
  | nil => simp [awaitLoop] at h
  | cons b t ih =>
    unfold awaitLoop at h
    simp only at h
    split_ifs at h with hb
    · have h0 : Frame w { w with rx := t, trace := w.trace ++ [Event.recv b] } :=
        ⟨rfl, rfl, rfl, rfl, rfl⟩
      exact Frame_trans h0 (ih _ h)
    · simp only [Option.some.injEq] at h
      subst h
      exact ⟨rfl, rfl, rfl, rfl, rfl⟩

theorem Frame_EEPROM_readByte (dev : TwiDevice) (a : Nat) (w : World) :
    Frame w (EEPROM_readByte dev a w).2.2 := by
  obtain ⟨ops, h⟩ := EEPROM_readByte_events dev a w
  rw [h]; exact ⟨rfl, rfl, rfl, rfl, rfl⟩

theorem Frame_EEPROM_writeByte (dev : TwiDevice) (a d : Nat) (w : World) :
    Frame w (EEPROM_writeByte dev a d w).2 := by
  obtain ⟨ops, h⟩ := EEPROM_writeByte_events dev a d w
  rw [h]; exact ⟨rfl, rfl, rfl, rfl, rfl⟩

theorem Frame_setNewPasswordLoop (is : List Nat) (w w1 : World)
    (h : setNewPasswordLoop is w = some w1) : Frame w w1 := by
  induction is generalizing w with
  | nil => simp only [setNewPasswordLoop, Option.some.injEq] at h; subst h; exact Frame_refl _
  | cons i t ih =>
    unfold setNewPasswordLoop at h
    cases hr : UART_receiveByte w with
    | none => rw [hr] at h; simp at h
    | some p =>
      obtain ⟨b, w0⟩ := p
      rw [hr] at h
      have h2 : Frame w0 { w0 with g_eeprom := w0.g_eeprom.set i b } :=
        ⟨rfl, rfl, rfl, rfl, by simp⟩
      exact Frame_trans (Frame_UART_receiveByte w w0 b hr)
        (Frame_trans h2 (ih { w0 with g_eeprom := w0.g_eeprom.set i b } h))

theorem Frame_checkNewPasswordLoop (is : List Nat) (m m1 : Nat) (w w1 : World)
    (h : checkNewPasswordLoop is m w = some (m1, w1)) : Frame w w1 := by
  induction is generalizing w m with
  | nil =>
    simp only [checkNewPasswordLoop, Option.some.injEq, Prod.mk.injEq] at h
    obtain ⟨_, rfl⟩ := h; exact Frame_refl _
  | cons i t ih =>
    unfold checkNewPasswordLoop at h
    cases hr : UART_receiveByte w with
    | none => rw [hr] at h; simp at h
    | some p =>
      obtain ⟨b, w0⟩ := p
      rw [hr] at h
      exact Frame_trans (Frame_UART_receiveByte w w0 b hr) (ih _ _ h)

theorem Frame_reloadPasswordLoop (dev : TwiDevice) (is : List Nat) (w : World) :
    Frame w (reloadPasswordLoop dev is w) := by
  obtain ⟨evs, S, h, hl, _, _⟩ := reloadPasswordLoop_frame dev is w
  rw [h]; exact ⟨rfl, rfl, rfl, rfl, hl⟩

theorem Frame_writePasswordLoop (dev : TwiDevice) (is : List Nat) (w : World) :
    Frame w (writePasswordLoop dev is w) := by
  obtain ⟨evs, h, _, _⟩ := writePasswordLoop_frame dev is w
  rw [h]; exact ⟨rfl, rfl, rfl, rfl, rfl⟩

theorem Frame_Control_setNewPassword (w w2 : World)
    (h : Control_setNewPassword w = some w2) : Frame w w2 := by
  unfold Control_setNewPassword at h
  cases h1 : awaitByte HMI_ECU_READY w with
  | none => rw [h1] at h; simp at h
  | some w1 =>
    rw [h1] at h
    simp only at h
    cases h2 : setNewPasswordLoop (List.range PASSWORD_SIZE) w1 with
    | none => rw [h2] at h; simp at h
    | some w3 =>
      rw [h2] at h
      simp only [Option.some.injEq] at h
      subst h
      have h3 : Frame w3 { w3 with g_functionID := 2 } := ⟨rfl, rfl, rfl, rfl, rfl⟩
      exact Frame_trans (Frame_awaitLoop _ _ _ _ h1)
        (Frame_trans (Frame_setNewPasswordLoop _ _ _ h2) h3)

theorem Frame_Control_checkNewPassword (dev : TwiDevice) (w w2 : World)
    (h : Control_checkNewPassword dev w = some w2) : Frame w w2 := by
  unfold Control_checkNewPassword at h
  cases h1 : awaitByte HMI_ECU_READY w with
  | none => rw [h1] at h; simp at h
  | some w1 =>
    rw [h1] at h
    simp only at h
    cases h2 : checkNewPasswordLoop (List.range PASSWORD_SIZE) 0 w1 with
    | none => rw [h2] at h; simp at h
    | some p =>
      obtain ⟨m, w3⟩ := p
      rw [h2] at h
      simp only at h
      split_ifs at h with hm
      · simp only [Option.some.injEq] at h
        subst h
        have e0 : Frame w3 (UART_sendByte CORRECT_NEW_PASSWORD w3) := ⟨rfl, rfl, rfl, rfl, rfl⟩
        have e5 : Frame (EEPROM_writeByte dev eeprom_flag SAVED_PASSWORD
            (writePasswordLoop dev (List.range PASSWORD_SIZE)
              (UART_sendByte CORRECT_NEW_PASSWORD w3))).2
            { (EEPROM_writeByte dev eeprom_flag SAVED_PASSWORD
                (writePasswordLoop dev (List.range PASSWORD_SIZE)
                  (UART_sendByte CORRECT_NEW_PASSWORD w3))).2 with g_functionID := 3 } :=
          ⟨rfl, rfl, rfl, rfl, rfl⟩
        exact Frame_trans (Frame_awaitLoop _ _ _ _ h1)
          (Frame_trans (Frame_checkNewPasswordLoop _ _ _ _ _ h2)
            (Frame_trans e0
              (Frame_trans (Frame_writePasswordLoop dev _ _)
                (Frame_trans (Frame_EEPROM_writeByte dev _ _ _) e5))))
      · simp only [Option.some.injEq] at h
        subst h
        have e5 : Frame w3
            { UART_sendByte NON_CORRECT_NEW_PASSWORD w3 with g_functionID := 1 } :=
          ⟨rfl, rfl, rfl, rfl, rfl⟩
        exact Frame_trans (Frame_awaitLoop _ _ _ _ h1)
          (Frame_trans (Frame_checkNewPasswordLoop _ _ _ _ _ h2) e5)

theorem Frame_Control_checkForSavedPassword (dev : TwiDevice) (chkFlag0 : Nat) (w w2 : World)
    (h : Control_checkForSavedPassword dev chkFlag0 w = some w2) : Frame w w2 := by
  unfold Control_checkForSavedPassword at h
  cases h1 : awaitByte CHECK_FOR_SAVED_PASSWORD w with
  | none => rw [h1] at h; simp at h
  | some w1 =>
    rw [h1] at h
    simp only at h
    have e0 := Frame_trans (Frame_awaitLoop _ _ _ _ h1)
      (Frame_EEPROM_readByte dev eeprom_flag w1)
    have e1 : Frame (EEPROM_readByte dev eeprom_flag w1).2.2
        { reloadPasswordLoop dev (List.range PASSWORD_SIZE)
            (UART_sendByte SAVED_PASSWORD (EEPROM_readByte dev eeprom_flag w1).2.2) with
          g_functionID := 3 } := by
      have a : Frame (EEPROM_readByte dev eeprom_flag w1).2.2
          (UART_sendByte SAVED_PASSWORD (EEPROM_readByte dev eeprom_flag w1).2.2) :=
        ⟨rfl, rfl, rfl, rfl, rfl⟩
      have b := Frame_reloadPasswordLoop dev (List.range PASSWORD_SIZE)
        (UART_sendByte SAVED_PASSWORD (EEPROM_readByte dev eeprom_flag w1).2.2)
      exact Frame_trans a ⟨b.1, b.2.1, b.2.2.1, b.2.2.2.1, b.2.2.2.2⟩
    split_ifs at h with hs hn hn
    · simp only [Option.some.injEq] at h
      subst h
      exact Frame_trans e0 ⟨e1.1, e1.2.1, e1.2.2.1, e1.2.2.2.1, e1.2.2.2.2⟩
    · simp only [Option.some.injEq] at h
      subst h
      exact Frame_trans e0 ⟨rfl, rfl, rfl, rfl, rfl⟩
    · simp only [Option.some.injEq] at h
      subst h
      exact Frame_trans e0 e1
    · simp only [Option.some.injEq] at h
      subst h
      exact e0
theorem awaitLoop_none (x : Nat) (l : List Nat) (w : World) (h : x ∉ l) :
    awaitLoop x l w = none := by
  induction l generalizing w with
  | nil => rfl
  | cons b t ih =>
    have hb : b ≠ x := fun e => h (by simp [e])
    have ht : x ∉ t := fun e => h (by simp [e])
    simp [awaitLoop, hb, ih _ ht]

theorem setNewPasswordLoop_none (is : List Nat) (w : World) (h : w.rx.length < is.length) :
    setNewPasswordLoop is w = none := by
  induction is generalizing w with
  | nil => simp at h
  | cons i t ih =>
    unfold setNewPasswordLoop UART_receiveByte
    cases hrx : w.rx with
    | nil => rfl
    | cons b r =>
      simp only
      apply ih
      rw [hrx] at h
      simpa using h

theorem checkNewPasswordLoop_none (is : List Nat) (m : Nat) (w : World)
    (h : w.rx.length < is.length) : checkNewPasswordLoop is m w = none := by
  induction is generalizing w m with
  | nil => simp at h
  | cons i t ih =>
    unfold checkNewPasswordLoop UART_receiveByte
    cases hrx : w.rx with
    | nil => rfl
    | cons b r =>
      simp only
      apply ih
      rw [hrx] at h
      simpa using h

theorem receivePasswordLoop_none (is chk : List Nat) (w : World)
    (h : w.rx.length < is.length) : receivePasswordLoop is chk w = none := by
  induction is generalizing w chk with
  | nil => simp at h
  | cons i t ih =>
    unfold receivePasswordLoop UART_receiveByte
    cases hrx : w.rx with
    | nil => rfl
    | cons b r =>
      simp only
      apply ih
      rw [hrx] at h
      simpa using h

theorem Control_setNewPassword_none (w : World) (junk ks : List Nat)
    (hj : HMI_ECU_READY ∉ junk) (hk : ks.length < 5)
    (hrx : w.rx = junk ∨ w.rx = junk ++ HMI_ECU_READY :: ks) :
    Control_setNewPassword w = none := by
  unfold Control_setNewPassword
  rcases hrx with hrx | hrx
  · have : awaitByte HMI_ECU_READY w = none := by
      unfold awaitByte; rw [hrx]; exact awaitLoop_none _ _ _ hj
    rw [this]
  · rw [awaitByte_spec HMI_ECU_READY junk ks hj w hrx]
    simp only
    rw [setNewPasswordLoop_none _ _ (by simpa [PASSWORD_SIZE] using hk)]

theorem Control_checkNewPassword_none (dev : TwiDevice) (w : World) (junk ks : List Nat)
    (hj : HMI_ECU_READY ∉ junk) (hk : ks.length < 5)
    (hrx : w.rx = junk ∨ w.rx = junk ++ HMI_ECU_READY :: ks) :
    Control_checkNewPassword dev w = none := by
  unfold Control_checkNewPassword
  rcases hrx with hrx | hrx
  · have : awaitByte HMI_ECU_READY w = none := by
      unfold awaitByte; rw [hrx]; exact awaitLoop_none _ _ _ hj
    rw [this]
  · rw [awaitByte_spec HMI_ECU_READY junk ks hj w hrx]
    simp only
    rw [checkNewPasswordLoop_none _ _ _ (by simpa [PASSWORD_SIZE] using hk)]

theorem Control_receiveAndCheckPassword_none (dev : TwiDevice) (w : World) (junk ks : List Nat)
    (hj : HMI_ECU_READY ∉ junk) (hk : ks.length ≤ 5)
    (hrx : w.rx = junk ∨ w.rx = junk ++ HMI_ECU_READY :: ks) :
    Control_receiveAndCheckPassword dev w = none := by
  unfold Control_receiveAndCheckPassword receiveAndCompare
  rcases hrx with hrx | hrx
  · have : awaitByte HMI_ECU_READY w = none := by
      unfold awaitByte; rw [hrx]; exact awaitLoop_none _ _ _ hj
    rw [this]
  · rw [awaitByte_spec HMI_ECU_READY junk ks hj w hrx]
    simp only
    rcases Nat.lt_or_eq_of_le hk with hlt | heq
    · rw [receivePasswordLoop_none _ _ _ (by simpa [PASSWORD_SIZE] using hlt)]
    · obtain ⟨a, b, c, d, e, rfl⟩ := length_eq_five heq
      rw [receivePasswordLoop_spec a b c d e [] (List.replicate PASSWORD_SIZE 0) _
        (by simp [PASSWORD_SIZE]) (by simp)]
      simp only
      obtain ⟨evs, S, h3, _, _, _⟩ := reloadPasswordLoop_frame dev (List.range PASSWORD_SIZE)
        { w with rx := [], trace := w.trace ++ (junk ++ [HMI_ECU_READY]).map Event.recv ++ [a, b, c, d, e].map Event.recv }
      rw [h3]
      obtain ⟨pa, h4⟩ := comparePasswordLoop_snd [a, b, c, d, e] (List.range PASSWORD_SIZE) 0
        { w with rx := [], trace := w.trace ++ (junk ++ [HMI_ECU_READY]).map Event.recv ++ [a, b, c, d, e].map Event.recv ++ evs, g_eeprom := S }
      rw [h4]
      simp [UART_receiveByte]

theorem Control_checkForSavedPassword_none (dev : TwiDevice) (chkFlag0 : Nat) (w : World)
    (hrx : CHECK_FOR_SAVED_PASSWORD ∉ w.rx) :
    Control_checkForSavedPassword dev chkFlag0 w = none := by
  unfold Control_checkForSavedPassword
  have : awaitByte CHECK_FOR_SAVED_PASSWORD w = none := by
    unfold awaitByte; exact awaitLoop_none _ _ _ hrx
  rw [this]

theorem Calm.frame {w w2 : World} (hc : Calm w) (hf : Frame w w2) : Calm w2 :=
  ⟨hf.1.trans hc.1, by rw [hf.2.2.1]; exact hc.2.1, hf.2.2.2.2.trans hc.2.2⟩

theorem Calm.not_running {w : World} (hc : Calm w) : ¬ timerRunning w := by
  intro h
  have h1 := h.1
  rw [hc.2.1] at h1
  exact absurd h1 (by decide)

theorem timerRunning_of_started {w : World} (h : schedulerStarted w) : timerRunning w :=
  ⟨h.2.2.2.2.2.2, Or.inl h.1⟩

theorem dispatch_none_0 (dev : TwiDevice) (chk : Nat) (w : World) (hid : w.g_functionID = 0)
    (hrx : w.rx = []) : dispatch dev chk w = none := by
  unfold dispatch
  rw [if_pos hid]
  exact Control_checkForSavedPassword_none dev chk w (by rw [hrx]; simp)

theorem dispatch_none_1 (dev : TwiDevice) (chk : Nat) (w : World) (ks : List Nat)
    (hid : w.g_functionID = 1) (hk : ks.length < 5)
    (hrx : w.rx = [] ∨ w.rx = HMI_ECU_READY :: ks) : dispatch dev chk w = none := by
  unfold dispatch
  rw [if_neg (by rw [hid]; decide), if_pos hid]
  exact Control_setNewPassword_none w [] ks (by simp) hk (by simpa using hrx)

theorem dispatch_none_2 (dev : TwiDevice) (chk : Nat) (w : World) (ks : List Nat)
    (hid : w.g_functionID = 2) (hk : ks.length < 5)
    (hrx : w.rx = HMI_ECU_READY :: ks) : dispatch dev chk w = none := by
  unfold dispatch
  rw [if_neg (by rw [hid]; decide), if_neg (by rw [hid]; decide), if_pos hid]
  exact Control_checkNewPassword_none dev w [] ks (by simp) hk (Or.inr (by simpa using hrx))

theorem dispatch_none_3 (dev : TwiDevice) (chk : Nat) (w : World) (junk ks : List Nat)
    (hid : w.g_functionID = 3) (hj : HMI_ECU_READY ∉ junk) (hk : ks.length ≤ 5)
    (hrx : w.rx = junk ∨ w.rx = junk ++ HMI_ECU_READY :: ks) : dispatch dev chk w = none := by
  unfold dispatch
  rw [if_neg (by rw [hid]; decide), if_neg (by rw [hid]; decide), if_neg (by rw [hid]; decide),
    if_pos hid]
  exact Control_receiveAndCheckPassword_none dev w junk ks hj hk hrx

/-- The turn of function 0 once the request has arrived, the flag read
delivering one of the two sentinels. -/
theorem turn_asked (dev : TwiDevice) (chk : Nat) (w : World)
    (hflag : (readTxn dev [] eeprom_flag).1 = some NO_SAVED_PASSWORD ∨
      (readTxn dev [] eeprom_flag).1 = some SAVED_PASSWORD)
    (hid : w.g_functionID = 0) (hrx : w.rx = [CHECK_FOR_SAVED_PASSWORD])
    (hb : busOps w.trace = []) (hc : Calm w) :
    ∃ w2, dispatch dev chk w = some w2 ∧ w2.rx = [] ∧ Calm w2 ∧
      ((newSent w w2 = [NO_SAVED_PASSWORD] ∧ w2.g_functionID = 1) ∨
       (newSent w w2 = [SAVED_PASSWORD] ∧ w2.g_functionID = 3)) := by
  have hd : dispatch dev chk w = Control_checkForSavedPassword dev chk w := by
    unfold dispatch; rw [if_pos hid]
  have hrx2 : w.rx = [] ++ CHECK_FOR_SAVED_PASSWORD :: [] := by simpa using hrx
  rcases hflag with hf | hf
  · obtain ⟨ops, _, h⟩ := Control_checkForSavedPassword_spec dev chk w [] [] (by simp) hrx2
    rw [hb, hf] at h
    have hne : ¬ (NO_SAVED_PASSWORD = SAVED_PASSWORD) := by decide
    simp only [Option.getD_some, if_neg hne, eq_self_iff_true, if_true] at h
    rw [hd]
    refine ⟨_, h, rfl, hc.frame (Frame_Control_checkForSavedPassword dev chk w _ h), Or.inl ⟨?_, rfl⟩⟩
    rw [newSent_of_trace w _ ((([] ++ [CHECK_FOR_SAVED_PASSWORD]).map Event.recv ++
      Event.eepromRead eeprom_flag :: ops.map Event.twi) ++ [Event.send NO_SAVED_PASSWORD])
      (by simp [UART_sendByte])]
    rw [sentBytes_append, sentBytes_append, sentBytes_map_recv]
    simp only [sentBytes, sentBytes_map_twi, List.nil_append]
  · obtain ⟨evs, h, hs, _, _⟩ := Control_checkForSavedPassword_saved dev chk w [] []
      (by simp) hrx2 (by rw [hb, hf]; rfl)
    rw [hd]
    refine ⟨_, h, rfl, hc.frame (Frame_Control_checkForSavedPassword dev chk w _ h), Or.inr ⟨?_, rfl⟩⟩
    rw [newSent_of_trace w _ _ rfl, sentBytes_append, sentBytes_map_recv, hs]
    rfl

/-- The turn of function 1 once the ready signal and five symbols have arrived. -/
theorem turn_set (dev : TwiDevice) (chk : Nat) (w : World) (ks rest : List Nat)
    (hid : w.g_functionID = 1) (hk : ks.length = 5)
    (hrx : w.rx = HMI_ECU_READY :: (ks ++ rest)) (hc : Calm w) :
    ∃ w2, dispatch dev chk w = some w2 ∧ w2.rx = rest ∧ w2.g_functionID = 2 ∧
      newSent w w2 = [] ∧ Calm w2 := by
  have hd : dispatch dev chk w = Control_setNewPassword w := by
    unfold dispatch; rw [if_neg (by rw [hid]; decide), if_pos hid]
  obtain ⟨w2, h, _, hi2, hr2, ht2⟩ := Control_setNewPassword_spec w [] ks rest (by simp) hk hc.2.2
    (by simpa using hrx)
  rw [hd]
  refine ⟨w2, h, hr2, hi2, ?_, hc.frame (Frame_Control_setNewPassword w w2 h)⟩
  rw [newSent_of_trace w w2 _ ht2, sentBytes_map_recv]

/-- The turn of function 2 once the ready signal and five symbols have arrived. -/
theorem turn_check (dev : TwiDevice) (chk : Nat) (w : World) (ks : List Nat)
    (hid : w.g_functionID = 2) (hk : ks.length = 5)
    (hrx : w.rx = HMI_ECU_READY :: ks) (hc : Calm w) :
    ∃ w2, dispatch dev chk w = some w2 ∧ w2.rx = [] ∧ Calm w2 ∧
      ((newSent w w2 = [CORRECT_NEW_PASSWORD] ∧ w2.g_functionID = 3) ∨
       (newSent w w2 = [NON_CORRECT_NEW_PASSWORD] ∧ w2.g_functionID = 1)) := by
  have hd : dispatch dev chk w = Control_checkNewPassword dev w := by
    unfold dispatch
    rw [if_neg (by rw [hid]; decide), if_neg (by rw [hid]; decide), if_pos hid]
  obtain ⟨w2, h, hr2, _, hyes, hno⟩ := Control_checkNewPassword_spec dev w [] ks [] (by simp) hk
    (by simpa using hrx)
  rw [hd]
  refine ⟨w2, h, hr2, hc.frame (Frame_Control_checkNewPassword dev w w2 h), ?_⟩
  by_cases hm : mismatchCount ks w.g_eeprom = 0
  · obtain ⟨hi2, tail, ht2, hs2, _⟩ := hyes hm
    refine Or.inl ⟨?_, hi2⟩
    rw [newSent_of_trace w w2 _ ht2, sentBytes_append, sentBytes_map_recv]
    simp only [sentBytes, hs2, List.nil_append]
  · obtain ⟨hi2, ht2⟩ := hno hm
    refine Or.inr ⟨?_, hi2⟩
    rw [newSent_of_trace w w2 _ ht2, sentBytes_append, sentBytes_map_recv]
    rfl

/-- The turn of function 3 once a whole entry has arrived. -/
theorem turn_round (dev : TwiDevice) (chk : Nat) (w : World) (junk ks : List Nat) (key : Nat)
    (hid : w.g_functionID = 3) (hj : HMI_ECU_READY ∉ junk) (hk : ks.length = 5)
    (hkey : key = OPEN_DOOR ∨ key = CHANGE_PASSWORD)
    (hrx : w.rx = junk ++ HMI_ECU_READY :: (ks ++ [key])) (hc : Calm w) :
    ∃ w2, dispatch dev chk w = some w2 ∧
      ((newSent w w2 = [WRONG_PASSWORD] ∧ w2.g_functionID = 3 ∧ w2.rx = [] ∧ Calm w2) ∨
       (newSent w w2 = [THIEF] ∧ LockCtl w2 1) ∨
       (key = OPEN_DOOR ∧ newSent w w2 = [CORRECT_PASSWORD, DOOR_UNLOCKING] ∧ DoorCtl w2 2) ∨
       (key = CHANGE_PASSWORD ∧ newSent w w2 = [CORRECT_PASSWORD] ∧ w2.g_functionID = 1 ∧
         w2.rx = [] ∧ Calm w2)) := by
  have hd : dispatch dev chk w = Control_receiveAndCheckPassword dev w := by
    unfold dispatch
    rw [if_neg (by rw [hid]; decide), if_neg (by rw [hid]; decide),
      if_neg (by rw [hid]; decide), if_pos hid]
  obtain ⟨w2, h, hl2, hr2, hc2, hne, heq⟩ := round_summary dev w junk ks [] key hj hk hc.2.2
    (by simp [hrx, roundInput])
  rw [hd]
  refine ⟨w2, h, ?_⟩
  have hcount : w2.count = 0 := hc2.trans hc.1
  by_cases hE : ks = w2.g_eeprom
  · obtain ⟨_, hs2, hopen, hchange, _⟩ := heq hE
    rcases hkey with rfl | rfl
    · obtain ⟨hn, _, hst, hi2, _⟩ := hopen rfl
      exact Or.inr (Or.inr (Or.inl ⟨rfl, hn, hi2.trans hid, hr2, hs2, hl2,
        Or.inl ⟨timerRunning_of_started hst, by rw [hcount]; decide, rfl⟩⟩))
    · obtain ⟨hn, hi2, hso⟩ := hchange rfl
      exact Or.inr (Or.inr (Or.inr ⟨rfl, hn, hi2, hr2, hcount,
        by rw [hso.2.2.2.2.2.2]; exact hc.2.1, hl2⟩))
  · obtain ⟨_, hs2, hi2, hwrong, hthief⟩ := hne hE
    by_cases h4 : (w.trial + 1) % 256 = 4
    · obtain ⟨hn, _, hst, _⟩ := hthief h4
      exact Or.inr (Or.inl ⟨hn, hi2, hr2, hs2, hl2,
        Or.inl ⟨timerRunning_of_started hst, by rw [hcount]; decide, rfl⟩⟩)
    · obtain ⟨hn, hso⟩ := hwrong h4
      exact Or.inl ⟨hn, hi2, hr2, hcount, by rw [hso.2.2.2.2.2.2]; exact hc.2.1, hl2⟩
theorem sentBytes_map_send (l : List Nat) : sentBytes (l.map Event.send) = l := by
  induction l with
  | nil => rfl
  | cons b t ih => simp [sentBytes, ih]

theorem newSent_self_append (w w2 : World) (l : List Nat)
    (h : w2.trace = w.trace ++ l.map Event.send) : newSent w w2 = l := by
  rw [newSent_of_trace w w2 _ h, sentBytes_map_send]

/-- One call of the callback during the door timeline. -/
theorem tick_door (w : World) (sent : Nat) (hd : DoorCtl w sent) (hr : timerRunning w) :
    ∃ sent2, DoorCtl (fireBuzzerOrOpenDoor w) sent2 ∧
      ∀ n, n ≤ 3 → n ≤ sent →
        (doorScript.take sent).drop n ++ newSent w (fireBuzzerOrOpenDoor w) =
          (doorScript.take sent2).drop n ∧ n ≤ sent2 := by
  obtain ⟨hid, hrx, hs, hl, hph⟩ := hd
  rcases hph with ⟨_, hc, rfl⟩ | ⟨_, hc3, hc6, rfl⟩ | ⟨hcalm, _⟩
  · by_cases h2 : w.count = 2
    · have hf := fire_lock w h2 hs
      have hcnt : (fireBuzzerOrOpenDoor w).count = 3 := by rw [hf]
      refine ⟨3, ⟨by rw [hf]; exact hid, by rw [hf]; exact hrx, by rw [hf]; exact hs,
        by rw [hf]; exact hl, Or.inr (Or.inl ⟨by rw [hf]; exact hr, by omega,
          by omega, rfl⟩)⟩, ?_⟩
      intro n hn3 hn2
      rw [newSent_self_append w _ [DOOR_LOCKING] (by rw [hf]; rfl)]
      interval_cases n <;> exact ⟨rfl, by decide⟩
    · have hf := fire_quiet w (by omega) (by omega) (by rw [hs]; simp)
      refine ⟨2, ⟨by rw [hf]; exact hid, by rw [hf]; exact hrx, by rw [hf]; exact hs,
        by rw [hf]; exact hl, Or.inl ⟨by rw [hf]; exact hr, ?_, rfl⟩⟩, ?_⟩
      · rw [hf]; show (w.count + 1) % 256 < 3; omega
      · intro n hn3 hn2
        rw [newSent_self_append w _ [] (by rw [hf]; simp)]
        exact ⟨by simp, hn2⟩
  · by_cases h5 : w.count = 5
    · have hf := fire_locked w h5 hs
      refine ⟨4, ⟨by rw [hf], by rw [hf]; exact hrx, by rw [hf]; exact hs,
        by rw [hf]; exact hl, Or.inr (Or.inr ⟨⟨by rw [hf], ?_, by rw [hf]; exact hl⟩, rfl⟩)⟩, ?_⟩
      · rw [hf]; exact (TIMER1_DeInit_stopped (motorStop w)).2.2.2.2.1
      · intro n hn3 hn2
        rw [newSent_self_append w _ [DOOR_LOCKED] (by rw [hf]; rfl)]
        interval_cases n <;> exact ⟨rfl, by decide⟩
    · have hf := fire_quiet w (by omega) (by omega) (by rw [hs]; simp)
      refine ⟨3, ⟨by rw [hf]; exact hid, by rw [hf]; exact hrx, by rw [hf]; exact hs,
        by rw [hf]; exact hl, Or.inr (Or.inl ⟨by rw [hf]; exact hr, ?_, ?_, rfl⟩)⟩, ?_⟩
      · rw [hf]; show 3 ≤ (w.count + 1) % 256; omega
      · rw [hf]; show (w.count + 1) % 256 < 6; omega
      · intro n hn3 hn2
        rw [newSent_self_append w _ [] (by rw [hf]; simp)]
        exact ⟨by simp, hn2⟩
  · exact absurd hr hcalm.not_running

/-- One call of the callback during the lockout. -/
theorem tick_lock (w : World) (sent : Nat) (hd : LockCtl w sent) (hr : timerRunning w) :
    ∃ sent2, LockCtl (fireBuzzerOrOpenDoor w) sent2 ∧
      ∀ n, n ≤ 1 → n ≤ sent →
        (lockScript.take sent).drop n ++ newSent w (fireBuzzerOrOpenDoor w) =
          (lockScript.take sent2).drop n ∧ n ≤ sent2 := by
  obtain ⟨hid, hrx, hs, hl, hph⟩ := hd
  rcases hph with ⟨_, hc, rfl⟩ | ⟨hcalm, _⟩
  · by_cases h11 : w.count = 11
    · have hf := fire_unlock w h11 hs
      refine ⟨2, ⟨by rw [hf]; exact hid, by rw [hf]; exact hrx, by rw [hf]; exact hs,
        by rw [hf]; exact hl, Or.inr ⟨⟨by rw [hf], ?_, by rw [hf]; exact hl⟩, rfl⟩⟩, ?_⟩
      · rw [hf]; exact (TIMER1_DeInit_stopped (buzzerOFF w)).2.2.2.2.1
      · intro n hn1 hn2
        rw [newSent_self_append w _ [SYSTEM_UNLOCKED] (by rw [hf]; rfl)]
        interval_cases n <;> exact ⟨rfl, by decide⟩
    · have hf := fire_quiet w (by rw [hs]; simp) (by rw [hs]; simp) (by omega)
      refine ⟨1, ⟨by rw [hf]; exact hid, by rw [hf]; exact hrx, by rw [hf]; exact hs,
        by rw [hf]; exact hl, Or.inl ⟨by rw [hf]; exact hr, ?_, rfl⟩⟩, ?_⟩
      · rw [hf]; show (w.count + 1) % 256 < 12; omega
      · intro n hn1 hn2
        rw [newSent_self_append w _ [] (by rw [hf]; simp)]
        exact ⟨by simp, hn2⟩
  · exact absurd hr hcalm.not_running

/-- The callback keeps the composed system within its configurations. -/
theorem Cfg_tick (H : Hmi) (q : List Nat) (w : World) (h : Cfg H q w) (hr : timerRunning w) :
    Cfg H (q ++ newSent w (fireBuzzerOrOpenDoor w)) (fireBuzzerOrOpenDoor w) := by
  cases h with
  | welcome _ _ _ _ hc => exact absurd hr hc.not_running
  | asked _ _ _ _ hc => exact absurd hr hc.not_running
  | answeredNo _ _ _ hc => exact absurd hr hc.not_running
  | answeredYes _ _ _ hc => exact absurd hr hc.not_running
  | setting _ _ _ _ _ _ _ hc => exact absurd hr hc.not_running
  | confirming1 _ _ _ _ _ _ _ _ _ hc => exact absurd hr hc.not_running
  | confirming2 _ _ _ _ _ _ _ hc => exact absurd hr hc.not_running
  | confirmed1 _ _ _ _ _ _ _ hc => exact absurd hr hc.not_running
  | confirmed2 _ _ _ _ _ hc => exact absurd hr hc.not_running
  | accepted _ _ _ hc => exact absurd hr hc.not_running
  | rejected _ _ _ hc => exact absurd hr hc.not_running
  | menu _ _ _ _ _ hc => exact absurd hr hc.not_running
  | entering _ _ _ _ _ _ _ _ _ _ _ hc => exact absurd hr hc.not_running
  | entered _ _ _ _ _ _ _ _ _ hc => exact absurd hr hc.not_running
  | wrong _ _ _ _ _ hc => exact absurd hr hc.not_running
  | changing _ _ _ hc => exact absurd hr hc.not_running
  | door _ n sent hn3 hns hd =>
    obtain ⟨sent2, hd2, hq⟩ := tick_door w sent hd hr
    rw [(hq n hn3 hns).1]
    exact Cfg.door _ n sent2 hn3 (hq n hn3 hns).2 hd2
  | lockout _ id n sent hid hn1 hns hd =>
    obtain ⟨sent2, hd2, hq⟩ := tick_lock w sent hd hr
    rw [(hq n hn1 hns).1]
    exact Cfg.lockout _ id n sent2 hid hn1 (hq n hn1 hns).2 hd2
theorem commandOf_cases (id : Nat) (hid : id = 4 ∨ id = 5) :
    commandOf id = OPEN_DOOR ∨ commandOf id = CHANGE_PASSWORD := by
  rcases hid with rfl | rfl
  · exact Or.inl rfl
  · exact Or.inr rfl

/-- A turn of the Control dispatch loop keeps the composed system within its
configurations. -/
theorem Cfg_turn (dev : TwiDevice)
    (hflag : (readTxn dev [] eeprom_flag).1 = some NO_SAVED_PASSWORD ∨
      (readTxn dev [] eeprom_flag).1 = some SAVED_PASSWORD)
    (H : Hmi) (q : List Nat) (w : World) (h : Cfg H q w) (chk : Nat) (w2 : World)
    (hd : dispatch dev chk w = some w2) : Cfg H (q ++ newSent w w2) w2 := by
  cases h with
  | welcome _ hid hrx hb hc =>
    rw [dispatch_none_0 dev chk w hid hrx] at hd; simp at hd
  | asked _ hid hrx hb hc =>
    obtain ⟨w3, h3, hr3, hc3, hout⟩ := turn_asked dev chk w hflag hid hrx hb hc
    rw [h3] at hd
    obtain rfl := Option.some.inj hd
    rcases hout with ⟨hn, hi⟩ | ⟨hn, hi⟩
    · rw [hn]; exact Cfg.answeredNo _ hi hr3 hc3
    · rw [hn]; exact Cfg.answeredYes _ hi hr3 hc3
  | answeredNo _ hid hrx hc =>
    rw [dispatch_none_1 dev chk w [] hid (by decide) (Or.inl hrx)] at hd; simp at hd
  | answeredYes _ hid hrx hc =>
    rw [dispatch_none_3 dev chk w [] [] hid (by simp) (by decide) (Or.inl hrx)] at hd
    simp at hd
  | setting _ i ks hi hk hid hrx hc =>
    rw [dispatch_none_1 dev chk w ks hid (by omega) (Or.inr hrx)] at hd; simp at hd
  | confirming1 _ i ks ks2 hi hk hk2 hid hrx hc =>
    obtain ⟨w3, h3, hr3, hi3, hn3, hc3⟩ :=
      turn_set dev chk w ks (HMI_ECU_READY :: ks2) hid hk hrx hc
    rw [h3] at hd
    obtain rfl := Option.some.inj hd
    rw [hn3]
    exact Cfg.confirming2 _ i ks2 hi hk2 hi3 hr3 hc3
  | confirming2 _ i ks2 hi hk2 hid hrx hc =>
    rw [dispatch_none_2 dev chk w ks2 hid (by omega) hrx] at hd; simp at hd
  | confirmed1 _ ks ks2 hk hk2 hid hrx hc =>
    obtain ⟨w3, h3, hr3, hi3, hn3, hc3⟩ :=
      turn_set dev chk w ks (HMI_ECU_READY :: ks2) hid hk hrx hc
    rw [h3] at hd
    obtain rfl := Option.some.inj hd
    rw [hn3]
    exact Cfg.confirmed2 _ ks2 hk2 hi3 hr3 hc3
  | confirmed2 _ ks2 hk2 hid hrx hc =>
    obtain ⟨w3, h3, hr3, hc3, hout⟩ := turn_check dev chk w ks2 hid hk2 hrx hc
    rw [h3] at hd
    obtain rfl := Option.some.inj hd
    rcases hout with ⟨hn, hi⟩ | ⟨hn, hi⟩
    · rw [hn]; exact Cfg.accepted _ hi hr3 hc3
    · rw [hn]; exact Cfg.rejected _ hi hr3 hc3
  | accepted _ hid hrx hc =>
    rw [dispatch_none_3 dev chk w [] [] hid (by simp) (by decide) (Or.inl hrx)] at hd
    simp at hd
  | rejected _ hid hrx hc =>
    rw [dispatch_none_1 dev chk w [] hid (by decide) (Or.inl hrx)] at hd; simp at hd
  | menu _ pc hpc hid hrx hc =>
    rw [dispatch_none_3 dev chk w [] [] hid (by simp) (by decide) (Or.inl hrx)] at hd
    simp at hd
  | entering _ id i junk ks hid4 hi hk hj hid hrx hc =>
    rw [dispatch_none_3 dev chk w junk ks hid hj (by omega) (Or.inr hrx)] at hd; simp at hd
  | entered _ id junk ks hid4 hk hj hid hrx hc =>
    obtain ⟨w3, h3, hout⟩ := turn_round dev chk w junk ks (commandOf id) hid hj hk
      (commandOf_cases id hid4) hrx hc
    rw [h3] at hd
    obtain rfl := Option.some.inj hd
    rcases hout with ⟨hn, hi3, hr3, hc3⟩ | ⟨hn, hl⟩ | ⟨hkey, hn, hdoor⟩ | ⟨hkey, hn, hi3, hr3, hc3⟩
    · rw [hn]; exact Cfg.wrong _ id hid4 hi3 hr3 hc3
    · rw [hn]; exact Cfg.lockout _ id 0 1 hid4 (by decide) (by decide) hl
    · rw [hn]
      rcases hid4 with rfl | rfl
      · exact Cfg.door _ 0 2 (by decide) (by decide) hdoor
      · exact absurd hkey (by decide)
    · rw [hn]
      rcases hid4 with rfl | rfl
      · exact absurd hkey (by decide)
      · exact Cfg.changing _ hi3 hr3 hc3
  | wrong _ id hid4 hid hrx hc =>
    rw [dispatch_none_3 dev chk w [] [] hid (by simp) (by decide) (Or.inl hrx)] at hd
    simp at hd
  | changing _ hid hrx hc =>
    rw [dispatch_none_1 dev chk w [] hid (by decide) (Or.inl hrx)] at hd; simp at hd
  | door _ n sent hn3 hns hdc =>
    rw [dispatch_none_3 dev chk w [] [] hdc.1 (by simp) (by decide) (Or.inl hdc.2.1)] at hd
    simp at hd
  | lockout _ id n sent hid4 hn1 hns hlc =>
    rw [dispatch_none_3 dev chk w [] [] hlc.1 (by simp) (by decide) (Or.inl hlc.2.1)] at hd
    simp at hd
theorem keyPc_4 (i : Nat) : keyPc 4 i = HmiPc.enterKey i := rfl

theorem keyPc_5 (i : Nat) : keyPc 5 i = HmiPc.oldKey i := rfl

theorem replyPc_4 : replyPc 4 = HmiPc.enterReply := rfl

theorem replyPc_5 : replyPc 5 = HmiPc.oldReply := rfl

theorem systemPc_4 : systemPc 4 = HmiPc.enterSystem := rfl

theorem systemPc_5 : systemPc 5 = HmiPc.oldSystem := rfl

theorem hmiEnter_1 : hmiEnter 1 = ([HMI_ECU_READY], { g_functionID := 1, pc := HmiPc.setKey 0 }) :=
  rfl

theorem hmiEnter_2 : hmiEnter 2 = ([HMI_ECU_READY], { g_functionID := 2, pc := HmiPc.checkKey 0 }) :=
  rfl

theorem hmiEnter_3 : hmiEnter 3 = ([], { g_functionID := 3, pc := HmiPc.menuKey1 }) := rfl

theorem hmiEnter_4 : hmiEnter 4 = ([HMI_ECU_READY], { g_functionID := 4, pc := HmiPc.enterKey 0 }) :=
  rfl

theorem hmiEnter_5 : hmiEnter 5 = ([HMI_ECU_READY], { g_functionID := 5, pc := HmiPc.oldKey 0 }) :=
  rfl

/-- A key press keeps the composed system within its configurations. -/
theorem Cfg_key (H : Hmi) (q : List Nat) (w : World) (h : Cfg H q w) (k : Nat)
    (out : List Nat) (H2 : Hmi) (hk : hmiKey H k = some (out, H2)) :
    Cfg H2 q { w with rx := w.rx ++ out } := by
  cases h with
  | welcome _ hid hrx hb hc =>
    simp only [hmiKey] at hk
    split_ifs at hk with h13
    · obtain ⟨rfl, rfl⟩ := Prod.mk.inj (Option.some.inj hk)
      exact Cfg.welcome _ hid (by simp [hrx]) hb hc
    · obtain ⟨rfl, rfl⟩ := Prod.mk.inj (Option.some.inj hk)
      exact Cfg.asked _ hid (by simp [hrx]) hb hc
  | asked _ hid hrx hb hc => simp [hmiKey] at hk
  | answeredNo _ hid hrx hc => simp [hmiKey] at hk
  | answeredYes _ hid hrx hc => simp [hmiKey] at hk
  | setting _ i ks hi hks hid hrx hc =>
    simp only [hmiKey, hmiEnter_2] at hk
    split_ifs at hk with hlt
    · obtain ⟨rfl, rfl⟩ := Prod.mk.inj (Option.some.inj hk)
      exact Cfg.setting _ (i + 1) (ks ++ [k]) (by simpa [PASSWORD_SIZE] using hlt)
        (by simp [hks]) hid (by simp [hrx]) hc
    · obtain ⟨rfl, rfl⟩ := Prod.mk.inj (Option.some.inj hk)
      have hi4 : i = 4 := by simp [PASSWORD_SIZE] at hlt; omega
      exact Cfg.confirming1 _ 0 (ks ++ [k]) [] (by decide) (by simp [hks, hi4]) rfl hid
        (by simp [hrx]) hc
  | confirming1 _ i ks ks2 hi hks hks2 hid hrx hc =>
    simp only [hmiKey] at hk
    split_ifs at hk with hlt
    · obtain ⟨rfl, rfl⟩ := Prod.mk.inj (Option.some.inj hk)
      exact Cfg.confirming1 _ (i + 1) ks (ks2 ++ [k]) (by simpa [PASSWORD_SIZE] using hlt) hks
        (by simp [hks2]) hid (by simp [hrx]) hc
    · obtain ⟨rfl, rfl⟩ := Prod.mk.inj (Option.some.inj hk)
      have hi4 : i = 4 := by simp [PASSWORD_SIZE] at hlt; omega
      exact Cfg.confirmed1 _ ks (ks2 ++ [k]) hks (by simp [hks2, hi4]) hid (by simp [hrx]) hc
  | confirming2 _ i ks2 hi hks2 hid hrx hc =>
    simp only [hmiKey] at hk
    split_ifs at hk with hlt
    · obtain ⟨rfl, rfl⟩ := Prod.mk.inj (Option.some.inj hk)
      exact Cfg.confirming2 _ (i + 1) (ks2 ++ [k]) (by simpa [PASSWORD_SIZE] using hlt)
        (by simp [hks2]) hid (by simp [hrx]) hc
    · obtain ⟨rfl, rfl⟩ := Prod.mk.inj (Option.some.inj hk)
      have hi4 : i = 4 := by simp [PASSWORD_SIZE] at hlt; omega
      exact Cfg.confirmed2 _ (ks2 ++ [k]) (by simp [hks2, hi4]) hid (by simp [hrx]) hc
  | confirmed1 _ ks ks2 hks hks2 hid hrx hc => simp [hmiKey] at hk
  | confirmed2 _ ks2 hks2 hid hrx hc => simp [hmiKey] at hk
  | accepted _ hid hrx hc => simp [hmiKey] at hk
  | rejected _ hid hrx hc => simp [hmiKey] at hk
  | menu _ pc hpc hid hrx hc =>
    rcases hpc with rfl | rfl
    · simp only [hmiKey, hmiEnter_4] at hk
      split_ifs at hk with h43
      · obtain ⟨rfl, rfl⟩ := Prod.mk.inj (Option.some.inj hk)
        exact Cfg.entering _ 4 0 [OPEN_DOOR] [] (Or.inl rfl) (by decide) rfl (by decide) hid
          (by simp [hrx]) hc
      · obtain ⟨rfl, rfl⟩ := Prod.mk.inj (Option.some.inj hk)
        exact Cfg.menu _ HmiPc.menuKey2 (Or.inr rfl) hid (by simp [hrx]) hc
    · simp only [hmiKey, hmiEnter_5, hmiEnter_3] at hk
      split_ifs at hk with h45
      · obtain ⟨rfl, rfl⟩ := Prod.mk.inj (Option.some.inj hk)
        exact Cfg.entering _ 5 0 [CHANGE_PASSWORD] [] (Or.inr rfl) (by decide) rfl (by decide) hid
          (by simp [hrx]) hc
      · obtain ⟨rfl, rfl⟩ := Prod.mk.inj (Option.some.inj hk)
        exact Cfg.menu _ HmiPc.menuKey1 (Or.inl rfl) hid (by simp [hrx]) hc
  | entering _ id i junk ks hid4 hi hks hj hid hrx hc =>
    rcases hid4 with rfl | rfl
    · simp only [keyPc_4, hmiKey] at hk
      split_ifs at hk with hlt
      · obtain ⟨rfl, rfl⟩ := Prod.mk.inj (Option.some.inj hk)
        exact Cfg.entering _ 4 (i + 1) junk (ks ++ [k]) (Or.inl rfl)
          (by simpa [PASSWORD_SIZE] using hlt) (by simp [hks]) hj hid (by simp [hrx]) hc
      · obtain ⟨rfl, rfl⟩ := Prod.mk.inj (Option.some.inj hk)
        have hi4 : i = 4 := by simp [PASSWORD_SIZE] at hlt; omega
        exact Cfg.entered _ 4 junk (ks ++ [k]) (Or.inl rfl) (by simp [hks, hi4]) hj hid
          (by simp [hrx, commandOf]) hc
    · simp only [keyPc_5, hmiKey] at hk
      split_ifs at hk with hlt
      · obtain ⟨rfl, rfl⟩ := Prod.mk.inj (Option.some.inj hk)
        exact Cfg.entering _ 5 (i + 1) junk (ks ++ [k]) (Or.inr rfl)
          (by simpa [PASSWORD_SIZE] using hlt) (by simp [hks]) hj hid (by simp [hrx]) hc
      · obtain ⟨rfl, rfl⟩ := Prod.mk.inj (Option.some.inj hk)
        have hi4 : i = 4 := by simp [PASSWORD_SIZE] at hlt; omega
        exact Cfg.entered _ 5 junk (ks ++ [k]) (Or.inr rfl) (by simp [hks, hi4]) hj hid
          (by simp [hrx, commandOf]) hc
  | entered _ id junk ks hid4 hks hj hid hrx hc =>
    rcases hid4 with rfl | rfl <;> simp [replyPc_4, replyPc_5, hmiKey] at hk
  | wrong _ id hid4 hid hrx hc =>
    rcases hid4 with rfl | rfl <;> simp [replyPc_4, replyPc_5, hmiKey] at hk
  | changing _ hid hrx hc => simp [hmiKey] at hk
  | door _ n sent hn3 hns hdc =>
    interval_cases n <;> simp [doorPc, hmiKey] at hk
  | lockout _ id n sent hid4 hn1 hns hlc =>
    interval_cases n <;> rcases hid4 with rfl | rfl <;>
      simp [replyPc_4, replyPc_5, systemPc_4, systemPc_5, hmiKey] at hk
/-- The HMI ECU consuming the next byte of the door script. -/
theorem door_deliver (n sent b : Nat) (rest : List Nat) (hn3 : n ≤ 3)
    (hs : sent = 2 ∨ sent = 3 ∨ sent = 4)
    (hq : (doorScript.take sent).drop n = b :: rest) :
    n + 1 ≤ sent ∧ rest = (doorScript.take sent).drop (n + 1) ∧
    ((n < 3 ∧ hmiByte { g_functionID := 4, pc := doorPc n } b =
        some ([], { g_functionID := 4, pc := doorPc (n + 1) })) ∨
     (n = 3 ∧ sent = 4 ∧ rest = [] ∧
       hmiByte { g_functionID := 4, pc := doorPc n } b = some (hmiEnter 3))) := by
  rcases hs with rfl | rfl | rfl <;> interval_cases n <;>
    simp [doorScript] at hq <;> obtain ⟨rfl, rfl⟩ := hq <;> decide

/-- The HMI ECU consuming the next byte of the lockout script. -/
theorem lock_deliver (id n sent b : Nat) (rest : List Nat) (hid : id = 4 ∨ id = 5) (hn1 : n ≤ 1)
    (hs : sent = 1 ∨ sent = 2)
    (hq : (lockScript.take sent).drop n = b :: rest) :
    n + 1 ≤ sent ∧ rest = (lockScript.take sent).drop (n + 1) ∧
    ((n = 0 ∧ hmiByte { g_functionID := id, pc := replyPc id } b =
        some ([], { g_functionID := id, pc := systemPc id })) ∨
     (n = 1 ∧ sent = 2 ∧ rest = [] ∧
       hmiByte { g_functionID := id, pc := systemPc id } b = some (hmiEnter 3))) := by
  rcases hid with rfl | rfl <;> rcases hs with rfl | rfl <;> interval_cases n <;>
    simp [lockScript] at hq <;> obtain ⟨rfl, rfl⟩ := hq <;> decide

/-- A byte received by the HMI ECU keeps the composed system within its
configurations. -/
theorem Cfg_deliver (H : Hmi) (q : List Nat) (w : World) (h : Cfg H q w) (b : Nat)
    (rest out : List Nat) (H2 : Hmi) (hq : q = b :: rest)
    (hb : hmiByte H b = some (out, H2)) :
    Cfg H2 rest { w with rx := w.rx ++ out } := by
  cases h with
  | welcome _ hid hrx hb hc => simp at hq
  | asked _ hid hrx hb hc => simp at hq
  | answeredNo _ hid hrx hc =>
    obtain ⟨rfl, rfl⟩ := List.cons.inj hq
    have e : hmiByte { g_functionID := 0, pc := HmiPc.welcomeReply } NO_SAVED_PASSWORD =
        some ([HMI_ECU_READY], { g_functionID := 1, pc := HmiPc.setKey 0 }) := rfl
    rw [e] at hb
    obtain ⟨rfl, rfl⟩ := Prod.mk.inj (Option.some.inj hb)
    exact Cfg.setting _ 0 [] (by decide) rfl hid (by simp [hrx]) hc
  | answeredYes _ hid hrx hc =>
    obtain ⟨rfl, rfl⟩ := List.cons.inj hq
    have e : hmiByte { g_functionID := 0, pc := HmiPc.welcomeReply } SAVED_PASSWORD =
        some ([], { g_functionID := 3, pc := HmiPc.menuKey1 }) := rfl
    rw [e] at hb
    obtain ⟨rfl, rfl⟩ := Prod.mk.inj (Option.some.inj hb)
    exact Cfg.menu _ _ (Or.inl rfl) hid (by simp [hrx]) hc
  | setting _ i ks hi hks hid hrx hc => simp at hq
  | confirming1 _ i ks ks2 hi hks hks2 hid hrx hc => simp at hq
  | confirming2 _ i ks2 hi hks2 hid hrx hc => simp at hq
  | confirmed1 _ ks ks2 hks hks2 hid hrx hc => simp at hq
  | confirmed2 _ ks2 hks2 hid hrx hc => simp at hq
  | accepted _ hid hrx hc =>
    obtain ⟨rfl, rfl⟩ := List.cons.inj hq
    have e : hmiByte { g_functionID := 2, pc := HmiPc.checkReply } CORRECT_NEW_PASSWORD =
        some ([], { g_functionID := 3, pc := HmiPc.menuKey1 }) := rfl
    rw [e] at hb
    obtain ⟨rfl, rfl⟩ := Prod.mk.inj (Option.some.inj hb)
    exact Cfg.menu _ _ (Or.inl rfl) hid (by simp [hrx]) hc
  | rejected _ hid hrx hc =>
    obtain ⟨rfl, rfl⟩ := List.cons.inj hq
    have e : hmiByte { g_functionID := 2, pc := HmiPc.checkReply } NON_CORRECT_NEW_PASSWORD =
        some ([HMI_ECU_READY], { g_functionID := 1, pc := HmiPc.setKey 0 }) := rfl
    rw [e] at hb
    obtain ⟨rfl, rfl⟩ := Prod.mk.inj (Option.some.inj hb)
    exact Cfg.setting _ 0 [] (by decide) rfl hid (by simp [hrx]) hc
  | menu _ pc hpc hid hrx hc => simp at hq
  | entering _ id i junk ks hid4 hi hks hj hid hrx hc => simp at hq
  | entered _ id junk ks hid4 hks hj hid hrx hc => simp at hq
  | wrong _ id hid4 hid hrx hc =>
    obtain ⟨rfl, rfl⟩ := List.cons.inj hq
    rcases hid4 with rfl | rfl
    · have e : hmiByte { g_functionID := 4, pc := replyPc 4 } WRONG_PASSWORD =
          some ([HMI_ECU_READY], { g_functionID := 4, pc := HmiPc.enterKey 0 }) := rfl
      rw [e] at hb
      obtain ⟨rfl, rfl⟩ := Prod.mk.inj (Option.some.inj hb)
      exact Cfg.entering _ 4 0 [] [] (Or.inl rfl) (by decide) rfl (by simp) hid (by simp [hrx]) hc
    · have e : hmiByte { g_functionID := 5, pc := replyPc 5 } WRONG_PASSWORD =
          some ([HMI_ECU_READY], { g_functionID := 5, pc := HmiPc.oldKey 0 }) := rfl
      rw [e] at hb
      obtain ⟨rfl, rfl⟩ := Prod.mk.inj (Option.some.inj hb)
      exact Cfg.entering _ 5 0 [] [] (Or.inr rfl) (by decide) rfl (by simp) hid (by simp [hrx]) hc
  | changing _ hid hrx hc =>
    obtain ⟨rfl, rfl⟩ := List.cons.inj hq
    have e : hmiByte { g_functionID := 5, pc := HmiPc.oldReply } CORRECT_PASSWORD =
        some ([HMI_ECU_READY], { g_functionID := 1, pc := HmiPc.setKey 0 }) := rfl
    rw [e] at hb
    obtain ⟨rfl, rfl⟩ := Prod.mk.inj (Option.some.inj hb)
    exact Cfg.setting _ 0 [] (by decide) rfl hid (by simp [hrx]) hc
  | door _ n sent hn3 hns hdc =>
    have hs : sent = 2 ∨ sent = 3 ∨ sent = 4 := by
      rcases hdc.2.2.2.2 with ⟨_, _, h⟩ | ⟨_, _, _, h⟩ | ⟨_, h⟩
      · exact Or.inl h
      · exact Or.inr (Or.inl h)
      · exact Or.inr (Or.inr h)
    obtain ⟨hle, hrest, hstep⟩ := door_deliver n sent b rest hn3 hs hq
    rcases hstep with ⟨hlt, e⟩ | ⟨rfl, rfl, hnil, e⟩
    · rw [e] at hb
      obtain ⟨rfl, rfl⟩ := Prod.mk.inj (Option.some.inj hb)
      rw [hrest]
      have hd2 : DoorCtl { w with rx := w.rx ++ [] } sent := by
        obtain ⟨a1, a2, a3, a4, a5⟩ := hdc
        exact ⟨a1, by simp [a2], a3, a4, a5⟩
      exact Cfg.door _ (n + 1) sent (by omega) hle hd2
    · rw [e, hmiEnter_3] at hb
      obtain ⟨rfl, rfl⟩ := Prod.mk.inj (Option.some.inj hb)
      rw [hnil]
      obtain ⟨a1, a2, a3, a4, a5⟩ := hdc
      rcases a5 with ⟨_, _, h⟩ | ⟨_, _, _, h⟩ | ⟨hcalm, _⟩
      · exact absurd h (by decide)
      · exact absurd h (by decide)
      · exact Cfg.menu _ _ (Or.inl rfl) a1 (by simp [a2]) hcalm
  | lockout _ id n sent hid4 hn1 hns hlc =>
    have hs : sent = 1 ∨ sent = 2 := by
      rcases hlc.2.2.2.2 with ⟨_, _, h⟩ | ⟨_, h⟩
      · exact Or.inl h
      · exact Or.inr h
    obtain ⟨hle, hrest, hstep⟩ := lock_deliver id n sent b rest hid4 hn1 hs hq
    rcases hstep with ⟨rfl, e⟩ | ⟨rfl, rfl, hnil, e⟩
    · rw [if_pos rfl, e] at hb
      obtain ⟨rfl, rfl⟩ := Prod.mk.inj (Option.some.inj hb)
      rw [hrest]
      have hd2 : LockCtl { w with rx := w.rx ++ [] } sent := by
        obtain ⟨a1, a2, a3, a4, a5⟩ := hlc
        exact ⟨a1, by simp [a2], a3, a4, a5⟩
      exact Cfg.lockout _ id 1 sent hid4 (by decide) hle hd2
    · rw [if_neg (by decide), e, hmiEnter_3] at hb
      obtain ⟨rfl, rfl⟩ := Prod.mk.inj (Option.some.inj hb)
      rw [hnil]
      obtain ⟨a1, a2, a3, a4, a5⟩ := hlc
      rcases a5 with ⟨_, _, h⟩ | ⟨hcalm, _⟩
      · exact absurd h (by decide)
      · exact Cfg.menu _ _ (Or.inl rfl) a1 (by simp [a2]) hcalm
/-- Every reachable state of the composed system is one of the configurations,
provided the flag read at power-up delivers one of the two sentinels. -/
theorem SysReachable.cfg (dev : TwiDevice)
    (hflag : (readTxn dev [] eeprom_flag).1 = some NO_SAVED_PASSWORD ∨
      (readTxn dev [] eeprom_flag).1 = some SAVED_PASSWORD)
    {s : Sys} (h : SysReachable dev s) : Cfg s.hmi s.toHmi s.ctl := by
  induction h with
  | powerUp => exact Cfg.welcome _ rfl rfl rfl ⟨rfl, by decide, rfl⟩
  | key s k out h2 _ hk ih => exact Cfg_key _ _ _ ih k out h2 hk
  | deliver s b rest out h2 _ hq hb ih => exact Cfg_deliver _ _ _ ih b rest out h2 hq hb
  | turn s chk w2 _ hd ih => exact Cfg_turn dev hflag _ _ _ ih chk w2 hd
  | tick s _ hr ih => exact Cfg_tick _ _ _ ih hr

/-- In a configuration with nothing in flight and the Control ECU blocked, the
two function IDs form a lock-step pair. -/
theorem Cfg_quiescent (dev : TwiDevice)
    (hflag : (readTxn dev [] eeprom_flag).1 = some NO_SAVED_PASSWORD ∨
      (readTxn dev [] eeprom_flag).1 = some SAVED_PASSWORD)
    (H : Hmi) (q : List Nat) (w : World) (h : Cfg H q w) (hq : q = [])
    (hn : ∀ chk, dispatch dev chk w = none) :
    (H.g_functionID, w.g_functionID) ∈ lockStepPairs := by
  cases h with
  | welcome _ hid hrx hb hc => rw [hid]; simp [lockStepPairs]
  | asked _ hid hrx hb hc =>
    obtain ⟨w3, h3, _⟩ := turn_asked dev 0 w hflag hid hrx hb hc
    rw [hn 0] at h3; simp at h3
  | answeredNo _ hid hrx hc => simp at hq
  | answeredYes _ hid hrx hc => simp at hq
  | setting _ i ks hi hks hid hrx hc => rw [hid]; simp [lockStepPairs]
  | confirming1 _ i ks ks2 hi hks hks2 hid hrx hc =>
    obtain ⟨w3, h3, _⟩ := turn_set dev 0 w ks (HMI_ECU_READY :: ks2) hid hks hrx hc
    rw [hn 0] at h3; simp at h3
  | confirming2 _ i ks2 hi hks2 hid hrx hc => rw [hid]; simp [lockStepPairs]
  | confirmed1 _ ks ks2 hks hks2 hid hrx hc =>
    obtain ⟨w3, h3, _⟩ := turn_set dev 0 w ks (HMI_ECU_READY :: ks2) hid hks hrx hc
    rw [hn 0] at h3; simp at h3
  | confirmed2 _ ks2 hks2 hid hrx hc =>
    obtain ⟨w3, h3, _⟩ := turn_check dev 0 w ks2 hid hks2 hrx hc
    rw [hn 0] at h3; simp at h3
  | accepted _ hid hrx hc => simp at hq
  | rejected _ hid hrx hc => simp at hq
  | menu _ pc hpc hid hrx hc => rw [hid]; simp [lockStepPairs]
  | entering _ id i junk ks hid4 hi hks hj hid hrx hc =>
    rw [hid]; rcases hid4 with rfl | rfl <;> simp [lockStepPairs]
  | entered _ id junk ks hid4 hks hj hid hrx hc =>
    obtain ⟨w3, h3, _⟩ := turn_round dev 0 w junk ks (commandOf id) hid hj hks
      (commandOf_cases id hid4) hrx hc
    rw [hn 0] at h3; simp at h3
  | wrong _ id hid4 hid hrx hc => simp at hq
  | changing _ hid hrx hc => simp at hq
  | door _ n sent hn3 hns hdc => rw [hdc.1]; simp [lockStepPairs]
  | lockout _ id n sent hid4 hn1 hns hlc =>
    rw [hlc.1]; rcases hid4 with rfl | rfl <;> simp [lockStepPairs]

theorem lockStep_agree (a b : Nat) (h : (a, b) ∈ lockStepPairs) :
    (a = 0 ↔ b = 0) ∧ (a = 1 ↔ b = 1) ∧ (a = 2 ↔ b = 2) ∧
    ((a = 3 ∨ a = 4 ∨ a = 5) ↔ b = 3) := by
  simp only [lockStepPairs, List.mem_cons, Prod.mk.injEq, List.mem_singleton, List.mem_nil_iff,
    or_false] at h
  rcases h with ⟨rfl, rfl⟩ | ⟨rfl, rfl⟩ | ⟨rfl, rfl⟩ | ⟨rfl, rfl⟩ | ⟨rfl, rfl⟩ | ⟨rfl, rfl⟩ <;>
    decide

theorem welcomed_reachable : SysReachable (idealStore noCredential) welcomed :=
  SysReachable.deliver
    { hmi := { g_functionID := 0, pc := HmiPc.welcomeReply },
      toHmi := [] ++ newSent (World.init [CHECK_FOR_SAVED_PASSWORD])
        ((dispatch (idealStore noCredential) 0
          (World.init [CHECK_FOR_SAVED_PASSWORD])).getD (World.init [])),
      ctl := (dispatch (idealStore noCredential) 0
        (World.init [CHECK_FOR_SAVED_PASSWORD])).getD (World.init []) }
    NO_SAVED_PASSWORD [] [HMI_ECU_READY] { g_functionID := 1, pc := HmiPc.setKey 0 }
    (SysReachable.turn
      { hmi := { g_functionID := 0, pc := HmiPc.welcomeReply }, toHmi := [],
        ctl := World.init [CHECK_FOR_SAVED_PASSWORD] }
      0 _
      (SysReachable.key
        { hmi := (hmiEnter 0).2, toHmi := [], ctl := World.init [] } 13
        [CHECK_FOR_SAVED_PASSWORD] { g_functionID := 0, pc := HmiPc.welcomeReply }
        SysReachable.powerUp rfl)
      rfl)
    rfl rfl

theorem welcomed_quiescent : quiescent (idealStore noCredential) welcomed :=
  ⟨rfl, by decide, fun _ => rfl⟩

/-- Claim C11. Over a byte-addressable store in which every bus phase returns its
expected status (a completed write makes a following read of the same cell
deliver the byte written and changes no other cell), for every 5-byte credential
`A`: after `Control_checkNewPassword` has persisted `A`, the flag read returns
the exists sentinel and the five reads at base+0..4 return exactly `A[0..4]`;
so from any later state with the same bus history, whatever `g_eeprom` holds,
`Control_receiveAndCheckPassword` compares against `A` and
`Control_checkForSavedPassword` replies `SAVED_PASSWORD` and loads `A`. -/
theorem C11_credential_round_trip (dev : TwiDevice) (cellsOf : List BusOp → Nat → Nat)
    (hB : ByteStore dev cellsOf) (hA : AlwaysAck dev)
    (w : World) (junk A rest : List Nat)
    (hj : HMI_ECU_READY ∉ junk) (hA5 : A.length = 5) (hg : w.g_eeprom = A)
    (hrx : w.rx = junk ++ HMI_ECU_READY :: (A ++ rest)) (hi : busIdle (busOps w.trace)) :
    ∃ w2, Control_checkNewPassword dev w = some w2 ∧
      (readTxn dev (busOps w2.trace) eeprom_flag).1 = some SAVED_PASSWORD ∧
      readSeq dev (busOps w2.trace) credentialAddrs = A.map some ∧
      readSeq dev (readTxn dev (busOps w2.trace) eeprom_flag).2 credentialAddrs = A.map some ∧
      (∀ (w3 : World) (junk3 E rest3 : List Nat) (key : Nat),
        busOps w3.trace = busOps w2.trace → w3.g_eeprom.length = 5 →
        HMI_ECU_READY ∉ junk3 → E.length = 5 → w3.rx = roundInput junk3 E key ++ rest3 →
        ∃ w4, Control_receiveAndCheckPassword dev w3 = some w4 ∧ w4.g_eeprom = A) ∧
      (∀ (w3 : World) (chkFlag0 : Nat) (junk3 rest3 : List Nat),
        busOps w3.trace = busOps w2.trace → w3.g_eeprom.length = 5 →
        CHECK_FOR_SAVED_PASSWORD ∉ junk3 → w3.rx = junk3 ++ CHECK_FOR_SAVED_PASSWORD :: rest3 →
        ∃ w4, Control_checkForSavedPassword dev chkFlag0 w3 = some w4 ∧ w4.g_eeprom = A ∧
          newSent w3 w4 = [SAVED_PASSWORD] ∧ w4.g_functionID = 3) := by
  obtain ⟨w2, hrun, _, _, hi2, hflag, hcred⟩ :=
    Control_checkNewPassword_stores dev cellsOf hB hA w junk A rest hj hA5 hg hrx hi
  have rflag := readTxn_acked dev cellsOf hB hA (busOps w2.trace) hi2 eeprom_flag
  rw [hflag] at rflag
  have rseq : readSeq dev (busOps w2.trace) credentialAddrs = A.map some := by
    rw [readSeq_acked dev cellsOf hB hA credentialAddrs _ hi2, hcred]
  have rseq2 : readSeq dev (readTxn dev (busOps w2.trace) eeprom_flag).2 credentialAddrs =
      A.map some := by
    rw [rflag]
    show readSeq dev (busOps w2.trace ++ (readPhases eeprom_flag ++ [BusOp.stop]))
      credentialAddrs = _
    rw [readSeq_acked dev cellsOf hB hA credentialAddrs _ (busIdle_append_txn _ _),
      (hB _).2.2.2.1 eeprom_flag, hcred]
  refine ⟨w2, hrun, by rw [rflag], rseq, rseq2, ?_, ?_⟩
  · intro w3 junk3 E rest3 key hb3 hl3 hj3 hE3 hrx3
    obtain ⟨w4, h4, hg4⟩ := receiveAndCompare_loads dev w3 junk3 E rest3 key hj3 hE3 hrx3
    refine ⟨w4, h4, ?_⟩
    rw [hg4, hb3, rseq]
    exact loadInto_all _ _ hl3 hA5
  · intro w3 chkFlag0 junk3 rest3 hb3 hl3 hj3 hrx3
    have hf : (readTxn dev (busOps w3.trace) eeprom_flag).1.getD chkFlag0 = SAVED_PASSWORD := by
      rw [hb3, rflag]; rfl
    obtain ⟨evs, h4, hs4, _, _⟩ :=
      Control_checkForSavedPassword_saved dev chkFlag0 w3 junk3 rest3 hj3 hrx3 hf
    refine ⟨_, h4, ?_, ?_, rfl⟩
    · show loadInto _ _ _ = A
      rw [hb3, rseq2]
      exact loadInto_all _ _ hl3 hA5
    · rw [newSent_of_trace w3 _ _ rfl, sentBytes_append, sentBytes_map_recv, hs4]
      rfl

/-- Witness for C11: the chip with every cell erased (`0xFF`), the credential
`1 2 3 4 5` staged and confirmed. -/
theorem C11_credential_round_trip_witness :
    ∃ w2, Control_checkNewPassword (idealStore (fun _ => 0xFF)) confirmingPassword = some w2 ∧
      (readTxn (idealStore (fun _ => 0xFF)) (busOps w2.trace) eeprom_flag).1
        = some SAVED_PASSWORD ∧
      readSeq (idealStore (fun _ => 0xFF)) (busOps w2.trace) credentialAddrs =
        [some 1, some 2, some 3, some 4, some 5] := by
  obtain ⟨w2, h, hf, hs, _, _, _⟩ :=
    C11_credential_round_trip (idealStore (fun _ => 0xFF)) (cells (fun _ => 0xFF))
      (ByteStore_idealStore _) (AlwaysAck_idealStore _) confirmingPassword [] [1, 2, 3, 4, 5] []
      (by decide) rfl rfl rfl (Or.inl rfl)
  exact ⟨w2, h, hf, hs⟩

/-- Claim C14. When the flag byte that `chkFlag` holds after the flag read is the
exists sentinel, `Control_checkForSavedPassword` discards serial bytes until
`CHECK_FOR_SAVED_PASSWORD` arrives, replies exactly `SAVED_PASSWORD`, issues the
reads of the flag and of base+0..4 in that order, assigns to `g_eeprom[i]` the
byte delivered by the read at base+i (so `g_eeprom` is the five store bytes when
all five reads deliver one), writes nothing, and sets the function ID to 3. -/
theorem C14_saved_branch (dev : TwiDevice) (chkFlag0 : Nat) (w : World)
    (junk rest : List Nat) (hj : CHECK_FOR_SAVED_PASSWORD ∉ junk)
    (hrx : w.rx = junk ++ CHECK_FOR_SAVED_PASSWORD :: rest)
    (hlen : w.g_eeprom.length = 5)
    (hf : (readTxn dev (busOps w.trace) eeprom_flag).1.getD chkFlag0 = SAVED_PASSWORD) :
    ∃ w2 evs, Control_checkForSavedPassword dev chkFlag0 w = some w2 ∧ w2.rx = rest ∧
      w2.trace = w.trace ++ ((junk ++ [CHECK_FOR_SAVED_PASSWORD]).map Event.recv ++ evs) ∧
      sentBytes evs = [SAVED_PASSWORD] ∧ newSent w w2 = [SAVED_PASSWORD] ∧
      storeReads evs = [eeprom_flag, 0x0300, 0x0301, 0x0302, 0x0303, 0x0304] ∧
      storeWrites evs = [] ∧
      w2.g_functionID = 3 ∧
      w2.g_eeprom.length = 5 ∧
      (∀ i, i < 5 → w2.g_eeprom.getD i 0 =
        ((readSeq dev (readTxn dev (busOps w.trace) eeprom_flag).2 credentialAddrs).getD i
          none).getD (w.g_eeprom.getD i 0)) ∧
      (∀ S : List Nat,
        readSeq dev (readTxn dev (busOps w.trace) eeprom_flag).2 credentialAddrs = S.map some →
        w2.g_eeprom = S) := by
  obtain ⟨ops, hb, h⟩ := Control_checkForSavedPassword_spec dev chkFlag0 w junk rest hj hrx
  rw [hf, if_pos rfl] at h
  obtain ⟨e2, h2, hs2, hw2, hr2⟩ := reloadPasswordLoop_loads dev (List.range PASSWORD_SIZE)
    (UART_sendByte SAVED_PASSWORD
      { w with rx := rest,
               trace := w.trace ++ ((junk ++ [CHECK_FOR_SAVED_PASSWORD]).map Event.recv ++
                 Event.eepromRead eeprom_flag :: ops.map Event.twi) })
  rw [h2] at h
  have hbus : busOps (UART_sendByte SAVED_PASSWORD
      { w with rx := rest,
               trace := w.trace ++ ((junk ++ [CHECK_FOR_SAVED_PASSWORD]).map Event.recv ++
                 Event.eepromRead eeprom_flag :: ops.map Event.twi) }).trace =
      (readTxn dev (busOps w.trace) eeprom_flag).2 := by
    show busOps (_ ++ [Event.send SAVED_PASSWORD]) = _
    rw [busOps_append, hb]; exact List.append_nil _
  rw [hbus] at h
  have hS : sentBytes (Event.eepromRead eeprom_flag :: ops.map Event.twi ++
      Event.send SAVED_PASSWORD :: e2) = [SAVED_PASSWORD] := by
    rw [sentBytes_append]
    simp only [sentBytes, sentBytes_map_twi, hs2, List.nil_append]
  obtain ⟨g0, g1, g2, g3, g4, hg⟩ := length_eq_five hlen
  have hl := readSeq_length dev (readTxn dev (busOps w.trace) eeprom_flag).2 credentialAddrs
  obtain ⟨o0, o1, o2, o3, o4, ho⟩ : ∃ o0 o1 o2 o3 o4,
      readSeq dev (readTxn dev (busOps w.trace) eeprom_flag).2 credentialAddrs =
        [o0, o1, o2, o3, o4] := by
    generalize readSeq dev (readTxn dev (busOps w.trace) eeprom_flag).2 credentialAddrs = l at hl
    match l, hl with
    | [a, b, c, d, e], _ => exact ⟨a, b, c, d, e, rfl⟩
  have hload : loadInto w.g_eeprom (List.range PASSWORD_SIZE)
      (readSeq dev (readTxn dev (busOps w.trace) eeprom_flag).2 credentialAddrs) =
      [o0.getD g0, o1.getD g1, o2.getD g2, o3.getD g3, o4.getD g4] := by
    rw [ho, hg]; exact loadInto_five _ _ _ _ _ _ _ _ _ _
  refine ⟨_, Event.eepromRead eeprom_flag :: ops.map Event.twi ++ Event.send SAVED_PASSWORD :: e2,
    h, rfl, ?_, hS, ?_, ?_, ?_, rfl, ?_, ?_, ?_⟩
  · simp [UART_sendByte]
  · rw [newSent_of_trace w _ ((junk ++ [CHECK_FOR_SAVED_PASSWORD]).map Event.recv ++
      (Event.eepromRead eeprom_flag :: ops.map Event.twi ++ Event.send SAVED_PASSWORD :: e2))
      (by simp [UART_sendByte])]
    rw [sentBytes_append, sentBytes_map_recv, hS]; rfl
  · rw [storeReads_append]
    simp only [storeReads, storeReads_map_twi, hr2, List.nil_append]
    rfl
  · rw [storeWrites_append]
    simp only [storeWrites, storeWrites_map_twi, hw2, List.nil_append]
  · show (loadInto _ _ _).length = 5
    exact (congrArg List.length hload).trans rfl
  · intro i hi
    show (loadInto _ _ _).getD i 0 = _
    have hload2 : loadInto (UART_sendByte SAVED_PASSWORD
        { w with rx := rest,
                 trace := w.trace ++ ((junk ++ [CHECK_FOR_SAVED_PASSWORD]).map Event.recv ++
                   Event.eepromRead eeprom_flag :: ops.map Event.twi) }).g_eeprom
        (List.range PASSWORD_SIZE)
        (readSeq dev (readTxn dev (busOps w.trace) eeprom_flag).2
          (List.map (fun i => (eeprom_addr + i) % 65536) (List.range PASSWORD_SIZE))) =
        [o0.getD g0, o1.getD g1, o2.getD g2, o3.getD g3, o4.getD g4] := hload
    rw [hload2]
    have ho2 : readSeq dev (readTxn dev (busOps w.trace) eeprom_flag).2 credentialAddrs =
        [o0, o1, o2, o3, o4] := ho
    rw [ho2, hg]
    interval_cases i <;> rfl
  · intro S hSeq
    show loadInto _ _ _ = S
    have hload2 : loadInto (UART_sendByte SAVED_PASSWORD
        { w with rx := rest,
                 trace := w.trace ++ ((junk ++ [CHECK_FOR_SAVED_PASSWORD]).map Event.recv ++
                   Event.eepromRead eeprom_flag :: ops.map Event.twi) }).g_eeprom
        (List.range PASSWORD_SIZE)
        (readSeq dev (readTxn dev (busOps w.trace) eeprom_flag).2
          (List.map (fun i => (eeprom_addr + i) % 65536) (List.range PASSWORD_SIZE))) =
        [o0.getD g0, o1.getD g1, o2.getD g2, o3.getD g3, o4.getD g4] := hload
    rw [hload2]
    rw [ho] at hSeq
    match S, hSeq with
    | [s0, s1, s2, s3, s4], hSeq =>
      simp only [List.map_cons, List.map_nil, List.cons.injEq, and_true] at hSeq
      obtain ⟨rfl, rfl, rfl, rfl, rfl⟩ := hSeq
      rfl

/-- Witness for C14: the store delivers `0x13` for the flag and then `1 2 3 4 5`. -/
theorem C14_saved_branch_witness :
    ∃ w2, Control_checkForSavedPassword (readOnlyStore [0x13, 1, 2, 3, 4, 5]) 0
        (World.init [7, CHECK_FOR_SAVED_PASSWORD, 9]) = some w2 ∧ w2.rx = [9] ∧
      newSent (World.init [7, CHECK_FOR_SAVED_PASSWORD, 9]) w2 = [SAVED_PASSWORD] ∧
      w2.g_functionID = 3 ∧ w2.g_eeprom = [1, 2, 3, 4, 5] := by
  obtain ⟨w2, _, h, hrx, _, _, hnew, _, _, hid, _, _, hS⟩ :=
    C14_saved_branch (readOnlyStore [0x13, 1, 2, 3, 4, 5]) 0
      (World.init [7, CHECK_FOR_SAVED_PASSWORD, 9]) [7] [9] (by decide) rfl rfl (by decide)
  exact ⟨w2, h, hrx, hnew, hid, hS [1, 2, 3, 4, 5] (by decide)⟩

/-- Claim C15. For `EEPROM_writeByte` and for `EEPROM_readByte`, whatever the bus
answers: if the status check after phase `k` is the first that differs from its
expected code, the function returns `EEPROM_ERROR` (never `EEPROM_SUCCESS`) and the
bus operations it performed are exactly those of phases `1..k`, with no later
start, write, read or stop. -/
theorem C15_first_mismatch_aborts (dev : TwiDevice) (a d : Nat) (w : World) :
    (∀ k, 1 ≤ k → k ≤ 4 →
      (∀ j, 1 ≤ j → j < k →
        statusRead dev (busOps w.trace) (writePhases a d) j = writeOk.getD (j - 1) 0) →
      statusRead dev (busOps w.trace) (writePhases a d) k ≠ writeOk.getD (k - 1) 0 →
      (EEPROM_writeByte dev a d w).1 = EEPROM_ERROR ∧
      (EEPROM_writeByte dev a d w).1 ≠ EEPROM_SUCCESS ∧
      busOps (EEPROM_writeByte dev a d w).2.trace =
        busOps w.trace ++ (writePhases a d).take k) ∧
    (∀ k, 1 ≤ k → k ≤ 6 →
      (∀ j, 1 ≤ j → j < k →
        statusRead dev (busOps w.trace) (readPhases a) j = readOk.getD (j - 1) 0) →
      statusRead dev (busOps w.trace) (readPhases a) k ≠ readOk.getD (k - 1) 0 →
      (EEPROM_readByte dev a w).1 = EEPROM_ERROR ∧
      (EEPROM_readByte dev a w).1 ≠ EEPROM_SUCCESS ∧
      busOps (EEPROM_readByte dev a w).2.2.trace =
        busOps w.trace ++ (readPhases a).take k) := by
  constructor
  · intro k hk1 hk4 hpre hk
    rcases EEPROM_writeByte_cases dev a d w with ⟨k2, h1, h4, hpre2, hk2, hr, ht⟩ | ⟨hall, _, _⟩
    · have e : k2 = k := by
        rcases Nat.lt_trichotomy k2 k with h | h | h
        · exact absurd (hpre k2 h1 h) hk2
        · exact h
        · exact absurd (hpre2 k hk1 h) hk
      subst e
      refine ⟨hr, ?_, ?_⟩
      · rw [hr]; decide
      · rw [ht, busOps_eepromWrite]
    · exact absurd (hall k hk1 hk4) hk
  · intro k hk1 hk6 hpre hk
    rcases EEPROM_readByte_cases dev a w with ⟨k2, h1, h4, hpre2, hk2, hr, _, ht⟩ | ⟨hall, _, _⟩
    · have e : k2 = k := by
        rcases Nat.lt_trichotomy k2 k with h | h | h
        · exact absurd (hpre k2 h1 h) hk2
        · exact h
        · exact absurd (hpre2 k hk1 h) hk
      subst e
      refine ⟨hr, ?_, ?_⟩
      · rw [hr]; decide
      · rw [ht, busOps_eepromRead]
    · exact absurd (hall k hk1 hk6) hk

/-- Witness for C15: on a bus that answers `0x08, 0x18` and then `0x20` (no
acknowledge), a write stops after its third phase and a read after its third
phase, both reporting `EEPROM_ERROR`. -/
theorem C15_first_mismatch_aborts_witness :
    ((EEPROM_writeByte (scriptedBus [0x08, 0x18, 0x20] []) 0x0300 7 (World.init [])).1
        = EEPROM_ERROR ∧
      (EEPROM_writeByte (scriptedBus [0x08, 0x18, 0x20] []) 0x0300 7 (World.init [])).1
        ≠ EEPROM_SUCCESS ∧
      busOps (EEPROM_writeByte (scriptedBus [0x08, 0x18, 0x20] []) 0x0300 7
          (World.init [])).2.trace =
        busOps (World.init []).trace ++ (writePhases 0x0300 7).take 3) ∧
    ((EEPROM_readByte (scriptedBus [0x08, 0x18, 0x20] []) 0x0300 (World.init [])).1
        = EEPROM_ERROR ∧
      (EEPROM_readByte (scriptedBus [0x08, 0x18, 0x20] []) 0x0300 (World.init [])).1
        ≠ EEPROM_SUCCESS ∧
      busOps (EEPROM_readByte (scriptedBus [0x08, 0x18, 0x20] []) 0x0300
          (World.init [])).2.2.trace =
        busOps (World.init []).trace ++ (readPhases 0x0300).take 3) :=
  ⟨(C15_first_mismatch_aborts (scriptedBus [0x08, 0x18, 0x20] []) 0x0300 7 (World.init [])).1 3
      (by decide) (by decide)
      (by intro j h1 h2; interval_cases j <;> rfl) (by decide),
    (C15_first_mismatch_aborts (scriptedBus [0x08, 0x18, 0x20] []) 0x0300 7 (World.init [])).2 3
      (by decide) (by decide)
      (by intro j h1 h2; interval_cases j <;> rfl) (by decide)⟩

/-- Claim C16. For every address `a` and data byte `d`, `EEPROM_writeByte(a, d)`
returns `EEPROM_SUCCESS` if and only if the four status values read are
`0x08, 0x18, 0x28, 0x28` in that order, and in that case the bus operations are
exactly start, write(write-select(a)), write(low byte of a), write(d), stop. -/
theorem C16_write_success_iff (dev : TwiDevice) (a d : Nat) (w : World) :
    ((EEPROM_writeByte dev a d w).1 = EEPROM_SUCCESS ↔
      (statusRead dev (busOps w.trace) (writePhases a d) 1 = 0x08 ∧
        statusRead dev (busOps w.trace) (writePhases a d) 2 = 0x18 ∧
        statusRead dev (busOps w.trace) (writePhases a d) 3 = 0x28 ∧
        statusRead dev (busOps w.trace) (writePhases a d) 4 = 0x28)) ∧
    ((EEPROM_writeByte dev a d w).1 = EEPROM_SUCCESS →
      busOps (EEPROM_writeByte dev a d w).2.trace =
        busOps w.trace ++ [BusOp.start, BusOp.write (SLAVE_ADDRESS_W a), BusOp.write (a % 256),
          BusOp.write d, BusOp.stop]) := by
  rcases EEPROM_writeByte_cases dev a d w with ⟨k, h1, h4, _, hk, hr, _⟩ | ⟨hall, hr, ht⟩
  · have hne : (EEPROM_writeByte dev a d w).1 ≠ EEPROM_SUCCESS := by rw [hr]; decide
    refine ⟨⟨fun h => absurd h hne, ?_⟩, fun h => absurd h hne⟩
    rintro ⟨e1, e2, e3, e4⟩
    exfalso
    interval_cases k
    · exact hk e1
    · exact hk e2
    · exact hk e3
    · exact hk e4
  · refine ⟨⟨fun _ => ⟨hall 1 (by decide) (by decide), hall 2 (by decide) (by decide),
      hall 3 (by decide) (by decide), hall 4 (by decide) (by decide)⟩, fun _ => hr⟩, fun _ => ?_⟩
    rw [ht, busOps_eepromWrite]; rfl

/-- Witness for C16: a write on a bus that acknowledges every phase. -/
theorem C16_write_success_iff_witness :
    (EEPROM_writeByte writeOnlyStore 0x0300 7 (World.init [])).1 = EEPROM_SUCCESS ∧
    busOps (EEPROM_writeByte writeOnlyStore 0x0300 7 (World.init [])).2.trace =
      busOps (World.init []).trace ++ [BusOp.start, BusOp.write (SLAVE_ADDRESS_W 0x0300),
        BusOp.write (0x0300 % 256), BusOp.write 7, BusOp.stop] :=
  ⟨by decide, (C16_write_success_iff writeOnlyStore 0x0300 7 (World.init [])).2 (by decide)⟩

/-- Claim C17. For every address `a`, `EEPROM_readByte(a, out)` returns
`EEPROM_SUCCESS` if and only if the six status values read are
`0x08, 0x18, 0x28, 0x10, 0x40, 0x58` in that order; in that case the bus
operations are exactly start, write(write-select(a)), write(low byte of a),
repeated start, write(read-select(a)), one read without acknowledge, stop, and
the output byte is the byte delivered by that read. -/
theorem C17_read_success_iff (dev : TwiDevice) (a : Nat) (w : World) :
    ((EEPROM_readByte dev a w).1 = EEPROM_SUCCESS ↔
      (statusRead dev (busOps w.trace) (readPhases a) 1 = 0x08 ∧
        statusRead dev (busOps w.trace) (readPhases a) 2 = 0x18 ∧
        statusRead dev (busOps w.trace) (readPhases a) 3 = 0x28 ∧
        statusRead dev (busOps w.trace) (readPhases a) 4 = 0x10 ∧
        statusRead dev (busOps w.trace) (readPhases a) 5 = 0x40 ∧
        statusRead dev (busOps w.trace) (readPhases a) 6 = 0x58)) ∧
    ((EEPROM_readByte dev a w).1 = EEPROM_SUCCESS →
      busOps (EEPROM_readByte dev a w).2.2.trace =
        busOps w.trace ++ [BusOp.start, BusOp.write (SLAVE_ADDRESS_W a), BusOp.write (a % 256),
          BusOp.start, BusOp.write (SLAVE_ADDRESS_R a), BusOp.readNack, BusOp.stop] ∧
      (EEPROM_readByte dev a w).2.1 =
        some (dev.TWDR (busOps w.trace ++ [BusOp.start, BusOp.write (SLAVE_ADDRESS_W a),
          BusOp.write (a % 256), BusOp.start, BusOp.write (SLAVE_ADDRESS_R a),
          BusOp.readNack]))) := by
  rcases EEPROM_readByte_cases dev a w with ⟨k, h1, h4, _, hk, hr, _⟩ | ⟨hall, hr, ho, ht⟩
  · have hne : (EEPROM_readByte dev a w).1 ≠ EEPROM_SUCCESS := by rw [hr]; decide
    refine ⟨⟨fun h => absurd h hne, ?_⟩, fun h => absurd h hne⟩
    rintro ⟨e1, e2, e3, e4, e5, e6⟩
    exfalso
    interval_cases k
    · exact hk e1
    · exact hk e2
    · exact hk e3
    · exact hk e4
    · exact hk e5
    · exact hk e6
  · refine ⟨⟨fun _ => ⟨hall 1 (by decide) (by decide), hall 2 (by decide) (by decide),
      hall 3 (by decide) (by decide), hall 4 (by decide) (by decide),
      hall 5 (by decide) (by decide), hall 6 (by decide) (by decide)⟩, fun _ => hr⟩,
      fun _ => ⟨?_, ?_⟩⟩
    · rw [ht, busOps_eepromRead]; rfl
    · rw [ho]; rfl

/-- Witness for C17: a read on a bus that answers every phase as expected and
delivers the byte 5. -/
theorem C17_read_success_iff_witness :
    (EEPROM_readByte (readOnlyStore [5]) 0x0300 (World.init [])).1 = EEPROM_SUCCESS ∧
    busOps (EEPROM_readByte (readOnlyStore [5]) 0x0300 (World.init [])).2.2.trace =
      busOps (World.init []).trace ++ [BusOp.start, BusOp.write (SLAVE_ADDRESS_W 0x0300),
        BusOp.write (0x0300 % 256), BusOp.start, BusOp.write (SLAVE_ADDRESS_R 0x0300),
        BusOp.readNack, BusOp.stop] ∧
    (EEPROM_readByte (readOnlyStore [5]) 0x0300 (World.init [])).2.1 = some 5 :=
  ⟨by decide,
    ((C17_read_success_iff (readOnlyStore [5]) 0x0300 (World.init [])).2 (by decide)).1,
    ((C17_read_success_iff (readOnlyStore [5]) 0x0300 (World.init [])).2 (by decide)).2⟩

/-- Counterexample to C18 as stated: for the flag address `0x05FF` the
write-select byte is `0xAA = 1010 1010`; its five high-order bits are `10101`,
not `10100`, and it is not the nine-bit string `10100 101 0`. -/
theorem C18_counterexample :
    SLAVE_ADDRESS_W eeprom_flag = 0xAA ∧
    SLAVE_ADDRESS_W eeprom_flag >>> 3 = 0b10101 ∧
    SLAVE_ADDRESS_W eeprom_flag >>> 3 ≠ 0b10100 ∧
    SLAVE_ADDRESS_W eeprom_flag ≠ 0b101001010 := by
  decide

/-- Claim C18, amended. For every storage address `a` the device-select byte is
made of the fixed 4-bit prefix `1010` in its high-order bits, followed by the
three address bits `A10`, `A9`, `A8` of `a`, followed by the read/write bit as
least-significant bit: 0 in `SLAVE_ADDRESS_W`, 1 in `SLAVE_ADDRESS_R`. -/
theorem C18_select_byte_layout (a : Nat) :
    SLAVE_ADDRESS_W a =
      0b1010 * 16 + ((a / 2 ^ 10) % 2) * 8 + ((a / 2 ^ 9) % 2) * 4 + ((a / 2 ^ 8) % 2) * 2 + 0 ∧
    SLAVE_ADDRESS_R a =
      0b1010 * 16 + ((a / 2 ^ 10) % 2) * 8 + ((a / 2 ^ 9) % 2) * 4 + ((a / 2 ^ 8) % 2) * 2 + 1 ∧
    SLAVE_ADDRESS_W a >>> 4 = 0b1010 ∧ SLAVE_ADDRESS_R a >>> 4 = 0b1010 := by
  rw [SLAVE_ADDRESS_W_eq, SLAVE_ADDRESS_R_eq]
  have h : (a / 256) % 8 < 8 := Nat.mod_lt _ (by decide)
  have e : (a / 256) % 8 = ((a / 2 ^ 10) % 2) * 4 + ((a / 2 ^ 9) % 2) * 2 + (a / 2 ^ 8) % 2 := by
    omega
  refine ⟨by omega, by omega, ?_, ?_⟩
  · generalize (a / 256) % 8 = x at h
    interval_cases x <;> decide
  · generalize (a / 256) % 8 = x at h
    interval_cases x <;> decide

/-- Claim C19. The read and write device-select bytes are derived identically and
differ only in the read/write bit: for every address `a`,
`SLAVE_ADDRESS_R(a) = SLAVE_ADDRESS_W(a) | 0x01`, bit 0 of `SLAVE_ADDRESS_W(a)` is
0 and bit 0 of `SLAVE_ADDRESS_R(a)` is 1, bits 7..1 of both are `1010` followed by
the address bits `A10`, `A9`, `A8` of `a`, and
`SLAVE_ADDRESS_W(a) = 0xA0 | ((a >> 8) & 7) << 1`. -/
theorem C19_select_bytes_differ_in_rw_bit (a : Nat) :
    SLAVE_ADDRESS_R a = SLAVE_ADDRESS_W a ||| 0x01 ∧
    (SLAVE_ADDRESS_W a).testBit 0 = false ∧ (SLAVE_ADDRESS_R a).testBit 0 = true ∧
    SLAVE_ADDRESS_W a = 0xA0 ||| (((a >>> 8) &&& 7) <<< 1) ∧
    (∀ i, 1 ≤ i → (SLAVE_ADDRESS_R a).testBit i = (SLAVE_ADDRESS_W a).testBit i) ∧
    ((SLAVE_ADDRESS_W a).testBit 7 = true ∧ (SLAVE_ADDRESS_W a).testBit 6 = false ∧
      (SLAVE_ADDRESS_W a).testBit 5 = true ∧ (SLAVE_ADDRESS_W a).testBit 4 = false ∧
      (SLAVE_ADDRESS_W a).testBit 3 = a.testBit 10 ∧
      (SLAVE_ADDRESS_W a).testBit 2 = a.testBit 9 ∧
      (SLAVE_ADDRESS_W a).testBit 1 = a.testBit 8) ∧
    (∀ i, 8 ≤ i → (SLAVE_ADDRESS_W a).testBit i = false) := by
  have hb : ∀ i, (SLAVE_ADDRESS_R a).testBit i =
      ((SLAVE_ADDRESS_W a).testBit i || Nat.testBit 1 i) := by
    intro i; rw [SLAVE_ADDRESS_R_or, Nat.testBit_or]
  have t := testBit_SLAVE_ADDRESS_W a
  refine ⟨SLAVE_ADDRESS_R_or a, ?_, ?_, SLAVE_ADDRESS_W_or a, ?_, ⟨?_, ?_, ?_, ?_, ?_, ?_, ?_⟩, ?_⟩
  · rw [t]
    have h1 : Nat.testBit 0xA0 0 = false := by decide
    rw [h1]; simp
  · rw [hb, t]
    have h1 : Nat.testBit 1 0 = true := by decide
    rw [h1]; simp
  · intro i hi
    rw [hb]
    have : Nat.testBit 1 i = false := by
      rw [show (1 : Nat) = 2 ^ 0 from rfl, Nat.testBit_two_pow]
      simp; omega
    rw [this, Bool.or_false]
  · rw [t]
    have h1 : Nat.testBit 0xA0 7 = true := by decide
    rw [h1]; simp
  · rw [t]
    have h1 : Nat.testBit 0xA0 6 = false := by decide
    have h2 : Nat.testBit 7 (6 - 1) = false := by decide
    rw [h1, h2]; simp
  · rw [t]
    have h1 : Nat.testBit 0xA0 5 = true := by decide
    rw [h1]; simp
  · rw [t]
    have h1 : Nat.testBit 0xA0 4 = false := by decide
    have h2 : Nat.testBit 7 (4 - 1) = false := by decide
    rw [h1, h2]; simp
  · rw [t]
    have h1 : Nat.testBit 0xA0 3 = false := by decide
    have h2 : Nat.testBit 7 (3 - 1) = true := by decide
    rw [h1, h2]; simp
  · rw [t]
    have h1 : Nat.testBit 0xA0 2 = false := by decide
    have h2 : Nat.testBit 7 (2 - 1) = true := by decide
    rw [h1, h2]; simp
  · rw [t]
    have h1 : Nat.testBit 0xA0 1 = false := by decide
    have h2 : Nat.testBit 7 (1 - 1) = true := by decide
    rw [h1, h2]; simp
  · intro i hi
    have hlt : SLAVE_ADDRESS_W a < 2 ^ 8 := by
      unfold SLAVE_ADDRESS_W; exact Nat.mod_lt _ (by decide)
    exact Nat.testBit_lt_two_pow (lt_of_lt_of_le hlt (Nat.pow_le_pow_right (by decide) hi))

/-- Claim C20. Lock-step of the two state machines: in the composed system (the
HMI and Control dispatch loops joined by a reliable first-in first-out byte
channel in each direction, every store transaction succeeding, the flag cell
holding one of the two sentinels, both ECUs starting in function 0), for every
sequence of keys and every timing, at every quiescent point (no byte in flight,
the HMI ECU blocked in a keypad read or a receive, the Control ECU blocked in a
receive) the pair (HMI function ID, Control function ID) is one of (0,0), (1,1),
(2,2), (3,3), (4,3), (5,3); so the HMI ECU is setting, confirming or verifying a
credential exactly when the Control ECU is. -/
theorem C20_lock_step (dev : TwiDevice) (cellsOf : List BusOp → Nat → Nat)
    (hB : ByteStore dev cellsOf) (hA : AlwaysAck dev)
    (hcell : cellsOf [] (eeprom_flag % 2048) = NO_SAVED_PASSWORD ∨
      cellsOf [] (eeprom_flag % 2048) = SAVED_PASSWORD)
    (s : Sys) (hs : SysReachable dev s) (hq : quiescent dev s) :
    (s.hmi.g_functionID, s.ctl.g_functionID) ∈ lockStepPairs ∧
    (s.hmi.g_functionID = 1 ↔ s.ctl.g_functionID = 1) ∧
    (s.hmi.g_functionID = 2 ↔ s.ctl.g_functionID = 2) ∧
    ((s.hmi.g_functionID = 3 ∨ s.hmi.g_functionID = 4 ∨ s.hmi.g_functionID = 5) ↔
      s.ctl.g_functionID = 3) := by
  have hread := readTxn_acked dev cellsOf hB hA [] (Or.inl rfl) eeprom_flag
  have hflag : (readTxn dev [] eeprom_flag).1 = some NO_SAVED_PASSWORD ∨
      (readTxn dev [] eeprom_flag).1 = some SAVED_PASSWORD := by
    rw [hread]
    rcases hcell with h | h
    · exact Or.inl (congrArg some h)
    · exact Or.inr (congrArg some h)
  have hcfg := SysReachable.cfg dev hflag hs
  have hpair := Cfg_quiescent dev hflag s.hmi s.toHmi s.ctl hcfg hq.1 hq.2.2
  exact ⟨hpair, (lockStep_agree _ _ hpair).2⟩

/-- Witness for C20: the chip with no credential stored; after the confirm key
and the reply, both ECUs are in function 1. -/
theorem C20_lock_step_witness :
    SysReachable (idealStore noCredential) welcomed ∧
    quiescent (idealStore noCredential) welcomed ∧
    (welcomed.hmi.g_functionID, welcomed.ctl.g_functionID) = (1, 1) ∧
    (welcomed.hmi.g_functionID, welcomed.ctl.g_functionID) ∈ lockStepPairs :=
  ⟨welcomed_reachable, welcomed_quiescent, rfl,
    (C20_lock_step (idealStore noCredential) (cells noCredential) (ByteStore_idealStore _)
      (AlwaysAck_idealStore _) (Or.inl (by decide)) welcomed welcomed_reachable
      welcomed_quiescent).1⟩

/-! ## The HMI state functions run to completion -/

theorem hmiAwaitLoop_spec (x : Nat) (junk rest : List Nat) (hx : x ∉ junk) (h : HmiWorld) :
    hmiAwaitLoop x (junk ++ x :: rest) h = some { h with rx := rest } := by
  induction junk generalizing h with
  | nil => simp [hmiAwaitLoop]
  | cons b t ih =>
    have hb : b ≠ x := fun e => hx (by simp [e])
    have ht : x ∉ t := fun e => hx (by simp [e])
    simp [hmiAwaitLoop, hb, ih ht]

theorem hmiAwaitByte_spec (x : Nat) (junk rest : List Nat) (hx : x ∉ junk) (h : HmiWorld)
    (hrx : h.rx = junk ++ x :: rest) : hmiAwaitByte x h = some { h with rx := rest } := by
  unfold hmiAwaitByte
  rw [hrx]
  exact hmiAwaitLoop_spec x junk rest hx h

theorem enterPasswordLoop_spec (a b c d e : Nat) (ks : List Nat) (h : HmiWorld)
    (hk : h.keys = [a, b, c, d, e] ++ ks) :
    enterPasswordLoop (List.range PASSWORD_SIZE) h =
      some { h with keys := ks, tx := h.tx ++ [a, b, c, d, e] } := by
  have hr : List.range PASSWORD_SIZE = [0, 1, 2, 3, 4] := rfl
  rw [hr]
  simp [enterPasswordLoop, KEYPAD_getPressedKey, hmiSendByte, hk]

/-- The run of `HMI_enterPassword` up to the verdict byte: the state in which the
verdict byte `v` has been received. -/
theorem HMI_enterPassword_verdict (a b c d e v : Nat) (ks rest : List Nat) (h : HmiWorld)
    (hk : h.keys = [a, b, c, d, e] ++ ks) (hrx : h.rx = v :: rest) :
    enterPasswordLoop (List.range PASSWORD_SIZE) (hmiSendByte HMI_ECU_READY h) =
      some { h with keys := ks, tx := h.tx ++ [HMI_ECU_READY, a, b, c, d, e] } ∧
    hmiReceiveByte (hmiSendByte OPEN_DOOR
        { h with keys := ks, tx := h.tx ++ [HMI_ECU_READY, a, b, c, d, e] }) =
      some (v, { h with keys := ks, rx := rest,
                        tx := h.tx ++ [HMI_ECU_READY, a, b, c, d, e, OPEN_DOOR] }) := by
  constructor
  · rw [enterPasswordLoop_spec a b c d e ks (hmiSendByte HMI_ECU_READY h) hk]
    simp [hmiSendByte]
  · simp [hmiReceiveByte, hmiSendByte, hrx]

/-- Claim C23. `HMI_enterPassword` sends `HMI_ECU_READY` on entry, then each of
the five keypad symbols as it is pressed, then `OPEN_DOOR` after the fifth, and
only then blocks in the receive of the verdict byte: seven bytes in that order.
On `CORRECT_PASSWORD` it consumes the serial input up to and including the
first `DOOR_UNLOCKING`, then up to and including the next `DOOR_LOCKING`, then
up to and including the next `DOOR_LOCKED`, and moves to function 3; on
`WRONG_PASSWORD` it consumes nothing more and stays in function 4; on any
other verdict byte, `THIEF` among them, it consumes the input up to and
including the first `SYSTEM_UNLOCKED` and moves to function 3.  In each case
it has sent exactly the seven bytes and consumed exactly five keypad
symbols. -/
theorem C23_enter_password (h : HmiWorld) (a b c d e : Nat) (ks : List Nat)
    (hk : h.keys = [a, b, c, d, e] ++ ks) :
    (hmiEnter 4 = ([HMI_ECU_READY], { g_functionID := 4, pc := HmiPc.enterKey 0 }) ∧
      hmiKey { g_functionID := 4, pc := HmiPc.enterKey 0 } a =
        some ([a], { g_functionID := 4, pc := HmiPc.enterKey 1 }) ∧
      hmiKey { g_functionID := 4, pc := HmiPc.enterKey 1 } b =
        some ([b], { g_functionID := 4, pc := HmiPc.enterKey 2 }) ∧
      hmiKey { g_functionID := 4, pc := HmiPc.enterKey 2 } c =
        some ([c], { g_functionID := 4, pc := HmiPc.enterKey 3 }) ∧
      hmiKey { g_functionID := 4, pc := HmiPc.enterKey 3 } d =
        some ([d], { g_functionID := 4, pc := HmiPc.enterKey 4 }) ∧
      hmiKey { g_functionID := 4, pc := HmiPc.enterKey 4 } e =
        some ([e, OPEN_DOOR], { g_functionID := 4, pc := HmiPc.enterReply })) ∧
    (∀ j1 j2 j3 rest : List Nat, DOOR_UNLOCKING ∉ j1 → DOOR_LOCKING ∉ j2 → DOOR_LOCKED ∉ j3 →
      h.rx = CORRECT_PASSWORD ::
        (j1 ++ DOOR_UNLOCKING :: (j2 ++ DOOR_LOCKING :: (j3 ++ DOOR_LOCKED :: rest))) →
      HMI_enterPassword h =
        some { g_functionID := 3, keys := ks, rx := rest,
               tx := h.tx ++ [HMI_ECU_READY, a, b, c, d, e, OPEN_DOOR] }) ∧
    (∀ rest : List Nat, h.rx = WRONG_PASSWORD :: rest →
      HMI_enterPassword h =
        some { g_functionID := 4, keys := ks, rx := rest,
               tx := h.tx ++ [HMI_ECU_READY, a, b, c, d, e, OPEN_DOOR] }) ∧
    (∀ (v : Nat) (j rest : List Nat), v ≠ CORRECT_PASSWORD → v ≠ WRONG_PASSWORD →
      SYSTEM_UNLOCKED ∉ j → h.rx = v :: (j ++ SYSTEM_UNLOCKED :: rest) →
      HMI_enterPassword h =
        some { g_functionID := 3, keys := ks, rx := rest,
               tx := h.tx ++ [HMI_ECU_READY, a, b, c, d, e, OPEN_DOOR] }) ∧
    (h.rx = [] → HMI_enterPassword h = none) := by
  refine ⟨⟨rfl, rfl, rfl, rfl, rfl, rfl⟩, ?_, ?_, ?_, ?_⟩
  · intro j1 j2 j3 rest h1 h2 h3 hrx
    obtain ⟨e1, e2⟩ := HMI_enterPassword_verdict a b c d e CORRECT_PASSWORD ks _ h hk hrx
    unfold HMI_enterPassword
    rw [e1]
    simp only
    rw [e2]
    simp only [if_pos]
    rw [hmiAwaitByte_spec DOOR_UNLOCKING j1 _ h1 _ rfl]
    simp only
    rw [hmiAwaitByte_spec DOOR_LOCKING j2 _ h2 _ rfl]
    simp only
    rw [hmiAwaitByte_spec DOOR_LOCKED j3 _ h3 _ rfl]
  · intro rest hrx
    obtain ⟨e1, e2⟩ := HMI_enterPassword_verdict a b c d e WRONG_PASSWORD ks _ h hk hrx
    unfold HMI_enterPassword
    rw [e1]
    simp only
    rw [e2]
    have hne : ¬ (WRONG_PASSWORD = CORRECT_PASSWORD) := by decide
    simp only [if_neg hne, if_pos]
  · intro v j rest hv1 hv2 hj hrx
    obtain ⟨e1, e2⟩ := HMI_enterPassword_verdict a b c d e v ks _ h hk hrx
    unfold HMI_enterPassword
    rw [e1]
    simp only
    rw [e2]
    simp only [if_neg hv1, if_neg hv2]
    rw [hmiAwaitByte_spec SYSTEM_UNLOCKED j _ hj _ rfl]
  · intro hrx
    unfold HMI_enterPassword
    rw [enterPasswordLoop_spec a b c d e ks (hmiSendByte HMI_ECU_READY h) hk]
    simp [hmiReceiveByte, hmiSendByte, hrx]

/-- Witness of C23: the symbols `1 2 3 4 5` entered, answered by the door
script, by `WRONG_PASSWORD`, and by `THIEF` followed by `SYSTEM_UNLOCKED`. -/
theorem C23_enter_password_witness :
    HMI_enterPassword { g_functionID := 4, keys := [1, 2, 3, 4, 5], rx := [CORRECT_PASSWORD, DOOR_UNLOCKING, DOOR_LOCKING, DOOR_LOCKED], tx := [] } =
      some { g_functionID := 3, keys := [], rx := [], tx := [] ++ [HMI_ECU_READY, 1, 2, 3, 4, 5, OPEN_DOOR] } ∧
    HMI_enterPassword { g_functionID := 4, keys := [1, 2, 3, 4, 6], rx := [WRONG_PASSWORD], tx := [] } =
      some { g_functionID := 4, keys := [], rx := [], tx := [] ++ [HMI_ECU_READY, 1, 2, 3, 4, 6, OPEN_DOOR] } ∧
    HMI_enterPassword { g_functionID := 4, keys := [1, 2, 3, 4, 6], rx := [THIEF, SYSTEM_UNLOCKED], tx := [] } =
      some { g_functionID := 3, keys := [], rx := [], tx := [] ++ [HMI_ECU_READY, 1, 2, 3, 4, 6, OPEN_DOOR] } :=
  ⟨(C23_enter_password { g_functionID := 4, keys := [1, 2, 3, 4, 5], rx := [CORRECT_PASSWORD, DOOR_UNLOCKING, DOOR_LOCKING, DOOR_LOCKED], tx := [] }
      1 2 3 4 5 [] rfl).2.1 [] [] [] [] (by decide) (by decide) (by decide) rfl,
    (C23_enter_password { g_functionID := 4, keys := [1, 2, 3, 4, 6], rx := [WRONG_PASSWORD], tx := [] } 1 2 3 4 6 [] rfl).2.2.1 [] rfl,
    (C23_enter_password { g_functionID := 4, keys := [1, 2, 3, 4, 6], rx := [THIEF, SYSTEM_UNLOCKED], tx := [] } 1 2 3 4 6 [] rfl).2.2.2.1 THIEF [] []
      (by decide) (by decide) (by decide) rfl⟩

/-! ## The frame of the timer callback -/

/-- The events one call of the callback appends to the trace: at most one byte
sent on the serial link, chosen by the incremented tick count and the failure
flag. -/
theorem fire_trace (w : World) :
    (fireBuzzerOrOpenDoor w).trace = w.trace ++
      (if (w.count + 1) % 256 = 3 ∧ w.g_state = 0 then [Event.send DOOR_LOCKING]
       else if (w.count + 1) % 256 = 6 ∧ w.g_state = 0 then [Event.send DOOR_LOCKED]
       else if (w.count + 1) % 256 = 12 ∧ w.g_state = 1 then [Event.send SYSTEM_UNLOCKED]
       else []) := by
  unfold fireBuzzerOrOpenDoor
  by_cases h3 : (w.count + 1) % 256 = 3 ∧ w.g_state = 0
  · have e : (w.count + 1) % 256 = 3 := h3.1
    simp [h3, e, UART_sendByte, motorRotateAntiClockwise]
  · by_cases h6 : (w.count + 1) % 256 = 6 ∧ w.g_state = 0
    · have e : (w.count + 1) % 256 = 6 := h6.1
      simp [h6, e, UART_sendByte, motorStop, TIMER1_DeInit]
    · by_cases h12 : (w.count + 1) % 256 = 12 ∧ w.g_state = 1
      · have e : (w.count + 1) % 256 = 12 := h12.1
        simp [h12, e, UART_sendByte, buzzerOFF, TIMER1_DeInit]
      · simp only [if_neg h3, if_neg h6, if_neg h12, List.append_nil]

theorem fire_frame (w : World) :
    (fireBuzzerOrOpenDoor w).g_eeprom = w.g_eeprom ∧
    (fireBuzzerOrOpenDoor w).g_state = w.g_state ∧
    (fireBuzzerOrOpenDoor w).PORTA = w.PORTA ∧
    (fireBuzzerOrOpenDoor w).rx = w.rx ∧
    ((fireBuzzerOrOpenDoor w).g_functionID = w.g_functionID ∨
      ((w.count + 1) % 256 = 6 ∧ w.g_state = 0 ∧ (fireBuzzerOrOpenDoor w).g_functionID = 3)) := by
  unfold fireBuzzerOrOpenDoor
  simp only
  split_ifs <;>
    simp_all [UART_sendByte, motorRotateAntiClockwise, motorStop, buzzerOFF, TIMER1_DeInit]

/-- Counterexample to claim C24 as stated: in the state two ticks after a
correct entry with `OPEN_DOOR`, one more call of the callback sends
`DOOR_LOCKING` on the serial link. -/
theorem C24_counterexample :
    (ticks 2 afterOpenDoor).count = 2 ∧ (ticks 2 afterOpenDoor).g_state = 0 ∧
    newSent (ticks 2 afterOpenDoor) (fireBuzzerOrOpenDoor (ticks 2 afterOpenDoor)) =
      [DOOR_LOCKING] := by
  decide

/-- Claim C24, amended. One call of `fireBuzzerOrOpenDoor`, for every tick count
and failure-flag value, leaves the staging buffer, the failure flag, the trial
counter, port A and the pending serial input unchanged; it appends to the trace
at most one byte sent on the serial link (`DOOR_LOCKING`, `DOOR_LOCKED` or
`SYSTEM_UNLOCKED`, chosen by the incremented count and the failure flag) and
nothing else, so it receives nothing and performs no bus and no store
operation; and it leaves `g_functionID` unchanged except that it sets it to 3
when it ends a door timeline. -/
theorem C24_callback_frame (w : World) :
    (fireBuzzerOrOpenDoor w).g_eeprom = w.g_eeprom ∧
    (fireBuzzerOrOpenDoor w).g_state = w.g_state ∧
    (fireBuzzerOrOpenDoor w).trial = w.trial ∧
    (fireBuzzerOrOpenDoor w).PORTA = w.PORTA ∧
    (fireBuzzerOrOpenDoor w).rx = w.rx ∧
    ((fireBuzzerOrOpenDoor w).g_functionID = w.g_functionID ∨
      ((w.count + 1) % 256 = 6 ∧ w.g_state = 0 ∧ (fireBuzzerOrOpenDoor w).g_functionID = 3)) ∧
    (fireBuzzerOrOpenDoor w).trace = w.trace ++
      (if (w.count + 1) % 256 = 3 ∧ w.g_state = 0 then [Event.send DOOR_LOCKING]
       else if (w.count + 1) % 256 = 6 ∧ w.g_state = 0 then [Event.send DOOR_LOCKED]
       else if (w.count + 1) % 256 = 12 ∧ w.g_state = 1 then [Event.send SYSTEM_UNLOCKED]
       else []) ∧
    busOps (fireBuzzerOrOpenDoor w).trace = busOps w.trace ∧
    storeWrites (fireBuzzerOrOpenDoor w).trace = storeWrites w.trace ∧
    storeReads (fireBuzzerOrOpenDoor w).trace = storeReads w.trace := by
  obtain ⟨h1, h2, h3, h4, h5⟩ := fire_frame w
  refine ⟨h1, h2, fire_trial w, h3, h4, h5, fire_trace w, ?_, ?_, ?_⟩ <;>
    rw [fire_trace] <;> split_ifs <;>
    simp [busOps_append, storeWrites_append, storeReads_append, busOps, storeWrites, storeReads]

/-! ## Turns of the Control ECU in the composed system -/

/-- In a configuration in which a turn of the dispatch loop completes, no
timeline is in progress. -/
theorem Cfg_turn_calm (dev : TwiDevice) (H : Hmi) (q : List Nat) (w : World) (h : Cfg H q w)
    (chk : Nat) (w2 : World) (hd : dispatch dev chk w = some w2) : Calm w := by
  cases h with
  | welcome _ hid hrx hb hc => exact hc
  | asked _ hid hrx hb hc => exact hc
  | answeredNo _ hid hrx hc => exact hc
  | answeredYes _ hid hrx hc => exact hc
  | setting _ i ks hi hks hid hrx hc => exact hc
  | confirming1 _ i ks ks2 hi hks hks2 hid hrx hc => exact hc
  | confirming2 _ i ks2 hi hks2 hid hrx hc => exact hc
  | confirmed1 _ ks ks2 hks hks2 hid hrx hc => exact hc
  | confirmed2 _ ks2 hks2 hid hrx hc => exact hc
  | accepted _ hid hrx hc => exact hc
  | rejected _ hid hrx hc => exact hc
  | menu _ pc hpc hid hrx hc => exact hc
  | entering _ id i junk ks hid2 hi hks hj hid hrx hc => exact hc
  | entered _ id junk ks hid2 hks hj hid hrx hc => exact hc
  | wrong _ id hid2 hid hrx hc => exact hc
  | changing _ hid hrx hc => exact hc
  | door _ n sent hn hs hdc =>
    have hnone := dispatch_none_3 dev chk w [] [] hdc.1 (by simp) (by simp) (Or.inl hdc.2.1)
    rw [hnone] at hd; simp at hd
  | lockout _ id n sent hid2 hn hs hlc =>
    have hnone := dispatch_none_3 dev chk w [] [] hlc.1 (by simp) (by simp) (Or.inl hlc.2.1)
    rw [hnone] at hd; simp at hd

theorem SysReachable_pressKey (dev : TwiDevice) (s : Sys) (k : Nat) (h : SysReachable dev s) :
    SysReachable dev (pressKey s k) := by
  unfold pressKey
  cases hk : hmiKey s.hmi k with
  | none => exact h
  | some p =>
    obtain ⟨out, h2⟩ := p
    exact SysReachable.key s k out h2 h hk

theorem SysReachable_deliverByte (dev : TwiDevice) (s : Sys) (h : SysReachable dev s) :
    SysReachable dev (deliverByte s) := by
  unfold deliverByte
  cases hq : s.toHmi with
  | nil => exact h
  | cons b rest =>
    simp only
    cases hb : hmiByte s.hmi b with
    | none => exact h
    | some p =>
      obtain ⟨out, h2⟩ := p
      exact SysReachable.deliver s b rest out h2 h hq hb

theorem SysReachable_takeTurn (dev : TwiDevice) (s : Sys) (h : SysReachable dev s) :
    SysReachable dev (takeTurn dev s) := by
  unfold takeTurn
  cases hd : dispatch dev 0 s.ctl with
  | none => exact h
  | some w2 => exact SysReachable.turn s 0 w2 h hd

theorem doorRequested_reachable : SysReachable (idealStore savedCredential) doorRequested := by
  unfold doorRequested
  simp only [List.foldl]
  repeat apply SysReachable_pressKey
  apply SysReachable_deliverByte
  apply SysReachable_takeTurn
  apply SysReachable_pressKey
  exact SysReachable.powerUp

theorem doorRequested_turn :
    (dispatch (idealStore savedCredential) 0 doorRequested.ctl).map
      (fun w2 => (newSent doorRequested.ctl w2, w2.count)) =
      some ([CORRECT_PASSWORD, DOOR_UNLOCKING], 0) := by
  rfl

/-- Claim C25. No concurrent timelines: in the composed system (reliable serial
channels, the HMI ECU following its state functions, every store transaction
succeeding, the flag cell holding one of the two sentinels), in every reachable
state in which a turn of the Control dispatch loop completes, so in every
reachable state in which `Control_receiveAndCheckPassword` runs to its verdict
and may call `TIMER1_init`, the tick count is 0 and Timer1 is stopped with its
compare interrupt disabled; and while Timer1 is running no turn completes. -/
theorem C25_no_concurrent_timelines (dev : TwiDevice) (cellsOf : List BusOp → Nat → Nat)
    (hB : ByteStore dev cellsOf) (hA : AlwaysAck dev)
    (hcell : cellsOf [] (eeprom_flag % 2048) = NO_SAVED_PASSWORD ∨
      cellsOf [] (eeprom_flag % 2048) = SAVED_PASSWORD)
    (s : Sys) (hs : SysReachable dev s) :
    (∀ chkFlag0 w2, dispatch dev chkFlag0 s.ctl = some w2 →
      s.ctl.count = 0 ∧ s.ctl.TIMSK.testBit OCIE1A = false ∧ ¬ timerRunning s.ctl) ∧
    (∀ w2, s.ctl.g_functionID = 3 → Control_receiveAndCheckPassword dev s.ctl = some w2 →
      s.ctl.count = 0 ∧ s.ctl.TIMSK.testBit OCIE1A = false ∧ ¬ timerRunning s.ctl) ∧
    (timerRunning s.ctl → ∀ chkFlag0, dispatch dev chkFlag0 s.ctl = none) := by
  have hread := readTxn_acked dev cellsOf hB hA [] (Or.inl rfl) eeprom_flag
  have hflag : (readTxn dev [] eeprom_flag).1 = some NO_SAVED_PASSWORD ∨
      (readTxn dev [] eeprom_flag).1 = some SAVED_PASSWORD := by
    rw [hread]
    rcases hcell with h | h
    · exact Or.inl (congrArg some h)
    · exact Or.inr (congrArg some h)
  have hcfg := SysReachable.cfg dev hflag hs
  have key : ∀ chk w2, dispatch dev chk s.ctl = some w2 →
      s.ctl.count = 0 ∧ s.ctl.TIMSK.testBit OCIE1A = false ∧ ¬ timerRunning s.ctl := by
    intro chk w2 hd
    have hc := Cfg_turn_calm dev s.hmi s.toHmi s.ctl hcfg chk w2 hd
    exact ⟨hc.1, hc.2.1, hc.not_running⟩
  refine ⟨key, fun w2 hid hr => ?_, fun hrun chk => ?_⟩
  · have hd : dispatch dev 0 s.ctl = some w2 := by
      unfold dispatch
      rw [if_neg (by rw [hid]; decide), if_neg (by rw [hid]; decide),
        if_neg (by rw [hid]; decide), if_pos hid]
      exact hr
    exact key 0 w2 hd
  · cases hd : dispatch dev chk s.ctl with
    | none => rfl
    | some w2 => exact absurd hrun (key chk w2 hd).2.2

/-- Witness of C25: on the chip holding `1 2 3 4 5` with the exists sentinel, after
`'+'` and the right entry, the turn of `Control_receiveAndCheckPassword` that
replies `CORRECT_PASSWORD` and `DOOR_UNLOCKING` and starts the door timeline
starts from tick count 0 with Timer1 stopped. -/
theorem C25_no_concurrent_timelines_witness :
    ByteStore (idealStore savedCredential) (cells savedCredential) ∧
    AlwaysAck (idealStore savedCredential) ∧
    cells savedCredential [] (eeprom_flag % 2048) = SAVED_PASSWORD ∧
    SysReachable (idealStore savedCredential) doorRequested ∧
    ∃ w2, dispatch (idealStore savedCredential) 0 doorRequested.ctl = some w2 ∧
      newSent doorRequested.ctl w2 = [CORRECT_PASSWORD, DOOR_UNLOCKING] ∧
      doorRequested.ctl.count = 0 ∧ doorRequested.ctl.TIMSK.testBit OCIE1A = false ∧
      ¬ timerRunning doorRequested.ctl := by
  have ht := doorRequested_turn
  cases hd : dispatch (idealStore savedCredential) 0 doorRequested.ctl with
  | none => rw [hd] at ht; simp at ht
  | some w2 =>
    rw [hd] at ht
    simp only [Option.map_some', Option.some.injEq, Prod.mk.injEq] at ht
    exact ⟨ByteStore_idealStore _, AlwaysAck_idealStore _, by decide, doorRequested_reachable,
      w2, rfl, ht.1,
      (C25_no_concurrent_timelines (idealStore savedCredential) (cells savedCredential)
        (ByteStore_idealStore _) (AlwaysAck_idealStore _) (Or.inr (by decide)) doorRequested
        doorRequested_reachable).1 0 w2 hd⟩

/-! ## The scheduler period -/

/-- Counterexample to claim C26 as stated: the configured compare value times the
duration of one timer count is 5.000064 s, not 5 s. -/
theorem C26_counterexample :
    ticksNanos Timer1_Config 1 = 5000064000 ∧ ticksNanos Timer1_Config 1 ≠ 5 * 1000000000 := by
  decide

/-- Claim C26, amended. With `F_CPU` = 8,000,000 Hz and prescaler 1024 one timer
count lasts exactly 128 microseconds; the configured compare value 39063 is
the least number of counts that lasts 5 seconds or more, and lasts 5.000064
seconds; 3 ticks last 15.000192 seconds and 12 ticks 60.000768 seconds, each
within one millisecond of 15 seconds and of one minute. -/
theorem C26_tick_period :
    F_CPU = 8000000 ∧ prescalerOf Timer1_Config.clock = 1024 ∧
    Timer1_Config.compareVal = 39063 ∧
    prescalerOf Timer1_Config.clock * 1000000000 = 128000 * F_CPU ∧
    (∀ n, countsNanos Timer1_Config n = n * 128000) ∧
    countsNanos Timer1_Config (Timer1_Config.compareVal - 1) < 5 * 1000000000 ∧
    ticksNanos Timer1_Config 1 = 5000064000 ∧
    ticksNanos Timer1_Config 3 = 15000192000 ∧
    ticksNanos Timer1_Config 12 = 60000768000 ∧
    ticksNanos Timer1_Config 3 - 15 * 1000000000 < 1000000 ∧
    ticksNanos Timer1_Config 12 - 60 * 1000000000 < 1000000 := by
  refine ⟨rfl, rfl, rfl, by decide, ?_, by decide, by decide, by decide, by decide, by decide,
    by decide⟩
  intro n
  have h : prescalerOf Timer1_Config.clock = 1024 := rfl
  unfold countsNanos
  rw [h]
  unfold F_CPU
  omega

/-! ## One round: what it consumes, and the command byte -/

theorem receivedBytes_append (l1 l2 : List Event) :
    receivedBytes (l1 ++ l2) = receivedBytes l1 ++ receivedBytes l2 := by
  induction l1 with
  | nil => rfl
  | cons e t ih => cases e <;> simp [receivedBytes, ih]

theorem receivedBytes_map_recv (l : List Nat) : receivedBytes (l.map Event.recv) = l := by
  induction l with
  | nil => rfl
  | cons b t ih => simp [receivedBytes, ih]

theorem receivedBytes_map_send (l : List Nat) : receivedBytes (l.map Event.send) = [] := by
  induction l with
  | nil => rfl
  | cons b t ih => simpa [receivedBytes] using ih

theorem EEPROM_readByte_rx (dev : TwiDevice) (a : Nat) (w : World) (r : List Nat) :
    (EEPROM_readByte dev a { w with rx := r }).2.1 = (EEPROM_readByte dev a w).2.1 ∧
    (EEPROM_readByte dev a { w with rx := r }).2.2 =
      { (EEPROM_readByte dev a w).2.2 with rx := r } := by
  obtain ⟨ops, h1⟩ := EEPROM_readByte_events dev a w
  obtain ⟨ops2, h2⟩ := EEPROM_readByte_events dev a { w with rx := r }
  obtain ⟨ho, hb⟩ := EEPROM_readByte_readTxn dev a w
  obtain ⟨ho2, hb2⟩ := EEPROM_readByte_readTxn dev a { w with rx := r }
  rw [h1] at hb
  rw [h2] at hb2
  have e : ops2 = ops := by
    have h3 : busOps (w.trace ++ Event.eepromRead a :: ops2.map Event.twi) =
        busOps (w.trace ++ Event.eepromRead a :: ops.map Event.twi) := hb2.trans hb.symm
    rw [busOps_eepromRead, busOps_eepromRead] at h3
    exact List.append_cancel_left h3
  refine ⟨ho2.trans ho.symm, ?_⟩
  rw [h2, h1, e]

theorem reloadPasswordLoop_rx (dev : TwiDevice) (is : List Nat) (w : World) (r : List Nat) :
    reloadPasswordLoop dev is { w with rx := r } =
      { reloadPasswordLoop dev is w with rx := r } := by
  induction is generalizing w with
  | nil => rfl
  | cons i t ih =>
    obtain ⟨h1, h2⟩ := EEPROM_readByte_rx dev ((eeprom_addr + i) % 65536) w r
    unfold reloadPasswordLoop
    simp only
    rw [h1, h2]
    cases (EEPROM_readByte dev ((eeprom_addr + i) % 65536) w).2.1 with
    | none => exact ih (EEPROM_readByte dev ((eeprom_addr + i) % 65536) w).2.2
    | some d =>
      exact ih { (EEPROM_readByte dev ((eeprom_addr + i) % 65536) w).2.2 with
        g_eeprom := (EEPROM_readByte dev ((eeprom_addr + i) % 65536) w).2.2.g_eeprom.set i d }

theorem comparePasswordLoop_rx (chk is : List Nat) (m : Nat) (w : World) (r : List Nat) :
    comparePasswordLoop chk is m { w with rx := r } =
      ((comparePasswordLoop chk is m w).1, { (comparePasswordLoop chk is m w).2 with rx := r }) := by
  induction is generalizing m w with
  | nil => rfl
  | cons i t ih =>
    unfold comparePasswordLoop
    exact ih _ { w with PORTA := SET_BIT w.PORTA (7 - i) }

/-- One round up to the command byte: the mismatch count and the state reached
are those of the reload and compare loops run without pending input; the
command byte and the input after it only enter as the byte returned, the
receive event appended and the input left pending. -/
theorem receiveAndCompare_key (dev : TwiDevice) (w : World) (junk E rest : List Nat) (key : Nat)
    (hj : HMI_ECU_READY ∉ junk) (hE : E.length = 5)
    (hrx : w.rx = roundInput junk E key ++ rest) :
    receiveAndCompare dev w = some ((reloadAndCompare dev w (junk ++ HMI_ECU_READY :: E) E).1, key,
      { (reloadAndCompare dev w (junk ++ HMI_ECU_READY :: E) E).2 with
        rx := rest,
        trace := (reloadAndCompare dev w (junk ++ HMI_ECU_READY :: E) E).2.trace ++
          [Event.recv key] }) := by
  obtain ⟨a, b, c, d, e, rfl⟩ := length_eq_five hE
  have hrx1 : w.rx = junk ++ HMI_ECU_READY :: ([a, b, c, d, e] ++ key :: rest) := by
    simp [hrx, roundInput]
  have h1 := awaitByte_spec HMI_ECU_READY junk ([a, b, c, d, e] ++ key :: rest) hj w hrx1
  have h2 := receivePasswordLoop_spec a b c d e (key :: rest) (List.replicate PASSWORD_SIZE 0)
    { w with rx := [a, b, c, d, e] ++ key :: rest,
             trace := w.trace ++ (junk ++ [HMI_ECU_READY]).map Event.recv } (by simp [PASSWORD_SIZE]) rfl
  have h3 := reloadPasswordLoop_rx dev (List.range PASSWORD_SIZE)
    { w with rx := [],
             trace := w.trace ++ (junk ++ HMI_ECU_READY :: [a, b, c, d, e]).map Event.recv }
    (key :: rest)
  have h4 := comparePasswordLoop_rx [a, b, c, d, e] (List.range PASSWORD_SIZE) 0
    (reloadPasswordLoop dev (List.range PASSWORD_SIZE)
      { w with rx := [],
               trace := w.trace ++ (junk ++ HMI_ECU_READY :: [a, b, c, d, e]).map Event.recv })
    (key :: rest)
  have e1 :
      ({ w with rx := key :: rest,
                trace := w.trace ++ (junk ++ [HMI_ECU_READY]).map Event.recv ++
                  [a, b, c, d, e].map Event.recv } : World) =
      { ({ w with rx := [], trace := w.trace ++ (junk ++ HMI_ECU_READY :: [a, b, c, d, e]).map Event.recv } : World) with
        rx := key :: rest } := by
    simp
  unfold receiveAndCompare
  rw [h1]
  simp only
  rw [h2]
  simp only
  rw [e1, h3, h4]
  simp [UART_receiveByte, reloadAndCompare]

theorem receivedBytes_map_twi (l : List BusOp) : receivedBytes (l.map Event.twi) = [] := by
  induction l with
  | nil => rfl
  | cons b t ih => simpa [receivedBytes] using ih

/-- The reload loop neither sends nor receives on the serial link and issues no
store write. -/
theorem reloadPasswordLoop_quiet (dev : TwiDevice) (is : List Nat) (w : World) :
    ∃ evs S, reloadPasswordLoop dev is w = { w with trace := w.trace ++ evs, g_eeprom := S } ∧
      S.length = w.g_eeprom.length ∧ sentBytes evs = [] ∧ storeWrites evs = [] ∧
      receivedBytes evs = [] := by
  induction is generalizing w with
  | nil => exact ⟨[], w.g_eeprom, by simp [reloadPasswordLoop], rfl, rfl, rfl, rfl⟩
  | cons i t ih =>
    obtain ⟨ops, h1⟩ := EEPROM_readByte_events dev ((eeprom_addr + i) % 65536) w
    have q1 : sentBytes (Event.eepromRead ((eeprom_addr + i) % 65536) :: ops.map Event.twi) = [] :=
      sentBytes_map_twi ops
    have q2 : storeWrites (Event.eepromRead ((eeprom_addr + i) % 65536) :: ops.map Event.twi) = [] :=
      storeWrites_map_twi ops
    have q3 : receivedBytes (Event.eepromRead ((eeprom_addr + i) % 65536) :: ops.map Event.twi)
        = [] := receivedBytes_map_twi ops
    unfold reloadPasswordLoop
    simp only
    rw [h1]
    cases (EEPROM_readByte dev ((eeprom_addr + i) % 65536) w).2.1 with
    | none =>
      obtain ⟨e2, S, h2, hl2, hs2, hw2, hr2⟩ := ih
        { w with trace := w.trace ++ Event.eepromRead ((eeprom_addr + i) % 65536) :: ops.map Event.twi }
      refine ⟨Event.eepromRead ((eeprom_addr + i) % 65536) :: ops.map Event.twi ++ e2, S, ?_, hl2,
        ?_, ?_, ?_⟩
      · simp only [h2]; simp
      · rw [sentBytes_append, q1, hs2]; rfl
      · rw [storeWrites_append, q2, hw2]; rfl
      · rw [receivedBytes_append, q3, hr2]; rfl
    | some d =>
      obtain ⟨e2, S, h2, hl2, hs2, hw2, hr2⟩ := ih
        { w with trace := w.trace ++ Event.eepromRead ((eeprom_addr + i) % 65536) :: ops.map Event.twi,
                 g_eeprom := w.g_eeprom.set i d }
      refine ⟨Event.eepromRead ((eeprom_addr + i) % 65536) :: ops.map Event.twi ++ e2, S, ?_,
        by simpa using hl2, ?_, ?_, ?_⟩
      · simp only [h2]; simp
      · rw [sentBytes_append, q1, hs2]; rfl
      · rw [storeWrites_append, q2, hw2]; rfl
      · rw [receivedBytes_append, q3, hr2]; rfl

/-- The state after the reload and compare loops: the entry received, then bus
events only. -/
theorem reloadAndCompare_frame (dev : TwiDevice) (w : World) (pre E : List Nat) :
    ∃ bus S pa, (reloadAndCompare dev w pre E).2 =
        { w with rx := [], trace := w.trace ++ (pre.map Event.recv ++ bus),
                 g_eeprom := S, PORTA := pa } ∧
      S.length = w.g_eeprom.length ∧ sentBytes bus = [] ∧ storeWrites bus = [] ∧
      receivedBytes bus = [] := by
  obtain ⟨bus, S, h1, hS, hs, hw, hr⟩ := reloadPasswordLoop_quiet dev (List.range PASSWORD_SIZE)
    { w with rx := [], trace := w.trace ++ pre.map Event.recv }
  obtain ⟨pa, h2⟩ := comparePasswordLoop_snd E (List.range PASSWORD_SIZE) 0
    (reloadPasswordLoop dev (List.range PASSWORD_SIZE)
      { w with rx := [], trace := w.trace ++ pre.map Event.recv })
  refine ⟨bus, S, pa, ?_, hS, hs, hw, hr⟩
  unfold reloadAndCompare
  rw [h2, h1]
  simp

/-- A failing verdict does not depend on the command byte, and changes the state
it starts from in the same way whatever events the trace holds. -/
theorem verdict_fail_key (m k1 k2 : Nat) (A : World) (t : List Event) (hm : m ≠ 0) :
    verdict m k2 { A with trace := t } =
      { verdict m k1 A with trace := (verdict m k2 { A with trace := t }).trace } := by
  by_cases h4 : (A.trial + 1) % 256 = 4
  · have e1 := verdict_thief m k2 { A with trace := t } hm h4
    have e2 := verdict_thief m k1 A hm h4
    rw [e1, e2]
    simp [TIMER1_init, Timer1_Config, CTC, OVF, buzzerON, UART_sendByte]
  · have e1 := verdict_wrong m k2 { A with trace := t } hm h4
    have e2 := verdict_wrong m k1 A hm h4
    rw [e1, e2]

/-- Claim C27. A round of `Control_receiveAndCheckPassword` whose pending input
is bytes other than the ready signal, the ready signal, five entry bytes, a
command byte `k1` and then `rest` returns with `rest` pending, whatever the
verdict; up to the receipt of the command byte it receives exactly those bytes
and sends nothing, and its replies follow the receipt of the command byte.
The same round on the input with another command byte `k2` returns as well,
and when the verification fails the two rounds send the same replies and end
in states that differ in nothing but the command byte recorded in the trace:
same outputs, same next function, same counters, same bus operations. -/
theorem C27_round_input_and_command (dev : TwiDevice) (w : World) (junk E rest : List Nat)
    (k1 k2 : Nat) (hj : HMI_ECU_READY ∉ junk) (hE : E.length = 5)
    (hlen : w.g_eeprom.length = 5) (hrx : w.rx = roundInput junk E k1 ++ rest) :
    ∃ a b, Control_receiveAndCheckPassword dev w = some a ∧
      Control_receiveAndCheckPassword dev { w with rx := roundInput junk E k2 ++ rest } = some b ∧
      a.rx = rest ∧ b.rx = rest ∧
      (∃ pre replies, a.trace = w.trace ++ (pre ++ Event.recv k1 :: replies.map Event.send) ∧
        sentBytes pre = [] ∧ receivedBytes pre = junk ++ HMI_ECU_READY :: E ∧ replies ≠ []) ∧
      (E ≠ a.g_eeprom →
        newSent { w with rx := roundInput junk E k2 ++ rest } b = newSent w a ∧
        b = { a with trace := b.trace } ∧
        busOps b.trace = busOps a.trace ∧ sentBytes b.trace = sentBytes a.trace) := by
  have ha := receiveAndCompare_key dev w junk E rest k1 hj hE hrx
  have hb := receiveAndCompare_key dev { w with rx := roundInput junk E k2 ++ rest } junk E rest k2
    hj hE rfl
  have hR : reloadAndCompare dev { w with rx := roundInput junk E k2 ++ rest }
      (junk ++ HMI_ECU_READY :: E) E = reloadAndCompare dev w (junk ++ HMI_ECU_READY :: E) E := rfl
  rw [hR] at hb
  obtain ⟨bus0, S0, pa0, hspec, hS0, _, _⟩ := receiveAndCompare_spec dev w junk E rest k1 hj hE hlen hrx
  obtain ⟨bus, S, pa, hfr, hS, hs, hw, hr⟩ :=
    reloadAndCompare_frame dev w (junk ++ HMI_ECU_READY :: E) E
  rw [ha] at hspec
  have hm : (reloadAndCompare dev w (junk ++ HMI_ECU_READY :: E) E).1 = mismatchCount E S0 :=
    (Prod.mk.inj (Option.some.inj hspec)).1
  have hg : (reloadAndCompare dev w (junk ++ HMI_ECU_READY :: E) E).2.g_eeprom = S0 :=
    congrArg World.g_eeprom (Prod.mk.inj (Prod.mk.inj (Option.some.inj hspec)).2).2
  generalize reloadAndCompare dev w (junk ++ HMI_ECU_READY :: E) E = R at ha hb hfr hm hg
  obtain ⟨m, X⟩ := R
  simp only at ha hb hfr hm hg
  subst hfr
  simp only at hg
  subst hg
  have hA : Control_receiveAndCheckPassword dev w = some (verdict m k1
      { w with rx := rest,
               trace := w.trace ++ ((junk ++ HMI_ECU_READY :: E).map Event.recv ++ bus) ++
                 [Event.recv k1],
               g_eeprom := S, PORTA := pa }) := by
    simp [Control_receiveAndCheckPassword, ha]
  have hB : Control_receiveAndCheckPassword dev { w with rx := roundInput junk E k2 ++ rest } =
      some (verdict m k2
        { w with rx := rest,
                 trace := w.trace ++ ((junk ++ HMI_ECU_READY :: E).map Event.recv ++ bus) ++
                   [Event.recv k2],
                 g_eeprom := S, PORTA := pa }) := by
    simp [Control_receiveAndCheckPassword, hb]
  refine ⟨_, _, hA, hB, ?_, ?_, ?_, ?_⟩
  · rw [verdict_rx]
  · rw [verdict_rx]
  · refine ⟨(junk ++ HMI_ECU_READY :: E).map Event.recv ++ bus,
      (if m = 0 then (if k1 = OPEN_DOOR then [CORRECT_PASSWORD, DOOR_UNLOCKING]
                      else [CORRECT_PASSWORD])
       else if (w.trial + 1) % 256 = 4 then [THIEF] else [WRONG_PASSWORD]), ?_, ?_, ?_, ?_⟩
    · rw [verdict_trace]
      simp only [List.append_assoc]
      split_ifs <;> simp
    · rw [sentBytes_append, sentBytes_map_recv, hs]; rfl
    · rw [receivedBytes_append, receivedBytes_map_recv, hr]; simp
    · split_ifs <;> simp
  · intro hne
    rw [verdict_g_eeprom] at hne
    have hm0 : m ≠ 0 := by
      rw [hm]
      intro h0
      exact hne ((mismatchCount_eq_zero_iff E S hE (hS.trans hlen)).mp h0)
    have hk := verdict_fail_key m k1 k2
      { w with rx := rest,
               trace := w.trace ++ ((junk ++ HMI_ECU_READY :: E).map Event.recv ++ bus) ++
                 [Event.recv k1],
               g_eeprom := S, PORTA := pa }
      (w.trace ++ ((junk ++ HMI_ECU_READY :: E).map Event.recv ++ bus) ++ [Event.recv k2]) hm0
    refine ⟨?_, hk, ?_, ?_⟩
    · rw [newSent_verdict _ _ (((junk ++ HMI_ECU_READY :: E).map Event.recv ++ bus) ++
          [Event.recv k2]) m k2 (by simp) (by
            rw [sentBytes_append, sentBytes_append, sentBytes_map_recv, hs]; rfl),
        newSent_verdict w _ (((junk ++ HMI_ECU_READY :: E).map Event.recv ++ bus) ++
          [Event.recv k1]) m k1 (by simp) (by
            rw [sentBytes_append, sentBytes_append, sentBytes_map_recv, hs]; rfl)]
      simp only [if_neg hm0]
    · rw [verdict_trace, verdict_trace]
      simp only [if_neg hm0, busOps_append, busOps_map_recv, busOps]
    · rw [verdict_trace, verdict_trace]
      simp only [if_neg hm0, sentBytes_append, sentBytes_map_recv, sentBytes]

/-- Witness of C27: the wrong entry `1 2 3 4 6` from power-up against stored
`1 2 3 4 5`, once with command `OPEN_DOOR` and once with `CHANGE_PASSWORD`. -/
theorem C27_round_input_and_command_witness :
    HMI_ECU_READY ∉ ([] : List Nat) ∧ [1, 2, 3, 4, 6].length = 5 ∧
    (awaitCommand wrongEntry).g_eeprom.length = 5 ∧
    (awaitCommand wrongEntry).rx = roundInput [] [1, 2, 3, 4, 6] OPEN_DOOR ++ [] ∧
    ∃ a b, Control_receiveAndCheckPassword (readOnlyStore [1, 2, 3, 4, 5])
        (awaitCommand wrongEntry) = some a ∧
      Control_receiveAndCheckPassword (readOnlyStore [1, 2, 3, 4, 5])
        { awaitCommand wrongEntry with rx := roundInput [] [1, 2, 3, 4, 6] CHANGE_PASSWORD ++ [] } =
          some b ∧
      a.rx = [] ∧ b.rx = [] ∧ [1, 2, 3, 4, 6] ≠ a.g_eeprom ∧
      newSent { awaitCommand wrongEntry with
          rx := roundInput [] [1, 2, 3, 4, 6] CHANGE_PASSWORD ++ [] } b =
        newSent (awaitCommand wrongEntry) a ∧
      b = { a with trace := b.trace } := by
  obtain ⟨a, b, ha, hb, hra, hrb, _, himp⟩ :=
    C27_round_input_and_command (readOnlyStore [1, 2, 3, 4, 5]) (awaitCommand wrongEntry)
      [] [1, 2, 3, 4, 6] [] OPEN_DOOR CHANGE_PASSWORD (by decide) rfl rfl rfl
  have hg : a.g_eeprom = [1, 2, 3, 4, 5] := by
    have e : (Control_receiveAndCheckPassword (readOnlyStore [1, 2, 3, 4, 5])
        (awaitCommand wrongEntry)).map World.g_eeprom = some [1, 2, 3, 4, 5] := rfl
    rw [ha] at e
    exact Option.some.inj e
  have hne : [1, 2, 3, 4, 6] ≠ a.g_eeprom := by rw [hg]; decide
  obtain ⟨h1, h2, _, _⟩ := himp hne
  exact ⟨by decide, rfl, rfl, rfl, a, b, ha, hb, hra, hrb, hne, h1, h2⟩

/-! ## The callback with the failure flag clear -/

theorem fire_PORTB_clear (v : World) (hs : v.g_state = 0) :
    (fireBuzzerOrOpenDoor v).PORTB =
      (if (v.count + 1) % 256 = 3 then (motorRotateAntiClockwise v).PORTB
       else if (v.count + 1) % 256 = 6 then (motorStop v).PORTB
       else v.PORTB) := by
  unfold fireBuzzerOrOpenDoor
  by_cases h3 : (v.count + 1) % 256 = 3
  · simp [h3, hs, UART_sendByte, motorRotateAntiClockwise]
  · by_cases h6 : (v.count + 1) % 256 = 6
    · simp [h6, hs, UART_sendByte, motorStop, TIMER1_DeInit]
    · simp [h3, h6, hs]

/-- With the failure flag clear, one call of the callback keeps the flag clear,
leaves the alarm output as it is and does not send `SYSTEM_UNLOCKED`. -/
theorem fire_clear (v : World) (hs : v.g_state = 0) :
    (fireBuzzerOrOpenDoor v).g_state = 0 ∧
    (fireBuzzerOrOpenDoor v).PORTB.testBit BUZZER = v.PORTB.testBit BUZZER ∧
    ∃ evs, (fireBuzzerOrOpenDoor v).trace = v.trace ++ evs ∧ SYSTEM_UNLOCKED ∉ sentBytes evs := by
  refine ⟨(fire_frame v).2.1.trans hs, ?_, _, fire_trace v, ?_⟩
  · rw [fire_PORTB_clear v hs]
    split_ifs
    · exact buzzer_motorRotateAntiClockwise v
    · exact buzzer_motorStop v
    · rfl
  · have h12 : ¬ ((v.count + 1) % 256 = 12 ∧ v.g_state = 1) := by rw [hs]; simp
    rw [if_neg h12]
    split_ifs <;> simp [sentBytes, SYSTEM_UNLOCKED, DOOR_LOCKING, DOOR_LOCKED]

theorem ticks_clear (n : Nat) (v : World) (hs : v.g_state = 0) :
    (ticks n v).g_state = 0 ∧
    (ticks n v).PORTB.testBit BUZZER = v.PORTB.testBit BUZZER ∧
    ∃ evs, (ticks n v).trace = v.trace ++ evs ∧ SYSTEM_UNLOCKED ∉ sentBytes evs := by
  induction n with
  | zero => exact ⟨hs, rfl, [], by simp [ticks], by simp [sentBytes]⟩
  | succ k ih =>
    obtain ⟨h1, h2, evs, h3, h4⟩ := ih
    obtain ⟨g1, g2, evs2, g3, g4⟩ := fire_clear (ticks k v) h1
    refine ⟨g1, g2.trans h2, evs ++ evs2, ?_, ?_⟩
    · show (fireBuzzerOrOpenDoor (ticks k v)).trace = _
      rw [g3, h3, List.append_assoc]
    · rw [sentBytes_append, List.mem_append]
      rintro (h | h)
      · exact h4 h
      · exact g4 h

/-- Claim C28. In a lockout timeline in progress (failure flag set, alarm on), at
any tick count, a round of `Control_receiveAndCheckPassword` with the stored
credential and `OPEN_DOOR` replies `CORRECT_PASSWORD` and `DOOR_UNLOCKING`,
drives the motor forward, restarts the scheduler and clears the failure flag,
with the alarm output still on and the tick count kept; and from any state
with the failure flag clear, no number of calls of `fireBuzzerOrOpenDoor` sets
the flag, changes the alarm output or sends `SYSTEM_UNLOCKED`. -/
theorem C28_lockout_not_enforced (dev : TwiDevice) (w : World) (junk E rest : List Nat)
    (hj : HMI_ECU_READY ∉ junk) (hE : E.length = 5) (hlen : w.g_eeprom.length = 5)
    (hrx : w.rx = roundInput junk E OPEN_DOOR ++ rest)
    (hs : w.g_state = 1) (hb : buzzerOn w.PORTB) :
    ∃ w2, Control_receiveAndCheckPassword dev w = some w2 ∧
      (E = w2.g_eeprom →
        newSent w w2 = [CORRECT_PASSWORD, DOOR_UNLOCKING] ∧ motorForward w2.PORTB ∧
        schedulerStarted w2 ∧ w2.g_state = 0 ∧ w2.g_state ≠ w.g_state ∧ buzzerOn w2.PORTB ∧
        w2.count = w.count ∧
        ∀ n, (ticks n w2).g_state = 0 ∧ buzzerOn (ticks n w2).PORTB ∧
          SYSTEM_UNLOCKED ∉ newSent w2 (ticks n w2)) ∧
      (∀ v : World, v.g_state = 0 → ∀ n, (ticks n v).g_state = 0 ∧
        (ticks n v).PORTB.testBit BUZZER = v.PORTB.testBit BUZZER ∧
        SYSTEM_UNLOCKED ∉ newSent v (ticks n v)) := by
  obtain ⟨w2, h, _, _, hcnt, _, hok⟩ := round_summary dev w junk E rest OPEN_DOOR hj hE hlen hrx
  have hgen : ∀ v : World, v.g_state = 0 → ∀ n, (ticks n v).g_state = 0 ∧
      (ticks n v).PORTB.testBit BUZZER = v.PORTB.testBit BUZZER ∧
      SYSTEM_UNLOCKED ∉ newSent v (ticks n v) := by
    intro v hv n
    obtain ⟨h1, h2, evs, h3, h4⟩ := ticks_clear n v hv
    exact ⟨h1, h2, by rw [newSent_of_trace v _ evs h3]; exact h4⟩
  refine ⟨w2, h, fun heq => ?_, hgen⟩
  obtain ⟨_, hst, ho, _, _⟩ := hok heq
  obtain ⟨hn, hm, hsch, _, hbz⟩ := ho rfl
  have hb2 : buzzerOn w2.PORTB := by
    unfold buzzerOn at hb ⊢
    rw [hbz]; exact hb
  refine ⟨hn, hm, hsch, hst, by rw [hst, hs]; decide, hb2, hcnt, fun n => ?_⟩
  obtain ⟨h1, h2, h3⟩ := hgen w2 hst n
  refine ⟨h1, ?_, h3⟩
  unfold buzzerOn at hb2 ⊢
  rw [h2]; exact hb2

/-- Witness of C28: four ticks into the lockout that follows three wrong entries,
the right entry `1 2 3 4 5` arrives with command `OPEN_DOOR`. -/
theorem C28_lockout_not_enforced_witness :
    HMI_ECU_READY ∉ ([] : List Nat) ∧ [1, 2, 3, 4, 5].length = 5 ∧
    ({ ticks 4 afterThief with rx := rightEntry } : World).g_eeprom.length = 5 ∧
    ({ ticks 4 afterThief with rx := rightEntry } : World).rx =
      roundInput [] [1, 2, 3, 4, 5] OPEN_DOOR ++ [] ∧
    ({ ticks 4 afterThief with rx := rightEntry } : World).g_state = 1 ∧
    ({ ticks 4 afterThief with rx := rightEntry } : World).count = 4 ∧
    buzzerOn ({ ticks 4 afterThief with rx := rightEntry } : World).PORTB ∧
    ∃ w2, Control_receiveAndCheckPassword (readOnlyStore [1, 2, 3, 4, 5])
        { ticks 4 afterThief with rx := rightEntry } = some w2 ∧
      [1, 2, 3, 4, 5] = w2.g_eeprom ∧
      newSent { ticks 4 afterThief with rx := rightEntry } w2 =
        [CORRECT_PASSWORD, DOOR_UNLOCKING] ∧
      motorForward w2.PORTB ∧ w2.g_state = 0 ∧ buzzerOn w2.PORTB ∧
      buzzerOn (ticks 12 w2).PORTB ∧ SYSTEM_UNLOCKED ∉ newSent w2 (ticks 12 w2) := by
  have hb : buzzerOn ({ ticks 4 afterThief with rx := rightEntry } : World).PORTB := by
    unfold buzzerOn; decide
  obtain ⟨w2, hc, himp, _⟩ :=
    C28_lockout_not_enforced (readOnlyStore [1, 2, 3, 4, 5])
      { ticks 4 afterThief with rx := rightEntry } [] [1, 2, 3, 4, 5] [] (by decide) rfl rfl rfl
      rfl hb
  have hg : w2.g_eeprom = [1, 2, 3, 4, 5] := by
    have e : (Control_receiveAndCheckPassword (readOnlyStore [1, 2, 3, 4, 5])
        { ticks 4 afterThief with rx := rightEntry }).map World.g_eeprom =
          some [1, 2, 3, 4, 5] := rfl
    rw [hc] at e
    exact Option.some.inj e
  obtain ⟨h1, h2, _, h4, _, h6, _, h8⟩ := himp hg.symm
  exact ⟨by decide, rfl, rfl, rfl, rfl, rfl, hb, w2, hc, hg.symm, h1, h2, h4, h6, (h8 12).2.1,
    (h8 12).2.2⟩

/-! ## The trial counter over a run of failed verifications -/

/-- After `n` failed rounds the trial counter has advanced by `n` modulo 256,
and the staging buffer still has five bytes. -/
theorem FailedRounds_trial {dev : TwiDevice} {w w1 : World} {n : Nat}
    (h : FailedRounds dev w n w1) (hlen : w.g_eeprom.length = 5) (ht : w.trial < 256) :
    w1.trial = (w.trial + n) % 256 ∧ w1.g_eeprom.length = 5 := by
  induction h with
  | start => exact ⟨(Nat.mod_eq_of_lt ht).symm, hlen⟩
  | arrive w1 n bs _ ih => exact ih
  | tick w1 n _ ih =>
    exact ⟨(fire_trial w1).trans ih.1, by rw [(fire_frame w1).1]; exact ih.2⟩
  | round w1 w2 n junk E rest key _ hj hE hrx hsome hne ih =>
    obtain ⟨w3, h3, hl3, _, _, hfail, _⟩ := round_summary dev w1 junk E rest key hj hE ih.2 hrx
    rw [hsome] at h3
    obtain rfl := Option.some.inj h3
    refine ⟨?_, hl3⟩
    rw [(hfail hne).1, ih.1]
    omega

/-- A round that replies `THIEF` leaves the trial counter at 4. -/
theorem round_thief_trial (dev : TwiDevice) (w w0 : World) (junk E rest : List Nat) (key : Nat)
    (hj : HMI_ECU_READY ∉ junk) (hE : E.length = 5) (hlen : w.g_eeprom.length = 5)
    (hrx : w.rx = roundInput junk E key ++ rest)
    (h0 : Control_receiveAndCheckPassword dev w = some w0) (ht : newSent w w0 = [THIEF]) :
    w0.trial = 4 ∧ w0.g_eeprom.length = 5 := by
  obtain ⟨w3, h3, hl3, _, _, hfail, hok⟩ := round_summary dev w junk E rest key hj hE hlen hrx
  rw [h0] at h3
  obtain rfl := Option.some.inj h3
  refine ⟨?_, hl3⟩
  by_cases he : E = w0.g_eeprom
  · exfalso
    obtain ⟨_, _, ho, hc, hn⟩ := hok he
    by_cases hk : key = OPEN_DOOR
    · rw [(ho hk).1] at ht; exact absurd ht (by decide)
    · by_cases hk2 : key = CHANGE_PASSWORD
      · rw [(hc hk2).1] at ht; exact absurd ht (by decide)
      · rw [(hn hk hk2).1] at ht; exact absurd ht (by decide)
  · obtain ⟨htr, _, _, hw, _⟩ := hfail he
    by_cases h4 : (w.trial + 1) % 256 = 4
    · rw [htr, h4]
    · rw [(hw h4).1] at ht; exact absurd ht (by decide)

/-- Claim C29. The trial counter is an 8-bit value compared with 4 for equality
only: a round that replies `THIEF` leaves it at 4; after `n` further failed
rounds (with serial input arriving and callback ticks in between, and no
successful round) the next failed round leaves it at `(4 + n + 1) mod 256` and
replies `THIEF` exactly when `n + 1` is a multiple of 256, `WRONG_PASSWORD`
otherwise, so the failed rounds 1 to 255 reply `WRONG_PASSWORD` and round 256
replies `THIEF` again; a successful round sets the counter to 1. -/
theorem C29_trial_counter_wraps (dev : TwiDevice) (w w0 w1 : World) (n : Nat)
    (junk0 E0 rest0 : List Nat) (key0 : Nat)
    (hj0 : HMI_ECU_READY ∉ junk0) (hE0 : E0.length = 5) (hlen : w.g_eeprom.length = 5)
    (hrx0 : w.rx = roundInput junk0 E0 key0 ++ rest0)
    (h0 : Control_receiveAndCheckPassword dev w = some w0) (hthief : newSent w w0 = [THIEF])
    (hrun : FailedRounds dev w0 n w1)
    (junk E rest : List Nat) (key : Nat)
    (hj : HMI_ECU_READY ∉ junk) (hE : E.length = 5)
    (hrx : w1.rx = roundInput junk E key ++ rest) :
    w0.trial = 4 ∧ w1.trial = (4 + n) % 256 ∧
    ∃ w2, Control_receiveAndCheckPassword dev w1 = some w2 ∧
      (E ≠ w2.g_eeprom →
        w2.trial = (4 + n + 1) % 256 ∧
        newSent w1 w2 = (if (n + 1) % 256 = 0 then [THIEF] else [WRONG_PASSWORD]) ∧
        (n + 1 < 256 → newSent w1 w2 = [WRONG_PASSWORD]) ∧
        (n + 1 = 256 → newSent w1 w2 = [THIEF])) ∧
      (E = w2.g_eeprom → w2.trial = 1) := by
  obtain ⟨ht0, hl0⟩ := round_thief_trial dev w w0 junk0 E0 rest0 key0 hj0 hE0 hlen hrx0 h0 hthief
  obtain ⟨ht1, hl1⟩ := FailedRounds_trial hrun hl0 (by omega)
  rw [ht0] at ht1
  obtain ⟨w2, h2, _, _, _, hfail, hok⟩ := round_summary dev w1 junk E rest key hj hE hl1 hrx
  refine ⟨ht0, ht1, w2, h2, fun hne => ?_, fun he => (hok he).1⟩
  obtain ⟨htr, _, _, hw, hth⟩ := hfail hne
  have hsent : newSent w1 w2 = (if (n + 1) % 256 = 0 then [THIEF] else [WRONG_PASSWORD]) := by
    by_cases hz : (n + 1) % 256 = 0
    · rw [if_pos hz]
      exact (hth (by rw [ht1]; omega)).1
    · rw [if_neg hz]
      exact (hw (by rw [ht1]; omega)).1
  refine ⟨by rw [htr, ht1]; omega, hsent, fun hlt => ?_, fun heq => ?_⟩
  · rw [hsent, if_neg (by omega)]
  · rw [hsent, if_pos (by omega)]

/-- Witness of C29: against stored `1 2 3 4 5`, the third wrong entry replies
`THIEF`; one tick later the fourth wrong entry replies `WRONG_PASSWORD` and
leaves the counter at 5. -/
theorem C29_trial_counter_wraps_witness :
    HMI_ECU_READY ∉ ([] : List Nat) ∧ [1, 2, 3, 4, 6].length = 5 ∧
    ((rounds (readOnlyStore [1, 2, 3, 4, 5]) 2 sixWrongEntries).getD (awaitCommand [])).rx =
      roundInput [] [1, 2, 3, 4, 6] OPEN_DOOR ++ (wrongEntry ++ wrongEntry ++ wrongEntry) ∧
    Control_receiveAndCheckPassword (readOnlyStore [1, 2, 3, 4, 5])
      ((rounds (readOnlyStore [1, 2, 3, 4, 5]) 2 sixWrongEntries).getD (awaitCommand [])) =
        some afterThief ∧
    newSent ((rounds (readOnlyStore [1, 2, 3, 4, 5]) 2 sixWrongEntries).getD (awaitCommand []))
      afterThief = [THIEF] ∧
    FailedRounds (readOnlyStore [1, 2, 3, 4, 5]) afterThief 0 (fireBuzzerOrOpenDoor afterThief) ∧
    (fireBuzzerOrOpenDoor afterThief).rx =
      roundInput [] [1, 2, 3, 4, 6] OPEN_DOOR ++ (wrongEntry ++ wrongEntry) ∧
    afterThief.trial = 4 ∧
    ∃ w2, Control_receiveAndCheckPassword (readOnlyStore [1, 2, 3, 4, 5])
        (fireBuzzerOrOpenDoor afterThief) = some w2 ∧
      [1, 2, 3, 4, 6] ≠ w2.g_eeprom ∧ w2.trial = 5 ∧
      newSent (fireBuzzerOrOpenDoor afterThief) w2 = [WRONG_PASSWORD] := by
  have hrun : FailedRounds (readOnlyStore [1, 2, 3, 4, 5]) afterThief 0
      (fireBuzzerOrOpenDoor afterThief) :=
    FailedRounds.tick _ _ _ (FailedRounds.start afterThief)
  obtain ⟨h4, _, w2, hc, hfail, _⟩ :=
    C29_trial_counter_wraps (readOnlyStore [1, 2, 3, 4, 5])
      ((rounds (readOnlyStore [1, 2, 3, 4, 5]) 2 sixWrongEntries).getD (awaitCommand []))
      afterThief (fireBuzzerOrOpenDoor afterThief) 0
      [] [1, 2, 3, 4, 6] (wrongEntry ++ wrongEntry ++ wrongEntry) OPEN_DOOR
      (by decide) rfl rfl rfl rfl rfl hrun
      [] [1, 2, 3, 4, 6] (wrongEntry ++ wrongEntry) OPEN_DOOR (by decide) rfl rfl
  have hg : w2.g_eeprom = [1, 2, 3, 4, 5] := by
    have e : (Control_receiveAndCheckPassword (readOnlyStore [1, 2, 3, 4, 5])
        (fireBuzzerOrOpenDoor afterThief)).map World.g_eeprom = some [1, 2, 3, 4, 5] := rfl
    rw [hc] at e
    exact Option.some.inj e
  have hne : [1, 2, 3, 4, 6] ≠ w2.g_eeprom := by rw [hg]; decide
  obtain ⟨t, _, hs, _⟩ := hfail hne
  exact ⟨by decide, rfl, rfl, rfl, rfl, hrun, rfl, h4, w2, hc, hne, t, hs (by decide)⟩

/-! ## Bus addressing -/

/-- The device-select byte and the low address byte of two storage addresses agree
exactly when the addresses agree in their low 11 bits. -/
theorem busAddress_eq_iff (a b : Nat) :
    (SLAVE_ADDRESS_W a = SLAVE_ADDRESS_W b ∧ a % 256 = b % 256) ↔ a % 2048 = b % 2048 := by
  rw [SLAVE_ADDRESS_W_eq, SLAVE_ADDRESS_W_eq]; omega

/-- Claim C30. The bus addressing uses exactly the low 11 bits of a storage
address: the pair (device-select byte, low address byte) is the same for two
addresses exactly when they agree modulo 0x0800, so the map is injective below
0x0800 and gives the same pair for `a` and `a + 0x0800`.  The credential cells
0x0300..0x0304 map to select 0xA6 with low bytes 0..4, the flag address 0x05FF
to select 0xAA with low byte 0xFF, and on a byte store a completed write to
the flag address leaves every credential cell as it was. -/
theorem C30_bus_address_low_eleven_bits :
    (∀ a b : Nat, (SLAVE_ADDRESS_W a = SLAVE_ADDRESS_W b ∧ a % 256 = b % 256) ↔
      a % 2048 = b % 2048) ∧
    (∀ a b : Nat, a < 0x0800 → b < 0x0800 → SLAVE_ADDRESS_W a = SLAVE_ADDRESS_W b →
      a % 256 = b % 256 → a = b) ∧
    (∀ a : Nat, SLAVE_ADDRESS_W (a + 0x0800) = SLAVE_ADDRESS_W a ∧
      (a + 0x0800) % 256 = a % 256) ∧
    credentialAddrs.map (fun a => (SLAVE_ADDRESS_W a, a % 256)) =
      [(0xA6, 0x00), (0xA6, 0x01), (0xA6, 0x02), (0xA6, 0x03), (0xA6, 0x04)] ∧
    (SLAVE_ADDRESS_W eeprom_flag, eeprom_flag % 256) = (0xAA, 0xFF) ∧
    (∀ (dev : TwiDevice) (cellsOf : List BusOp → Nat → Nat), ByteStore dev cellsOf →
      ∀ (h : List BusOp) (d a : Nat), a ∈ credentialAddrs →
        cellsOf (h ++ busOps (writeDone eeprom_flag d)) (a % 2048) = cellsOf h (a % 2048)) := by
  refine ⟨busAddress_eq_iff, ?_, ?_, by decide, by decide, ?_⟩
  · intro a b ha hb h1 h2
    have := (busAddress_eq_iff a b).mp ⟨h1, h2⟩
    omega
  · intro a
    exact (busAddress_eq_iff (a + 0x0800) a).mpr (by omega)
  · intro dev cellsOf hB h d a ha
    have e : busOps (writeDone eeprom_flag d) = writePhases eeprom_flag d ++ [BusOp.stop] :=
      busOps_eepromWrite [] _ _ _
    rw [e, (hB h).2.1 eeprom_flag d]
    have hne : a % 2048 ≠ eeprom_flag % 2048 := by
      revert a; decide
    simp only [if_neg hne]

theorem C30_bus_address_low_eleven_bits_witness :
    (SLAVE_ADDRESS_W 0x0B00 = SLAVE_ADDRESS_W 0x0300 ∧ 0x0B00 % 256 = 0x0300 % 256) ∧
    (0x0301 : Nat) = 0x0301 ∧
    cells noCredential ([] ++ busOps (writeDone eeprom_flag SAVED_PASSWORD)) (0x0302 % 2048) =
      cells noCredential [] (0x0302 % 2048) :=
  ⟨(C30_bus_address_low_eleven_bits.1 0x0B00 0x0300).mpr (by decide),
    C30_bus_address_low_eleven_bits.2.1 0x0301 0x0301 (by decide) (by decide) rfl rfl,
    C30_bus_address_low_eleven_bits.2.2.2.2.2 (idealStore noCredential) (cells noCredential)
      (ByteStore_idealStore noCredential) [] SAVED_PASSWORD 0x0302 (by decide)⟩

/-! ## Where the store is written -/

theorem storeWrites_UART_receiveByte (w w1 : World) (b : Nat)
    (h : UART_receiveByte w = some (b, w1)) : storeWrites w1.trace = storeWrites w.trace := by
  unfold UART_receiveByte at h
  cases hrx : w.rx with
  | nil => rw [hrx] at h; simp at h
  | cons x rest =>
    rw [hrx] at h
    simp only [Option.some.injEq, Prod.mk.injEq] at h
    obtain ⟨_, rfl⟩ := h
    simp [storeWrites_append, storeWrites]

theorem storeWrites_awaitLoop (x : Nat) (l : List Nat) (w w1 : World)
    (h : awaitLoop x l w = some w1) : storeWrites w1.trace = storeWrites w.trace := by
  induction l generalizing w with
  | nil => simp [awaitLoop] at h
  | cons b t ih =>
    unfold awaitLoop at h
    simp only at h
    split_ifs at h with hb
    · rw [ih _ h]; simp [storeWrites_append, storeWrites]
    · simp only [Option.some.injEq] at h
      subst h
      simp [storeWrites_append, storeWrites]

theorem storeWrites_setNewPasswordLoop (is : List Nat) (w w1 : World)
    (h : setNewPasswordLoop is w = some w1) : storeWrites w1.trace = storeWrites w.trace := by
  induction is generalizing w with
  | nil => simp only [setNewPasswordLoop, Option.some.injEq] at h; subst h; rfl
  | cons i t ih =>
    unfold setNewPasswordLoop at h
    cases hr : UART_receiveByte w with
    | none => rw [hr] at h; simp at h
    | some p =>
      obtain ⟨b, w0⟩ := p
      rw [hr] at h
      exact (ih { w0 with g_eeprom := w0.g_eeprom.set i b } h).trans
        (storeWrites_UART_receiveByte w w0 b hr)

theorem storeWrites_receivePasswordLoop (is chk chk1 : List Nat) (w w1 : World)
    (h : receivePasswordLoop is chk w = some (chk1, w1)) :
    storeWrites w1.trace = storeWrites w.trace := by
  induction is generalizing w chk with
  | nil =>
    simp only [receivePasswordLoop, Option.some.injEq, Prod.mk.injEq] at h
    obtain ⟨_, rfl⟩ := h; rfl
  | cons i t ih =>
    unfold receivePasswordLoop at h
    cases hr : UART_receiveByte w with
    | none => rw [hr] at h; simp at h
    | some p =>
      obtain ⟨b, w0⟩ := p
      rw [hr] at h
      exact (ih _ _ h).trans (storeWrites_UART_receiveByte w w0 b hr)

theorem storeWrites_EEPROM_readByte (dev : TwiDevice) (a : Nat) (w : World) :
    storeWrites (EEPROM_readByte dev a w).2.2.trace = storeWrites w.trace := by
  obtain ⟨evs, h, _, hw⟩ := EEPROM_readByte_frame dev a w
  rw [h]; simp [storeWrites_append, hw]

theorem storeWrites_reloadPasswordLoop (dev : TwiDevice) (is : List Nat) (w : World) :
    storeWrites (reloadPasswordLoop dev is w).trace = storeWrites w.trace := by
  obtain ⟨evs, S, h, _, _, hw⟩ := reloadPasswordLoop_frame dev is w
  rw [h]; simp [storeWrites_append, hw]

theorem storeWrites_comparePasswordLoop (chk is : List Nat) (m : Nat) (w : World) :
    storeWrites (comparePasswordLoop chk is m w).2.trace = storeWrites w.trace := by
  obtain ⟨pa, h⟩ := comparePasswordLoop_snd chk is m w
  rw [h]

theorem storeWrites_verdict (m key : Nat) (w : World) :
    storeWrites (verdict m key w).trace = storeWrites w.trace := by
  rw [verdict_trace, storeWrites_append]
  split_ifs <;> simp [storeWrites]

theorem storeWrites_fireBuzzerOrOpenDoor (w : World) :
    storeWrites (fireBuzzerOrOpenDoor w).trace = storeWrites w.trace := by
  rw [fire_trace, storeWrites_append]
  split_ifs <;> simp [storeWrites]

theorem storeWrites_Control_setNewPassword (w w2 : World)
    (h : Control_setNewPassword w = some w2) : storeWrites w2.trace = storeWrites w.trace := by
  unfold Control_setNewPassword at h
  cases h1 : awaitByte HMI_ECU_READY w with
  | none => rw [h1] at h; simp at h
  | some w1 =>
    rw [h1] at h
    simp only at h
    cases h2 : setNewPasswordLoop (List.range PASSWORD_SIZE) w1 with
    | none => rw [h2] at h; simp at h
    | some w3 =>
      rw [h2] at h
      simp only [Option.some.injEq] at h
      subst h
      exact (storeWrites_setNewPasswordLoop _ _ _ h2).trans (storeWrites_awaitLoop _ _ _ _ h1)

theorem storeWrites_Control_receiveAndCheckPassword (dev : TwiDevice) (w w2 : World)
    (h : Control_receiveAndCheckPassword dev w = some w2) :
    storeWrites w2.trace = storeWrites w.trace := by
  unfold Control_receiveAndCheckPassword at h
  cases hr : receiveAndCompare dev w with
  | none => rw [hr] at h; simp at h
  | some p =>
    obtain ⟨m, key, w5⟩ := p
    rw [hr] at h
    simp only [Option.some.injEq] at h
    subst h
    rw [storeWrites_verdict]
    unfold receiveAndCompare at hr
    cases h1 : awaitByte HMI_ECU_READY w with
    | none => rw [h1] at hr; simp at hr
    | some w1 =>
      rw [h1] at hr
      simp only at hr
      cases h2 : receivePasswordLoop (List.range PASSWORD_SIZE)
          (List.replicate PASSWORD_SIZE 0) w1 with
      | none => rw [h2] at hr; simp at hr
      | some q =>
        obtain ⟨chk, w2⟩ := q
        rw [h2] at hr
        simp only at hr
        cases h3 : UART_receiveByte (comparePasswordLoop chk (List.range PASSWORD_SIZE) 0
            (reloadPasswordLoop dev (List.range PASSWORD_SIZE) w2)).2 with
        | none => rw [h3] at hr; simp at hr
        | some r =>
          obtain ⟨k, w6⟩ := r
          rw [h3] at hr
          simp only [Option.some.injEq, Prod.mk.injEq] at hr
          obtain ⟨_, _, rfl⟩ := hr
          rw [storeWrites_UART_receiveByte _ _ _ h3, storeWrites_comparePasswordLoop,
            storeWrites_reloadPasswordLoop, storeWrites_receivePasswordLoop _ _ _ _ _ h2]
          exact storeWrites_awaitLoop _ _ _ _ h1

theorem storeWrites_Control_checkForSavedPassword (dev : TwiDevice) (chkFlag0 : Nat)
    (w w2 : World) (h : Control_checkForSavedPassword dev chkFlag0 w = some w2) :
    storeWrites w2.trace = storeWrites w.trace := by
  unfold Control_checkForSavedPassword at h
  cases h1 : awaitByte CHECK_FOR_SAVED_PASSWORD w with
  | none => rw [h1] at h; simp at h
  | some w1 =>
    rw [h1] at h
    simp only at h
    have e0 : storeWrites (EEPROM_readByte dev eeprom_flag w1).2.2.trace = storeWrites w.trace :=
      (storeWrites_EEPROM_readByte dev eeprom_flag w1).trans (storeWrites_awaitLoop _ _ _ _ h1)
    have e1 : storeWrites (reloadPasswordLoop dev (List.range PASSWORD_SIZE)
        (UART_sendByte SAVED_PASSWORD (EEPROM_readByte dev eeprom_flag w1).2.2)).trace =
        storeWrites w.trace := by
      rw [storeWrites_reloadPasswordLoop]
      show storeWrites ((EEPROM_readByte dev eeprom_flag w1).2.2.trace ++ [Event.send _]) = _
      rw [storeWrites_append, e0]; simp [storeWrites]
    split_ifs at h <;> simp only [Option.some.injEq] at h <;> subst h <;>
      first
        | exact e1
        | exact e0
        | (show storeWrites (_ ++ [Event.send _]) = _
           rw [storeWrites_append]
           simp only [storeWrites, List.append_nil]
           first | exact e1 | exact e0)

/-- On a byte store, a trace of units without a call of `EEPROM_writeByte` leaves
every cell as it was. -/
theorem txns_cells_unwritten (dev : TwiDevice) (cellsOf : List BusOp → Nat → Nat)
    (hB : ByteStore dev cellsOf) (t : List Event) (ht : Txns t) (hw : storeWrites t = [])
    (h : List BusOp) : cellsOf (h ++ busOps t) = cellsOf h := by
  induction ht with
  | nil => simp [busOps]
  | snoc t b _ hb ih =>
    rw [storeWrites_append, List.append_eq_nil] at hw
    rw [busOps_append, ← List.append_assoc]
    have hb2 : cellsOf (h ++ busOps t ++ busOps b) = cellsOf (h ++ busOps t) := by
      cases hb with
      | recv x => simp [busOps]
      | send x => simp [busOps]
      | readPart a k hk =>
        have e : busOps (Event.eepromRead a :: ((readPhases a).take k).map Event.twi) =
            (readPhases a).take k := busOps_eepromRead [] a _
        rw [e, (hB _).2.2.1 a k hk]
      | readDone a =>
        have e : busOps (Event.eepromRead a :: (readPhases a ++ [BusOp.stop]).map Event.twi) =
            readPhases a ++ [BusOp.stop] := busOps_eepromRead [] a _
        rw [e, (hB _).2.2.2.1 a]
      | writePart a d k hk => exact absurd hw.2 (by simp [storeWrites])
      | writeCred a d had => exact absurd hw.2 (by simp [storeWrites, writeDone])
      | writeFlag => exact absurd hw.2 (by simp [storeWrites, writeDone])
    rw [hb2, ih hw.1]

theorem storeUntouched_of (dev : TwiDevice) (cellsOf : List BusOp → Nat → Nat)
    (hB : ByteStore dev cellsOf) (w w2 : World) (he : Extends w w2)
    (hw : storeWrites w2.trace = storeWrites w.trace) : storeUntouched cellsOf w w2 := by
  obtain ⟨evs, ht, hx⟩ := he
  refine ⟨hw, ?_⟩
  rw [ht, storeWrites_append] at hw
  have h0 : storeWrites evs = [] := List.append_right_eq_self.mp hw
  rw [ht, busOps_append]
  exact txns_cells_unwritten dev cellsOf hB evs hx h0 _

theorem storeWrites_checkNewPasswordLoop (is : List Nat) (m m1 : Nat) (w w1 : World)
    (h : checkNewPasswordLoop is m w = some (m1, w1)) :
    storeWrites w1.trace = storeWrites w.trace := by
  induction is generalizing w m with
  | nil =>
    simp only [checkNewPasswordLoop, Option.some.injEq, Prod.mk.injEq] at h
    obtain ⟨_, rfl⟩ := h; rfl
  | cons i t ih =>
    unfold checkNewPasswordLoop at h
    cases hr : UART_receiveByte w with
    | none => rw [hr] at h; simp at h
    | some p =>
      obtain ⟨b, w0⟩ := p
      rw [hr] at h
      exact (ih _ _ h).trans (storeWrites_UART_receiveByte w w0 b hr)

/-- A run of `Control_checkNewPassword` that does not move on to function 3 (it
found a mismatch) issued no store write. -/
theorem storeWrites_Control_checkNewPassword (dev : TwiDevice) (w w2 : World)
    (h : Control_checkNewPassword dev w = some w2) (hid : w2.g_functionID ≠ 3) :
    storeWrites w2.trace = storeWrites w.trace := by
  unfold Control_checkNewPassword at h
  cases h1 : awaitByte HMI_ECU_READY w with
  | none => rw [h1] at h; simp at h
  | some w1 =>
    rw [h1] at h
    simp only at h
    cases h2 : checkNewPasswordLoop (List.range PASSWORD_SIZE) 0 w1 with
    | none => rw [h2] at h; simp at h
    | some p =>
      obtain ⟨m, w3⟩ := p
      rw [h2] at h
      simp only at h
      split_ifs at h with hm
      · simp only [Option.some.injEq] at h
        subst h
        exact absurd rfl hid
      · simp only [Option.some.injEq] at h
        subst h
        show storeWrites (w3.trace ++ [Event.send _]) = _
        rw [storeWrites_append]
        simp only [storeWrites, List.append_nil]
        exact (storeWrites_checkNewPasswordLoop _ _ _ _ _ h2).trans
          (storeWrites_awaitLoop _ _ _ _ h1)

/-- Claim C21. On a byte store, the store is written only by a successful
confirmation: a run of `Control_checkForSavedPassword`, of
`Control_setNewPassword`, of `Control_receiveAndCheckPassword` (whatever the
verdict and the command), one call of `fireBuzzerOrOpenDoor`, and a run of
`Control_checkNewPassword` that found a mismatch (it does not move on to
function 3; in particular a confirmation whose five bytes differ from the
staged ones in at least one position) issue no call of `EEPROM_writeByte` and
leave every cell of the store, so the six persisted cells, as it was. -/
theorem C21_store_written_only_on_confirmation (dev : TwiDevice)
    (cellsOf : List BusOp → Nat → Nat) (hB : ByteStore dev cellsOf) (w w2 : World) :
    (∀ chkFlag0, Control_checkForSavedPassword dev chkFlag0 w = some w2 →
      storeUntouched cellsOf w w2) ∧
    (Control_setNewPassword w = some w2 → storeUntouched cellsOf w w2) ∧
    (Control_receiveAndCheckPassword dev w = some w2 → storeUntouched cellsOf w w2) ∧
    storeUntouched cellsOf w (fireBuzzerOrOpenDoor w) ∧
    (Control_checkNewPassword dev w = some w2 → w2.g_functionID ≠ 3 →
      storeUntouched cellsOf w w2) ∧
    (∀ junk B rest, HMI_ECU_READY ∉ junk → B.length = 5 →
      w.rx = junk ++ HMI_ECU_READY :: (B ++ rest) → mismatchCount B w.g_eeprom ≠ 0 →
      ∃ w3, Control_checkNewPassword dev w = some w3 ∧ storeUntouched cellsOf w w3) := by
  refine ⟨fun chk h => ?_, fun h => ?_, fun h => ?_, ?_, fun h hid => ?_, ?_⟩
  · exact storeUntouched_of dev cellsOf hB w w2
      (Extends_Control_checkForSavedPassword dev chk w w2 h)
      (storeWrites_Control_checkForSavedPassword dev chk w w2 h)
  · exact storeUntouched_of dev cellsOf hB w w2 (Extends_Control_setNewPassword w w2 h)
      (storeWrites_Control_setNewPassword w w2 h)
  · exact storeUntouched_of dev cellsOf hB w w2
      (Extends_Control_receiveAndCheckPassword dev w w2 h)
      (storeWrites_Control_receiveAndCheckPassword dev w w2 h)
  · exact storeUntouched_of dev cellsOf hB w _ (Extends_fireBuzzerOrOpenDoor w)
      (storeWrites_fireBuzzerOrOpenDoor w)
  · exact storeUntouched_of dev cellsOf hB w w2 (Extends_Control_checkNewPassword dev w w2 h)
      (storeWrites_Control_checkNewPassword dev w w2 h hid)
  · intro junk B rest hj hlenB hrx hm
    obtain ⟨w3, h3, _, _, _, hmis⟩ := Control_checkNewPassword_spec dev w junk B rest hj hlenB hrx
    refine ⟨w3, h3, storeUntouched_of dev cellsOf hB w w3
      (Extends_Control_checkNewPassword dev w w3 h3)
      (storeWrites_Control_checkNewPassword dev w w3 h3 ?_)⟩
    rw [(hmis hm).1]; decide

/-- Witness of C21: on the ideal store, a round with a wrong entry from power-up,
and a confirmation `1 2 3 4 6` of the staged password `1 2 3 4 5`. -/
theorem C21_store_written_only_on_confirmation_witness :
    ByteStore (idealStore noCredential) (cells noCredential) ∧
    (∃ w2, Control_receiveAndCheckPassword (idealStore noCredential) (awaitCommand wrongEntry) =
        some w2 ∧
      storeUntouched (cells noCredential) (awaitCommand wrongEntry) w2) ∧
    HMI_ECU_READY ∉ ([] : List Nat) ∧ [1, 2, 3, 4, 6].length = 5 ∧
    ({ confirmingPassword with rx := [0x10, 1, 2, 3, 4, 6] } : World).rx =
      [] ++ HMI_ECU_READY :: ([1, 2, 3, 4, 6] ++ []) ∧
    mismatchCount [1, 2, 3, 4, 6]
      ({ confirmingPassword with rx := [0x10, 1, 2, 3, 4, 6] } : World).g_eeprom ≠ 0 ∧
    ∃ w3, Control_checkNewPassword (idealStore noCredential)
        { confirmingPassword with rx := [0x10, 1, 2, 3, 4, 6] } = some w3 ∧
      storeUntouched (cells noCredential)
        { confirmingPassword with rx := [0x10, 1, 2, 3, 4, 6] } w3 := by
  obtain ⟨w2, h2, _⟩ := round_summary (idealStore noCredential) (awaitCommand wrongEntry)
    [] [1, 2, 3, 4, 6] [] OPEN_DOOR (by decide) rfl rfl rfl
  exact ⟨ByteStore_idealStore noCredential,
    ⟨w2, h2, (C21_store_written_only_on_confirmation (idealStore noCredential)
      (cells noCredential) (ByteStore_idealStore noCredential) (awaitCommand wrongEntry)
      w2).2.2.1 h2⟩,
    by decide, rfl, rfl, by decide,
    (C21_store_written_only_on_confirmation (idealStore noCredential)
      (cells noCredential) (ByteStore_idealStore noCredential)
      { confirmingPassword with rx := [0x10, 1, 2, 3, 4, 6] }
      confirmingPassword).2.2.2.2.2 [] [1, 2, 3, 4, 6] [] (by decide) rfl rfl (by decide)⟩

/-! ## The flag and the completed credential write -/

theorem NoFlagWrite_nil : NoFlagWrite [] := fun t => by simp

theorem KeepsFlag_refl (w : World) : KeepsFlag w w := ⟨[], by simp, NoFlagWrite_nil⟩

theorem busIdle_writeDone (t : List Event) (a d : Nat) : busIdle (busOps (t ++ writeDone a d)) := by
  have e : busOps (t ++ writeDone a d) = busOps t ++ (writePhases a d ++ [BusOp.stop]) :=
    busOps_eepromWrite t a d _
  rw [e]; exact busIdle_append_txn _ _

end DoorLocker
